import Mathlib

/-!
# Capability negotiation of the VPL dispatcher (`mfx_dispatcher_vpl_config.cpp`)

A shallow embedding of `ConfigCtxVPL`: the flattening of an implementation
description (`GetFlatDescriptionsDec/Enc/VPP`), the property checks
(`CheckPropsGeneral`, `CheckPropsDec/Enc/VPP`, `CheckPropString`) and the driver
`ValidateConfig`, followed by the properties proved about them.

Conventions of the embedding:
* machine integers are `Nat`; a read of a union member of width `w` is `% 2^w`;
* a counted C array (`NumCodecs` + `Codecs`) is a `List`, the count is its length;
* a pointer is modelled by what it refers to (`mfxHDL`);
* an output parameter is returned next to the status.
-/

namespace VPL

/-! ## Status codes and basic types -/

/-- The `mfxStatus` values used by the file (`MFX_ERR_NONE` is 0, the others are non-zero). -/
inductive mfxStatus
  | MFX_ERR_NONE
  | MFX_ERR_NULL_PTR
  | MFX_ERR_UNSUPPORTED
  | MFX_ERR_NOT_FOUND
  | MFX_ERR_INVALID_VIDEO_PARAM
  deriving DecidableEq, Repr

open mfxStatus

/-- The `LibType` tag of a candidate library. -/
inductive LibType
  | LibTypeUnknown
  | LibTypeVPL
  | LibTypeMSDK
  deriving DecidableEq, Repr

open LibType

/-- The tag of an `mfxVariant`. The file names `UNSET`, `U16`, `U32` and `PTR`;
`other n` stands for any further enumerator of the header. -/
inductive mfxVariantType
  | MFX_VARIANT_TYPE_UNSET
  | MFX_VARIANT_TYPE_U16
  | MFX_VARIANT_TYPE_U32
  | MFX_VARIANT_TYPE_PTR
  | other (n : Nat)
  deriving DecidableEq, Repr

open mfxVariantType

/-- A stepped interval `mfxRange32U` (three `mfxU32`). -/
structure mfxRange32U where
  Min : Nat
  Max : Nat
  Step : Nat
  deriving DecidableEq, Repr

/-- The value of a `Data.Ptr`: null, or a reference to a range, to a string, or an
opaque handle. -/
inductive mfxHDL
  | null
  | range (r : mfxRange32U)
  | str (s : String)
  | handle (h : Nat)
  deriving DecidableEq, Repr

/-- The `Data` union of an `mfxVariant`: either the 64 bits shared by the integer
members, or the pointer member. -/
inductive mfxVariantData
  | bits (raw : Nat)
  | ptr (p : mfxHDL)
  deriving DecidableEq, Repr

/-- The read `Data.U16`: the low 16 bits of the union. The numeric value of a pointer is
not part of the model; a variant read as `U16` carries `bits` whenever its `Type` is an
integer type, as the setter guarantees. -/
def mfxVariantData.U16 : mfxVariantData → Nat
  | .bits raw => raw % 2 ^ 16
  | .ptr _ => 0

/-- The read `Data.U32`: the low 32 bits of the union (see `mfxVariantData.U16`). -/
def mfxVariantData.U32 : mfxVariantData → Nat
  | .bits raw => raw % 2 ^ 32
  | .ptr _ => 0

/-- The read `Data.Ptr`; the zero-initialised union reads as the null pointer, and a
variant read as a pointer carries `ptr` whenever its `Type` is `PTR`. -/
def mfxVariantData.Ptr : mfxVariantData → mfxHDL
  | .ptr p => p
  | .bits _ => mfxHDL.null

/-- The read `*((mfxRange32U *)p)` after `mfxRange32U r = {}` guarded by `if (p)`:
a null pointer leaves the zero range. -/
def mfxHDL.derefRange : mfxHDL → mfxRange32U
  | .range r => r
  | _ => { Min := 0, Max := 0, Step := 0 }

/-- The read `*(std::string *)p`; the source reads it only through the non-null pointers
to the strings owned by a context. -/
def mfxHDL.derefString : mfxHDL → String
  | .str s => s
  | _ => ""

/-- An `mfxVariant`; its tag `Type` is the field `Type_` (`Type` is reserved), and the
`Version` field, written but never read, is left out. -/
structure mfxVariant where
  Type_ : mfxVariantType
  Data : mfxVariantData
  deriving DecidableEq, Repr

/-- The value-initialised variant with `Type = MFX_VARIANT_TYPE_UNSET`. -/
def mfxVariant.unset : mfxVariant :=
  { Type_ := MFX_VARIANT_TYPE_UNSET, Data := .bits 0 }

/-- Modelled from the spec: the `mfxVersion` union, whose declaration is in a header
outside the sources; `Version` is one 32-bit field, `Major` its high and `Minor` its
low 16 bits. -/
structure mfxVersion where
  Version : Nat
  deriving DecidableEq, Repr

/-- The read `v.Major`. -/
def mfxVersion.Major (v : mfxVersion) : Nat := v.Version / 2 ^ 16 % 2 ^ 16

/-- The read `v.Minor`. -/
def mfxVersion.Minor (v : mfxVersion) : Nat := v.Version % 2 ^ 16

/-- The write `v.Major = x` of a 16-bit value. -/
def mfxVersion.setMajor (v : mfxVersion) (x : Nat) : mfxVersion :=
  { Version := (x % 2 ^ 16) * 2 ^ 16 + v.Version % 2 ^ 16 }

/-- The write `v.Minor = x` of a 16-bit value. -/
def mfxVersion.setMinor (v : mfxVersion) (x : Nat) : mfxVersion :=
  { Version := (v.Version / 2 ^ 16 % 2 ^ 16) * 2 ^ 16 + x % 2 ^ 16 }

/-! ## Property indices (`enum PropIdx`) -/

abbrev ePropMain_Impl : Nat := 0
abbrev ePropMain_AccelerationMode : Nat := 1
abbrev ePropMain_ApiVersion : Nat := 2
abbrev ePropMain_ApiVersion_Major : Nat := 3
abbrev ePropMain_ApiVersion_Minor : Nat := 4
abbrev ePropMain_ImplName : Nat := 5
abbrev ePropMain_License : Nat := 6
abbrev ePropMain_Keywords : Nat := 7
abbrev ePropMain_VendorID : Nat := 8
abbrev ePropMain_VendorImplID : Nat := 9
abbrev ePropDevice_DeviceID : Nat := 10
abbrev ePropDevice_DeviceIDStr : Nat := 11
abbrev ePropDec_CodecID : Nat := 12
abbrev ePropDec_MaxcodecLevel : Nat := 13
abbrev ePropDec_Profile : Nat := 14
abbrev ePropDec_MemHandleType : Nat := 15
abbrev ePropDec_Width : Nat := 16
abbrev ePropDec_Height : Nat := 17
abbrev ePropDec_ColorFormats : Nat := 18
abbrev ePropEnc_CodecID : Nat := 19
abbrev ePropEnc_MaxcodecLevel : Nat := 20
abbrev ePropEnc_BiDirectionalPrediction : Nat := 21
abbrev ePropEnc_Profile : Nat := 22
abbrev ePropEnc_MemHandleType : Nat := 23
abbrev ePropEnc_Width : Nat := 24
abbrev ePropEnc_Height : Nat := 25
abbrev ePropEnc_ColorFormats : Nat := 26
abbrev ePropVPP_FilterFourCC : Nat := 27
abbrev ePropVPP_MaxDelayInFrames : Nat := 28
abbrev ePropVPP_MemHandleType : Nat := 29
abbrev ePropVPP_Width : Nat := 30
abbrev ePropVPP_Height : Nat := 31
abbrev ePropVPP_InFormat : Nat := 32
abbrev ePropVPP_OutFormat : Nat := 33
abbrev ePropSpecial_HandleType : Nat := 34
abbrev ePropSpecial_Handle : Nat := 35
abbrev ePropSpecial_DXGIAdapterIndex : Nat := 36
abbrev ePropFunc_FunctionName : Nat := 37
abbrev eProp_TotalProps : Nat := 38

/-! ## The implementation description -/

/-- A memory descriptor of a decoder profile (`DecMemDesc`). -/
structure DecMemDesc where
  MemHandleType : Nat
  Width : mfxRange32U
  Height : mfxRange32U
  ColorFormats : List Nat
  deriving DecidableEq, Repr

/-- A decoder profile (`DecProfile`). -/
structure DecProfile where
  Profile : Nat
  MemDesc : List DecMemDesc
  deriving DecidableEq, Repr

/-- A decoder codec (`DecCodec`). -/
structure DecCodec where
  CodecID : Nat
  MaxcodecLevel : Nat
  Profiles : List DecProfile
  deriving DecidableEq, Repr

/-- The decoder section (`mfxDecoderDescription`). -/
structure mfxDecoderDescription where
  Codecs : List DecCodec
  deriving DecidableEq, Repr

/-- A memory descriptor of an encoder profile (`EncMemDesc`). -/
structure EncMemDesc where
  MemHandleType : Nat
  Width : mfxRange32U
  Height : mfxRange32U
  ColorFormats : List Nat
  deriving DecidableEq, Repr

/-- An encoder profile (`EncProfile`). -/
structure EncProfile where
  Profile : Nat
  MemDesc : List EncMemDesc
  deriving DecidableEq, Repr

/-- An encoder codec (`EncCodec`). -/
structure EncCodec where
  CodecID : Nat
  MaxcodecLevel : Nat
  BiDirectionalPrediction : Nat
  Profiles : List EncProfile
  deriving DecidableEq, Repr

/-- The encoder section (`mfxEncoderDescription`). -/
structure mfxEncoderDescription where
  Codecs : List EncCodec
  deriving DecidableEq, Repr

/-- An input format of a filter memory descriptor with its output formats (`VPPFormat`). -/
structure VPPFormat where
  InFormat : Nat
  OutFormats : List Nat
  deriving DecidableEq, Repr

/-- A memory descriptor of a filter (`VPPMemDesc`). -/
structure VPPMemDesc where
  MemHandleType : Nat
  Width : mfxRange32U
  Height : mfxRange32U
  Formats : List VPPFormat
  deriving DecidableEq, Repr

/-- A filter (`VPPFilter`). -/
structure VPPFilter where
  FilterFourCC : Nat
  MaxDelayInFrames : Nat
  MemDesc : List VPPMemDesc
  deriving DecidableEq, Repr

/-- The filter section (`mfxVPPDescription`). -/
structure mfxVPPDescription where
  Filters : List VPPFilter
  deriving DecidableEq, Repr

/-- The device section (`mfxDeviceDescription`); only `DeviceID` is read. -/
structure mfxDeviceDescription where
  DeviceID : String
  deriving DecidableEq, Repr

/-- The list of supported acceleration modes (`mfxAccelerationModeDescription`). -/
structure mfxAccelerationModeDescription where
  Mode : List Nat
  deriving DecidableEq, Repr

/-- The fields of `mfxImplDescription` that the file reads. -/
structure mfxImplDescription where
  Impl : Nat
  AccelerationMode : Nat
  ApiVersion : mfxVersion
  ImplName : String
  License : String
  Keywords : String
  VendorID : Nat
  VendorImplID : Nat
  Dev : mfxDeviceDescription
  Dec : mfxDecoderDescription
  Enc : mfxEncoderDescription
  VPP : mfxVPPDescription
  AccelerationModeDescription : mfxAccelerationModeDescription
  deriving DecidableEq, Repr

/-- The list of implemented functions (`mfxImplementedFunctions`). -/
structure mfxImplementedFunctions where
  FunctionsName : List String
  deriving DecidableEq, Repr

/-- One flat decoder description (`DecConfig`). -/
structure DecConfig where
  CodecID : Nat
  MaxcodecLevel : Nat
  Profile : Nat
  MemHandleType : Nat
  Width : mfxRange32U
  Height : mfxRange32U
  ColorFormat : Nat
  deriving DecidableEq, Repr

/-- One flat encoder description (`EncConfig`). -/
structure EncConfig where
  CodecID : Nat
  MaxcodecLevel : Nat
  BiDirectionalPrediction : Nat
  Profile : Nat
  MemHandleType : Nat
  Width : mfxRange32U
  Height : mfxRange32U
  ColorFormat : Nat
  deriving DecidableEq, Repr

/-- One flat filter description (`VPPConfig`). -/
structure VPPConfig where
  FilterFourCC : Nat
  MaxDelayInFrames : Nat
  MemHandleType : Nat
  Width : mfxRange32U
  Height : mfxRange32U
  InFormat : Nat
  OutFormat : Nat
  deriving DecidableEq, Repr

/-- The side channel filled by `ValidateConfig` (`SpecialConfig`). -/
structure SpecialConfig where
  deviceHandleType : Nat
  bIsSet_deviceHandleType : Bool
  deviceHandle : mfxHDL
  bIsSet_deviceHandle : Bool
  dxgiAdapterIdx : Nat
  bIsSet_dxgiAdapterIdx : Bool
  accelerationMode : Nat
  bIsSet_accelerationMode : Bool
  ApiVersion : mfxVersion
  bIsSet_ApiVersion : Bool
  deriving DecidableEq, Repr

/-- The members of a config context that the file reads and writes. `m_propVar`
is indexed by `PropIdx`; only the indices below `eProp_TotalProps` are slots. -/
structure ConfigCtxVPL where
  m_propVar : Nat → mfxVariant
  m_propRange32U : Nat → mfxRange32U
  m_implName : String
  m_implLicense : String
  m_implKeywords : String
  m_deviceIdStr : String
  m_implFunctionName : String

/-- The constructor `ConfigCtxVPL::ConfigCtxVPL()`: every slot is `UNSET` with zero data,
the owned ranges are zero and the owned strings empty. -/
def ConfigCtxVPL.new : ConfigCtxVPL :=
  { m_propVar := fun _ => mfxVariant.unset
    m_propRange32U := fun _ => { Min := 0, Max := 0, Step := 0 }
    m_implName := ""
    m_implLicense := ""
    m_implKeywords := ""
    m_deviceIdStr := ""
    m_implFunctionName := "" }

/-! ## Flattening (`GetFlatDescriptionsDec/Enc/VPP`) -/

section Flatten

variable {A B C D R : Type}

/-- The `while` loop shared by the three `GetFlatDescriptions*` functions, from the
indices `(i0, i1, i2, i3)` with `out` collected so far:

    while (i0 < NumRoots) {
        a = roots[i0];         CHECK_IDX(i0, i1, Num1(a));
        b = k1(a)[i1];         CHECK_IDX(i1, i2, Num2(b));
        c = k2(b)[i2];         CHECK_IDX(i2, i3, Num3(c));
        leaf = k3(c)[i3];      i3++;
        out.push_back(mk a b c leaf);
    }

where `CHECK_IDX(idxA, idxB, numB)` is `if (idxB == numB) { idxA++; idxB = 0; continue; }`.
An index strictly past the end of its array would be an out-of-bounds read in the
source; the model stops there with what was collected (`flatLoop_eq_rest` shows that a
run from zero indices never gets there). -/
def flatLoop (roots : List A) (k1 : A → List B) (k2 : B → List C) (k3 : C → List D)
    (mk : A → B → C → D → R) (i0 i1 i2 i3 : Nat) (out : List R) : List R :=
  if h0 : i0 < roots.length then
    if i1 = (k1 roots[i0]).length then flatLoop roots k1 k2 k3 mk (i0 + 1) 0 i2 i3 out
    else if h1 : i1 < (k1 roots[i0]).length then
      if i2 = (k2 (k1 roots[i0])[i1]).length then flatLoop roots k1 k2 k3 mk i0 (i1 + 1) 0 i3 out
      else if h2 : i2 < (k2 (k1 roots[i0])[i1]).length then
        if i3 = (k3 (k2 (k1 roots[i0])[i1])[i2]).length then
          flatLoop roots k1 k2 k3 mk i0 i1 (i2 + 1) 0 out
        else if h3 : i3 < (k3 (k2 (k1 roots[i0])[i1])[i2]).length then
          flatLoop roots k1 k2 k3 mk i0 i1 i2 (i3 + 1)
            (out ++ [mk roots[i0] (k1 roots[i0])[i1] (k2 (k1 roots[i0])[i1])[i2]
              (k3 (k2 (k1 roots[i0])[i1])[i2])[i3]])
        else out
      else out
    else out
  else out
termination_by (roots.length - i0,
  (match roots[i0]? with | some a => (k1 a).length + 1 - i1 | none => 0),
  (match roots[i0]? with
    | some a => (match (k1 a)[i1]? with | some b => (k2 b).length + 1 - i2 | none => 0)
    | none => 0),
  (match roots[i0]? with
    | some a => (match (k1 a)[i1]? with
       | some b => (match (k2 b)[i2]? with | some c => (k3 c).length + 1 - i3 | none => 0)
       | none => 0)
    | none => 0))
decreasing_by
  · simp_wf
    apply Prod.Lex.left; omega
  · simp_wf
    simp only [List.getElem?_eq_getElem h0]
    apply Prod.Lex.right; apply Prod.Lex.left
    exact Nat.sub_lt_sub_right (Nat.le_of_lt h1) (Nat.lt_succ_self _)
  · simp_wf
    simp only [List.getElem?_eq_getElem h0, List.getElem?_eq_getElem h1]
    apply Prod.Lex.right; apply Prod.Lex.right; apply Prod.Lex.left
    exact Nat.sub_lt_sub_right (Nat.le_of_lt h2) (Nat.lt_succ_self _)
  · simp_wf
    simp only [List.getElem?_eq_getElem h0, List.getElem?_eq_getElem h1,
      List.getElem?_eq_getElem h2]
    apply Prod.Lex.right; apply Prod.Lex.right; apply Prod.Lex.right
    exact Nat.sub_lt_sub_right (Nat.le_of_lt h3) (Nat.lt_succ_self _)

/-- Four nested loops over the tree in index order, one record per leaf. -/
def flatNested (roots : List A) (k1 : A → List B) (k2 : B → List C) (k3 : C → List D)
    (mk : A → B → C → D → R) : List R :=
  roots.flatMap fun a => (k1 a).flatMap fun b => (k2 b).flatMap fun c => (k3 c).map (mk a b c)

/-- The part of a level still to be visited from index `i`: the rest `head` of the
current child, then the later children in full. -/
def restAt {α β : Type} (l : List α) (i : Nat) (head g : α → List β) : List β :=
  match l[i]? with
  | none => []
  | some x => head x ++ (l.drop (i + 1)).flatMap g

/-- What the loop still has to emit from the indices `(i0, i1, i2, i3)`. -/
def flatRest (roots : List A) (k1 : A → List B) (k2 : B → List C) (k3 : C → List D)
    (mk : A → B → C → D → R) (i0 i1 i2 i3 : Nat) : List R :=
  restAt roots i0
    (fun a => restAt (k1 a) i1
      (fun b => restAt (k2 b) i2
        (fun c => ((k3 c).drop i3).map (mk a b c))
        (fun c => (k3 c).map (mk a b c)))
      (fun b => (k2 b).flatMap fun c => (k3 c).map (mk a b c)))
    (fun a => (k1 a).flatMap fun b => (k2 b).flatMap fun c => (k3 c).map (mk a b c))

/-- The indices a run from `(0, 0, 0, 0)` passes through: no index is past the end of
its level, and the indices below a level whose index is at its end are zero. -/
def OdoInv (roots : List A) (k1 : A → List B) (k2 : B → List C) (k3 : C → List D)
    (i0 i1 i2 i3 : Nat) : Prop :=
  ∀ (h0 : i0 < roots.length), i1 ≤ (k1 roots[i0]).length ∧
    (i1 = (k1 roots[i0]).length → i2 = 0 ∧ i3 = 0) ∧
    ∀ (h1 : i1 < (k1 roots[i0]).length), i2 ≤ (k2 (k1 roots[i0])[i1]).length ∧
      (i2 = (k2 (k1 roots[i0])[i1]).length → i3 = 0) ∧
      ∀ (h2 : i2 < (k2 (k1 roots[i0])[i1]).length),
        i3 ≤ (k3 (k2 (k1 roots[i0])[i1])[i2]).length

end Flatten

/-- The record `dc` that `GetFlatDescriptionsDec` pushes for one index combination. -/
def mkDecConfig (decCodec : DecCodec) (decProfile : DecProfile) (decMemDesc : DecMemDesc)
    (colorFormat : Nat) : DecConfig :=
  { CodecID := decCodec.CodecID
    MaxcodecLevel := decCodec.MaxcodecLevel
    Profile := decProfile.Profile
    MemHandleType := decMemDesc.MemHandleType
    Width := decMemDesc.Width
    Height := decMemDesc.Height
    ColorFormat := colorFormat }

/-- The record `ec` that `GetFlatDescriptionsEnc` pushes for one index combination. -/
def mkEncConfig (encCodec : EncCodec) (encProfile : EncProfile) (encMemDesc : EncMemDesc)
    (colorFormat : Nat) : EncConfig :=
  { CodecID := encCodec.CodecID
    MaxcodecLevel := encCodec.MaxcodecLevel
    BiDirectionalPrediction := encCodec.BiDirectionalPrediction
    Profile := encProfile.Profile
    MemHandleType := encMemDesc.MemHandleType
    Width := encMemDesc.Width
    Height := encMemDesc.Height
    ColorFormat := colorFormat }

/-- The record `vc` that `GetFlatDescriptionsVPP` pushes for one index combination. -/
def mkVPPConfig (vppFilter : VPPFilter) (vppMemDesc : VPPMemDesc) (vppFormat : VPPFormat)
    (outFormat : Nat) : VPPConfig :=
  { FilterFourCC := vppFilter.FilterFourCC
    MaxDelayInFrames := vppFilter.MaxDelayInFrames
    MemHandleType := vppMemDesc.MemHandleType
    Width := vppMemDesc.Width
    Height := vppMemDesc.Height
    InFormat := vppFormat.InFormat
    OutFormat := outFormat }

/-- The function `ConfigCtxVPL::GetFlatDescriptionsDec`: the loop over
codec, profile, memory descriptor and colour format appends to `decConfigList`; the
status is `MFX_ERR_INVALID_VIDEO_PARAM` when the list is empty afterwards. -/
def GetFlatDescriptionsDec (libImplDesc : mfxImplDescription) (decConfigList : List DecConfig) :
    mfxStatus × List DecConfig :=
  let decConfigList := flatLoop libImplDesc.Dec.Codecs (fun decCodec => decCodec.Profiles)
    (fun decProfile => decProfile.MemDesc) (fun decMemDesc => decMemDesc.ColorFormats)
    mkDecConfig 0 0 0 0 decConfigList
  if decConfigList.isEmpty then (MFX_ERR_INVALID_VIDEO_PARAM, decConfigList)
  else (MFX_ERR_NONE, decConfigList)

/-- The function `ConfigCtxVPL::GetFlatDescriptionsEnc`. -/
def GetFlatDescriptionsEnc (libImplDesc : mfxImplDescription) (encConfigList : List EncConfig) :
    mfxStatus × List EncConfig :=
  let encConfigList := flatLoop libImplDesc.Enc.Codecs (fun encCodec => encCodec.Profiles)
    (fun encProfile => encProfile.MemDesc) (fun encMemDesc => encMemDesc.ColorFormats)
    mkEncConfig 0 0 0 0 encConfigList
  if encConfigList.isEmpty then (MFX_ERR_INVALID_VIDEO_PARAM, encConfigList)
  else (MFX_ERR_NONE, encConfigList)

/-- The function `ConfigCtxVPL::GetFlatDescriptionsVPP`: the levels are filter, memory
descriptor, input format and output format. -/
def GetFlatDescriptionsVPP (libImplDesc : mfxImplDescription) (vppConfigList : List VPPConfig) :
    mfxStatus × List VPPConfig :=
  let vppConfigList := flatLoop libImplDesc.VPP.Filters (fun vppFilter => vppFilter.MemDesc)
    (fun vppMemDesc => vppMemDesc.Formats) (fun vppFormat => vppFormat.OutFormats)
    mkVPPConfig 0 0 0 0 vppConfigList
  if vppConfigList.isEmpty then (MFX_ERR_INVALID_VIDEO_PARAM, vppConfigList)
  else (MFX_ERR_NONE, vppConfigList)

/-! ## Property checks -/

/-- The macro `CHECK_PROP(idx, type, val)`: clears `isCompatible` when the constraint at
`idx` is set and its `Data.type` differs from `val`. -/
def CHECK_PROP (cfgPropsAll : Nat → mfxVariant) (idx : Nat) (type : mfxVariantData → Nat)
    (val : Nat) (isCompatible : Bool) : Bool :=
  if (cfgPropsAll idx).Type_ ≠ MFX_VARIANT_TYPE_UNSET ∧ type (cfgPropsAll idx).Data ≠ val then
    false
  else isCompatible

/-- The block "special handling for properties passed via pointer" for one of the
`Width`/`Height` constraints against the range `cap` of the record: the requested range
is read through `Data.Ptr` (zero when null) and `isCompatible` is cleared when
`Max > cap.Max || Min < cap.Min || Step < cap.Step`. -/
def CHECK_RANGE (cfgPropsAll : Nat → mfxVariant) (idx : Nat) (cap : mfxRange32U)
    (isCompatible : Bool) : Bool :=
  if (cfgPropsAll idx).Type_ ≠ MFX_VARIANT_TYPE_UNSET then
    let width := (cfgPropsAll idx).Data.Ptr.derefRange
    if width.Max > cap.Max ∨ width.Min < cap.Min ∨ width.Step < cap.Step then false
    else isCompatible
  else isCompatible

/-- The body of the loop of `CheckPropsDec` for one record: the final `isCompatible`. -/
def decCompatible (cfgPropsAll : Nat → mfxVariant) (dc : DecConfig) : Bool :=
  let isCompatible := true
  let isCompatible := CHECK_PROP cfgPropsAll ePropDec_CodecID mfxVariantData.U32 dc.CodecID isCompatible
  let isCompatible :=
    CHECK_PROP cfgPropsAll ePropDec_MaxcodecLevel mfxVariantData.U16 dc.MaxcodecLevel isCompatible
  let isCompatible := CHECK_PROP cfgPropsAll ePropDec_Profile mfxVariantData.U32 dc.Profile isCompatible
  let isCompatible :=
    CHECK_PROP cfgPropsAll ePropDec_MemHandleType mfxVariantData.U32 dc.MemHandleType isCompatible
  let isCompatible :=
    CHECK_PROP cfgPropsAll ePropDec_ColorFormats mfxVariantData.U32 dc.ColorFormat isCompatible
  let isCompatible := CHECK_RANGE cfgPropsAll ePropDec_Width dc.Width isCompatible
  let isCompatible := CHECK_RANGE cfgPropsAll ePropDec_Height dc.Height isCompatible
  isCompatible

/-- The function `ConfigCtxVPL::CheckPropsDec`: the first compatible record returns
`MFX_ERR_NONE`; the end of the list returns `MFX_ERR_UNSUPPORTED`. -/
def CheckPropsDec (cfgPropsAll : Nat → mfxVariant) : List DecConfig → mfxStatus
  | [] => MFX_ERR_UNSUPPORTED
  | dc :: rest =>
    if decCompatible cfgPropsAll dc = true then MFX_ERR_NONE else CheckPropsDec cfgPropsAll rest

/-- The body of the loop of `CheckPropsEnc` for one record. -/
def encCompatible (cfgPropsAll : Nat → mfxVariant) (ec : EncConfig) : Bool :=
  let isCompatible := true
  let isCompatible := CHECK_PROP cfgPropsAll ePropEnc_CodecID mfxVariantData.U32 ec.CodecID isCompatible
  let isCompatible :=
    CHECK_PROP cfgPropsAll ePropEnc_MaxcodecLevel mfxVariantData.U16 ec.MaxcodecLevel isCompatible
  let isCompatible := CHECK_PROP cfgPropsAll ePropEnc_BiDirectionalPrediction mfxVariantData.U16
    ec.BiDirectionalPrediction isCompatible
  let isCompatible := CHECK_PROP cfgPropsAll ePropEnc_Profile mfxVariantData.U32 ec.Profile isCompatible
  let isCompatible :=
    CHECK_PROP cfgPropsAll ePropEnc_MemHandleType mfxVariantData.U32 ec.MemHandleType isCompatible
  let isCompatible :=
    CHECK_PROP cfgPropsAll ePropEnc_ColorFormats mfxVariantData.U32 ec.ColorFormat isCompatible
  let isCompatible := CHECK_RANGE cfgPropsAll ePropEnc_Width ec.Width isCompatible
  let isCompatible := CHECK_RANGE cfgPropsAll ePropEnc_Height ec.Height isCompatible
  isCompatible

/-- The function `ConfigCtxVPL::CheckPropsEnc`. -/
def CheckPropsEnc (cfgPropsAll : Nat → mfxVariant) : List EncConfig → mfxStatus
  | [] => MFX_ERR_UNSUPPORTED
  | ec :: rest =>
    if encCompatible cfgPropsAll ec = true then MFX_ERR_NONE else CheckPropsEnc cfgPropsAll rest

/-- The body of the loop of `CheckPropsVPP` for one record. -/
def vppCompatible (cfgPropsAll : Nat → mfxVariant) (vc : VPPConfig) : Bool :=
  let isCompatible := true
  let isCompatible :=
    CHECK_PROP cfgPropsAll ePropVPP_FilterFourCC mfxVariantData.U32 vc.FilterFourCC isCompatible
  let isCompatible :=
    CHECK_PROP cfgPropsAll ePropVPP_MaxDelayInFrames mfxVariantData.U16 vc.MaxDelayInFrames isCompatible
  let isCompatible :=
    CHECK_PROP cfgPropsAll ePropVPP_MemHandleType mfxVariantData.U32 vc.MemHandleType isCompatible
  let isCompatible := CHECK_PROP cfgPropsAll ePropVPP_InFormat mfxVariantData.U32 vc.InFormat isCompatible
  let isCompatible := CHECK_PROP cfgPropsAll ePropVPP_OutFormat mfxVariantData.U32 vc.OutFormat isCompatible
  let isCompatible := CHECK_RANGE cfgPropsAll ePropVPP_Width vc.Width isCompatible
  let isCompatible := CHECK_RANGE cfgPropsAll ePropVPP_Height vc.Height isCompatible
  isCompatible

/-- The function `ConfigCtxVPL::CheckPropsVPP`. -/
def CheckPropsVPP (cfgPropsAll : Nat → mfxVariant) : List VPPConfig → mfxStatus
  | [] => MFX_ERR_UNSUPPORTED
  | vc :: rest =>
    if vppCompatible cfgPropsAll vc = true then MFX_ERR_NONE else CheckPropsVPP cfgPropsAll rest

/-! ## Token strings (`CheckPropString`) -/

/-- The characters `std::getline(stream, s, delim)` stores in `s`, and the stream left
behind: characters are extracted up to the end of the stream or up to the first
`delim`, which is extracted but not stored. -/
def getlineSplit (delim : Char) : List Char → List Char × List Char
  | [] => ([], [])
  | c :: cs =>
    if c = delim then ([], cs)
    else ((c :: (getlineSplit delim cs).1), (getlineSplit delim cs).2)

/-- The call `std::getline(stream, s, delim)` used as a loop condition: it fails
(`none`) exactly when no character could be extracted, that is at the end of the
stream; otherwise it yields `s` and the remaining stream. -/
def getline (delim : Char) (stream : List Char) : Option (List Char × List Char) :=
  if stream = [] then none else some (getlineSplit delim stream)

/-- The loop `while (getline(implSS, s, ',')) tokenString.push_back(s);`. -/
def readTokens (delim : Char) (stream : List Char) (tokenString : List (List Char)) :
    List (List Char) :=
  match h : getline delim stream with
  | none => tokenString
  | some (s, rest) => readTokens delim rest (tokenString ++ [s])
termination_by stream.length
decreasing_by
  have key : ∀ l : List Char, (getlineSplit delim l).2.length ≤ l.length := by
    intro l
    induction l with
    | nil => simp [getlineSplit]
    | cons c cs ih =>
      unfold getlineSplit
      split
      · simp
      · simp only [List.length_cons]; omega
  cases stream with
  | nil => simp [getline] at h
  | cons c cs =>
    have hle := key cs
    simp only [getline, reduceCtorEq, if_false, Option.some.injEq] at h
    have hrest : rest = (getlineSplit delim (c :: cs)).2 := by rw [h]
    rw [hrest]
    unfold getlineSplit
    split
    · simp
    · simp only [List.length_cons]; omega

/-- The loop `while (getline(filtSS, s, ',')) if (std::find(...) == end) return
MFX_ERR_UNSUPPORTED;` followed by `return MFX_ERR_NONE`. -/
def checkTokens (delim : Char) (tokenString : List (List Char)) (stream : List Char) :
    mfxStatus :=
  match h : getline delim stream with
  | none => MFX_ERR_NONE
  | some (s, rest) =>
    if s ∈ tokenString then checkTokens delim tokenString rest else MFX_ERR_UNSUPPORTED
termination_by stream.length
decreasing_by
  have key : ∀ l : List Char, (getlineSplit delim l).2.length ≤ l.length := by
    intro l
    induction l with
    | nil => simp [getlineSplit]
    | cons c cs ih =>
      unfold getlineSplit
      split
      · simp
      · simp only [List.length_cons]; omega
  cases stream with
  | nil => simp [getline] at h
  | cons c cs =>
    have hle := key cs
    simp only [getline, reduceCtorEq, if_false, Option.some.injEq] at h
    have hrest : rest = (getlineSplit delim (c :: cs)).2 := by rw [h]
    rw [hrest]
    unfold getlineSplit
    split
    · simp
    · simp only [List.length_cons]; omega

/-- The function `ConfigCtxVPL::CheckPropString`: `implString` is read into tokens, then
every token read from `filtString` must be found among them. -/
def CheckPropString (implString : String) (filtString : String) : mfxStatus :=
  let tokenString := readTokens ',' implString.toList []
  checkTokens ',' tokenString filtString.toList

/-- The comma-separated tokens of a string: the pieces between the commas, where an
empty piece after the last comma (or an empty string) is not a token. -/
def commaTokens (s : String) : List (List Char) :=
  let pieces := s.toList.splitOn ','
  if pieces.getLast? = some [] then pieces.dropLast else pieces

/-! ## `std::stoi` with base 16 -/

/-- The C-locale `isspace`: space, and the control characters `\t \n \v \f \r`. -/
def isspace (c : Char) : Bool :=
  c.toNat = 32 || (9 ≤ c.toNat && c.toNat ≤ 13)

/-- The value of a hexadecimal digit, `none` for any other character. -/
def hexDigitValue (c : Char) : Option Nat :=
  if 48 ≤ c.toNat ∧ c.toNat ≤ 57 then some (c.toNat - 48)
  else if 97 ≤ c.toNat ∧ c.toNat ≤ 102 then some (c.toNat - 87)
  else if 65 ≤ c.toNat ∧ c.toNat ≤ 70 then some (c.toNat - 55)
  else none

/-- The optional sign read by `strtol`: whether it is `-`, and the remaining characters. -/
def stoiSign : List Char → Bool × List Char
  | c :: cs => if c = '-' then (true, cs) else if c = '+' then (false, cs) else (false, c :: cs)
  | [] => (false, [])

/-- The optional prefix `0x`/`0X` of base 16, skipped when a hexadecimal digit follows it. -/
def stoiPrefix : List Char → List Char
  | c0 :: x :: d :: cs =>
    if c0 = '0' ∧ (x = 'x' ∨ x = 'X') ∧ (hexDigitValue d).isSome then d :: cs
    else c0 :: x :: d :: cs
  | cs => cs

/-- The library call `std::stoi(str, 0, 16)` (behaviour of the C++ standard library, which
converts with `strtol`): leading white space, an optional sign, an optional `0x`, then the
longest run of hexadecimal digits; characters after it are ignored. `none` stands for a
thrown exception: `std::invalid_argument` when there is no digit, `std::out_of_range`
when the value does not fit an `int`. -/
def stoi16 (str : String) : Option Int :=
  let signed := stoiSign (str.toList.dropWhile isspace)
  let digits := (stoiPrefix signed.2).takeWhile fun c => (hexDigitValue c).isSome
  if digits = [] then none
  else
    let magnitude : Nat := digits.foldl (fun acc c => acc * 16 + (hexDigitValue c).getD 0) 0
    let value : Int := if signed.1 then -(magnitude : Int) else (magnitude : Int)
    if value < -(2 ^ 31 : Int) ∨ value > (2 ^ 31 - 1 : Int) then none else some value

/-! ## `CheckPropsGeneral` -/

/-- The end of `CheckPropsGeneral`, from the check of the string device id on. -/
def checkGeneralTail (cfgPropsAll : Nat → mfxVariant) (libImplDesc : mfxImplDescription)
    (isCompatible : Bool) : mfxStatus :=
  let isCompatible :=
    if (cfgPropsAll ePropDevice_DeviceIDStr).Type_ ≠ MFX_VARIANT_TYPE_UNSET then
      let filtDeviceID := (cfgPropsAll ePropDevice_DeviceIDStr).Data.Ptr.derefString
      let implDeviceID := libImplDesc.Dev.DeviceID
      if filtDeviceID ≠ implDeviceID then false else isCompatible
    else isCompatible
  if isCompatible = true then MFX_ERR_NONE else MFX_ERR_UNSUPPORTED

/-- The function `ConfigCtxVPL::CheckPropsGeneral`. -/
def CheckPropsGeneral (cfgPropsAll : Nat → mfxVariant) (libImplDesc : mfxImplDescription) :
    mfxStatus :=
  let isCompatible := true
  let isCompatible := CHECK_PROP cfgPropsAll ePropMain_Impl mfxVariantData.U32 libImplDesc.Impl isCompatible
  let isCompatible :=
    CHECK_PROP cfgPropsAll ePropMain_VendorID mfxVariantData.U32 libImplDesc.VendorID isCompatible
  let isCompatible :=
    CHECK_PROP cfgPropsAll ePropMain_VendorImplID mfxVariantData.U32 libImplDesc.VendorImplID isCompatible
  let isCompatible :=
    if libImplDesc.AccelerationModeDescription.Mode.length > 0 then
      if (cfgPropsAll ePropMain_AccelerationMode).Type_ ≠ MFX_VARIANT_TYPE_UNSET then
        let modeRequested := (cfgPropsAll ePropMain_AccelerationMode).Data.U32
        if modeRequested ∈ libImplDesc.AccelerationModeDescription.Mode then isCompatible
        else false
      else isCompatible
    else
      CHECK_PROP cfgPropsAll ePropMain_AccelerationMode mfxVariantData.U32
        libImplDesc.AccelerationMode isCompatible
  let isCompatible :=
    if (cfgPropsAll ePropMain_ImplName).Type_ ≠ MFX_VARIANT_TYPE_UNSET then
      let filtName := (cfgPropsAll ePropMain_ImplName).Data.Ptr.derefString
      let implName := libImplDesc.ImplName
      if filtName ≠ implName then false else isCompatible
    else isCompatible
  let isCompatible :=
    if (cfgPropsAll ePropMain_License).Type_ ≠ MFX_VARIANT_TYPE_UNSET then
      let license := (cfgPropsAll ePropMain_License).Data.Ptr.derefString
      if CheckPropString libImplDesc.License license ≠ MFX_ERR_NONE then false else isCompatible
    else isCompatible
  let isCompatible :=
    if (cfgPropsAll ePropMain_Keywords).Type_ ≠ MFX_VARIANT_TYPE_UNSET then
      let keywords := (cfgPropsAll ePropMain_Keywords).Data.Ptr.derefString
      if CheckPropString libImplDesc.Keywords keywords ≠ MFX_ERR_NONE then false else isCompatible
    else isCompatible
  if (cfgPropsAll ePropDevice_DeviceID).Type_ ≠ MFX_VARIANT_TYPE_UNSET then
    match stoi16 libImplDesc.Dev.DeviceID with
    | none => MFX_ERR_UNSUPPORTED
    | some parsed =>
      let implDeviceID : Nat := (parsed % (2 ^ 32 : Int)).toNat
      let filtDeviceID : Nat := (cfgPropsAll ePropDevice_DeviceID).Data.U16
      let isCompatible := if implDeviceID ≠ filtDeviceID then false else isCompatible
      checkGeneralTail cfgPropsAll libImplDesc isCompatible
  else checkGeneralTail cfgPropsAll libImplDesc isCompatible

/-! ## `ValidateConfig` -/

/-- The local variables of `ValidateConfig` that live across the loop over the config
contexts, together with the output `specialConfig`. -/
structure ValidateLocals where
  decRequested : Bool
  encRequested : Bool
  vppRequested : Bool
  bImplValid : Bool
  implFunctionList : List String
  reqVersion : mfxVersion
  bVerSetMajor : Bool
  bVerSetMinor : Bool
  specialConfig : SpecialConfig

/-- The locals as initialised before the loop. -/
def ValidateLocals.init (specialConfig : SpecialConfig) : ValidateLocals :=
  { decRequested := false
    encRequested := false
    vppRequested := false
    bImplValid := true
    implFunctionList := []
    reqVersion := { Version := 0 }
    bVerSetMajor := false
    bVerSetMinor := false
    specialConfig := specialConfig }

/-- One iteration of `for (idx = 0; idx < eProp_TotalProps; idx++)` that copies the set
properties of `config` into `cfgPropsAll`. -/
def propLoopBody (config : ConfigCtxVPL) (acc : (Nat → mfxVariant) × ValidateLocals) (idx : Nat) :
    (Nat → mfxVariant) × ValidateLocals :=
  if (config.m_propVar idx).Type_ = MFX_VARIANT_TYPE_UNSET then acc
  else if idx = ePropFunc_FunctionName then
    (acc.1, { acc.2 with implFunctionList := acc.2.implFunctionList ++ [config.m_implFunctionName] })
  else
    let cfgPropsAll := Function.update acc.1 idx
      { Type_ := (config.m_propVar idx).Type_, Data := (config.m_propVar idx).Data }
    if ePropDec_CodecID ≤ idx ∧ idx ≤ ePropDec_ColorFormats then
      (cfgPropsAll, { acc.2 with decRequested := true })
    else if ePropEnc_CodecID ≤ idx ∧ idx ≤ ePropEnc_ColorFormats then
      (cfgPropsAll, { acc.2 with encRequested := true })
    else if ePropVPP_FilterFourCC ≤ idx ∧ idx ≤ ePropVPP_OutFormat then
      (cfgPropsAll, { acc.2 with vppRequested := true })
    else (cfgPropsAll, acc.2)

/-- The two `for` loops at the head of the loop body: `cfgPropsAll` starts all `UNSET`,
then the set properties of `config` are copied. -/
def propLoop (config : ConfigCtxVPL) (v : ValidateLocals) : (Nat → mfxVariant) × ValidateLocals :=
  (List.range eProp_TotalProps).foldl (propLoopBody config) (fun _ => mfxVariant.unset, v)

/-- The check of the filtering properties of one context, guarded by `bImplValid`. -/
def checkProps (libImplDesc : mfxImplDescription) (libType : LibType)
    (decConfigList : List DecConfig) (encConfigList : List EncConfig)
    (vppConfigList : List VPPConfig) (cfgPropsAll : Nat → mfxVariant) (v : ValidateLocals) :
    Bool :=
  if v.bImplValid = true then
    let bImplValid := true
    let bImplValid :=
      if CheckPropsGeneral cfgPropsAll libImplDesc ≠ MFX_ERR_NONE then false else bImplValid
    if libType ≠ LibTypeMSDK then
      let bImplValid :=
        if v.decRequested = true ∧ CheckPropsDec cfgPropsAll decConfigList ≠ MFX_ERR_NONE then false
        else bImplValid
      let bImplValid :=
        if v.encRequested = true ∧ CheckPropsEnc cfgPropsAll encConfigList ≠ MFX_ERR_NONE then false
        else bImplValid
      let bImplValid :=
        if v.vppRequested = true ∧ CheckPropsVPP cfgPropsAll vppConfigList ≠ MFX_ERR_NONE then false
        else bImplValid
      bImplValid
    else bImplValid
  else false

/-- The update of `specialConfig` from the properties of one context. -/
def updateSpecial (cfgPropsAll : Nat → mfxVariant) (specialConfig : SpecialConfig) :
    SpecialConfig :=
  let specialConfig :=
    if (cfgPropsAll ePropSpecial_HandleType).Type_ ≠ MFX_VARIANT_TYPE_UNSET then
      { specialConfig with
        deviceHandleType := (cfgPropsAll ePropSpecial_HandleType).Data.U32
        bIsSet_deviceHandleType := true }
    else specialConfig
  let specialConfig :=
    if (cfgPropsAll ePropSpecial_Handle).Type_ ≠ MFX_VARIANT_TYPE_UNSET then
      { specialConfig with
        deviceHandle := (cfgPropsAll ePropSpecial_Handle).Data.Ptr
        bIsSet_deviceHandle := true }
    else specialConfig
  let specialConfig :=
    if (cfgPropsAll ePropSpecial_DXGIAdapterIndex).Type_ ≠ MFX_VARIANT_TYPE_UNSET then
      { specialConfig with
        dxgiAdapterIdx := (cfgPropsAll ePropSpecial_DXGIAdapterIndex).Data.U32
        bIsSet_dxgiAdapterIdx := true }
    else specialConfig
  let specialConfig :=
    if (cfgPropsAll ePropMain_AccelerationMode).Type_ ≠ MFX_VARIANT_TYPE_UNSET then
      { specialConfig with
        accelerationMode := (cfgPropsAll ePropMain_AccelerationMode).Data.U32
        bIsSet_accelerationMode := true }
    else specialConfig
  specialConfig

/-- The update of `reqVersion`, `bVerSetMajor`, `bVerSetMinor` from one context. -/
def updateVersion (cfgPropsAll : Nat → mfxVariant) (v : ValidateLocals) : ValidateLocals :=
  if (cfgPropsAll ePropMain_ApiVersion).Type_ ≠ MFX_VARIANT_TYPE_UNSET then
    { v with
      reqVersion := { Version := (cfgPropsAll ePropMain_ApiVersion).Data.U32 }
      bVerSetMajor := true
      bVerSetMinor := true }
  else
    let v :=
      if (cfgPropsAll ePropMain_ApiVersion_Major).Type_ ≠ MFX_VARIANT_TYPE_UNSET then
        { v with
          reqVersion := v.reqVersion.setMajor (cfgPropsAll ePropMain_ApiVersion_Major).Data.U16
          bVerSetMajor := true }
      else v
    let v :=
      if (cfgPropsAll ePropMain_ApiVersion_Minor).Type_ ≠ MFX_VARIANT_TYPE_UNSET then
        { v with
          reqVersion := v.reqVersion.setMinor (cfgPropsAll ePropMain_ApiVersion_Minor).Data.U16
          bVerSetMinor := true }
      else v
    v

/-- One iteration of `while (it != configCtxList.end())`. -/
def ctxStep (libImplDesc : mfxImplDescription) (libType : LibType)
    (decConfigList : List DecConfig) (encConfigList : List EncConfig)
    (vppConfigList : List VPPConfig) (v : ValidateLocals) (config : ConfigCtxVPL) :
    ValidateLocals :=
  let scanned := propLoop config v
  let cfgPropsAll := scanned.1
  let v := scanned.2
  let bImplValid :=
    checkProps libImplDesc libType decConfigList encConfigList vppConfigList cfgPropsAll v
  let v := { v with bImplValid := bImplValid }
  let v := { v with specialConfig := updateSpecial cfgPropsAll v.specialConfig }
  updateVersion cfgPropsAll v

/-- The loop `while (it != configCtxList.end())` over the contexts in list order. -/
def validateLoop (libImplDesc : mfxImplDescription) (libType : LibType)
    (decConfigList : List DecConfig) (encConfigList : List EncConfig)
    (vppConfigList : List VPPConfig) (configCtxList : List ConfigCtxVPL) (v : ValidateLocals) :
    ValidateLocals :=
  configCtxList.foldl (ctxStep libImplDesc libType decConfigList encConfigList vppConfigList) v

/-- The loop `for (fnIdx = 0; fnIdx < NumFunctions; fnIdx++) if (fnName == FunctionsName[fnIdx])
break;`: the value of `fnIdx` after it. -/
def searchFunction (fnName : String) (libImplFuncs : mfxImplementedFunctions) : Nat :=
  libImplFuncs.FunctionsName.findIdx fun name => fnName == name

/-- The loop over `implFunctionList` that checks the required functions. -/
def checkFunctions (libImplFuncs : mfxImplementedFunctions) : List String → mfxStatus
  | [] => MFX_ERR_NONE
  | fnName :: rest =>
    if searchFunction fnName libImplFuncs = libImplFuncs.FunctionsName.length then
      MFX_ERR_UNSUPPORTED
    else checkFunctions libImplFuncs rest

/-- The part of `ValidateConfig` after the loop over the contexts: the version gate, the
test of `bImplValid` and the check of the required functions. -/
def validateTail (libImplDesc : mfxImplDescription) (libImplFuncs : Option mfxImplementedFunctions)
    (v : ValidateLocals) : mfxStatus × SpecialConfig :=
  let v :=
    if v.bVerSetMajor = true ∧ v.bVerSetMinor = true then
      { v with
        bImplValid :=
          if libImplDesc.ApiVersion.Version < v.reqVersion.Version then false else v.bImplValid
        specialConfig :=
          { v.specialConfig with
            ApiVersion := { Version := v.reqVersion.Version }
            bIsSet_ApiVersion := true } }
    else v
  if v.bImplValid = false then (MFX_ERR_UNSUPPORTED, v.specialConfig)
  else if ¬ v.implFunctionList.isEmpty then
    match libImplFuncs with
    | none => (MFX_ERR_UNSUPPORTED, v.specialConfig)
    | some funcs => (checkFunctions funcs v.implFunctionList, v.specialConfig)
  else (MFX_ERR_NONE, v.specialConfig)

/-- The function `ConfigCtxVPL::ValidateConfig`; a null `libImplDesc` or `libImplFuncs` is
`none`, and the `specialConfig` written through the pointer is returned with the status. -/
def ValidateConfig (libImplDesc : Option mfxImplDescription)
    (libImplFuncs : Option mfxImplementedFunctions) (configCtxList : List ConfigCtxVPL)
    (libType : LibType) (specialConfig : SpecialConfig) : mfxStatus × SpecialConfig :=
  match libImplDesc with
  | none => (MFX_ERR_NULL_PTR, specialConfig)
  | some libImplDesc =>
    let decConfigList := (GetFlatDescriptionsDec libImplDesc []).2
    let encConfigList := (GetFlatDescriptionsEnc libImplDesc []).2
    let vppConfigList := (GetFlatDescriptionsVPP libImplDesc []).2
    let v := validateLoop libImplDesc libType decConfigList encConfigList vppConfigList
      configCtxList (ValidateLocals.init specialConfig)
    validateTail libImplDesc libImplFuncs v

/-! ## The property setter (`ValidateAndSetProp`) -/

/-- The declared types of `PropIdxTab`, in the order of `PropIdx` (the name column of the
table is not read by the code). -/
def PropIdxTab : List mfxVariantType :=
  [ MFX_VARIANT_TYPE_U32, MFX_VARIANT_TYPE_U32, MFX_VARIANT_TYPE_U32, MFX_VARIANT_TYPE_U16,
    MFX_VARIANT_TYPE_U16, MFX_VARIANT_TYPE_PTR, MFX_VARIANT_TYPE_PTR, MFX_VARIANT_TYPE_PTR,
    MFX_VARIANT_TYPE_U32, MFX_VARIANT_TYPE_U32,
    MFX_VARIANT_TYPE_U16, MFX_VARIANT_TYPE_PTR,
    MFX_VARIANT_TYPE_U32, MFX_VARIANT_TYPE_U16, MFX_VARIANT_TYPE_U32, MFX_VARIANT_TYPE_U32,
    MFX_VARIANT_TYPE_PTR, MFX_VARIANT_TYPE_PTR, MFX_VARIANT_TYPE_U32,
    MFX_VARIANT_TYPE_U32, MFX_VARIANT_TYPE_U16, MFX_VARIANT_TYPE_U16, MFX_VARIANT_TYPE_U32,
    MFX_VARIANT_TYPE_U32, MFX_VARIANT_TYPE_PTR, MFX_VARIANT_TYPE_PTR, MFX_VARIANT_TYPE_U32,
    MFX_VARIANT_TYPE_U32, MFX_VARIANT_TYPE_U16, MFX_VARIANT_TYPE_U32, MFX_VARIANT_TYPE_PTR,
    MFX_VARIANT_TYPE_PTR, MFX_VARIANT_TYPE_U32, MFX_VARIANT_TYPE_U32,
    MFX_VARIANT_TYPE_U32, MFX_VARIANT_TYPE_PTR, MFX_VARIANT_TYPE_U32,
    MFX_VARIANT_TYPE_PTR ]

/-- The read `PropIdxTab[idx].Type` for an index of the table. -/
def propType (idx : Nat) : mfxVariantType :=
  PropIdxTab.getD idx MFX_VARIANT_TYPE_UNSET

/-- Modelled from the spec: the indices `PROP_RANGE_*` of the six owned ranges (two per
width/height-bearing category), whose enumeration is in a header outside the sources. -/
abbrev PROP_RANGE_DEC_W : Nat := 0
abbrev PROP_RANGE_DEC_H : Nat := 1
abbrev PROP_RANGE_ENC_W : Nat := 2
abbrev PROP_RANGE_ENC_H : Nat := 3
abbrev PROP_RANGE_VPP_W : Nat := 4
abbrev PROP_RANGE_VPP_H : Nat := 5

/-- What the memory of the caller holds at an address: a range, a C string, or anything
else. -/
inductive MemObj
  | range (r : mfxRange32U)
  | cstr (s : String)
  | other
  deriving DecidableEq, Repr

/-- The memory of the caller, by address. In a pointer, `mfxHDL.handle a` is the address `a`
of this memory, while `mfxHDL.range` and `mfxHDL.str` refer to an object owned by a
context. -/
abbrev CallerMem := Nat → MemObj

/-- The object a pointer refers to, given the memory of the caller. -/
def mfxHDL.load (mem : CallerMem) : mfxHDL → MemObj
  | .null => MemObj.other
  | .range r => MemObj.range r
  | .str s => MemObj.cstr s
  | .handle a => mem a

/-- The read `*((mfxRange32U *)p)` of an object. -/
def MemObj.asRange : MemObj → mfxRange32U
  | .range r => r
  | _ => { Min := 0, Max := 0, Step := 0 }

/-- The read `(char *)p` of an object as a C string. -/
def MemObj.asString : MemObj → String
  | .cstr s => s
  | _ => ""

/-- The write `m_propVar[idx].Type = t`. -/
def ConfigCtxVPL.setType (ctx : ConfigCtxVPL) (idx : Nat) (t : mfxVariantType) : ConfigCtxVPL :=
  { ctx with m_propVar := fun i =>
      if i = idx then { Type_ := t, Data := (ctx.m_propVar idx).Data } else ctx.m_propVar i }

/-- The write `m_propVar[idx].Data = d` (or of its member `Data.Ptr`). -/
def ConfigCtxVPL.setData (ctx : ConfigCtxVPL) (idx : Nat) (d : mfxVariantData) : ConfigCtxVPL :=
  { ctx with m_propVar := fun i =>
      if i = idx then { Type_ := (ctx.m_propVar idx).Type_, Data := d } else ctx.m_propVar i }

/-- The two statements of a range case of the `switch`: the range the caller points to is
copied into `m_propRange32U[slot]`, and `Data.Ptr` is set to the address of that copy. -/
def ConfigCtxVPL.storeRange (ctx : ConfigCtxVPL) (mem : CallerMem) (idx slot : Nat)
    (p : mfxHDL) : ConfigCtxVPL :=
  let copy := (p.load mem).asRange
  ConfigCtxVPL.setData
    { ctx with m_propRange32U := fun k => if k = slot then copy else ctx.m_propRange32U k }
    idx (.ptr (.range copy))

/-- The `switch (idx)` of `ValidateAndSetProp` for a non-null pointer `p`: "save copy of
data passed by pointer, into object of the appropriate type". -/
def ConfigCtxVPL.storePtr (ctx : ConfigCtxVPL) (mem : CallerMem) (idx : Nat) (p : mfxHDL) :
    ConfigCtxVPL :=
  if idx = ePropDec_Width then ctx.storeRange mem idx PROP_RANGE_DEC_W p
  else if idx = ePropDec_Height then ctx.storeRange mem idx PROP_RANGE_DEC_H p
  else if idx = ePropEnc_Width then ctx.storeRange mem idx PROP_RANGE_ENC_W p
  else if idx = ePropEnc_Height then ctx.storeRange mem idx PROP_RANGE_ENC_H p
  else if idx = ePropVPP_Width then ctx.storeRange mem idx PROP_RANGE_VPP_W p
  else if idx = ePropVPP_Height then ctx.storeRange mem idx PROP_RANGE_VPP_H p
  else if idx = ePropSpecial_Handle then ctx.setData idx (.ptr p)
  else if idx = ePropMain_ImplName then
    ConfigCtxVPL.setData { ctx with m_implName := (p.load mem).asString } idx
      (.ptr (.str (p.load mem).asString))
  else if idx = ePropMain_License then
    ConfigCtxVPL.setData { ctx with m_implLicense := (p.load mem).asString } idx
      (.ptr (.str (p.load mem).asString))
  else if idx = ePropMain_Keywords then
    ConfigCtxVPL.setData { ctx with m_implKeywords := (p.load mem).asString } idx
      (.ptr (.str (p.load mem).asString))
  else if idx = ePropDevice_DeviceIDStr then
    ConfigCtxVPL.setData { ctx with m_deviceIdStr := (p.load mem).asString } idx
      (.ptr (.str (p.load mem).asString))
  else if idx = ePropFunc_FunctionName then
    { ctx with m_implFunctionName := (p.load mem).asString }
  else ctx

/-- The function `ConfigCtxVPL::ValidateAndSetProp(mfxI32 idx, mfxVariant value)`, with the
memory of the caller that a pointer value refers to; the context after the call is
returned with the status. The member `Version` of a slot, which the function sets to the
constant `MFX_VARIANT_VERSION` and no code reads, is not part of `mfxVariant` here. -/
def ValidateAndSetProp (ctx : ConfigCtxVPL) (mem : CallerMem) (idx : Int) (value : mfxVariant) :
    mfxStatus × ConfigCtxVPL :=
  if idx < 0 ∨ idx ≥ (eProp_TotalProps : Int) then (MFX_ERR_NOT_FOUND, ctx)
  else if value.Type_ ≠ propType idx.toNat then (MFX_ERR_UNSUPPORTED, ctx)
  else
    let ctx := ctx.setType idx.toNat value.Type_
    if value.Type_ = MFX_VARIANT_TYPE_PTR then
      if value.Data.Ptr = mfxHDL.null then
        (MFX_ERR_NULL_PTR, ctx.setType idx.toNat MFX_VARIANT_TYPE_UNSET)
      else (MFX_ERR_NONE, ctx.storePtr mem idx.toNat value.Data.Ptr)
    else (MFX_ERR_NONE, ctx.setData idx.toNat value.Data)

/-! ## The path resolver (`SetFilterProperty`) -/

/-- Modelled from the spec: the helper `GetNextProp`, whose body is outside the sources. It
takes the first segment off the list and returns it; when no segment is left it returns
the empty string, which no level accepts (a path that terminates early resolves to
NotFound). The list after the call is returned with the segment. -/
def GetNextProp (propParsedString : List String) : String × List String :=
  match propParsedString with
  | [] => ("", [])
  | s :: rest => (s, rest)

/-- The function `ConfigCtxVPL::SetFilterPropertyDec`. -/
def SetFilterPropertyDec (ctx : ConfigCtxVPL) (mem : CallerMem)
    (propParsedString : List String) (value : mfxVariant) : mfxStatus × ConfigCtxVPL :=
  let next := GetNextProp propParsedString
  if next.1 ≠ "decoder" then (MFX_ERR_NOT_FOUND, ctx)
  else
    let next := GetNextProp next.2
    if next.1 = "CodecID" then ValidateAndSetProp ctx mem ePropDec_CodecID value
    else if next.1 = "MaxcodecLevel" then ValidateAndSetProp ctx mem ePropDec_MaxcodecLevel value
    else if next.1 ≠ "decprofile" then (MFX_ERR_NOT_FOUND, ctx)
    else
      let next := GetNextProp next.2
      if next.1 = "Profile" then ValidateAndSetProp ctx mem ePropDec_Profile value
      else if next.1 ≠ "decmemdesc" then (MFX_ERR_NOT_FOUND, ctx)
      else
        let next := GetNextProp next.2
        if next.1 = "MemHandleType" then
          ValidateAndSetProp ctx mem ePropDec_MemHandleType value
        else if next.1 = "Width" then ValidateAndSetProp ctx mem ePropDec_Width value
        else if next.1 = "Height" then ValidateAndSetProp ctx mem ePropDec_Height value
        else if next.1 = "ColorFormat" ∨ next.1 = "ColorFormats" then
          ValidateAndSetProp ctx mem ePropDec_ColorFormats value
        else (MFX_ERR_NOT_FOUND, ctx)

/-- The function `ConfigCtxVPL::SetFilterPropertyEnc`. -/
def SetFilterPropertyEnc (ctx : ConfigCtxVPL) (mem : CallerMem)
    (propParsedString : List String) (value : mfxVariant) : mfxStatus × ConfigCtxVPL :=
  let next := GetNextProp propParsedString
  if next.1 ≠ "encoder" then (MFX_ERR_NOT_FOUND, ctx)
  else
    let next := GetNextProp next.2
    if next.1 = "CodecID" then ValidateAndSetProp ctx mem ePropEnc_CodecID value
    else if next.1 = "MaxcodecLevel" then ValidateAndSetProp ctx mem ePropEnc_MaxcodecLevel value
    else if next.1 = "BiDirectionalPrediction" then
      ValidateAndSetProp ctx mem ePropEnc_BiDirectionalPrediction value
    else if next.1 ≠ "encprofile" then (MFX_ERR_NOT_FOUND, ctx)
    else
      let next := GetNextProp next.2
      if next.1 = "Profile" then ValidateAndSetProp ctx mem ePropEnc_Profile value
      else if next.1 ≠ "encmemdesc" then (MFX_ERR_NOT_FOUND, ctx)
      else
        let next := GetNextProp next.2
        if next.1 = "MemHandleType" then
          ValidateAndSetProp ctx mem ePropEnc_MemHandleType value
        else if next.1 = "Width" then ValidateAndSetProp ctx mem ePropEnc_Width value
        else if next.1 = "Height" then ValidateAndSetProp ctx mem ePropEnc_Height value
        else if next.1 = "ColorFormat" ∨ next.1 = "ColorFormats" then
          ValidateAndSetProp ctx mem ePropEnc_ColorFormats value
        else (MFX_ERR_NOT_FOUND, ctx)

/-- The function `ConfigCtxVPL::SetFilterPropertyVPP`. -/
def SetFilterPropertyVPP (ctx : ConfigCtxVPL) (mem : CallerMem)
    (propParsedString : List String) (value : mfxVariant) : mfxStatus × ConfigCtxVPL :=
  let next := GetNextProp propParsedString
  if next.1 ≠ "filter" then (MFX_ERR_NOT_FOUND, ctx)
  else
    let next := GetNextProp next.2
    if next.1 = "FilterFourCC" then ValidateAndSetProp ctx mem ePropVPP_FilterFourCC value
    else if next.1 = "MaxDelayInFrames" then
      ValidateAndSetProp ctx mem ePropVPP_MaxDelayInFrames value
    else if next.1 ≠ "memdesc" then (MFX_ERR_NOT_FOUND, ctx)
    else
      let next := GetNextProp next.2
      if next.1 = "MemHandleType" then ValidateAndSetProp ctx mem ePropVPP_MemHandleType value
      else if next.1 = "Width" then ValidateAndSetProp ctx mem ePropVPP_Width value
      else if next.1 = "Height" then ValidateAndSetProp ctx mem ePropVPP_Height value
      else if next.1 ≠ "format" then (MFX_ERR_NOT_FOUND, ctx)
      else
        let next := GetNextProp next.2
        if next.1 = "InFormat" then ValidateAndSetProp ctx mem ePropVPP_InFormat value
        else if next.1 = "OutFormat" ∨ next.1 = "OutFormats" then
          ValidateAndSetProp ctx mem ePropVPP_OutFormat value
        else (MFX_ERR_NOT_FOUND, ctx)

/-- The part of `SetFilterProperty` for a path that begins with `mfxImplDescription`, from
"get next property descriptor" on. -/
def setImplDescriptionProp (ctx : ConfigCtxVPL) (mem : CallerMem)
    (propParsedString : List String) (value : mfxVariant) : mfxStatus × ConfigCtxVPL :=
  let next := GetNextProp propParsedString
  if next.1 = "Impl" then ValidateAndSetProp ctx mem ePropMain_Impl value
  else if next.1 = "AccelerationMode" then
    ValidateAndSetProp ctx mem ePropMain_AccelerationMode value
  else if next.1 = "ApiVersion" then
    let leaf := GetNextProp next.2
    if leaf.1 = "Version" then ValidateAndSetProp ctx mem ePropMain_ApiVersion value
    else if leaf.1 = "Major" then ValidateAndSetProp ctx mem ePropMain_ApiVersion_Major value
    else if leaf.1 = "Minor" then ValidateAndSetProp ctx mem ePropMain_ApiVersion_Minor value
    else (MFX_ERR_NOT_FOUND, ctx)
  else if next.1 = "VendorID" then ValidateAndSetProp ctx mem ePropMain_VendorID value
  else if next.1 = "ImplName" then ValidateAndSetProp ctx mem ePropMain_ImplName value
  else if next.1 = "License" then ValidateAndSetProp ctx mem ePropMain_License value
  else if next.1 = "Keywords" then ValidateAndSetProp ctx mem ePropMain_Keywords value
  else if next.1 = "VendorImplID" then ValidateAndSetProp ctx mem ePropMain_VendorImplID value
  else if next.1 = "mfxDeviceDescription" then
    let dev := GetNextProp next.2
    let dev := if dev.1 = "device" then GetNextProp dev.2 else dev
    if dev.1 = "DeviceID" then
      if value.Type_ = MFX_VARIANT_TYPE_PTR then
        ValidateAndSetProp ctx mem ePropDevice_DeviceIDStr value
      else ValidateAndSetProp ctx mem ePropDevice_DeviceID value
    else (MFX_ERR_NOT_FOUND, ctx)
  else if next.1 = "mfxDecoderDescription" then SetFilterPropertyDec ctx mem next.2 value
  else if next.1 = "mfxEncoderDescription" then SetFilterPropertyEnc ctx mem next.2 value
  else if next.1 = "mfxVPPDescription" then SetFilterPropertyVPP ctx mem next.2 value
  else (MFX_ERR_NOT_FOUND, ctx)

/-- The part of `SetFilterProperty` after the loop that parses the name, from "get first
property descriptor" on. `isWindows` tells whether `_WIN32` or `_WIN64` is defined. -/
def setParsedProp (ctx : ConfigCtxVPL) (mem : CallerMem) (isWindows : Bool)
    (propParsedString : List String) (value : mfxVariant) : mfxStatus × ConfigCtxVPL :=
  let next := GetNextProp propParsedString
  if next.1 = "mfxHandleType" then ValidateAndSetProp ctx mem ePropSpecial_HandleType value
  else if next.1 = "mfxHDL" then ValidateAndSetProp ctx mem ePropSpecial_Handle value
  else if next.1 = "DXGIAdapterIndex" then
    if isWindows = true then ValidateAndSetProp ctx mem ePropSpecial_DXGIAdapterIndex value
    else (MFX_ERR_NOT_FOUND, ctx)
  else if next.1 = "mfxImplementedFunctions" then
    let leaf := GetNextProp next.2
    if leaf.1 = "FunctionsName" then ValidateAndSetProp ctx mem ePropFunc_FunctionName value
    else (MFX_ERR_NOT_FOUND, ctx)
  else if next.1 ≠ "mfxImplDescription" then (MFX_ERR_NOT_FOUND, ctx)
  else setImplDescriptionProp ctx mem next.2 value

/-- The loop of `SetFilterProperty` that parses the name "into individual properties,
separated by `.`". -/
def propSegments (name : String) : List String :=
  (readTokens '.' name.toList []).map String.mk

/-- The function `ConfigCtxVPL::SetFilterProperty(const mfxU8 *name, mfxVariant value)`;
`none` is the null `name`. -/
def SetFilterProperty (ctx : ConfigCtxVPL) (mem : CallerMem) (isWindows : Bool)
    (name : Option String) (value : mfxVariant) : mfxStatus × ConfigCtxVPL :=
  match name with
  | none => (MFX_ERR_NULL_PTR, ctx)
  | some name => setParsedProp ctx mem isWindows (propSegments name) value

/-! ## Predicates used in the statements -/

/-- Every codec has `p` profiles, every profile `m` memory descriptors and every memory
descriptor `f` colour formats, in a decoder section with `c` codecs. -/
def DecUniform (libImplDesc : mfxImplDescription) (c p m f : Nat) : Prop :=
  libImplDesc.Dec.Codecs.length = c ∧
  ∀ codec ∈ libImplDesc.Dec.Codecs, codec.Profiles.length = p ∧
    ∀ prof ∈ codec.Profiles, prof.MemDesc.length = m ∧
      ∀ md ∈ prof.MemDesc, md.ColorFormats.length = f

instance (libImplDesc : mfxImplDescription) (c p m f : Nat) :
    Decidable (DecUniform libImplDesc c p m f) := by
  unfold DecUniform; infer_instance

/-- No level of the decoder section lists the same entry twice: the codecs differ pairwise
in `(CodecID, MaxcodecLevel)`, the profiles of a codec in `Profile`, the memory descriptors
of a profile in `(MemHandleType, Width, Height)`, and the colour formats of a memory
descriptor are pairwise distinct. -/
def DecDistinct (libImplDesc : mfxImplDescription) : Prop :=
  libImplDesc.Dec.Codecs.Pairwise
      (fun a b => (a.CodecID, a.MaxcodecLevel) ≠ (b.CodecID, b.MaxcodecLevel)) ∧
  ∀ codec ∈ libImplDesc.Dec.Codecs,
    codec.Profiles.Pairwise (fun a b => a.Profile ≠ b.Profile) ∧
    ∀ prof ∈ codec.Profiles,
      prof.MemDesc.Pairwise
        (fun a b => (a.MemHandleType, a.Width, a.Height) ≠ (b.MemHandleType, b.Width, b.Height)) ∧
      ∀ md ∈ prof.MemDesc, md.ColorFormats.Nodup

instance (libImplDesc : mfxImplDescription) : Decidable (DecDistinct libImplDesc) := by
  unfold DecDistinct; infer_instance

/-- A descriptor with one codec, one profile and one memory descriptor that lists the
colour format 1 twice. -/
def dupFormatDesc : mfxImplDescription :=
  { Impl := 0
    AccelerationMode := 0
    ApiVersion := { Version := 0 }
    ImplName := ""
    License := ""
    Keywords := ""
    VendorID := 0
    VendorImplID := 0
    Dev := { DeviceID := "" }
    Dec := { Codecs := [{ CodecID := 1, MaxcodecLevel := 1, Profiles := [{ Profile := 1, MemDesc :=
      [{ MemHandleType := 1, Width := { Min := 0, Max := 0, Step := 0 },
         Height := { Min := 0, Max := 0, Step := 0 }, ColorFormats := [1, 1] }] }] }] }
    Enc := { Codecs := [] }
    VPP := { Filters := [] }
    AccelerationModeDescription := { Mode := [] } }

/-- The descriptor `dupFormatDesc` with the colour formats 1 and 2. -/
def twoFormatDesc : mfxImplDescription :=
  { dupFormatDesc with
    Dec := { Codecs := [{ CodecID := 1, MaxcodecLevel := 1, Profiles := [{ Profile := 1, MemDesc :=
      [{ MemHandleType := 1, Width := { Min := 0, Max := 0, Step := 0 },
         Height := { Min := 0, Max := 0, Step := 0 }, ColorFormats := [1, 2] }] }] }] } }

/-- The constraint at `idx` is set. -/
def IsSet (cfgPropsAll : Nat → mfxVariant) (idx : Nat) : Prop :=
  (cfgPropsAll idx).Type_ ≠ MFX_VARIANT_TYPE_UNSET

instance (cfgPropsAll : Nat → mfxVariant) (idx : Nat) : Decidable (IsSet cfgPropsAll idx) := by
  unfold IsSet; infer_instance

/-- Range subsumption as the specification words it: the requested range is compatible with
the capability range iff `requested.max ≤ capability.max ∧ requested.min ≥ capability.min ∧
requested.step ≥ capability.step`. -/
def RangeSubsumed (requested capability : mfxRange32U) : Prop :=
  requested.Max ≤ capability.Max ∧ requested.Min ≥ capability.Min ∧
    requested.Step ≥ capability.Step

instance (requested capability : mfxRange32U) : Decidable (RangeSubsumed requested capability) := by
  unfold RangeSubsumed; infer_instance

/-- The range requested by the `Width`/`Height` constraint at `idx`: the range its pointer
refers to (the zero range when the pointer is null, as the source reads it). -/
def requestedRange (cfgPropsAll : Nat → mfxVariant) (idx : Nat) : mfxRange32U :=
  (cfgPropsAll idx).Data.Ptr.derefRange

/-- A flat decoder record matches all set decoder constraints: every set scalar
constraint equals the field of the record, every set range is subsumed by its range. -/
def DecMatches (cfgPropsAll : Nat → mfxVariant) (dc : DecConfig) : Prop :=
  (IsSet cfgPropsAll ePropDec_CodecID → (cfgPropsAll ePropDec_CodecID).Data.U32 = dc.CodecID) ∧
  (IsSet cfgPropsAll ePropDec_MaxcodecLevel →
    (cfgPropsAll ePropDec_MaxcodecLevel).Data.U16 = dc.MaxcodecLevel) ∧
  (IsSet cfgPropsAll ePropDec_Profile → (cfgPropsAll ePropDec_Profile).Data.U32 = dc.Profile) ∧
  (IsSet cfgPropsAll ePropDec_MemHandleType →
    (cfgPropsAll ePropDec_MemHandleType).Data.U32 = dc.MemHandleType) ∧
  (IsSet cfgPropsAll ePropDec_ColorFormats →
    (cfgPropsAll ePropDec_ColorFormats).Data.U32 = dc.ColorFormat) ∧
  (IsSet cfgPropsAll ePropDec_Width →
    RangeSubsumed (requestedRange cfgPropsAll ePropDec_Width) dc.Width) ∧
  (IsSet cfgPropsAll ePropDec_Height →
    RangeSubsumed (requestedRange cfgPropsAll ePropDec_Height) dc.Height)

/-- A flat encoder record matches all set encoder constraints. -/
def EncMatches (cfgPropsAll : Nat → mfxVariant) (ec : EncConfig) : Prop :=
  (IsSet cfgPropsAll ePropEnc_CodecID → (cfgPropsAll ePropEnc_CodecID).Data.U32 = ec.CodecID) ∧
  (IsSet cfgPropsAll ePropEnc_MaxcodecLevel →
    (cfgPropsAll ePropEnc_MaxcodecLevel).Data.U16 = ec.MaxcodecLevel) ∧
  (IsSet cfgPropsAll ePropEnc_BiDirectionalPrediction →
    (cfgPropsAll ePropEnc_BiDirectionalPrediction).Data.U16 = ec.BiDirectionalPrediction) ∧
  (IsSet cfgPropsAll ePropEnc_Profile → (cfgPropsAll ePropEnc_Profile).Data.U32 = ec.Profile) ∧
  (IsSet cfgPropsAll ePropEnc_MemHandleType →
    (cfgPropsAll ePropEnc_MemHandleType).Data.U32 = ec.MemHandleType) ∧
  (IsSet cfgPropsAll ePropEnc_ColorFormats →
    (cfgPropsAll ePropEnc_ColorFormats).Data.U32 = ec.ColorFormat) ∧
  (IsSet cfgPropsAll ePropEnc_Width →
    RangeSubsumed (requestedRange cfgPropsAll ePropEnc_Width) ec.Width) ∧
  (IsSet cfgPropsAll ePropEnc_Height →
    RangeSubsumed (requestedRange cfgPropsAll ePropEnc_Height) ec.Height)

/-- A flat filter record matches all set filter constraints. -/
def VPPMatches (cfgPropsAll : Nat → mfxVariant) (vc : VPPConfig) : Prop :=
  (IsSet cfgPropsAll ePropVPP_FilterFourCC →
    (cfgPropsAll ePropVPP_FilterFourCC).Data.U32 = vc.FilterFourCC) ∧
  (IsSet cfgPropsAll ePropVPP_MaxDelayInFrames →
    (cfgPropsAll ePropVPP_MaxDelayInFrames).Data.U16 = vc.MaxDelayInFrames) ∧
  (IsSet cfgPropsAll ePropVPP_MemHandleType →
    (cfgPropsAll ePropVPP_MemHandleType).Data.U32 = vc.MemHandleType) ∧
  (IsSet cfgPropsAll ePropVPP_InFormat → (cfgPropsAll ePropVPP_InFormat).Data.U32 = vc.InFormat) ∧
  (IsSet cfgPropsAll ePropVPP_OutFormat →
    (cfgPropsAll ePropVPP_OutFormat).Data.U32 = vc.OutFormat) ∧
  (IsSet cfgPropsAll ePropVPP_Width →
    RangeSubsumed (requestedRange cfgPropsAll ePropVPP_Width) vc.Width) ∧
  (IsSet cfgPropsAll ePropVPP_Height →
    RangeSubsumed (requestedRange cfgPropsAll ePropVPP_Height) vc.Height)

/-- The constraint array in which the pointer constraint at `idx` refers to the range `r`
and every other constraint is unset. -/
def onlyRange (idx : Nat) (r : mfxRange32U) : Nat → mfxVariant :=
  Function.update (fun _ => mfxVariant.unset) idx
    { Type_ := MFX_VARIANT_TYPE_PTR, Data := .ptr (.range r) }

/-! ## Closed forms used in the proofs and statements about `ValidateConfig` -/

/-- The successive results of `getline` on a stream, by recursion on the characters. -/
def streamTokens (delim : Char) : List Char → List (List Char)
  | [] => []
  | c :: cs =>
    if c = delim then [] :: streamTokens delim cs
    else
      match streamTokens delim cs with
      | [] => [[c]]
      | t :: ts => (c :: t) :: ts

/-- A list of pieces without an empty last piece. -/
def dropEmptyLast (pieces : List (List Char)) : List (List Char) :=
  if pieces.getLast? = some [] then pieces.dropLast else pieces

/-- The context sets the property at `idx`: its slot is not `UNSET`. -/
def SetsProp (config : ConfigCtxVPL) (idx : Nat) : Prop :=
  (config.m_propVar idx).Type_ ≠ MFX_VARIANT_TYPE_UNSET

instance (config : ConfigCtxVPL) (idx : Nat) : Decidable (SetsProp config idx) := by
  unfold SetsProp; infer_instance

/-- The context sets at least one property with an index from `lo` to `hi`. -/
def SetsAny (config : ConfigCtxVPL) (lo hi : Nat) : Prop :=
  ∃ idx, lo ≤ idx ∧ idx ≤ hi ∧ SetsProp config idx

/-- The constraint array `cfgPropsAll` of one context: its set properties, except the
required function name, which is kept in a list instead. -/
def cfgPropsOf (config : ConfigCtxVPL) : Nat → mfxVariant := fun idx =>
  if idx < eProp_TotalProps ∧ SetsProp config idx ∧ idx ≠ ePropFunc_FunctionName then
    { Type_ := (config.m_propVar idx).Type_, Data := (config.m_propVar idx).Data }
  else mfxVariant.unset

/-- The required function names of the contexts, in list order. -/
def requiredFunctions (configCtxList : List ConfigCtxVPL) : List String :=
  (configCtxList.filter fun config => decide (SetsProp config ePropFunc_FunctionName)).map
    fun config => config.m_implFunctionName

/-- The context with the slot at `idx` set to `value`. -/
def ConfigCtxVPL.withProp (config : ConfigCtxVPL) (idx : Nat) (value : mfxVariant) :
    ConfigCtxVPL :=
  { config with m_propVar := fun i => if i = idx then value else config.m_propVar i }

/-- The context with every slot from `lo` to `hi` unset. -/
def ConfigCtxVPL.withoutProps (config : ConfigCtxVPL) (lo hi : Nat) : ConfigCtxVPL :=
  { config with m_propVar := fun idx =>
      if lo ≤ idx ∧ idx ≤ hi then mfxVariant.unset else config.m_propVar idx }

/-- Whether the loop over the property indices meets a set property with an index from
`lo` to `hi`. -/
def requestedBy (config : ConfigCtxVPL) (lo hi : Nat) : Bool :=
  (List.range eProp_TotalProps).any fun i => decide (SetsProp config i ∧ lo ≤ i ∧ i ≤ hi)

/-- The three locals of `ValidateConfig` that hold the requested API version. -/
structure VersionRequest where
  reqVersion : mfxVersion
  bVerSetMajor : Bool
  bVerSetMinor : Bool
  deriving DecidableEq, Repr

/-- The version locals of `ValidateLocals`. -/
def ValidateLocals.version (v : ValidateLocals) : VersionRequest :=
  { reqVersion := v.reqVersion, bVerSetMajor := v.bVerSetMajor, bVerSetMinor := v.bVerSetMinor }

/-- The effect of one constraint array on the requested version: a set combined `Version`
replaces it and marks both halves set; otherwise a set `Major` (`Minor`) writes the high
(low) half and marks it set. -/
def versionStep (cfgPropsAll : Nat → mfxVariant) (r : VersionRequest) : VersionRequest :=
  if IsSet cfgPropsAll ePropMain_ApiVersion then
    { reqVersion := { Version := (cfgPropsAll ePropMain_ApiVersion).Data.U32 }
      bVerSetMajor := true
      bVerSetMinor := true }
  else
    let r :=
      if IsSet cfgPropsAll ePropMain_ApiVersion_Major then
        { r with
          reqVersion := r.reqVersion.setMajor (cfgPropsAll ePropMain_ApiVersion_Major).Data.U16
          bVerSetMajor := true }
      else r
    if IsSet cfgPropsAll ePropMain_ApiVersion_Minor then
      { r with
        reqVersion := r.reqVersion.setMinor (cfgPropsAll ePropMain_ApiVersion_Minor).Data.U16
        bVerSetMinor := true }
    else r

/-- The effective requested API version of a list of contexts, taken in list order from
the zero version with no half set. -/
def requestedVersion (configCtxList : List ConfigCtxVPL) : VersionRequest :=
  configCtxList.foldl (fun r config => versionStep (cfgPropsOf config) r)
    { reqVersion := { Version := 0 }, bVerSetMajor := false, bVerSetMinor := false }

/-- The version gate is triggered: both halves of the requested version are set. -/
def GateTriggered (configCtxList : List ConfigCtxVPL) : Prop :=
  (requestedVersion configCtxList).bVerSetMajor = true ∧
    (requestedVersion configCtxList).bVerSetMinor = true

instance (configCtxList : List ConfigCtxVPL) : Decidable (GateTriggered configCtxList) := by
  unfold GateTriggered; infer_instance

/-- The special properties collected from a list of contexts into `specialConfig`. -/
def specialOf (configCtxList : List ConfigCtxVPL) (specialConfig : SpecialConfig) :
    SpecialConfig :=
  configCtxList.foldl (fun sc config => updateSpecial (cfgPropsOf config) sc) specialConfig

/-- Whether one constraint array passes the checks of `checkProps`, given the three
`Requested` flags. -/
def passes (libImplDesc : mfxImplDescription) (libType : LibType)
    (decConfigList : List DecConfig) (encConfigList : List EncConfig)
    (vppConfigList : List VPPConfig) (cfgPropsAll : Nat → mfxVariant)
    (decRequested encRequested vppRequested : Bool) : Bool :=
  decide (CheckPropsGeneral cfgPropsAll libImplDesc = MFX_ERR_NONE) &&
    (decide (libType = LibTypeMSDK) ||
      ((!decRequested || decide (CheckPropsDec cfgPropsAll decConfigList = MFX_ERR_NONE)) &&
        (!encRequested || decide (CheckPropsEnc cfgPropsAll encConfigList = MFX_ERR_NONE)) &&
        (!vppRequested || decide (CheckPropsVPP cfgPropsAll vppConfigList = MFX_ERR_NONE))))

/-- The value of `bImplValid` after the loop over the contexts, from its value and the
values of the three `Requested` flags before it. -/
def validAfter (libImplDesc : mfxImplDescription) (libType : LibType)
    (decConfigList : List DecConfig) (encConfigList : List EncConfig)
    (vppConfigList : List VPPConfig) :
    List ConfigCtxVPL → Bool → Bool → Bool → Bool → Bool
  | [], bImplValid, _, _, _ => bImplValid
  | config :: rest, bImplValid, decRequested, encRequested, vppRequested =>
    validAfter libImplDesc libType decConfigList encConfigList vppConfigList rest
      (bImplValid &&
        passes libImplDesc libType decConfigList encConfigList vppConfigList (cfgPropsOf config)
          (decRequested || requestedBy config ePropDec_CodecID ePropDec_ColorFormats)
          (encRequested || requestedBy config ePropEnc_CodecID ePropEnc_ColorFormats)
          (vppRequested || requestedBy config ePropVPP_FilterFourCC ePropVPP_OutFormat))
      (decRequested || requestedBy config ePropDec_CodecID ePropDec_ColorFormats)
      (encRequested || requestedBy config ePropEnc_CodecID ePropEnc_ColorFormats)
      (vppRequested || requestedBy config ePropVPP_FilterFourCC ePropVPP_OutFormat)

/-- The checks of all contexts pass: `bImplValid` after the loop of `ValidateConfig`. -/
def loopValid (libImplDesc : mfxImplDescription) (libType : LibType)
    (configCtxList : List ConfigCtxVPL) : Bool :=
  validAfter libImplDesc libType (GetFlatDescriptionsDec libImplDesc []).2
    (GetFlatDescriptionsEnc libImplDesc []).2 (GetFlatDescriptionsVPP libImplDesc []).2
    configCtxList true false false false

/-! ## Example inputs -/

/-- The codec identifier `MFX_CODEC_AVC`, the four-character code "AVC ". -/
def MFX_CODEC_AVC : Nat := 0x20435641

/-- The codec identifier `MFX_CODEC_HEVC`, the four-character code "HEVC". -/
def MFX_CODEC_HEVC : Nat := 0x43564548

/-- An AVC decoder with one profile, one memory descriptor and one colour format. -/
def avcCodec : DecCodec :=
  { CodecID := MFX_CODEC_AVC
    MaxcodecLevel := 0
    Profiles := [{ Profile := 0, MemDesc := [{ MemHandleType := 0
                                               Width := { Min := 64, Max := 4096, Step := 2 }
                                               Height := { Min := 64, Max := 4096, Step := 2 }
                                               ColorFormats := [0] }] }] }

/-- A descriptor that declares one decoder, AVC, with API version 2.6 and an empty general
part. -/
def avcOnlyDesc : mfxImplDescription :=
  { Impl := 0
    AccelerationMode := 0
    ApiVersion := { Version := 2 * 2 ^ 16 + 6 }
    ImplName := ""
    License := ""
    Keywords := ""
    VendorID := 0
    VendorImplID := 0
    Dev := { DeviceID := "" }
    Dec := { Codecs := [avcCodec] }
    Enc := { Codecs := [] }
    VPP := { Filters := [] }
    AccelerationModeDescription := { Mode := [] } }

/-- A context whose only set property is the decoder `CodecID`. -/
def ctxDecCodec (codecID : Nat) : ConfigCtxVPL :=
  ConfigCtxVPL.new.withProp ePropDec_CodecID
    { Type_ := MFX_VARIANT_TYPE_U32, Data := .bits codecID }

/-- A context whose only set property is the combined API version `major.minor`. -/
def ctxVersion (major minor : Nat) : ConfigCtxVPL :=
  ConfigCtxVPL.new.withProp ePropMain_ApiVersion
    { Type_ := MFX_VARIANT_TYPE_U32, Data := .bits (major * 2 ^ 16 + minor) }

/-- A `SpecialConfig` with nothing set. -/
def SpecialConfig.empty : SpecialConfig :=
  { deviceHandleType := 0
    bIsSet_deviceHandleType := false
    deviceHandle := mfxHDL.null
    bIsSet_deviceHandle := false
    dxgiAdapterIdx := 0
    bIsSet_dxgiAdapterIdx := false
    accelerationMode := 0
    bIsSet_accelerationMode := false
    ApiVersion := { Version := 0 }
    bIsSet_ApiVersion := false }

/-- A context whose only set property is the `Major` half of the API version. -/
def ctxMajor (major : Nat) : ConfigCtxVPL :=
  ConfigCtxVPL.new.withProp ePropMain_ApiVersion_Major
    { Type_ := MFX_VARIANT_TYPE_U16, Data := .bits major }

/-- A context whose only set property is the `Minor` half of the API version. -/
def ctxMinor (minor : Nat) : ConfigCtxVPL :=
  ConfigCtxVPL.new.withProp ePropMain_ApiVersion_Minor
    { Type_ := MFX_VARIANT_TYPE_U16, Data := .bits minor }

/-- A context whose only set property is the required function name `name`: the setter
marks the slot `PTR` and keeps the name in `m_implFunctionName`. -/
def ctxFunction (name : String) : ConfigCtxVPL :=
  { ConfigCtxVPL.new.withProp ePropFunc_FunctionName
      { Type_ := MFX_VARIANT_TYPE_PTR, Data := .bits 0 } with
    m_implFunctionName := name }

/-- What `CheckPropsGeneral` requires of a descriptor, constraint by constraint: every
constraint that is set agrees with the descriptor (an unset one requires nothing). -/
def GeneralOk (cfgPropsAll : Nat → mfxVariant) (libImplDesc : mfxImplDescription) : Prop :=
  (IsSet cfgPropsAll ePropMain_Impl →
    (cfgPropsAll ePropMain_Impl).Data.U32 = libImplDesc.Impl) ∧
  (IsSet cfgPropsAll ePropMain_VendorID →
    (cfgPropsAll ePropMain_VendorID).Data.U32 = libImplDesc.VendorID) ∧
  (IsSet cfgPropsAll ePropMain_VendorImplID →
    (cfgPropsAll ePropMain_VendorImplID).Data.U32 = libImplDesc.VendorImplID) ∧
  (IsSet cfgPropsAll ePropMain_AccelerationMode →
    if libImplDesc.AccelerationModeDescription.Mode = [] then
      (cfgPropsAll ePropMain_AccelerationMode).Data.U32 = libImplDesc.AccelerationMode
    else
      (cfgPropsAll ePropMain_AccelerationMode).Data.U32 ∈
        libImplDesc.AccelerationModeDescription.Mode) ∧
  (IsSet cfgPropsAll ePropMain_ImplName →
    (cfgPropsAll ePropMain_ImplName).Data.Ptr.derefString = libImplDesc.ImplName) ∧
  (IsSet cfgPropsAll ePropMain_License →
    CheckPropString libImplDesc.License
      (cfgPropsAll ePropMain_License).Data.Ptr.derefString = MFX_ERR_NONE) ∧
  (IsSet cfgPropsAll ePropMain_Keywords →
    CheckPropString libImplDesc.Keywords
      (cfgPropsAll ePropMain_Keywords).Data.Ptr.derefString = MFX_ERR_NONE) ∧
  (IsSet cfgPropsAll ePropDevice_DeviceID →
    ∃ parsed, stoi16 libImplDesc.Dev.DeviceID = some parsed ∧
      (parsed % (2 ^ 32 : Int)).toNat = (cfgPropsAll ePropDevice_DeviceID).Data.U16) ∧
  (IsSet cfgPropsAll ePropDevice_DeviceIDStr →
    (cfgPropsAll ePropDevice_DeviceIDStr).Data.Ptr.derefString = libImplDesc.Dev.DeviceID)

/-- A decimal digit. -/
def isDecDigit (c : Char) : Bool :=
  48 ≤ c.toNat && c.toNat ≤ 57

/-- The format of a device id string: one or more hexadecimal digits, optionally followed
by `/` and one or more decimal digits (the adapter index). These are the two regular
expressions `[0-9a-fA-F]+/[0-9]+` and `[0-9a-fA-F]+` that `ParseDeviceIDx86` matches the
whole string against before it converts it. -/
def WellFormedDeviceID (s : String) : Bool :=
  let hex := s.toList.takeWhile fun c => (hexDigitValue c).isSome
  let rest := s.toList.dropWhile fun c => (hexDigitValue c).isSome
  !hex.isEmpty &&
    (rest.isEmpty || (rest.head? == some '/' && !rest.tail.isEmpty && rest.tail.all isDecDigit))

/-- A constraint array whose only set constraint is the acceleration mode `mode`. -/
def onlyAccelerationMode (mode : Nat) : Nat → mfxVariant :=
  Function.update (fun _ => mfxVariant.unset) ePropMain_AccelerationMode
    { Type_ := MFX_VARIANT_TYPE_U32, Data := .bits mode }

/-- A constraint array whose only set constraint is the 16-bit device id `deviceID`. -/
def onlyDeviceID (deviceID : Nat) : Nat → mfxVariant :=
  Function.update (fun _ => mfxVariant.unset) ePropDevice_DeviceID
    { Type_ := MFX_VARIANT_TYPE_U16, Data := .bits deviceID }

/-- The descriptor `avcOnlyDesc` reporting the device id string `deviceID`. -/
def descWithDeviceID (deviceID : String) : mfxImplDescription :=
  { avcOnlyDesc with Dev := { DeviceID := deviceID } }

/-- The last context of the list, in list order, that sets the property at `idx`. -/
def lastSetter (configCtxList : List ConfigCtxVPL) (idx : Nat) : Option ConfigCtxVPL :=
  (configCtxList.filter fun config => decide (SetsProp config idx)).getLast?

/-- The indices of the six `Width`/`Height` properties with the index of the owned range
that `ValidateAndSetProp` fills for each. -/
def rangeProps : List (Nat × Nat) :=
  [ (ePropDec_Width, PROP_RANGE_DEC_W), (ePropDec_Height, PROP_RANGE_DEC_H),
    (ePropEnc_Width, PROP_RANGE_ENC_W), (ePropEnc_Height, PROP_RANGE_ENC_H),
    (ePropVPP_Width, PROP_RANGE_VPP_W), (ePropVPP_Height, PROP_RANGE_VPP_H) ]

/-- The indices of the four string properties that are read back through their slot, with
the owned string that `ValidateAndSetProp` fills for each. -/
def stringProps : List (Nat × (ConfigCtxVPL → String)) :=
  [ (ePropMain_ImplName, ConfigCtxVPL.m_implName),
    (ePropMain_License, ConfigCtxVPL.m_implLicense),
    (ePropMain_Keywords, ConfigCtxVPL.m_implKeywords),
    (ePropDevice_DeviceIDStr, ConfigCtxVPL.m_deviceIdStr) ]

/-- The statement of owned copies for one call of `ValidateAndSetProp` with the non-null
pointer `p`, as the specification words it: afterwards the slot does not hold an address
of caller memory, and what is read through the slot is the data the caller pointed to at
the time of the call, whatever the memory of the caller holds later. -/
def OwnedCopy (ctx : ConfigCtxVPL) (mem : CallerMem) (idx : Nat) (p : mfxHDL) : Prop :=
  (∀ a, ((ValidateAndSetProp ctx mem idx
      { Type_ := MFX_VARIANT_TYPE_PTR, Data := .ptr p }).2.m_propVar idx).Data.Ptr ≠
        mfxHDL.handle a) ∧
  (∀ later : CallerMem, (((ValidateAndSetProp ctx mem idx
      { Type_ := MFX_VARIANT_TYPE_PTR, Data := .ptr p }).2.m_propVar idx).Data.Ptr).load later =
        p.load mem)

/-- A caller memory with a range at address 1 and the string `vaDisplay` at address 2. -/
def callerMem : CallerMem := fun a =>
  if a = 1 then MemObj.range { Min := 64, Max := 4096, Step := 8 }
  else if a = 2 then MemObj.cstr "vaDisplay"
  else MemObj.other

/-- The memory `callerMem` after the caller has overwritten the string at address 2. -/
def callerMemLater : CallerMem := fun a =>
  if a = 1 then MemObj.range { Min := 64, Max := 4096, Step := 8 }
  else if a = 2 then MemObj.cstr "overwritten"
  else MemObj.other

/-- A context whose `License` slot already holds a value. -/
def ctxLicense : ConfigCtxVPL :=
  ConfigCtxVPL.new.withProp ePropMain_License
    { Type_ := MFX_VARIANT_TYPE_PTR, Data := .ptr (.str "MIT") }

/-- The paths below `mfxDecoderDescription`, each with the index it resolves to. -/
def decPaths : List (List String × Nat) :=
  [ (["decoder", "CodecID"], ePropDec_CodecID),
    (["decoder", "MaxcodecLevel"], ePropDec_MaxcodecLevel),
    (["decoder", "decprofile", "Profile"], ePropDec_Profile),
    (["decoder", "decprofile", "decmemdesc", "MemHandleType"], ePropDec_MemHandleType),
    (["decoder", "decprofile", "decmemdesc", "Width"], ePropDec_Width),
    (["decoder", "decprofile", "decmemdesc", "Height"], ePropDec_Height),
    (["decoder", "decprofile", "decmemdesc", "ColorFormat"], ePropDec_ColorFormats),
    (["decoder", "decprofile", "decmemdesc", "ColorFormats"], ePropDec_ColorFormats) ]

/-- The paths below `mfxEncoderDescription`, each with the index it resolves to. -/
def encPaths : List (List String × Nat) :=
  [ (["encoder", "CodecID"], ePropEnc_CodecID),
    (["encoder", "MaxcodecLevel"], ePropEnc_MaxcodecLevel),
    (["encoder", "BiDirectionalPrediction"], ePropEnc_BiDirectionalPrediction),
    (["encoder", "encprofile", "Profile"], ePropEnc_Profile),
    (["encoder", "encprofile", "encmemdesc", "MemHandleType"], ePropEnc_MemHandleType),
    (["encoder", "encprofile", "encmemdesc", "Width"], ePropEnc_Width),
    (["encoder", "encprofile", "encmemdesc", "Height"], ePropEnc_Height),
    (["encoder", "encprofile", "encmemdesc", "ColorFormat"], ePropEnc_ColorFormats),
    (["encoder", "encprofile", "encmemdesc", "ColorFormats"], ePropEnc_ColorFormats) ]

/-- The paths below `mfxVPPDescription`, each with the index it resolves to. -/
def vppPaths : List (List String × Nat) :=
  [ (["filter", "FilterFourCC"], ePropVPP_FilterFourCC),
    (["filter", "MaxDelayInFrames"], ePropVPP_MaxDelayInFrames),
    (["filter", "memdesc", "MemHandleType"], ePropVPP_MemHandleType),
    (["filter", "memdesc", "Width"], ePropVPP_Width),
    (["filter", "memdesc", "Height"], ePropVPP_Height),
    (["filter", "memdesc", "format", "InFormat"], ePropVPP_InFormat),
    (["filter", "memdesc", "format", "OutFormat"], ePropVPP_OutFormat),
    (["filter", "memdesc", "format", "OutFormats"], ePropVPP_OutFormat) ]

/-- The slot a device id path resolves to: the string form for a pointer value, the 16-bit
numeric form otherwise. -/
def deviceIDSlot (type : mfxVariantType) : Nat :=
  if type = MFX_VARIANT_TYPE_PTR then ePropDevice_DeviceIDStr else ePropDevice_DeviceID

/-- The paths below `mfxImplDescription`, each with the index it resolves to for a value of
the given `Type`. -/
def implDescriptionPaths (type : mfxVariantType) : List (List String × Nat) :=
  [ (["Impl"], ePropMain_Impl),
    (["AccelerationMode"], ePropMain_AccelerationMode),
    (["ApiVersion", "Version"], ePropMain_ApiVersion),
    (["ApiVersion", "Major"], ePropMain_ApiVersion_Major),
    (["ApiVersion", "Minor"], ePropMain_ApiVersion_Minor),
    (["VendorID"], ePropMain_VendorID),
    (["ImplName"], ePropMain_ImplName),
    (["License"], ePropMain_License),
    (["Keywords"], ePropMain_Keywords),
    (["VendorImplID"], ePropMain_VendorImplID),
    (["mfxDeviceDescription", "DeviceID"], deviceIDSlot type),
    (["mfxDeviceDescription", "device", "DeviceID"], deviceIDSlot type) ] ++
  decPaths.map (fun e => ("mfxDecoderDescription" :: e.1, e.2)) ++
  encPaths.map (fun e => ("mfxEncoderDescription" :: e.1, e.2)) ++
  vppPaths.map (fun e => ("mfxVPPDescription" :: e.1, e.2))

/-- The grammar of property paths as the list of the recognised full paths, each with the
index it resolves to for a value of the given `Type`: the special paths, with the adapter
index on Windows only, and the paths below the root section `mfxImplDescription`. A path
gets stuck at some level of the grammar (its next segment is absent or outside the
vocabulary of the level) exactly when none of these full paths is a prefix of it. -/
def recognisedPaths (isWindows : Bool) (type : mfxVariantType) : List (List String × Nat) :=
  [ (["mfxHandleType"], ePropSpecial_HandleType),
    (["mfxHDL"], ePropSpecial_Handle) ] ++
  (if isWindows = true then [(["DXGIAdapterIndex"], ePropSpecial_DXGIAdapterIndex)] else []) ++
  [ (["mfxImplementedFunctions", "FunctionsName"], ePropFunc_FunctionName) ] ++
  (implDescriptionPaths type).map (fun e => ("mfxImplDescription" :: e.1, e.2))

/-- The decoder section has a complete root-to-leaf combination: a codec with a profile
with a memory descriptor with a colour format. -/
def HasDecLeaf (libImplDesc : mfxImplDescription) : Prop :=
  ∃ codec ∈ libImplDesc.Dec.Codecs, ∃ prof ∈ codec.Profiles, ∃ md ∈ prof.MemDesc,
    ∃ cf, cf ∈ md.ColorFormats

/-- The encoder section has a complete root-to-leaf combination. -/
def HasEncLeaf (libImplDesc : mfxImplDescription) : Prop :=
  ∃ codec ∈ libImplDesc.Enc.Codecs, ∃ prof ∈ codec.Profiles, ∃ md ∈ prof.MemDesc,
    ∃ cf, cf ∈ md.ColorFormats

/-- The filter section has a complete root-to-leaf combination: a filter with a memory
descriptor with an input format with an output format. -/
def HasVPPLeaf (libImplDesc : mfxImplDescription) : Prop :=
  ∃ filter ∈ libImplDesc.VPP.Filters, ∃ md ∈ filter.MemDesc, ∃ fmt ∈ md.Formats,
    ∃ out, out ∈ fmt.OutFormats

/-- A descriptor that declares one decoder codec, which has no profile. -/
def noProfileDesc : mfxImplDescription :=
  { avcOnlyDesc with
    Dec := { Codecs := [{ CodecID := MFX_CODEC_AVC, MaxcodecLevel := 0, Profiles := [] }] } }

/-- The single context that holds the constraints of both `a` and `b`: slot by slot, the
slot of `a` when `a` sets it and the slot of `b` otherwise (the owned ranges and strings are
reached through the slots; the required function name follows its slot). -/
def ConfigCtxVPL.union (a b : ConfigCtxVPL) : ConfigCtxVPL :=
  { a with
    m_propVar := fun idx => if SetsProp a idx then a.m_propVar idx else b.m_propVar idx
    m_implFunctionName :=
      if SetsProp a ePropFunc_FunctionName then a.m_implFunctionName
      else b.m_implFunctionName }

/-- A context whose only set property is the decoder `Profile`. -/
def ctxDecProfile (profile : Nat) : ConfigCtxVPL :=
  ConfigCtxVPL.new.withProp ePropDec_Profile
    { Type_ := MFX_VARIANT_TYPE_U32, Data := .bits profile }

/-- A decoder codec with the given identifier and one profile, with one memory descriptor
and one colour format. -/
def codecWithProfile (codecID profile : Nat) : DecCodec :=
  { CodecID := codecID
    MaxcodecLevel := 0
    Profiles := [{ Profile := profile, MemDesc := [{ MemHandleType := 0
                                                     Width := { Min := 64, Max := 4096, Step := 2 }
                                                     Height := { Min := 64, Max := 4096, Step := 2 }
                                                     ColorFormats := [0] }] }] }

/-- A descriptor with two decoders: AVC with profile 77 and HEVC with profile 2. -/
def twoCodecDesc : mfxImplDescription :=
  { avcOnlyDesc with
    Dec := { Codecs := [codecWithProfile MFX_CODEC_AVC 77, codecWithProfile MFX_CODEC_HEVC 2] } }

/-- The path with the plural of its leaf name: the letter `s` appended to the last
segment. -/
def pluralPath (path : List String) : List String :=
  path.dropLast ++ [path.getLast?.getD "" ++ "s"]

/-- The two spellings of the device id path: without and with the legacy `device`
segment. -/
def deviceIDNames : List String :=
  [ "mfxImplDescription.mfxDeviceDescription.DeviceID",
    "mfxImplDescription.mfxDeviceDescription.device.DeviceID" ]

/-- The slot tag invariant of a context: for every index in range, the `Type` of the slot
is `UNSET` or the type that `PropIdxTab` declares for the index. -/
def SlotTagInv (ctx : ConfigCtxVPL) : Prop :=
  ∀ idx, idx < eProp_TotalProps →
    (ctx.m_propVar idx).Type_ = MFX_VARIANT_TYPE_UNSET ∨
      (ctx.m_propVar idx).Type_ = propType idx

/-- One call that sets a property of a context, with the memory of the caller at the time
of the call: `ValidateAndSetProp(idx, value)` or `SetFilterProperty(name, value)`. -/
inductive SetterCall
  | validateAndSet (mem : CallerMem) (idx : Int) (value : mfxVariant)
  | setFilter (mem : CallerMem) (name : Option String) (value : mfxVariant)

/-- The context after one call; the status the call returns is dropped. -/
def SetterCall.run (isWindows : Bool) (ctx : ConfigCtxVPL) : SetterCall → ConfigCtxVPL
  | .validateAndSet mem idx value => (ValidateAndSetProp ctx mem idx value).2
  | .setFilter mem name value => (SetFilterProperty ctx mem isWindows name value).2

/-- The context after a sequence of calls, in order. -/
def runCalls (isWindows : Bool) (ctx : ConfigCtxVPL) (calls : List SetterCall) : ConfigCtxVPL :=
  calls.foldl (SetterCall.run isWindows) ctx

/-! ## The device id parser (`ParseDeviceIDx86`) -/

/-- The library call `std::stoi(str)`, base 10 (see `stoi16`): leading white space, an
optional sign, then the longest run of decimal digits; `none` stands for a thrown
exception. -/
def stoi10 (str : String) : Option Int :=
  let signed := stoiSign (str.toList.dropWhile isspace)
  let digits := signed.2.takeWhile isDecDigit
  if digits = [] then none
  else
    let magnitude : Nat := digits.foldl (fun acc c => acc * 10 + (c.toNat - 48)) 0
    let value : Int := if signed.1 then -(magnitude : Int) else (magnitude : Int)
    if value < -(2 ^ 31 : Int) ∨ value > (2 ^ 31 - 1 : Int) then none else some value

/-- The call `std::regex_match(strDevID, reDevIDMin)` for the regular expression
`[0-9a-fA-F]+`: the whole string is one or more hexadecimal digits. -/
def reDevIDMin (strDevID : List Char) : Bool :=
  !strDevID.isEmpty && strDevID.all fun c => (hexDigitValue c).isSome

/-- The call `std::regex_match(strDevID, reDevIDAll)` for the regular expression
`[0-9a-fA-F]+/[0-9]+`: the whole string is one or more hexadecimal digits, then `/`, then
one or more decimal digits. As `/` is not a hexadecimal digit, the first part is the
longest run of hexadecimal digits at the start. -/
def reDevIDAll (strDevID : List Char) : Bool :=
  let hex := strDevID.takeWhile fun c => (hexDigitValue c).isSome
  let rest := strDevID.dropWhile fun c => (hexDigitValue c).isSome
  !hex.isEmpty && rest.head? == some '/' && !rest.tail.isEmpty && rest.tail.all isDecDigit

/-- The call `str.rfind(c)`: the index of the last occurrence of `c`, `none` for
`std::string::npos`. -/
def rfind (c : Char) : List Char → Option Nat
  | [] => none
  | x :: xs =>
    match rfind c xs with
    | some idx => some (idx + 1)
    | none => if x = c then some 0 else none

/-- The function `ConfigCtxVPL::ParseDeviceIDx86(cDeviceID, deviceID, adapterIdx)`: the
returned flag with the two outputs `deviceID` and `adapterIdx` (32-bit unsigned). The
constants `DEVICE_ID_UNKNOWN` and `ADAPTER_IDX_UNKNOWN`, defined in a header outside the
sources, are parameters. -/
def ParseDeviceIDx86 (DEVICE_ID_UNKNOWN ADAPTER_IDX_UNKNOWN : Nat) (cDeviceID : String) :
    Bool × Nat × Nat :=
  let strDevID := cDeviceID.toList
  let deviceID := DEVICE_ID_UNKNOWN
  let adapterIdx := ADAPTER_IDX_UNKNOWN
  if reDevIDAll strDevID = true ∨ reDevIDMin strDevID = true then
    let bHasAdapterIdx := reDevIDAll strDevID
    match stoi16 cDeviceID with
    | none => (false, deviceID, adapterIdx)
    | some parsed =>
      let deviceID := (parsed % (2 ^ 32 : Int)).toNat
      if bHasAdapterIdx = true then
        match rfind '/' strDevID with
        | none => (false, deviceID, adapterIdx)
        | some idx =>
          match stoi10 (String.mk (strDevID.drop (idx + 1))) with
          | none => (false, deviceID, adapterIdx)
          | some parsedIdx => (true, deviceID, (parsedIdx % (2 ^ 32 : Int)).toNat)
      else (true, deviceID, adapterIdx)
  else (false, deviceID, adapterIdx)

/-- One or more hexadecimal digits. -/
def IsHexDigits (digits : List Char) : Prop :=
  digits ≠ [] ∧ ∀ c ∈ digits, (hexDigitValue c).isSome = true

instance (digits : List Char) : Decidable (IsHexDigits digits) := by
  unfold IsHexDigits; infer_instance

/-- One or more decimal digits. -/
def IsDecDigits (digits : List Char) : Prop :=
  digits ≠ [] ∧ ∀ c ∈ digits, isDecDigit c = true

instance (digits : List Char) : Decidable (IsDecDigits digits) := by
  unfold IsDecDigits; infer_instance

/-- The base-16 value of a string of hexadecimal digits. -/
def hexValue (digits : List Char) : Nat :=
  digits.foldl (fun acc c => acc * 16 + (hexDigitValue c).getD 0) 0

/-- The base-10 value of a string of decimal digits. -/
def decValue (digits : List Char) : Nat :=
  digits.foldl (fun acc c => acc * 10 + (c.toNat - 48)) 0

/-- The two grammars of a device id string: hexadecimal digits alone, or hexadecimal digits
followed by `/` and decimal digits. -/
def DeviceIDShape (s : List Char) : Prop :=
  IsHexDigits s ∨ ∃ H D, IsHexDigits H ∧ IsDecDigits D ∧ s = H ++ '/' :: D

/-! ## The variant of `ValidateConfig` with per-context flags -/

/-- The variant of `ctxStep` in which `decRequested`, `encRequested` and `vppRequested` are
recomputed from scratch for each context: they are reset to `false` at the head of the
iteration, and the rest of the iteration is the one of the source. -/
def ctxStepFreshFlags (libImplDesc : mfxImplDescription) (libType : LibType)
    (decConfigList : List DecConfig) (encConfigList : List EncConfig)
    (vppConfigList : List VPPConfig) (v : ValidateLocals) (config : ConfigCtxVPL) :
    ValidateLocals :=
  ctxStep libImplDesc libType decConfigList encConfigList vppConfigList
    { v with decRequested := false, encRequested := false, vppRequested := false } config

/-- The loop over the contexts with the flags recomputed for each context. -/
def validateLoopFreshFlags (libImplDesc : mfxImplDescription) (libType : LibType)
    (decConfigList : List DecConfig) (encConfigList : List EncConfig)
    (vppConfigList : List VPPConfig) (configCtxList : List ConfigCtxVPL) (v : ValidateLocals) :
    ValidateLocals :=
  configCtxList.foldl
    (ctxStepFreshFlags libImplDesc libType decConfigList encConfigList vppConfigList) v

/-- The variant of `ValidateConfig` in which the three flags are recomputed from scratch
for each context; everything else is as in `ValidateConfig`. -/
def ValidateConfigFreshFlags (libImplDesc : Option mfxImplDescription)
    (libImplFuncs : Option mfxImplementedFunctions) (configCtxList : List ConfigCtxVPL)
    (libType : LibType) (specialConfig : SpecialConfig) : mfxStatus × SpecialConfig :=
  match libImplDesc with
  | none => (MFX_ERR_NULL_PTR, specialConfig)
  | some libImplDesc =>
    let decConfigList := (GetFlatDescriptionsDec libImplDesc []).2
    let encConfigList := (GetFlatDescriptionsEnc libImplDesc []).2
    let vppConfigList := (GetFlatDescriptionsVPP libImplDesc []).2
    let v := validateLoopFreshFlags libImplDesc libType decConfigList encConfigList
      vppConfigList configCtxList (ValidateLocals.init specialConfig)
    validateTail libImplDesc libImplFuncs v

/-- Whether one context passes the checks on its own: against the general part and against
the categories in which it sets a constraint itself. -/
def passesAlone (libImplDesc : mfxImplDescription) (libType : LibType)
    (decConfigList : List DecConfig) (encConfigList : List EncConfig)
    (vppConfigList : List VPPConfig) (config : ConfigCtxVPL) : Bool :=
  passes libImplDesc libType decConfigList encConfigList vppConfigList (cfgPropsOf config)
    (requestedBy config ePropDec_CodecID ePropDec_ColorFormats)
    (requestedBy config ePropEnc_CodecID ePropEnc_ColorFormats)
    (requestedBy config ePropVPP_FilterFourCC ePropVPP_OutFormat)

/-! # Properties -/

/-! ## The flattening loop is the nested traversal -/

section FlattenLemmas

variable {A B C D R : Type}

theorem restAt_full {α β : Type} (l : List α) (i : Nat) (g : α → List β) :
    restAt l i g g = (l.drop i).flatMap g := by
  unfold restAt
  by_cases h : i < l.length
  · rw [List.getElem?_eq_getElem h, List.drop_eq_getElem_cons h]; rfl
  · have hle : l.length ≤ i := Nat.le_of_not_lt h
    rw [List.getElem?_eq_none hle, List.drop_eq_nil_of_le hle]; rfl

theorem restAt_lt {α β : Type} (l : List α) (i : Nat) (head g : α → List β)
    (h : i < l.length) :
    restAt l i head g = head l[i] ++ (l.drop (i + 1)).flatMap g := by
  unfold restAt; rw [List.getElem?_eq_getElem h]

theorem restAt_ge {α β : Type} (l : List α) (i : Nat) (head g : α → List β)
    (h : l.length ≤ i) : restAt l i head g = [] := by
  unfold restAt; rw [List.getElem?_eq_none h]

theorem flatRest_zero (roots : List A) (k1 : A → List B) (k2 : B → List C) (k3 : C → List D)
    (mk : A → B → C → D → R) (i0 : Nat) :
    flatRest roots k1 k2 k3 mk i0 0 0 0 = (roots.drop i0).flatMap fun a =>
        (k1 a).flatMap fun b => (k2 b).flatMap fun c => (k3 c).map (mk a b c) := by
  unfold flatRest
  simp only [List.drop_zero, restAt_full]

theorem flatLoop_eq_rest (roots : List A) (k1 : A → List B) (k2 : B → List C) (k3 : C → List D)
    (mk : A → B → C → D → R) (i0 i1 i2 i3 : Nat) (out : List R) :
    OdoInv roots k1 k2 k3 i0 i1 i2 i3 →
    flatLoop roots k1 k2 k3 mk i0 i1 i2 i3 out = out ++ flatRest roots k1 k2 k3 mk i0 i1 i2 i3 := by
  refine flatLoop.induct roots k1 k2 k3 mk
    (motive := fun i0 i1 i2 i3 out => OdoInv roots k1 k2 k3 i0 i1 i2 i3 →
      flatLoop roots k1 k2 k3 mk i0 i1 i2 i3 out
        = out ++ flatRest roots k1 k2 k3 mk i0 i1 i2 i3)
    ?_ ?_ ?_ ?_ ?_ ?_ ?_ ?_ i0 i1 i2 i3 out
  · intro i0 i2 i3 out h0 ih inv
    obtain ⟨_, hz, _⟩ := inv h0
    obtain ⟨rfl, rfl⟩ := hz rfl
    rw [flatLoop, dif_pos h0, if_pos rfl, ih, flatRest_zero]
    · unfold flatRest
      rw [restAt_lt _ _ _ _ h0, restAt_ge _ _ _ _ (le_refl _), List.nil_append]
    · intro h; simp
  · intro i0 i1 i3 out h0 hne h1 ih inv
    obtain ⟨_, _, hin⟩ := inv h0
    obtain ⟨_, hz, _⟩ := hin h1
    obtain rfl := hz rfl
    rw [flatLoop, dif_pos h0, if_neg hne, dif_pos h1, if_pos rfl, ih]
    · unfold flatRest
      rw [restAt_lt _ _ _ _ h0, restAt_lt _ _ _ _ h0, restAt_lt _ _ _ _ h1,
        restAt_ge _ _ _ _ (le_refl _)]
      simp only [List.drop_zero, restAt_full, List.nil_append]
    · intro h; refine ⟨by omega, by omega, ?_⟩; intro h1'; simp
  · intro i0 i1 i2 out h0 hne1 h1 hne2 h2 ih inv
    rw [flatLoop, dif_pos h0, if_neg hne1, dif_pos h1, if_neg hne2, dif_pos h2, if_pos rfl, ih]
    · unfold flatRest
      rw [restAt_lt _ _ _ _ h0, restAt_lt _ _ _ _ h0, restAt_lt _ _ _ _ h1,
        restAt_lt _ _ _ _ h1, restAt_lt _ _ _ _ h2, List.drop_eq_nil_of_le (le_refl _)]
      simp only [List.drop_zero, restAt_full, List.map_nil, List.nil_append]
    · intro h; refine ⟨by omega, by omega, ?_⟩; intro h1'
      refine ⟨by omega, by omega, ?_⟩; intro h2'; simp
  · intro i0 i1 i2 i3 out h0 hne1 h1 hne2 h2 hne3 h3 ih inv
    rw [flatLoop, dif_pos h0, if_neg hne1, dif_pos h1, if_neg hne2, dif_pos h2, if_neg hne3,
      dif_pos h3, ih]
    · unfold flatRest
      rw [restAt_lt _ _ _ _ h0, restAt_lt _ _ _ _ h0, restAt_lt _ _ _ _ h1,
        restAt_lt _ _ _ _ h1, restAt_lt _ _ _ _ h2, restAt_lt _ _ _ _ h2,
        List.drop_eq_getElem_cons h3]
      simp only [List.map_cons, List.append_assoc, List.singleton_append, List.cons_append,
        List.nil_append]
    · intro h; refine ⟨by omega, by omega, ?_⟩; intro h1'
      refine ⟨by omega, by omega, ?_⟩; intro h2'; omega
  · intro i0 i1 i2 i3 out h0 hne1 h1 hne2 h2 hne3 h3 inv
    obtain ⟨_, _, hin⟩ := inv h0
    obtain ⟨_, _, hin2⟩ := hin h1
    have := hin2 h2
    omega
  · intro i0 i1 i2 i3 out h0 hne1 h1 hne2 h2 inv
    obtain ⟨_, _, hin⟩ := inv h0
    obtain ⟨_, _, _⟩ := hin h1
    omega
  · intro i0 i1 i2 i3 out h0 hne1 h1 inv
    obtain ⟨_, _, _⟩ := inv h0
    omega
  · intro i0 i1 i2 i3 out h0 _
    rw [flatLoop, dif_neg h0]
    unfold flatRest
    rw [restAt_ge _ _ _ _ (by omega), List.append_nil]

theorem flatLoop_eq_nested (roots : List A) (k1 : A → List B) (k2 : B → List C)
    (k3 : C → List D) (mk : A → B → C → D → R) (out : List R) :
    flatLoop roots k1 k2 k3 mk 0 0 0 0 out = out ++ flatNested roots k1 k2 k3 mk := by
  rw [flatLoop_eq_rest, flatRest_zero, List.drop_zero]; rfl
  intro h; simp

theorem length_flatMap_const {α β : Type} (l : List α) (g : α → List β) (k : Nat)
    (h : ∀ x ∈ l, (g x).length = k) : (l.flatMap g).length = l.length * k := by
  induction l with
  | nil => simp
  | cons x xs ih =>
    rw [List.flatMap_cons, List.length_append, h x (List.mem_cons_self _ _),
      ih (fun y hy => h y (List.mem_cons_of_mem _ hy)), List.length_cons]
    ring

end FlattenLemmas

theorem GetFlatDescriptionsDec_nil (libImplDesc : mfxImplDescription) :
    (GetFlatDescriptionsDec libImplDesc []).2 =
      flatNested libImplDesc.Dec.Codecs (fun decCodec => decCodec.Profiles)
        (fun decProfile => decProfile.MemDesc) (fun decMemDesc => decMemDesc.ColorFormats)
        mkDecConfig := by
  unfold GetFlatDescriptionsDec
  simp only [flatLoop_eq_nested, List.nil_append]
  split <;> rfl

theorem GetFlatDescriptionsEnc_nil (libImplDesc : mfxImplDescription) :
    (GetFlatDescriptionsEnc libImplDesc []).2 =
      flatNested libImplDesc.Enc.Codecs (fun encCodec => encCodec.Profiles)
        (fun encProfile => encProfile.MemDesc) (fun encMemDesc => encMemDesc.ColorFormats)
        mkEncConfig := by
  unfold GetFlatDescriptionsEnc
  simp only [flatLoop_eq_nested, List.nil_append]
  split <;> rfl

theorem GetFlatDescriptionsVPP_nil (libImplDesc : mfxImplDescription) :
    (GetFlatDescriptionsVPP libImplDesc []).2 =
      flatNested libImplDesc.VPP.Filters (fun vppFilter => vppFilter.MemDesc)
        (fun vppMemDesc => vppMemDesc.Formats) (fun vppFormat => vppFormat.OutFormats)
        mkVPPConfig := by
  unfold GetFlatDescriptionsVPP
  simp only [flatLoop_eq_nested, List.nil_append]
  split <;> rfl

/-- C5: for every descriptor, `GetFlatDescriptionsDec/Enc/VPP` called with an empty list
(they are total functions, so each call returns) produce exactly the list of four nested
loops in index order (codec, profile, memory descriptor, colour format; for VPP filter,
memory descriptor, input format, output format), each record carrying the scalar fields
of the node at each level and the leaf value. -/
theorem C5_flatten_eq_nested_loops (libImplDesc : mfxImplDescription) :
    (GetFlatDescriptionsDec libImplDesc []).2 =
      (libImplDesc.Dec.Codecs.flatMap fun codec =>
        codec.Profiles.flatMap fun prof =>
          prof.MemDesc.flatMap fun md =>
            md.ColorFormats.map fun cf =>
              ({ CodecID := codec.CodecID, MaxcodecLevel := codec.MaxcodecLevel,
                 Profile := prof.Profile, MemHandleType := md.MemHandleType,
                 Width := md.Width, Height := md.Height, ColorFormat := cf } : DecConfig)) ∧
    (GetFlatDescriptionsEnc libImplDesc []).2 =
      (libImplDesc.Enc.Codecs.flatMap fun codec =>
        codec.Profiles.flatMap fun prof =>
          prof.MemDesc.flatMap fun md =>
            md.ColorFormats.map fun cf =>
              ({ CodecID := codec.CodecID, MaxcodecLevel := codec.MaxcodecLevel,
                 BiDirectionalPrediction := codec.BiDirectionalPrediction,
                 Profile := prof.Profile, MemHandleType := md.MemHandleType,
                 Width := md.Width, Height := md.Height, ColorFormat := cf } : EncConfig)) ∧
    (GetFlatDescriptionsVPP libImplDesc []).2 =
      (libImplDesc.VPP.Filters.flatMap fun filter =>
        filter.MemDesc.flatMap fun md =>
          md.Formats.flatMap fun fmt =>
            fmt.OutFormats.map fun outFmt =>
              ({ FilterFourCC := filter.FilterFourCC, MaxDelayInFrames := filter.MaxDelayInFrames,
                 MemHandleType := md.MemHandleType, Width := md.Width, Height := md.Height,
                 InFormat := fmt.InFormat, OutFormat := outFmt } : VPPConfig)) := by
  refine ⟨?_, ?_, ?_⟩
  · rw [GetFlatDescriptionsDec_nil]; rfl
  · rw [GetFlatDescriptionsEnc_nil]; rfl
  · rw [GetFlatDescriptionsVPP_nil]; rfl

theorem mem_flatNested_dec (libImplDesc : mfxImplDescription) (r : DecConfig) :
    r ∈ (GetFlatDescriptionsDec libImplDesc []).2 ↔
      ∃ codec ∈ libImplDesc.Dec.Codecs, ∃ prof ∈ codec.Profiles, ∃ md ∈ prof.MemDesc,
        ∃ cf ∈ md.ColorFormats, r = mkDecConfig codec prof md cf := by
  rw [GetFlatDescriptionsDec_nil]
  unfold flatNested
  simp only [List.mem_flatMap, List.mem_map]
  constructor
  · rintro ⟨codec, hc, prof, hp, md, hm, cf, hf, rfl⟩
    exact ⟨codec, hc, prof, hp, md, hm, cf, hf, rfl⟩
  · rintro ⟨codec, hc, prof, hp, md, hm, cf, hf, rfl⟩
    exact ⟨codec, hc, prof, hp, md, hm, cf, hf, rfl⟩

theorem nodup_flatNested_dec (libImplDesc : mfxImplDescription)
    (hd : DecDistinct libImplDesc) : (GetFlatDescriptionsDec libImplDesc []).2.Nodup := by
  rw [GetFlatDescriptionsDec_nil]
  unfold flatNested
  obtain ⟨hcodecs, hrest⟩ := hd
  rw [List.nodup_flatMap]
  refine ⟨fun codec hc => ?_, ?_⟩
  · obtain ⟨hprofs, hrest2⟩ := hrest codec hc
    rw [List.nodup_flatMap]
    refine ⟨fun prof hp => ?_, ?_⟩
    · obtain ⟨hmems, hfmts⟩ := hrest2 prof hp
      rw [List.nodup_flatMap]
      refine ⟨fun md hm => ?_, ?_⟩
      · refine List.Nodup.map ?_ (hfmts md hm)
        intro x y hxy
        simpa [mkDecConfig] using hxy
      · refine hmems.imp ?_
        intro a b hab
        simp only [Function.onFun]
        rw [List.disjoint_left]
        intro r ha hb
        simp only [List.mem_map] at ha hb
        obtain ⟨x, _, rfl⟩ := ha
        obtain ⟨y, _, hy⟩ := hb
        apply hab
        simp only [mkDecConfig, DecConfig.mk.injEq] at hy
        simp [hy.2.2.2.1, hy.2.2.2.2.1, hy.2.2.2.2.2.1]
    · refine hprofs.imp ?_
      intro a b hab
      simp only [Function.onFun]
      rw [List.disjoint_left]
      intro r ha hb
      simp only [List.mem_flatMap, List.mem_map] at ha hb
      obtain ⟨_, _, x, _, rfl⟩ := ha
      obtain ⟨_, _, y, _, hy⟩ := hb
      apply hab
      simp only [mkDecConfig, DecConfig.mk.injEq] at hy
      exact hy.2.2.1.symm
  · refine hcodecs.imp ?_
    intro a b hab
    simp only [Function.onFun]
    rw [List.disjoint_left]
    intro r ha hb
    simp only [List.mem_flatMap, List.mem_map] at ha hb
    obtain ⟨_, _, _, _, x, _, rfl⟩ := ha
    obtain ⟨_, _, _, _, y, _, hy⟩ := hb
    apply hab
    simp only [mkDecConfig, DecConfig.mk.injEq] at hy
    simp [hy.1, hy.2.1]

theorem length_flatNested_dec (libImplDesc : mfxImplDescription) (c p m f : Nat)
    (hu : DecUniform libImplDesc c p m f) :
    (GetFlatDescriptionsDec libImplDesc []).2.length = c * p * m * f := by
  rw [GetFlatDescriptionsDec_nil]
  unfold flatNested
  obtain ⟨hc, hrest⟩ := hu
  have h3 : ∀ codec ∈ libImplDesc.Dec.Codecs, ∀ prof ∈ codec.Profiles,
      (prof.MemDesc.flatMap fun md => md.ColorFormats.map (mkDecConfig codec prof md)).length
        = m * f := by
    intro codec hcodec prof hprof
    obtain ⟨hm, hf⟩ := (hrest codec hcodec).2 prof hprof
    rw [length_flatMap_const _ _ f, hm]
    intro md hmd
    rw [List.length_map, hf md hmd]
  have h2 : ∀ codec ∈ libImplDesc.Dec.Codecs,
      (codec.Profiles.flatMap fun prof =>
        prof.MemDesc.flatMap fun md => md.ColorFormats.map (mkDecConfig codec prof md)).length
        = p * (m * f) := by
    intro codec hcodec
    rw [length_flatMap_const _ _ (m * f) (h3 codec hcodec), (hrest codec hcodec).1]
  rw [length_flatMap_const _ _ (p * (m * f)) h2, hc]
  ring

/-- C6 as stated fails: the descriptor `dupFormatDesc` is uniform with 1 codec, 1 profile,
1 memory descriptor and 2 colour formats, but its two flat records are equal, not
distinct. -/
theorem C6_counterexample :
    DecUniform dupFormatDesc 1 1 1 2 ∧
      ¬ ((GetFlatDescriptionsDec dupFormatDesc []).2.length = 1 * 1 * 1 * 2 ∧
          (GetFlatDescriptionsDec dupFormatDesc []).2.Nodup) := by
  refine ⟨by decide, ?_⟩
  rw [GetFlatDescriptionsDec_nil]
  decide

/-- C6 (amended): for a decode descriptor with `c` codecs, each with `p` profiles, each
with `m` memory descriptors, each with `f` colour formats, `GetFlatDescriptionsDec` called
with an empty list yields exactly `c*p*m*f` records, one per index combination, each a
valid combination drawn from the tree; the records are pairwise distinct when no level of
the tree lists the same entry twice. -/
theorem C6_flatten_count_valid (libImplDesc : mfxImplDescription) (c p m f : Nat)
    (hu : DecUniform libImplDesc c p m f) :
    (GetFlatDescriptionsDec libImplDesc []).2.length = c * p * m * f ∧
    (∀ r ∈ (GetFlatDescriptionsDec libImplDesc []).2,
      ∃ codec ∈ libImplDesc.Dec.Codecs, ∃ prof ∈ codec.Profiles, ∃ md ∈ prof.MemDesc,
        ∃ cf ∈ md.ColorFormats,
          r = { CodecID := codec.CodecID, MaxcodecLevel := codec.MaxcodecLevel,
                Profile := prof.Profile, MemHandleType := md.MemHandleType,
                Width := md.Width, Height := md.Height, ColorFormat := cf }) ∧
    (DecDistinct libImplDesc → (GetFlatDescriptionsDec libImplDesc []).2.Nodup) :=
  ⟨length_flatNested_dec libImplDesc c p m f hu,
    fun r hr => (mem_flatNested_dec libImplDesc r).1 hr,
    nodup_flatNested_dec libImplDesc⟩

/-- Witness for C6: the descriptor `twoFormatDesc` (1 codec, 1 profile, 1 memory descriptor,
colour formats 1 and 2) yields 2 records, valid and distinct. -/
theorem C6_flatten_count_valid_witness :
    DecUniform twoFormatDesc 1 1 1 2 ∧ DecDistinct twoFormatDesc ∧
      (GetFlatDescriptionsDec twoFormatDesc []).2.length = 1 * 1 * 1 * 2 ∧
      (GetFlatDescriptionsDec twoFormatDesc []).2.Nodup :=
  ⟨by decide, by decide, (C6_flatten_count_valid twoFormatDesc 1 1 1 2 (by decide)).1,
    (C6_flatten_count_valid twoFormatDesc 1 1 1 2 (by decide)).2.2 (by decide)⟩

/-! ## The category checks -/

theorem CHECK_PROP_eq_true (cfgPropsAll : Nat → mfxVariant) (idx : Nat)
    (type : mfxVariantData → Nat) (val : Nat) (isCompatible : Bool) :
    CHECK_PROP cfgPropsAll idx type val isCompatible = true ↔
      (IsSet cfgPropsAll idx → type (cfgPropsAll idx).Data = val) ∧ isCompatible = true := by
  unfold CHECK_PROP IsSet
  by_cases h1 : (cfgPropsAll idx).Type_ = MFX_VARIANT_TYPE_UNSET
  · simp [h1]
  · by_cases h2 : type (cfgPropsAll idx).Data = val
    · simp [h1, h2]
    · simp [h1, h2]

theorem CHECK_RANGE_eq_true (cfgPropsAll : Nat → mfxVariant) (idx : Nat) (cap : mfxRange32U)
    (isCompatible : Bool) :
    CHECK_RANGE cfgPropsAll idx cap isCompatible = true ↔
      (IsSet cfgPropsAll idx → RangeSubsumed (requestedRange cfgPropsAll idx) cap) ∧
        isCompatible = true := by
  unfold CHECK_RANGE IsSet RangeSubsumed requestedRange
  by_cases h1 : (cfgPropsAll idx).Type_ = MFX_VARIANT_TYPE_UNSET
  · simp [h1]
  · simp only [ne_eq, h1, not_false_eq_true, if_true, forall_true_left]
    split
    · rename_i h
      constructor
      · intro hc; simp at hc
      · intro hc; omega
    · rename_i h
      constructor
      · intro hc; exact ⟨by omega, hc⟩
      · intro hc; exact hc.2

theorem decCompatible_iff (cfgPropsAll : Nat → mfxVariant) (dc : DecConfig) :
    decCompatible cfgPropsAll dc = true ↔ DecMatches cfgPropsAll dc := by
  unfold decCompatible DecMatches
  simp only [CHECK_PROP_eq_true, CHECK_RANGE_eq_true]
  tauto

theorem encCompatible_iff (cfgPropsAll : Nat → mfxVariant) (ec : EncConfig) :
    encCompatible cfgPropsAll ec = true ↔ EncMatches cfgPropsAll ec := by
  unfold encCompatible EncMatches
  simp only [CHECK_PROP_eq_true, CHECK_RANGE_eq_true]
  tauto

theorem vppCompatible_iff (cfgPropsAll : Nat → mfxVariant) (vc : VPPConfig) :
    vppCompatible cfgPropsAll vc = true ↔ VPPMatches cfgPropsAll vc := by
  unfold vppCompatible VPPMatches
  simp only [CHECK_PROP_eq_true, CHECK_RANGE_eq_true]
  tauto

theorem CheckPropsDec_none_iff (cfgPropsAll : Nat → mfxVariant) (l : List DecConfig) :
    CheckPropsDec cfgPropsAll l = MFX_ERR_NONE ↔ ∃ dc ∈ l, DecMatches cfgPropsAll dc := by
  induction l with
  | nil => simp [CheckPropsDec]
  | cons dc rest ih =>
    unfold CheckPropsDec
    by_cases h : decCompatible cfgPropsAll dc = true
    · simp [h, (decCompatible_iff cfgPropsAll dc).1 h]
    · have hn : ¬ DecMatches cfgPropsAll dc := fun hm => h ((decCompatible_iff _ _).2 hm)
      simp [h, ih, hn]

theorem CheckPropsEnc_none_iff (cfgPropsAll : Nat → mfxVariant) (l : List EncConfig) :
    CheckPropsEnc cfgPropsAll l = MFX_ERR_NONE ↔ ∃ ec ∈ l, EncMatches cfgPropsAll ec := by
  induction l with
  | nil => simp [CheckPropsEnc]
  | cons ec rest ih =>
    unfold CheckPropsEnc
    by_cases h : encCompatible cfgPropsAll ec = true
    · simp [h, (encCompatible_iff cfgPropsAll ec).1 h]
    · have hn : ¬ EncMatches cfgPropsAll ec := fun hm => h ((encCompatible_iff _ _).2 hm)
      simp [h, ih, hn]

theorem CheckPropsVPP_none_iff (cfgPropsAll : Nat → mfxVariant) (l : List VPPConfig) :
    CheckPropsVPP cfgPropsAll l = MFX_ERR_NONE ↔ ∃ vc ∈ l, VPPMatches cfgPropsAll vc := by
  induction l with
  | nil => simp [CheckPropsVPP]
  | cons vc rest ih =>
    unfold CheckPropsVPP
    by_cases h : vppCompatible cfgPropsAll vc = true
    · simp [h, (vppCompatible_iff cfgPropsAll vc).1 h]
    · have hn : ¬ VPPMatches cfgPropsAll vc := fun hm => h ((vppCompatible_iff _ _).2 hm)
      simp [h, ih, hn]

theorem CheckPropsDec_cases (cfgPropsAll : Nat → mfxVariant) (l : List DecConfig) :
    CheckPropsDec cfgPropsAll l = MFX_ERR_NONE ∨
      CheckPropsDec cfgPropsAll l = MFX_ERR_UNSUPPORTED := by
  induction l with
  | nil => right; rfl
  | cons dc rest ih => unfold CheckPropsDec; split <;> simp [ih]

theorem CheckPropsEnc_cases (cfgPropsAll : Nat → mfxVariant) (l : List EncConfig) :
    CheckPropsEnc cfgPropsAll l = MFX_ERR_NONE ∨
      CheckPropsEnc cfgPropsAll l = MFX_ERR_UNSUPPORTED := by
  induction l with
  | nil => right; rfl
  | cons ec rest ih => unfold CheckPropsEnc; split <;> simp [ih]

theorem CheckPropsVPP_cases (cfgPropsAll : Nat → mfxVariant) (l : List VPPConfig) :
    CheckPropsVPP cfgPropsAll l = MFX_ERR_NONE ∨
      CheckPropsVPP cfgPropsAll l = MFX_ERR_UNSUPPORTED := by
  induction l with
  | nil => right; rfl
  | cons vc rest ih => unfold CheckPropsVPP; split <;> simp [ih]

/-- C2: for every constraint array and every list of flat records, each of `CheckPropsDec`,
`CheckPropsEnc`, `CheckPropsVPP` returns `MFX_ERR_NONE` iff some record of the list matches
all set constraints of the category, and `MFX_ERR_UNSUPPORTED` otherwise, in particular on
the empty list. -/
theorem C2_category_check_iff_some_record_matches (cfgPropsAll : Nat → mfxVariant)
    (decConfigList : List DecConfig) (encConfigList : List EncConfig)
    (vppConfigList : List VPPConfig) :
    ((CheckPropsDec cfgPropsAll decConfigList = MFX_ERR_NONE ↔
        ∃ dc ∈ decConfigList, DecMatches cfgPropsAll dc) ∧
      ((¬ ∃ dc ∈ decConfigList, DecMatches cfgPropsAll dc) →
        CheckPropsDec cfgPropsAll decConfigList = MFX_ERR_UNSUPPORTED) ∧
      CheckPropsDec cfgPropsAll [] = MFX_ERR_UNSUPPORTED) ∧
    ((CheckPropsEnc cfgPropsAll encConfigList = MFX_ERR_NONE ↔
        ∃ ec ∈ encConfigList, EncMatches cfgPropsAll ec) ∧
      ((¬ ∃ ec ∈ encConfigList, EncMatches cfgPropsAll ec) →
        CheckPropsEnc cfgPropsAll encConfigList = MFX_ERR_UNSUPPORTED) ∧
      CheckPropsEnc cfgPropsAll [] = MFX_ERR_UNSUPPORTED) ∧
    ((CheckPropsVPP cfgPropsAll vppConfigList = MFX_ERR_NONE ↔
        ∃ vc ∈ vppConfigList, VPPMatches cfgPropsAll vc) ∧
      ((¬ ∃ vc ∈ vppConfigList, VPPMatches cfgPropsAll vc) →
        CheckPropsVPP cfgPropsAll vppConfigList = MFX_ERR_UNSUPPORTED) ∧
      CheckPropsVPP cfgPropsAll [] = MFX_ERR_UNSUPPORTED) := by
  refine ⟨⟨CheckPropsDec_none_iff _ _, fun h => ?_, rfl⟩,
    ⟨CheckPropsEnc_none_iff _ _, fun h => ?_, rfl⟩,
    ⟨CheckPropsVPP_none_iff _ _, fun h => ?_, rfl⟩⟩
  · rcases CheckPropsDec_cases cfgPropsAll decConfigList with h1 | h1
    · exact absurd ((CheckPropsDec_none_iff _ _).1 h1) h
    · exact h1
  · rcases CheckPropsEnc_cases cfgPropsAll encConfigList with h1 | h1
    · exact absurd ((CheckPropsEnc_none_iff _ _).1 h1) h
    · exact h1
  · rcases CheckPropsVPP_cases cfgPropsAll vppConfigList with h1 | h1
    · exact absurd ((CheckPropsVPP_none_iff _ _).1 h1) h
    · exact h1

theorem CheckPropsDec_onlyWidth (requested : mfxRange32U) (dc : DecConfig) :
    CheckPropsDec (onlyRange ePropDec_Width requested) [dc] = MFX_ERR_NONE ↔
      RangeSubsumed requested dc.Width := by
  rw [CheckPropsDec_none_iff]
  simp [DecMatches, IsSet, onlyRange, Function.update, mfxVariant.unset, requestedRange,
    mfxVariantData.Ptr, mfxHDL.derefRange]

theorem CheckPropsDec_onlyHeight (requested : mfxRange32U) (dc : DecConfig) :
    CheckPropsDec (onlyRange ePropDec_Height requested) [dc] = MFX_ERR_NONE ↔
      RangeSubsumed requested dc.Height := by
  rw [CheckPropsDec_none_iff]
  simp [DecMatches, IsSet, onlyRange, Function.update, mfxVariant.unset, requestedRange,
    mfxVariantData.Ptr, mfxHDL.derefRange]

/-- C3: when the decode `Width` (or `Height`) constraint is the only set constraint and the
list holds one record, `CheckPropsDec` accepts iff `requested.Max <= capability.Max`,
`requested.Min >= capability.Min` and `requested.Step >= capability.Step`, and returns
`MFX_ERR_UNSUPPORTED` otherwise; the request `{100,1000,2}` is accepted against the
capability `{64,4096,2}` and rejected against `{64,512,2}`. -/
theorem C3_range_subsumption (requested : mfxRange32U) (dc : DecConfig) :
    (CheckPropsDec (onlyRange ePropDec_Width requested) [dc] = MFX_ERR_NONE ↔
      requested.Max ≤ dc.Width.Max ∧ requested.Min ≥ dc.Width.Min ∧
        requested.Step ≥ dc.Width.Step) ∧
    (CheckPropsDec (onlyRange ePropDec_Width requested) [dc] ≠ MFX_ERR_NONE →
      CheckPropsDec (onlyRange ePropDec_Width requested) [dc] = MFX_ERR_UNSUPPORTED) ∧
    (CheckPropsDec (onlyRange ePropDec_Height requested) [dc] = MFX_ERR_NONE ↔
      requested.Max ≤ dc.Height.Max ∧ requested.Min ≥ dc.Height.Min ∧
        requested.Step ≥ dc.Height.Step) ∧
    (CheckPropsDec (onlyRange ePropDec_Height requested) [dc] ≠ MFX_ERR_NONE →
      CheckPropsDec (onlyRange ePropDec_Height requested) [dc] = MFX_ERR_UNSUPPORTED) ∧
    CheckPropsDec (onlyRange ePropDec_Width { Min := 100, Max := 1000, Step := 2 })
      [{ dc with Width := { Min := 64, Max := 4096, Step := 2 } }] = MFX_ERR_NONE ∧
    CheckPropsDec (onlyRange ePropDec_Width { Min := 100, Max := 1000, Step := 2 })
      [{ dc with Width := { Min := 64, Max := 512, Step := 2 } }] = MFX_ERR_UNSUPPORTED := by
  refine ⟨CheckPropsDec_onlyWidth requested dc, fun h => ?_,
    CheckPropsDec_onlyHeight requested dc, fun h => ?_, ?_, ?_⟩
  · exact (CheckPropsDec_cases _ _).resolve_left h
  · exact (CheckPropsDec_cases _ _).resolve_left h
  · rw [CheckPropsDec_onlyWidth]; simp [RangeSubsumed]
  · refine (CheckPropsDec_cases _ _).resolve_left ?_
    rw [CheckPropsDec_onlyWidth]; simp [RangeSubsumed]

/-! ## Token strings -/

theorem streamTokens_eq_getlineSplit (delim : Char) (c : Char) (cs : List Char) :
    streamTokens delim (c :: cs) =
      (getlineSplit delim (c :: cs)).1 :: streamTokens delim (getlineSplit delim (c :: cs)).2 := by
  induction cs generalizing c with
  | nil =>
    by_cases h : c = delim
    · simp [streamTokens, getlineSplit, h]
    · simp [streamTokens, getlineSplit, h]
  | cons d ds ih =>
    by_cases h : c = delim
    · simp [streamTokens, getlineSplit, h]
    · have := ih d
      rw [streamTokens, if_neg h, this]
      simp [getlineSplit, h]

theorem getlineSplit_length_le (delim : Char) (l : List Char) :
    (getlineSplit delim l).2.length ≤ l.length := by
  induction l with
  | nil => simp [getlineSplit]
  | cons c cs ih =>
    unfold getlineSplit
    split
    · simp
    · simp only [List.length_cons]; omega

theorem getlineSplit_length_lt (delim : Char) (c : Char) (cs : List Char) :
    (getlineSplit delim (c :: cs)).2.length < (c :: cs).length := by
  have := getlineSplit_length_le delim cs
  unfold getlineSplit
  split
  · simp
  · simp only [List.length_cons]; omega

theorem readTokens_nil (delim : Char) (tokenString : List (List Char)) :
    readTokens delim [] tokenString = tokenString := by
  rw [readTokens]
  split
  · rfl
  · rename_i heq; simp [getline] at heq

theorem readTokens_cons (delim : Char) (c : Char) (cs : List Char)
    (tokenString : List (List Char)) :
    readTokens delim (c :: cs) tokenString =
      readTokens delim (getlineSplit delim (c :: cs)).2
        (tokenString ++ [(getlineSplit delim (c :: cs)).1]) := by
  rw [readTokens]
  split
  · rename_i heq; simp [getline] at heq
  · rename_i s rest heq
    simp only [getline, reduceCtorEq, if_false, Option.some.injEq] at heq
    rw [heq]

theorem checkTokens_nil (delim : Char) (tokenString : List (List Char)) :
    checkTokens delim tokenString [] = MFX_ERR_NONE := by
  rw [checkTokens]
  split
  · rfl
  · rename_i heq; simp [getline] at heq

theorem checkTokens_cons (delim : Char) (c : Char) (cs : List Char)
    (tokenString : List (List Char)) :
    checkTokens delim tokenString (c :: cs) =
      if (getlineSplit delim (c :: cs)).1 ∈ tokenString then
        checkTokens delim tokenString (getlineSplit delim (c :: cs)).2
      else MFX_ERR_UNSUPPORTED := by
  rw [checkTokens]
  split
  · rename_i heq; simp [getline] at heq
  · rename_i s rest heq
    simp only [getline, reduceCtorEq, if_false, Option.some.injEq] at heq
    rw [heq]

theorem readTokens_eq (delim : Char) (stream : List Char) (tokenString : List (List Char)) :
    readTokens delim stream tokenString = tokenString ++ streamTokens delim stream := by
  generalize h : stream.length = n
  induction n using Nat.strong_induction_on generalizing stream tokenString with
  | _ n ih =>
    cases stream with
    | nil => rw [readTokens_nil]; simp [streamTokens]
    | cons c cs =>
      have hlen : (getlineSplit delim (c :: cs)).2.length < n := by
        rw [← h]; exact getlineSplit_length_lt delim c cs
      rw [readTokens_cons, ih _ hlen _ _ rfl, streamTokens_eq_getlineSplit]
      simp

theorem checkTokens_none_iff (delim : Char) (tokenString : List (List Char))
    (stream : List Char) :
    checkTokens delim tokenString stream = MFX_ERR_NONE ↔
      ∀ t ∈ streamTokens delim stream, t ∈ tokenString := by
  generalize h : stream.length = n
  induction n using Nat.strong_induction_on generalizing stream with
  | _ n ih =>
    cases stream with
    | nil => rw [checkTokens_nil]; simp [streamTokens]
    | cons c cs =>
      have hlen : (getlineSplit delim (c :: cs)).2.length < n := by
        rw [← h]; exact getlineSplit_length_lt delim c cs
      rw [checkTokens_cons, streamTokens_eq_getlineSplit]
      by_cases hm : (getlineSplit delim (c :: cs)).1 ∈ tokenString
      · simp [hm, ih _ hlen _ rfl]
      · simp [hm]

theorem checkTokens_cases (delim : Char) (tokenString : List (List Char)) (stream : List Char) :
    checkTokens delim tokenString stream = MFX_ERR_NONE ∨
      checkTokens delim tokenString stream = MFX_ERR_UNSUPPORTED := by
  generalize h : stream.length = n
  induction n using Nat.strong_induction_on generalizing stream with
  | _ n ih =>
    cases stream with
    | nil => left; exact checkTokens_nil _ _
    | cons c cs =>
      have hlen : (getlineSplit delim (c :: cs)).2.length < n := by
        rw [← h]; exact getlineSplit_length_lt delim c cs
      rw [checkTokens_cons]
      split
      · exact ih _ hlen _ rfl
      · right; rfl

theorem streamTokens_eq_splitOn (delim : Char) (cs : List Char) :
    streamTokens delim cs = dropEmptyLast (cs.splitOn delim) := by
  induction cs with
  | nil => simp [streamTokens, dropEmptyLast, List.splitOn, List.splitOnP_nil]
  | cons c cs ih =>
    have hne : cs.splitOn delim ≠ [] := List.splitOnP_ne_nil _ _
    unfold List.splitOn at ih hne ⊢
    rw [List.splitOnP_cons, streamTokens, ih]
    cases hS : List.splitOnP (fun x => x == delim) cs with
    | nil => exact absurd hS hne
    | cons s0 srest =>
      by_cases h : c = delim
      · subst h
        simp only [beq_self_eq_true, if_true]
        cases srest with
        | nil =>
          by_cases h0 : s0 = []
          · simp [dropEmptyLast, h0]
          · simp [dropEmptyLast, h0]
        | cons s1 srest2 =>
          by_cases hl : (s1 :: srest2).getLast? = some []
          · simp [dropEmptyLast, hl]
          · simp [dropEmptyLast, hl]
      · have hb : (c == delim) = false := by simpa using h
        simp only [hb, if_neg h, List.modifyHead_cons, Bool.false_eq_true, if_false]
        cases srest with
        | nil =>
          by_cases h0 : s0 = []
          · simp [dropEmptyLast, h0]
          · simp [dropEmptyLast, h0]
        | cons s1 srest2 =>
          by_cases hl : (s1 :: srest2).getLast? = some []
          · simp [dropEmptyLast, hl]
          · simp [dropEmptyLast, hl]

theorem CheckPropString_none_iff (implString filtString : String) :
    CheckPropString implString filtString = MFX_ERR_NONE ↔
      ∀ t ∈ commaTokens filtString, t ∈ commaTokens implString := by
  unfold CheckPropString commaTokens
  simp only [checkTokens_none_iff, readTokens_eq, List.nil_append, streamTokens_eq_splitOn]
  rfl

/-- C4: `CheckPropString` returns `MFX_ERR_NONE` iff every comma-separated token of
`filtString` occurs among the comma-separated tokens of `implString` (a token is a piece
between commas; an empty piece after the last comma is none), and `MFX_ERR_UNSUPPORTED`
otherwise; the result depends only on which tokens occur, not on their order or
multiplicity; "MIT,Apache" is accepted against "MIT,Apache,BSD" and rejected against
"MIT". -/
theorem C4_token_subsumption (implString filtString : String) :
    (CheckPropString implString filtString = MFX_ERR_NONE ↔
      ∀ t ∈ commaTokens filtString, t ∈ commaTokens implString) ∧
    (CheckPropString implString filtString ≠ MFX_ERR_NONE →
      CheckPropString implString filtString = MFX_ERR_UNSUPPORTED) ∧
    (∀ implString2 filtString2 : String,
      (∀ t, t ∈ commaTokens implString2 ↔ t ∈ commaTokens implString) →
      (∀ t, t ∈ commaTokens filtString2 ↔ t ∈ commaTokens filtString) →
      CheckPropString implString2 filtString2 = CheckPropString implString filtString) ∧
    CheckPropString "MIT,Apache,BSD" "MIT,Apache" = MFX_ERR_NONE ∧
    CheckPropString "MIT" "MIT,Apache" = MFX_ERR_UNSUPPORTED := by
  have hcases : ∀ a b : String, CheckPropString a b = MFX_ERR_NONE ∨
      CheckPropString a b = MFX_ERR_UNSUPPORTED := fun a b => checkTokens_cases _ _ _
  refine ⟨CheckPropString_none_iff _ _, fun h => (hcases _ _).resolve_left h, ?_, ?_, ?_⟩
  · intro implString2 filtString2 hi hf
    have hiff : CheckPropString implString2 filtString2 = MFX_ERR_NONE ↔
        CheckPropString implString filtString = MFX_ERR_NONE := by
      rw [CheckPropString_none_iff, CheckPropString_none_iff]
      constructor
      · intro h t ht; exact (hi t).1 (h t ((hf t).2 ht))
      · intro h t ht; exact (hi t).2 (h t ((hf t).1 ht))
    rcases hcases implString2 filtString2 with h1 | h1 <;>
      rcases hcases implString filtString with h2 | h2
    · rw [h1, h2]
    · rw [hiff.1 h1] at h2; cases h2
    · rw [hiff.2 h2] at h1; cases h1
    · rw [h1, h2]
  · rw [CheckPropString_none_iff]; decide
  · refine (hcases _ _).resolve_left ?_
    rw [CheckPropString_none_iff]; decide

/-! ## The loop over the properties of one context -/

theorem propLoopBody_fst (config : ConfigCtxVPL) (acc : (Nat → mfxVariant) × ValidateLocals)
    (i : Nat) :
    (propLoopBody config acc i).1 =
      if SetsProp config i ∧ i ≠ ePropFunc_FunctionName then
        Function.update acc.1 i
          { Type_ := (config.m_propVar i).Type_, Data := (config.m_propVar i).Data }
      else acc.1 := by
  unfold propLoopBody SetsProp
  by_cases h1 : (config.m_propVar i).Type_ = MFX_VARIANT_TYPE_UNSET
  · simp [h1]
  · by_cases h2 : i = ePropFunc_FunctionName
    · subst h2; simp [h1]
    · simp only [h1, h2, if_false, ne_eq, not_false_eq_true, and_self, if_true]
      split_ifs <;> rfl

theorem propLoopBody_snd (config : ConfigCtxVPL) (acc : (Nat → mfxVariant) × ValidateLocals)
    (i : Nat) :
    (propLoopBody config acc i).2 =
      { acc.2 with
        decRequested := acc.2.decRequested ||
          decide (SetsProp config i ∧ ePropDec_CodecID ≤ i ∧ i ≤ ePropDec_ColorFormats)
        encRequested := acc.2.encRequested ||
          decide (SetsProp config i ∧ ePropEnc_CodecID ≤ i ∧ i ≤ ePropEnc_ColorFormats)
        vppRequested := acc.2.vppRequested ||
          decide (SetsProp config i ∧ ePropVPP_FilterFourCC ≤ i ∧ i ≤ ePropVPP_OutFormat)
        implFunctionList := acc.2.implFunctionList ++
          if SetsProp config i ∧ i = ePropFunc_FunctionName then [config.m_implFunctionName]
          else [] } := by
  unfold propLoopBody SetsProp
  by_cases h1 : (config.m_propVar i).Type_ = MFX_VARIANT_TYPE_UNSET
  · simp [h1]
  · by_cases h2 : i = ePropFunc_FunctionName
    · subst h2
      simp [h1, ePropDec_CodecID, ePropDec_ColorFormats, ePropEnc_CodecID,
        ePropEnc_ColorFormats, ePropVPP_FilterFourCC, ePropVPP_OutFormat,
        ePropFunc_FunctionName]
    · simp only [h1, h2, if_false, ne_eq, not_false_eq_true, true_and, and_false,
        List.append_nil]
      by_cases hd : ePropDec_CodecID ≤ i ∧ i ≤ ePropDec_ColorFormats
      · have he : ¬ (ePropEnc_CodecID ≤ i ∧ i ≤ ePropEnc_ColorFormats) := by
          simp only [ePropDec_CodecID, ePropDec_ColorFormats, ePropEnc_CodecID,
            ePropEnc_ColorFormats] at *; omega
        have hv : ¬ (ePropVPP_FilterFourCC ≤ i ∧ i ≤ ePropVPP_OutFormat) := by
          simp only [ePropDec_CodecID, ePropDec_ColorFormats, ePropVPP_FilterFourCC,
            ePropVPP_OutFormat] at *; omega
        simp [hd, he, hv]
      · by_cases he : ePropEnc_CodecID ≤ i ∧ i ≤ ePropEnc_ColorFormats
        · have hv : ¬ (ePropVPP_FilterFourCC ≤ i ∧ i ≤ ePropVPP_OutFormat) := by
            simp only [ePropEnc_CodecID, ePropEnc_ColorFormats, ePropVPP_FilterFourCC,
              ePropVPP_OutFormat] at *; omega
          simp [hd, he, hv]
        · by_cases hv : ePropVPP_FilterFourCC ≤ i ∧ i ≤ ePropVPP_OutFormat
          · simp [hd, he, hv]
          · simp [hd, he, hv]
theorem propLoop_foldl_fst (config : ConfigCtxVPL) (l : List Nat)
    (acc : (Nat → mfxVariant) × ValidateLocals) :
    (l.foldl (propLoopBody config) acc).1 = fun idx =>
      if idx ∈ l ∧ SetsProp config idx ∧ idx ≠ ePropFunc_FunctionName then
        { Type_ := (config.m_propVar idx).Type_, Data := (config.m_propVar idx).Data }
      else acc.1 idx := by
  induction l generalizing acc with
  | nil => simp
  | cons i rest ih =>
    rw [List.foldl_cons, ih, propLoopBody_fst]
    funext idx
    by_cases hi : idx = i
    · subst hi
      by_cases hs : SetsProp config idx ∧ idx ≠ ePropFunc_FunctionName
      · simp [hs]
      · have hs2 : ¬ (SetsProp config idx ∧ ¬ idx = ePropFunc_FunctionName) := hs
        simp [hs, hs2]
    · by_cases hs : SetsProp config i ∧ i ≠ ePropFunc_FunctionName
      · simp [hs, hi, Function.update_noteq hi]
      · simp [hs, hi]

theorem propLoop_foldl_snd (config : ConfigCtxVPL) (l : List Nat)
    (acc : (Nat → mfxVariant) × ValidateLocals) :
    (l.foldl (propLoopBody config) acc).2 =
      { acc.2 with
        decRequested := acc.2.decRequested || l.any fun i =>
          decide (SetsProp config i ∧ ePropDec_CodecID ≤ i ∧ i ≤ ePropDec_ColorFormats)
        encRequested := acc.2.encRequested || l.any fun i =>
          decide (SetsProp config i ∧ ePropEnc_CodecID ≤ i ∧ i ≤ ePropEnc_ColorFormats)
        vppRequested := acc.2.vppRequested || l.any fun i =>
          decide (SetsProp config i ∧ ePropVPP_FilterFourCC ≤ i ∧ i ≤ ePropVPP_OutFormat)
        implFunctionList := acc.2.implFunctionList ++
          (l.filter fun i => decide (SetsProp config i ∧ i = ePropFunc_FunctionName)).map
            fun _ => config.m_implFunctionName } := by
  induction l generalizing acc with
  | nil => simp
  | cons i rest ih =>
    rw [List.foldl_cons, ih, propLoopBody_snd]
    by_cases hf : SetsProp config i ∧ i = ePropFunc_FunctionName
    · obtain ⟨hs, rfl⟩ := hf
      simp [hs, List.filter_cons, Bool.or_assoc, List.replicate_succ]
    · have hf2 : ¬ (decide (SetsProp config i) && decide (i = ePropFunc_FunctionName)) = true := by
        simpa using hf
      simp [hf, hf2, List.filter_cons, Bool.or_assoc]

theorem filter_range_functionName (config : ConfigCtxVPL) :
    ((List.range eProp_TotalProps).filter fun i =>
        decide (SetsProp config i ∧ i = ePropFunc_FunctionName)) =
      if SetsProp config ePropFunc_FunctionName then [ePropFunc_FunctionName] else [] := by
  have h38 : eProp_TotalProps = ePropFunc_FunctionName + 1 := rfl
  rw [h38, List.range_succ, List.filter_append]
  have hnil : ((List.range ePropFunc_FunctionName).filter fun i =>
      decide (SetsProp config i ∧ i = ePropFunc_FunctionName)) = [] := by
    rw [List.filter_eq_nil_iff]
    intro a ha
    have := List.mem_range.1 ha
    simp only [decide_eq_true_eq, not_and]
    intro _; omega
  rw [hnil]
  by_cases hs : SetsProp config ePropFunc_FunctionName
  · simp [hs, List.filter_cons]
  · simp [hs, List.filter_cons]

theorem propLoop_fst (config : ConfigCtxVPL) (v : ValidateLocals) :
    (propLoop config v).1 = cfgPropsOf config := by
  unfold propLoop cfgPropsOf
  rw [propLoop_foldl_fst]
  funext idx
  simp only [List.mem_range]

theorem propLoop_snd (config : ConfigCtxVPL) (v : ValidateLocals) :
    (propLoop config v).2 =
      { v with
        decRequested := v.decRequested || requestedBy config ePropDec_CodecID ePropDec_ColorFormats
        encRequested := v.encRequested || requestedBy config ePropEnc_CodecID ePropEnc_ColorFormats
        vppRequested :=
          v.vppRequested || requestedBy config ePropVPP_FilterFourCC ePropVPP_OutFormat
        implFunctionList := v.implFunctionList ++
          if SetsProp config ePropFunc_FunctionName then [config.m_implFunctionName] else [] } := by
  unfold propLoop
  rw [propLoop_foldl_snd, filter_range_functionName]
  unfold requestedBy
  by_cases hs : SetsProp config ePropFunc_FunctionName
  · simp [hs]
  · simp [hs]

theorem requestedBy_iff (config : ConfigCtxVPL) (lo hi : Nat) (hhi : hi < eProp_TotalProps) :
    requestedBy config lo hi = true ↔ SetsAny config lo hi := by
  unfold requestedBy SetsAny
  simp only [List.any_eq_true, List.mem_range, decide_eq_true_eq]
  constructor
  · rintro ⟨i, _, hs, hlo, hhi2⟩; exact ⟨i, hlo, hhi2, hs⟩
  · rintro ⟨i, hlo, hhi2, hs⟩; exact ⟨i, by omega, hs, hlo, hhi2⟩

/-! ## The loop over the contexts -/

theorem checkProps_eq (libImplDesc : mfxImplDescription) (libType : LibType)
    (decConfigList : List DecConfig) (encConfigList : List EncConfig)
    (vppConfigList : List VPPConfig) (cfgPropsAll : Nat → mfxVariant) (v : ValidateLocals) :
    checkProps libImplDesc libType decConfigList encConfigList vppConfigList cfgPropsAll v =
      (v.bImplValid &&
        passes libImplDesc libType decConfigList encConfigList vppConfigList cfgPropsAll
          v.decRequested v.encRequested v.vppRequested) := by
  unfold checkProps passes
  cases hv : v.bImplValid
  · simp
  · by_cases hg : CheckPropsGeneral cfgPropsAll libImplDesc = MFX_ERR_NONE
    · by_cases hl : libType = LibTypeMSDK
      · simp [hg, hl]
      · by_cases hd : CheckPropsDec cfgPropsAll decConfigList = MFX_ERR_NONE <;>
        by_cases he : CheckPropsEnc cfgPropsAll encConfigList = MFX_ERR_NONE <;>
        by_cases hp : CheckPropsVPP cfgPropsAll vppConfigList = MFX_ERR_NONE <;>
        cases v.decRequested <;> cases v.encRequested <;> cases v.vppRequested <;>
        simp [hg, hl, hd, he, hp]
    · by_cases hl : libType = LibTypeMSDK
      · simp [hg, hl]
      · simp [hg, hl]

theorem updateVersion_version (cfgPropsAll : Nat → mfxVariant) (v : ValidateLocals) :
    (updateVersion cfgPropsAll v).version = versionStep cfgPropsAll v.version := by
  unfold updateVersion versionStep IsSet ValidateLocals.version
  split_ifs <;> rfl

theorem updateVersion_other (cfgPropsAll : Nat → mfxVariant) (v : ValidateLocals) :
    (updateVersion cfgPropsAll v).decRequested = v.decRequested ∧
    (updateVersion cfgPropsAll v).encRequested = v.encRequested ∧
    (updateVersion cfgPropsAll v).vppRequested = v.vppRequested ∧
    (updateVersion cfgPropsAll v).bImplValid = v.bImplValid ∧
    (updateVersion cfgPropsAll v).implFunctionList = v.implFunctionList ∧
    (updateVersion cfgPropsAll v).specialConfig = v.specialConfig := by
  unfold updateVersion
  split_ifs <;> simp

theorem ctxStep_fields (libImplDesc : mfxImplDescription) (libType : LibType)
    (decConfigList : List DecConfig) (encConfigList : List EncConfig)
    (vppConfigList : List VPPConfig) (v : ValidateLocals) (config : ConfigCtxVPL) :
    (ctxStep libImplDesc libType decConfigList encConfigList vppConfigList v config).decRequested
      = (v.decRequested || requestedBy config ePropDec_CodecID ePropDec_ColorFormats) ∧
    (ctxStep libImplDesc libType decConfigList encConfigList vppConfigList v config).encRequested
      = (v.encRequested || requestedBy config ePropEnc_CodecID ePropEnc_ColorFormats) ∧
    (ctxStep libImplDesc libType decConfigList encConfigList vppConfigList v config).vppRequested
      = (v.vppRequested || requestedBy config ePropVPP_FilterFourCC ePropVPP_OutFormat) ∧
    (ctxStep libImplDesc libType decConfigList encConfigList vppConfigList v config).bImplValid
      = (v.bImplValid &&
          passes libImplDesc libType decConfigList encConfigList vppConfigList
            (cfgPropsOf config)
            (v.decRequested || requestedBy config ePropDec_CodecID ePropDec_ColorFormats)
            (v.encRequested || requestedBy config ePropEnc_CodecID ePropEnc_ColorFormats)
            (v.vppRequested || requestedBy config ePropVPP_FilterFourCC ePropVPP_OutFormat)) ∧
    (ctxStep libImplDesc libType decConfigList encConfigList vppConfigList v
        config).implFunctionList
      = v.implFunctionList ++
          (if SetsProp config ePropFunc_FunctionName then [config.m_implFunctionName] else []) ∧
    (ctxStep libImplDesc libType decConfigList encConfigList vppConfigList v config).version
      = versionStep (cfgPropsOf config) v.version ∧
    (ctxStep libImplDesc libType decConfigList encConfigList vppConfigList v config).specialConfig
      = updateSpecial (cfgPropsOf config) v.specialConfig := by
  unfold ctxStep
  simp only [propLoop_fst, propLoop_snd, checkProps_eq]
  obtain ⟨h1, h2, h3, h4, h5, h6⟩ := updateVersion_other (cfgPropsOf config)
    { decRequested := v.decRequested || requestedBy config ePropDec_CodecID ePropDec_ColorFormats
      encRequested := v.encRequested || requestedBy config ePropEnc_CodecID ePropEnc_ColorFormats
      vppRequested :=
        v.vppRequested || requestedBy config ePropVPP_FilterFourCC ePropVPP_OutFormat
      bImplValid := (v.bImplValid &&
          passes libImplDesc libType decConfigList encConfigList vppConfigList
            (cfgPropsOf config)
            (v.decRequested || requestedBy config ePropDec_CodecID ePropDec_ColorFormats)
            (v.encRequested || requestedBy config ePropEnc_CodecID ePropEnc_ColorFormats)
            (v.vppRequested || requestedBy config ePropVPP_FilterFourCC ePropVPP_OutFormat))
      implFunctionList := v.implFunctionList ++
          (if SetsProp config ePropFunc_FunctionName then [config.m_implFunctionName] else [])
      reqVersion := v.reqVersion
      bVerSetMajor := v.bVerSetMajor
      bVerSetMinor := v.bVerSetMinor
      specialConfig := updateSpecial (cfgPropsOf config) v.specialConfig }
  refine ⟨h1, h2, h3, h4, h5, ?_, h6⟩
  rw [updateVersion_version]
  rfl
theorem validateLoop_fields (libImplDesc : mfxImplDescription) (libType : LibType)
    (decConfigList : List DecConfig) (encConfigList : List EncConfig)
    (vppConfigList : List VPPConfig) (configCtxList : List ConfigCtxVPL) (v : ValidateLocals) :
    (validateLoop libImplDesc libType decConfigList encConfigList vppConfigList configCtxList
        v).bImplValid
      = validAfter libImplDesc libType decConfigList encConfigList vppConfigList configCtxList
          v.bImplValid v.decRequested v.encRequested v.vppRequested ∧
    (validateLoop libImplDesc libType decConfigList encConfigList vppConfigList configCtxList
        v).implFunctionList
      = v.implFunctionList ++ requiredFunctions configCtxList ∧
    (validateLoop libImplDesc libType decConfigList encConfigList vppConfigList configCtxList
        v).version
      = configCtxList.foldl (fun r config => versionStep (cfgPropsOf config) r) v.version ∧
    (validateLoop libImplDesc libType decConfigList encConfigList vppConfigList configCtxList
        v).specialConfig
      = specialOf configCtxList v.specialConfig := by
  induction configCtxList generalizing v with
  | nil => simp [validateLoop, validAfter, requiredFunctions, specialOf]
  | cons config rest ih =>
    obtain ⟨h1, h2, h3, h4, h5, h6, h7⟩ := ctxStep_fields libImplDesc libType decConfigList
      encConfigList vppConfigList v config
    obtain ⟨i1, i2, i3, i4⟩ := ih
      (ctxStep libImplDesc libType decConfigList encConfigList vppConfigList v config)
    unfold validateLoop at i1 i2 i3 i4 ⊢
    rw [List.foldl_cons, i1, i2, i3, i4, h1, h2, h3, h4, h5, h6, h7]
    refine ⟨rfl, ?_, rfl, rfl⟩
    unfold requiredFunctions
    by_cases hs : SetsProp config ePropFunc_FunctionName
    · simp [hs, List.filter_cons]
    · simp [hs, List.filter_cons]

/-- The status part of the closed form of `ValidateConfig`. -/
theorem ValidateConfig_some (libImplDesc : mfxImplDescription)
    (libImplFuncs : Option mfxImplementedFunctions) (configCtxList : List ConfigCtxVPL)
    (libType : LibType) (specialConfig : SpecialConfig) :
    ValidateConfig (some libImplDesc) libImplFuncs configCtxList libType specialConfig =
      (if (GateTriggered configCtxList ∧
            libImplDesc.ApiVersion.Version < (requestedVersion configCtxList).reqVersion.Version) ∨
          loopValid libImplDesc libType configCtxList = false then MFX_ERR_UNSUPPORTED
        else if requiredFunctions configCtxList = [] then MFX_ERR_NONE
        else match libImplFuncs with
          | none => MFX_ERR_UNSUPPORTED
          | some funcs => checkFunctions funcs (requiredFunctions configCtxList),
       if GateTriggered configCtxList then
         { specialOf configCtxList specialConfig with
           ApiVersion := { Version := (requestedVersion configCtxList).reqVersion.Version }
           bIsSet_ApiVersion := true }
       else specialOf configCtxList specialConfig) := by
  obtain ⟨h1, h2, h3, h4⟩ := validateLoop_fields libImplDesc libType
    (GetFlatDescriptionsDec libImplDesc []).2 (GetFlatDescriptionsEnc libImplDesc []).2
    (GetFlatDescriptionsVPP libImplDesc []).2 configCtxList (ValidateLocals.init specialConfig)
  have hver : (validateLoop libImplDesc libType
      (GetFlatDescriptionsDec libImplDesc []).2 (GetFlatDescriptionsEnc libImplDesc []).2
      (GetFlatDescriptionsVPP libImplDesc []).2 configCtxList
      (ValidateLocals.init specialConfig)).version = requestedVersion configCtxList := h3
  have hmaj := congrArg VersionRequest.bVerSetMajor hver
  have hmin := congrArg VersionRequest.bVerSetMinor hver
  have hreq := congrArg VersionRequest.reqVersion hver
  simp only [ValidateLocals.version] at hmaj hmin hreq
  have hvalid : (validateLoop libImplDesc libType
      (GetFlatDescriptionsDec libImplDesc []).2 (GetFlatDescriptionsEnc libImplDesc []).2
      (GetFlatDescriptionsVPP libImplDesc []).2 configCtxList
      (ValidateLocals.init specialConfig)).bImplValid = loopValid libImplDesc libType
        configCtxList := h1
  have hfn : (validateLoop libImplDesc libType
      (GetFlatDescriptionsDec libImplDesc []).2 (GetFlatDescriptionsEnc libImplDesc []).2
      (GetFlatDescriptionsVPP libImplDesc []).2 configCtxList
      (ValidateLocals.init specialConfig)).implFunctionList = requiredFunctions configCtxList := by
    rw [h2]; rfl
  have hsc : (validateLoop libImplDesc libType
      (GetFlatDescriptionsDec libImplDesc []).2 (GetFlatDescriptionsEnc libImplDesc []).2
      (GetFlatDescriptionsVPP libImplDesc []).2 configCtxList
      (ValidateLocals.init specialConfig)).specialConfig = specialOf configCtxList specialConfig :=
    h4
  clear h1 h2 h3 h4 hver
  unfold ValidateConfig validateTail GateTriggered
  dsimp only
  generalize validateLoop libImplDesc libType
      (GetFlatDescriptionsDec libImplDesc []).2 (GetFlatDescriptionsEnc libImplDesc []).2
      (GetFlatDescriptionsVPP libImplDesc []).2 configCtxList
      (ValidateLocals.init specialConfig) = V at hmaj hmin hreq hvalid hfn hsc ⊢
  obtain ⟨d, e, p, valid, fns, req, maj, min, sc⟩ := V
  dsimp only at hmaj hmin hreq hvalid hfn hsc ⊢
  subst hmaj hmin hreq hvalid hfn hsc
  by_cases hg : (requestedVersion configCtxList).bVerSetMajor = true ∧
      (requestedVersion configCtxList).bVerSetMinor = true
  · by_cases hlt : libImplDesc.ApiVersion.Version <
        (requestedVersion configCtxList).reqVersion.Version
    · simp [hg, hlt]
    · cases hv : loopValid libImplDesc libType configCtxList
      · simp [hg, hlt]
      · by_cases hr : requiredFunctions configCtxList = []
        · simp [hg, hlt, hr]
        · cases libImplFuncs <;> simp [hg, hlt, hr]
  · cases hv : loopValid libImplDesc libType configCtxList
    · simp [hg]
    · by_cases hr : requiredFunctions configCtxList = []
      · simp [hg, hr]
      · cases libImplFuncs <;> simp [hg, hr]

theorem validAfter_false (libImplDesc : mfxImplDescription) (libType : LibType)
    (decConfigList : List DecConfig) (encConfigList : List EncConfig)
    (vppConfigList : List VPPConfig) (configCtxList : List ConfigCtxVPL) (d e p : Bool) :
    validAfter libImplDesc libType decConfigList encConfigList vppConfigList configCtxList
      false d e p = false := by
  induction configCtxList generalizing d e p with
  | nil => rfl
  | cons config rest ih => simp only [validAfter, Bool.false_and]; exact ih _ _ _

theorem validAfter_fail (libImplDesc : mfxImplDescription) (libType : LibType)
    (decConfigList : List DecConfig) (encConfigList : List EncConfig)
    (vppConfigList : List VPPConfig) (configCtxList : List ConfigCtxVPL)
    (config : ConfigCtxVPL) (hmem : config ∈ configCtxList)
    (hfail : ∀ d e p : Bool,
      passes libImplDesc libType decConfigList encConfigList vppConfigList (cfgPropsOf config)
        (d || requestedBy config ePropDec_CodecID ePropDec_ColorFormats)
        (e || requestedBy config ePropEnc_CodecID ePropEnc_ColorFormats)
        (p || requestedBy config ePropVPP_FilterFourCC ePropVPP_OutFormat) = false)
    (b d e p : Bool) :
    validAfter libImplDesc libType decConfigList encConfigList vppConfigList configCtxList
      b d e p = false := by
  induction configCtxList generalizing b d e p with
  | nil => cases hmem
  | cons c rest ih =>
    rcases List.mem_cons.1 hmem with h | h
    · subst h
      simp only [validAfter, hfail, Bool.and_false]
      exact validAfter_false _ _ _ _ _ _ _ _ _
    · simp only [validAfter]
      exact ih h _ _ _ _

/-- C1: `ValidateConfig` is an AND across contexts. For a non-null descriptor and a
non-legacy `libType`, if some context of the list fails `CheckPropsGeneral`, or sets at
least one decode (encode, filter) constraint and fails `CheckPropsDec` (`Enc`, `VPP`)
against the flattened records, `ValidateConfig` returns `MFX_ERR_UNSUPPORTED`. -/
theorem C1_validate_rejects_if_one_context_fails (libImplDesc : mfxImplDescription)
    (libImplFuncs : Option mfxImplementedFunctions) (configCtxList : List ConfigCtxVPL)
    (libType : LibType) (specialConfig : SpecialConfig) (config : ConfigCtxVPL)
    (hmem : config ∈ configCtxList) (hlib : libType ≠ LibTypeMSDK)
    (hfail : CheckPropsGeneral (cfgPropsOf config) libImplDesc ≠ MFX_ERR_NONE ∨
      (SetsAny config ePropDec_CodecID ePropDec_ColorFormats ∧
        CheckPropsDec (cfgPropsOf config) (GetFlatDescriptionsDec libImplDesc []).2
          ≠ MFX_ERR_NONE) ∨
      (SetsAny config ePropEnc_CodecID ePropEnc_ColorFormats ∧
        CheckPropsEnc (cfgPropsOf config) (GetFlatDescriptionsEnc libImplDesc []).2
          ≠ MFX_ERR_NONE) ∨
      (SetsAny config ePropVPP_FilterFourCC ePropVPP_OutFormat ∧
        CheckPropsVPP (cfgPropsOf config) (GetFlatDescriptionsVPP libImplDesc []).2
          ≠ MFX_ERR_NONE)) :
    (ValidateConfig (some libImplDesc) libImplFuncs configCtxList libType specialConfig).1
      = MFX_ERR_UNSUPPORTED := by
  have hv : loopValid libImplDesc libType configCtxList = false := by
    unfold loopValid
    refine validAfter_fail _ _ _ _ _ _ config hmem ?_ _ _ _ _
    intro d e p
    unfold passes
    rcases hfail with h | ⟨hs, h⟩ | ⟨hs, h⟩ | ⟨hs, h⟩
    · simp [h]
    · have := (requestedBy_iff config _ _ (by decide)).2 hs
      simp [this, h, hlib]
    · have := (requestedBy_iff config _ _ (by decide)).2 hs
      simp [this, h, hlib]
    · have := (requestedBy_iff config _ _ (by decide)).2 hs
      simp [this, h, hlib]
  rw [ValidateConfig_some]
  simp [hv]

/-- Witness for C1: the contexts `{Dec CodecID = AVC}` and `{Dec CodecID = HEVC}` against a
descriptor that declares only AVC are rejected (the HEVC context fails on its own). -/
theorem C1_validate_rejects_if_one_context_fails_witness :
    ctxDecCodec MFX_CODEC_HEVC ∈ [ctxDecCodec MFX_CODEC_AVC, ctxDecCodec MFX_CODEC_HEVC] ∧
    LibTypeVPL ≠ LibTypeMSDK ∧
    SetsAny (ctxDecCodec MFX_CODEC_HEVC) ePropDec_CodecID ePropDec_ColorFormats ∧
    CheckPropsDec (cfgPropsOf (ctxDecCodec MFX_CODEC_HEVC))
      (GetFlatDescriptionsDec avcOnlyDesc []).2 ≠ MFX_ERR_NONE ∧
    (ValidateConfig (some avcOnlyDesc) none
      [ctxDecCodec MFX_CODEC_AVC, ctxDecCodec MFX_CODEC_HEVC] LibTypeVPL
      SpecialConfig.empty).1 = MFX_ERR_UNSUPPORTED ∧
    (ValidateConfig (some avcOnlyDesc) none [ctxDecCodec MFX_CODEC_AVC] LibTypeVPL
      SpecialConfig.empty).1 = MFX_ERR_NONE := by
  have hsets : SetsAny (ctxDecCodec MFX_CODEC_HEVC) ePropDec_CodecID ePropDec_ColorFormats :=
    ⟨ePropDec_CodecID, by decide, by decide, by decide⟩
  have hdec : CheckPropsDec (cfgPropsOf (ctxDecCodec MFX_CODEC_HEVC))
      (GetFlatDescriptionsDec avcOnlyDesc []).2 ≠ MFX_ERR_NONE := by
    rw [GetFlatDescriptionsDec_nil]; decide
  refine ⟨List.mem_cons_of_mem _ (List.mem_singleton.2 rfl), by decide, hsets, hdec,
    C1_validate_rejects_if_one_context_fails avcOnlyDesc none _ LibTypeVPL SpecialConfig.empty
      (ctxDecCodec MFX_CODEC_HEVC) (List.mem_cons_of_mem _ (List.mem_singleton.2 rfl))
      (by decide) (Or.inr (Or.inl ⟨hsets, hdec⟩)), ?_⟩
  have hvalid : loopValid avcOnlyDesc LibTypeVPL [ctxDecCodec MFX_CODEC_AVC] = true := by
    unfold loopValid
    rw [GetFlatDescriptionsDec_nil, GetFlatDescriptionsEnc_nil, GetFlatDescriptionsVPP_nil]
    decide
  rw [ValidateConfig_some, hvalid]
  decide

/-! ## What each check reads of the constraint array -/

theorem CheckPropsGeneral_congr (cfgPropsAll cfgPropsAll2 : Nat → mfxVariant)
    (libImplDesc : mfxImplDescription)
    (h : ∀ idx, idx ≤ ePropDevice_DeviceIDStr → idx ≠ ePropMain_ApiVersion →
      idx ≠ ePropMain_ApiVersion_Major → idx ≠ ePropMain_ApiVersion_Minor →
      cfgPropsAll idx = cfgPropsAll2 idx) :
    CheckPropsGeneral cfgPropsAll libImplDesc = CheckPropsGeneral cfgPropsAll2 libImplDesc := by
  unfold CheckPropsGeneral checkGeneralTail CHECK_PROP
  rw [h ePropMain_Impl (by decide) (by decide) (by decide) (by decide),
    h ePropMain_AccelerationMode (by decide) (by decide) (by decide) (by decide),
    h ePropMain_ImplName (by decide) (by decide) (by decide) (by decide),
    h ePropMain_License (by decide) (by decide) (by decide) (by decide),
    h ePropMain_Keywords (by decide) (by decide) (by decide) (by decide),
    h ePropMain_VendorID (by decide) (by decide) (by decide) (by decide),
    h ePropMain_VendorImplID (by decide) (by decide) (by decide) (by decide),
    h ePropDevice_DeviceID (by decide) (by decide) (by decide) (by decide),
    h ePropDevice_DeviceIDStr (by decide) (by decide) (by decide) (by decide)]

theorem CheckPropsDec_congr (cfgPropsAll cfgPropsAll2 : Nat → mfxVariant)
    (l : List DecConfig)
    (h : ∀ idx, ePropDec_CodecID ≤ idx → idx ≤ ePropDec_ColorFormats →
      cfgPropsAll idx = cfgPropsAll2 idx) :
    CheckPropsDec cfgPropsAll l = CheckPropsDec cfgPropsAll2 l := by
  have hc : ∀ dc, decCompatible cfgPropsAll dc = decCompatible cfgPropsAll2 dc := by
    intro dc
    unfold decCompatible CHECK_PROP CHECK_RANGE
    rw [h ePropDec_CodecID (by decide) (by decide),
      h ePropDec_MaxcodecLevel (by decide) (by decide),
      h ePropDec_Profile (by decide) (by decide),
      h ePropDec_MemHandleType (by decide) (by decide),
      h ePropDec_ColorFormats (by decide) (by decide),
      h ePropDec_Width (by decide) (by decide),
      h ePropDec_Height (by decide) (by decide)]
  induction l with
  | nil => rfl
  | cons dc rest ih => simp only [CheckPropsDec, hc, ih]

theorem CheckPropsEnc_congr (cfgPropsAll cfgPropsAll2 : Nat → mfxVariant)
    (l : List EncConfig)
    (h : ∀ idx, ePropEnc_CodecID ≤ idx → idx ≤ ePropEnc_ColorFormats →
      cfgPropsAll idx = cfgPropsAll2 idx) :
    CheckPropsEnc cfgPropsAll l = CheckPropsEnc cfgPropsAll2 l := by
  have hc : ∀ ec, encCompatible cfgPropsAll ec = encCompatible cfgPropsAll2 ec := by
    intro ec
    unfold encCompatible CHECK_PROP CHECK_RANGE
    rw [h ePropEnc_CodecID (by decide) (by decide),
      h ePropEnc_MaxcodecLevel (by decide) (by decide),
      h ePropEnc_BiDirectionalPrediction (by decide) (by decide),
      h ePropEnc_Profile (by decide) (by decide),
      h ePropEnc_MemHandleType (by decide) (by decide),
      h ePropEnc_ColorFormats (by decide) (by decide),
      h ePropEnc_Width (by decide) (by decide),
      h ePropEnc_Height (by decide) (by decide)]
  induction l with
  | nil => rfl
  | cons ec rest ih => simp only [CheckPropsEnc, hc, ih]

theorem CheckPropsVPP_congr (cfgPropsAll cfgPropsAll2 : Nat → mfxVariant)
    (l : List VPPConfig)
    (h : ∀ idx, ePropVPP_FilterFourCC ≤ idx → idx ≤ ePropVPP_OutFormat →
      cfgPropsAll idx = cfgPropsAll2 idx) :
    CheckPropsVPP cfgPropsAll l = CheckPropsVPP cfgPropsAll2 l := by
  have hc : ∀ vc, vppCompatible cfgPropsAll vc = vppCompatible cfgPropsAll2 vc := by
    intro vc
    unfold vppCompatible CHECK_PROP CHECK_RANGE
    rw [h ePropVPP_FilterFourCC (by decide) (by decide),
      h ePropVPP_MaxDelayInFrames (by decide) (by decide),
      h ePropVPP_MemHandleType (by decide) (by decide),
      h ePropVPP_InFormat (by decide) (by decide),
      h ePropVPP_OutFormat (by decide) (by decide),
      h ePropVPP_Width (by decide) (by decide),
      h ePropVPP_Height (by decide) (by decide)]
  induction l with
  | nil => rfl
  | cons vc rest ih => simp only [CheckPropsVPP, hc, ih]

theorem versionStep_congr (cfgPropsAll cfgPropsAll2 : Nat → mfxVariant) (r : VersionRequest)
    (h : ∀ idx, ePropMain_ApiVersion ≤ idx → idx ≤ ePropMain_ApiVersion_Minor →
      cfgPropsAll idx = cfgPropsAll2 idx) :
    versionStep cfgPropsAll r = versionStep cfgPropsAll2 r := by
  unfold versionStep IsSet
  simp only [h ePropMain_ApiVersion (by decide) (by decide),
    h ePropMain_ApiVersion_Major (by decide) (by decide),
    h ePropMain_ApiVersion_Minor (by decide) (by decide)]

theorem cfgPropsOf_withoutProps (config : ConfigCtxVPL) (lo hi idx : Nat) :
    cfgPropsOf (config.withoutProps lo hi) idx =
      if lo ≤ idx ∧ idx ≤ hi then mfxVariant.unset else cfgPropsOf config idx := by
  unfold cfgPropsOf ConfigCtxVPL.withoutProps SetsProp
  by_cases h : lo ≤ idx ∧ idx ≤ hi
  · simp [h, mfxVariant.unset]
  · simp [h]

theorem SetsProp_withoutProps (config : ConfigCtxVPL) (lo hi idx : Nat) :
    SetsProp (config.withoutProps lo hi) idx ↔ ¬ (lo ≤ idx ∧ idx ≤ hi) ∧ SetsProp config idx := by
  unfold ConfigCtxVPL.withoutProps SetsProp
  by_cases h : lo ≤ idx ∧ idx ≤ hi
  · simp [h, mfxVariant.unset]
  · simp [h]

theorem requestedBy_withoutProps_disjoint (config : ConfigCtxVPL) (lo hi a b : Nat)
    (hdis : hi < a ∨ b < lo) :
    requestedBy (config.withoutProps lo hi) a b = requestedBy config a b := by
  unfold requestedBy
  congr 1
  funext i
  rw [decide_eq_decide, SetsProp_withoutProps]
  constructor
  · rintro ⟨⟨_, hs⟩, h1, h2⟩; exact ⟨hs, h1, h2⟩
  · rintro ⟨hs, h1, h2⟩; exact ⟨⟨by omega, hs⟩, h1, h2⟩

theorem requestedBy_withoutProps_within (config : ConfigCtxVPL) (lo hi a b : Nat)
    (hin : lo ≤ a ∧ b ≤ hi) :
    requestedBy (config.withoutProps lo hi) a b = false := by
  unfold requestedBy
  rw [List.any_eq_false]
  intro i _
  rw [decide_eq_true_eq, SetsProp_withoutProps]
  rintro ⟨⟨hn, _⟩, h1, h2⟩
  exact hn ⟨by omega, by omega⟩

theorem requiredFunctions_map_withoutProps (configCtxList : List ConfigCtxVPL) (lo hi : Nat)
    (hhi : hi < ePropFunc_FunctionName) :
    requiredFunctions (configCtxList.map fun config => config.withoutProps lo hi) =
      requiredFunctions configCtxList := by
  unfold requiredFunctions
  induction configCtxList with
  | nil => rfl
  | cons c rest ih =>
    have hs : SetsProp (c.withoutProps lo hi) ePropFunc_FunctionName ↔
        SetsProp c ePropFunc_FunctionName := by
      rw [SetsProp_withoutProps]
      constructor
      · exact fun h => h.2
      · exact fun h => ⟨by omega, h⟩
    by_cases h : SetsProp c ePropFunc_FunctionName
    · have h2 := hs.2 h
      simp only [List.map_cons, List.filter_cons, h, h2, decide_True, if_true, ih]
      rfl
    · have h2 : ¬ SetsProp (c.withoutProps lo hi) ePropFunc_FunctionName := fun x => h (hs.1 x)
      simp only [List.map_cons, List.filter_cons, h, h2, decide_False, Bool.false_eq_true,
        if_false, ih]

/-! ## The version gate -/

theorem isSet_cfgPropsOf (config : ConfigCtxVPL) (idx : Nat) (h1 : idx < eProp_TotalProps)
    (h2 : idx ≠ ePropFunc_FunctionName) :
    IsSet (cfgPropsOf config) idx ↔ SetsProp config idx := by
  unfold IsSet cfgPropsOf SetsProp
  by_cases hs : (config.m_propVar idx).Type_ = MFX_VARIANT_TYPE_UNSET
  · simp [hs, mfxVariant.unset]
  · simp [hs, h1, h2]

theorem versionStep_flags (cfgPropsAll : Nat → mfxVariant) (r : VersionRequest) :
    ((versionStep cfgPropsAll r).bVerSetMajor = true ↔
      r.bVerSetMajor = true ∨ IsSet cfgPropsAll ePropMain_ApiVersion ∨
        IsSet cfgPropsAll ePropMain_ApiVersion_Major) ∧
    ((versionStep cfgPropsAll r).bVerSetMinor = true ↔
      r.bVerSetMinor = true ∨ IsSet cfgPropsAll ePropMain_ApiVersion ∨
        IsSet cfgPropsAll ePropMain_ApiVersion_Minor) := by
  unfold versionStep
  by_cases h2 : IsSet cfgPropsAll ePropMain_ApiVersion <;>
  by_cases h3 : IsSet cfgPropsAll ePropMain_ApiVersion_Major <;>
  by_cases h4 : IsSet cfgPropsAll ePropMain_ApiVersion_Minor <;>
  simp [h2, h3, h4]

theorem versionFold_flags (configCtxList : List ConfigCtxVPL) (r : VersionRequest) :
    ((configCtxList.foldl (fun r config => versionStep (cfgPropsOf config) r) r).bVerSetMajor
        = true ↔
      r.bVerSetMajor = true ∨ ∃ config ∈ configCtxList,
        SetsProp config ePropMain_ApiVersion ∨ SetsProp config ePropMain_ApiVersion_Major) ∧
    ((configCtxList.foldl (fun r config => versionStep (cfgPropsOf config) r) r).bVerSetMinor
        = true ↔
      r.bVerSetMinor = true ∨ ∃ config ∈ configCtxList,
        SetsProp config ePropMain_ApiVersion ∨ SetsProp config ePropMain_ApiVersion_Minor) := by
  induction configCtxList generalizing r with
  | nil => simp
  | cons c rest ih =>
    obtain ⟨i1, i2⟩ := ih (versionStep (cfgPropsOf c) r)
    obtain ⟨s1, s2⟩ := versionStep_flags (cfgPropsOf c) r
    rw [isSet_cfgPropsOf c ePropMain_ApiVersion (by decide) (by decide),
      isSet_cfgPropsOf c ePropMain_ApiVersion_Major (by decide) (by decide)] at s1
    rw [isSet_cfgPropsOf c ePropMain_ApiVersion (by decide) (by decide),
      isSet_cfgPropsOf c ePropMain_ApiVersion_Minor (by decide) (by decide)] at s2
    rw [List.foldl_cons, i1, i2, s1, s2]
    constructor
    · simp only [List.mem_cons, exists_eq_or_imp, or_assoc]
    · simp only [List.mem_cons, exists_eq_or_imp, or_assoc]

theorem gateTriggered_iff (configCtxList : List ConfigCtxVPL) :
    GateTriggered configCtxList ↔
      (∃ config ∈ configCtxList,
        SetsProp config ePropMain_ApiVersion ∨ SetsProp config ePropMain_ApiVersion_Major) ∧
      (∃ config ∈ configCtxList,
        SetsProp config ePropMain_ApiVersion ∨ SetsProp config ePropMain_ApiVersion_Minor) := by
  unfold GateTriggered requestedVersion
  obtain ⟨h1, h2⟩ := versionFold_flags configCtxList
    { reqVersion := { Version := 0 }, bVerSetMajor := false, bVerSetMinor := false }
  rw [h1, h2]
  simp

theorem updateSpecial_apiVersion (cfgPropsAll : Nat → mfxVariant) (sc : SpecialConfig) :
    (updateSpecial cfgPropsAll sc).ApiVersion = sc.ApiVersion ∧
      (updateSpecial cfgPropsAll sc).bIsSet_ApiVersion = sc.bIsSet_ApiVersion := by
  unfold updateSpecial
  split_ifs <;> exact ⟨rfl, rfl⟩

theorem specialOf_apiVersion (configCtxList : List ConfigCtxVPL) (sc : SpecialConfig) :
    (specialOf configCtxList sc).ApiVersion = sc.ApiVersion ∧
      (specialOf configCtxList sc).bIsSet_ApiVersion = sc.bIsSet_ApiVersion := by
  unfold specialOf
  induction configCtxList generalizing sc with
  | nil => exact ⟨rfl, rfl⟩
  | cons c rest ih =>
    obtain ⟨h1, h2⟩ := updateSpecial_apiVersion (cfgPropsOf c) sc
    obtain ⟨i1, i2⟩ := ih (updateSpecial (cfgPropsOf c) sc)
    rw [List.foldl_cons, i1, i2, h1, h2]
    exact ⟨rfl, rfl⟩

theorem validAfter_map_congr (f : ConfigCtxVPL → ConfigCtxVPL)
    (libImplDesc libImplDesc2 : mfxImplDescription) (libType : LibType)
    (decConfigList decConfigList2 : List DecConfig) (encConfigList encConfigList2 : List EncConfig)
    (vppConfigList vppConfigList2 : List VPPConfig) (configCtxList : List ConfigCtxVPL)
    (hdec : ∀ c, requestedBy (f c) ePropDec_CodecID ePropDec_ColorFormats =
      requestedBy c ePropDec_CodecID ePropDec_ColorFormats)
    (henc : ∀ c, requestedBy (f c) ePropEnc_CodecID ePropEnc_ColorFormats =
      requestedBy c ePropEnc_CodecID ePropEnc_ColorFormats)
    (hvpp : ∀ c, requestedBy (f c) ePropVPP_FilterFourCC ePropVPP_OutFormat =
      requestedBy c ePropVPP_FilterFourCC ePropVPP_OutFormat)
    (hpass : ∀ c d e p,
      passes libImplDesc2 libType decConfigList2 encConfigList2 vppConfigList2
          (cfgPropsOf (f c)) d e p =
        passes libImplDesc libType decConfigList encConfigList vppConfigList
          (cfgPropsOf c) d e p)
    (b d e p : Bool) :
    validAfter libImplDesc2 libType decConfigList2 encConfigList2 vppConfigList2
        (configCtxList.map f) b d e p =
      validAfter libImplDesc libType decConfigList encConfigList vppConfigList
        configCtxList b d e p := by
  induction configCtxList generalizing b d e p with
  | nil => rfl
  | cons c rest ih =>
    simp only [List.map_cons, validAfter, hdec, henc, hvpp, hpass]
    exact ih _ _ _ _

theorem passes_withoutVersion (libImplDesc : mfxImplDescription) (libType : LibType)
    (decConfigList : List DecConfig) (encConfigList : List EncConfig)
    (vppConfigList : List VPPConfig) (config : ConfigCtxVPL) (d e p : Bool) :
    passes libImplDesc libType decConfigList encConfigList vppConfigList
        (cfgPropsOf (config.withoutProps ePropMain_ApiVersion ePropMain_ApiVersion_Minor))
        d e p =
      passes libImplDesc libType decConfigList encConfigList vppConfigList
        (cfgPropsOf config) d e p := by
  unfold passes
  rw [CheckPropsGeneral_congr _ (cfgPropsOf config), CheckPropsDec_congr _ (cfgPropsOf config),
    CheckPropsEnc_congr _ (cfgPropsOf config), CheckPropsVPP_congr _ (cfgPropsOf config)]
  · intro idx h1 h2
    rw [cfgPropsOf_withoutProps, if_neg]
    simp only [ePropVPP_FilterFourCC, ePropMain_ApiVersion, ePropMain_ApiVersion_Minor] at *
    omega
  · intro idx h1 h2
    rw [cfgPropsOf_withoutProps, if_neg]
    simp only [ePropEnc_CodecID, ePropMain_ApiVersion, ePropMain_ApiVersion_Minor] at *
    omega
  · intro idx h1 h2
    rw [cfgPropsOf_withoutProps, if_neg]
    simp only [ePropDec_CodecID, ePropMain_ApiVersion, ePropMain_ApiVersion_Minor] at *
    omega
  · intro idx h1 h2 h3 h4
    rw [cfgPropsOf_withoutProps, if_neg]
    simp only [ePropMain_ApiVersion, ePropMain_ApiVersion_Major,
      ePropMain_ApiVersion_Minor] at *
    omega

theorem loopValid_withoutVersion (libImplDesc : mfxImplDescription) (libType : LibType)
    (configCtxList : List ConfigCtxVPL) :
    loopValid libImplDesc libType (configCtxList.map fun config =>
        config.withoutProps ePropMain_ApiVersion ePropMain_ApiVersion_Minor) =
      loopValid libImplDesc libType configCtxList := by
  unfold loopValid
  exact validAfter_map_congr _ _ _ _ _ _ _ _ _ _ _
    (fun c => requestedBy_withoutProps_disjoint c _ _ _ _ (Or.inl (by decide)))
    (fun c => requestedBy_withoutProps_disjoint c _ _ _ _ (Or.inl (by decide)))
    (fun c => requestedBy_withoutProps_disjoint c _ _ _ _ (Or.inl (by decide)))
    (fun c d e p => passes_withoutVersion _ _ _ _ _ c d e p) _ _ _ _

theorem not_gateTriggered_withoutVersion (configCtxList : List ConfigCtxVPL) :
    ¬ GateTriggered (configCtxList.map fun config =>
        config.withoutProps ePropMain_ApiVersion ePropMain_ApiVersion_Minor) := by
  rw [gateTriggered_iff]
  rintro ⟨⟨c, hc, hs⟩, _⟩
  obtain ⟨c0, _, rfl⟩ := List.mem_map.1 hc
  rcases hs with hs | hs
  · exact ((SetsProp_withoutProps _ _ _ _).1 hs).1 ⟨by decide, by decide⟩
  · exact ((SetsProp_withoutProps _ _ _ _).1 hs).1 ⟨by decide, by decide⟩

theorem loopValid_avcOnly_version (major minor : Nat) :
    loopValid avcOnlyDesc LibTypeVPL [ctxVersion major minor] = true := by
  unfold loopValid
  rw [GetFlatDescriptionsDec_nil, GetFlatDescriptionsEnc_nil, GetFlatDescriptionsVPP_nil]
  have hg : CheckPropsGeneral (cfgPropsOf (ctxVersion major minor)) avcOnlyDesc
      = MFX_ERR_NONE := by
    rw [CheckPropsGeneral_congr _ (fun _ => mfxVariant.unset)]
    · decide
    · intro idx h1 h2 h3 h4
      simp only [cfgPropsOf, ctxVersion, ConfigCtxVPL.withProp, ConfigCtxVPL.new, SetsProp, h2,
        if_false, mfxVariant.unset, ne_eq, not_true_eq_false, false_and, and_false]
  have hd : requestedBy (ctxVersion major minor) ePropDec_CodecID ePropDec_ColorFormats
      = false := by
    unfold requestedBy
    rw [List.any_eq_false]
    intro i _
    simp only [SetsProp, ctxVersion, ConfigCtxVPL.withProp, ConfigCtxVPL.new, decide_eq_true_eq]
    rintro ⟨hs, h1, h2⟩
    have : ¬ i = ePropMain_ApiVersion := by
      simp only [ePropDec_CodecID, ePropMain_ApiVersion] at *; omega
    simp [this, mfxVariant.unset] at hs
  have he : requestedBy (ctxVersion major minor) ePropEnc_CodecID ePropEnc_ColorFormats
      = false := by
    unfold requestedBy
    rw [List.any_eq_false]
    intro i _
    simp only [SetsProp, ctxVersion, ConfigCtxVPL.withProp, ConfigCtxVPL.new, decide_eq_true_eq]
    rintro ⟨hs, h1, h2⟩
    have : ¬ i = ePropMain_ApiVersion := by
      simp only [ePropEnc_CodecID, ePropMain_ApiVersion] at *; omega
    simp [this, mfxVariant.unset] at hs
  have hp : requestedBy (ctxVersion major minor) ePropVPP_FilterFourCC ePropVPP_OutFormat
      = false := by
    unfold requestedBy
    rw [List.any_eq_false]
    intro i _
    simp only [SetsProp, ctxVersion, ConfigCtxVPL.withProp, ConfigCtxVPL.new, decide_eq_true_eq]
    rintro ⟨hs, h1, h2⟩
    have : ¬ i = ePropMain_ApiVersion := by
      simp only [ePropVPP_FilterFourCC, ePropMain_ApiVersion] at *; omega
    simp [this, mfxVariant.unset] at hs
  simp [validAfter, passes, hg, hd, he, hp]

/-- C7: when the effective requested API version is set (both halves), `ValidateConfig`
returns `MFX_ERR_UNSUPPORTED` whenever the descriptor's `ApiVersion.Version` is lower than
the requested `Version` (Major in the high, Minor in the low 16 bits); otherwise the version
does not change the status, which is the one returned without any version property; in
both cases `specialConfig` records the requested version. Against the descriptor
`avcOnlyDesc` of version 2.6 the context setting 2.5 is accepted and the one setting 2.7 is
rejected. -/
theorem C7_version_gate (libImplDesc : mfxImplDescription)
    (libImplFuncs : Option mfxImplementedFunctions) (configCtxList : List ConfigCtxVPL)
    (libType : LibType) (specialConfig : SpecialConfig)
    (hgate : GateTriggered configCtxList) :
    (libImplDesc.ApiVersion.Version < (requestedVersion configCtxList).reqVersion.Version →
      (ValidateConfig (some libImplDesc) libImplFuncs configCtxList libType specialConfig).1
        = MFX_ERR_UNSUPPORTED) ∧
    (¬ libImplDesc.ApiVersion.Version < (requestedVersion configCtxList).reqVersion.Version →
      (ValidateConfig (some libImplDesc) libImplFuncs configCtxList libType specialConfig).1
        = (ValidateConfig (some libImplDesc) libImplFuncs
            (configCtxList.map fun config =>
              config.withoutProps ePropMain_ApiVersion ePropMain_ApiVersion_Minor)
            libType specialConfig).1) ∧
    (ValidateConfig (some libImplDesc) libImplFuncs configCtxList libType
        specialConfig).2.ApiVersion
      = { Version := (requestedVersion configCtxList).reqVersion.Version } ∧
    (ValidateConfig (some libImplDesc) libImplFuncs configCtxList libType
        specialConfig).2.bIsSet_ApiVersion = true ∧
    (avcOnlyDesc.ApiVersion.Major = 2 ∧ avcOnlyDesc.ApiVersion.Minor = 6) ∧
    ValidateConfig (some avcOnlyDesc) none [ctxVersion 2 5] LibTypeVPL SpecialConfig.empty
      = (MFX_ERR_NONE, { SpecialConfig.empty with
          ApiVersion := { Version := 2 * 2 ^ 16 + 5 }, bIsSet_ApiVersion := true }) ∧
    ValidateConfig (some avcOnlyDesc) none [ctxVersion 2 7] LibTypeVPL SpecialConfig.empty
      = (MFX_ERR_UNSUPPORTED, { SpecialConfig.empty with
          ApiVersion := { Version := 2 * 2 ^ 16 + 7 }, bIsSet_ApiVersion := true }) := by
  refine ⟨?_, ?_, ?_, ?_, by decide, ?_, ?_⟩
  · intro hlt
    rw [ValidateConfig_some]
    simp [hgate, hlt]
  · intro hlt
    rw [ValidateConfig_some, ValidateConfig_some, loopValid_withoutVersion,
      requiredFunctions_map_withoutProps _ _ _ (by decide)]
    simp [hlt, not_gateTriggered_withoutVersion]
  · rw [ValidateConfig_some]
    simp [hgate]
  · rw [ValidateConfig_some]
    simp [hgate]
  · rw [ValidateConfig_some, loopValid_avcOnly_version]
    decide
  · rw [ValidateConfig_some, loopValid_avcOnly_version]
    decide

/-- Witness for C7: the list holding the context that sets the combined version 2.7
triggers the gate, and `avcOnlyDesc` (version 2.6) is rejected with the version recorded. -/
theorem C7_version_gate_witness :
    GateTriggered [ctxVersion 2 7] ∧
    (ValidateConfig (some avcOnlyDesc) none [ctxVersion 2 7] LibTypeVPL
      SpecialConfig.empty).1 = MFX_ERR_UNSUPPORTED ∧
    (ValidateConfig (some avcOnlyDesc) none [ctxVersion 2 7] LibTypeVPL
      SpecialConfig.empty).2.bIsSet_ApiVersion = true :=
  ⟨by decide,
    (C7_version_gate avcOnlyDesc none [ctxVersion 2 7] LibTypeVPL SpecialConfig.empty
      (by decide)).1 (by decide),
    (C7_version_gate avcOnlyDesc none [ctxVersion 2 7] LibTypeVPL SpecialConfig.empty
      (by decide)).2.2.2.1⟩

theorem loopValid_apiVersion (libImplDesc : mfxImplDescription) (ver : mfxVersion)
    (libType : LibType) (configCtxList : List ConfigCtxVPL) :
    loopValid { libImplDesc with ApiVersion := ver } libType configCtxList =
      loopValid libImplDesc libType configCtxList := by
  have h := validAfter_map_congr id libImplDesc { libImplDesc with ApiVersion := ver } libType
    (GetFlatDescriptionsDec libImplDesc []).2
    (GetFlatDescriptionsDec { libImplDesc with ApiVersion := ver } []).2
    (GetFlatDescriptionsEnc libImplDesc []).2
    (GetFlatDescriptionsEnc { libImplDesc with ApiVersion := ver } []).2
    (GetFlatDescriptionsVPP libImplDesc []).2
    (GetFlatDescriptionsVPP { libImplDesc with ApiVersion := ver } []).2
    configCtxList (fun _ => rfl) (fun _ => rfl) (fun _ => rfl) (fun _ _ _ _ => rfl)
    true false false false
  rw [List.map_id] at h
  exact h

/-- C8: if no context sets the combined `Version` and `Minor` is never set (or `Major` is
never set), the version gate is not triggered: the result of `ValidateConfig` is the same
for every `ApiVersion` of the descriptor and `specialConfig` keeps its `ApiVersion` and its
is-set flag as on entry. Conversely the gate is triggered when some context sets the
combined `Version`, or when `Major` and `Minor` are both set, possibly by two different
contexts: the flag is then set and a lower descriptor version is rejected. -/
theorem C8_version_gate_trigger (libImplDesc : mfxImplDescription)
    (libImplFuncs : Option mfxImplementedFunctions) (configCtxList : List ConfigCtxVPL)
    (libType : LibType) (specialConfig : SpecialConfig) :
    ((∀ config ∈ configCtxList, ¬ SetsProp config ePropMain_ApiVersion) →
      ((∀ config ∈ configCtxList, ¬ SetsProp config ePropMain_ApiVersion_Minor) ∨
        (∀ config ∈ configCtxList, ¬ SetsProp config ePropMain_ApiVersion_Major)) →
      ¬ GateTriggered configCtxList ∧
      (∀ ver : mfxVersion,
        ValidateConfig (some { libImplDesc with ApiVersion := ver }) libImplFuncs configCtxList
            libType specialConfig =
          ValidateConfig (some libImplDesc) libImplFuncs configCtxList libType specialConfig) ∧
      (ValidateConfig (some libImplDesc) libImplFuncs configCtxList libType
          specialConfig).2.ApiVersion = specialConfig.ApiVersion ∧
      (ValidateConfig (some libImplDesc) libImplFuncs configCtxList libType
          specialConfig).2.bIsSet_ApiVersion = specialConfig.bIsSet_ApiVersion) ∧
    (((∃ config ∈ configCtxList, SetsProp config ePropMain_ApiVersion) ∨
        ((∃ config ∈ configCtxList, SetsProp config ePropMain_ApiVersion_Major) ∧
          (∃ config ∈ configCtxList, SetsProp config ePropMain_ApiVersion_Minor))) →
      GateTriggered configCtxList ∧
      (ValidateConfig (some libImplDesc) libImplFuncs configCtxList libType
          specialConfig).2.bIsSet_ApiVersion = true ∧
      (libImplDesc.ApiVersion.Version < (requestedVersion configCtxList).reqVersion.Version →
        (ValidateConfig (some libImplDesc) libImplFuncs configCtxList libType specialConfig).1
          = MFX_ERR_UNSUPPORTED)) := by
  constructor
  · intro hver hhalf
    have hg : ¬ GateTriggered configCtxList := by
      rw [gateTriggered_iff]
      rintro ⟨⟨c1, hc1, h1⟩, ⟨c2, hc2, h2⟩⟩
      rcases hhalf with hh | hh
      · rcases h2 with h2 | h2
        · exact hver c2 hc2 h2
        · exact hh c2 hc2 h2
      · rcases h1 with h1 | h1
        · exact hver c1 hc1 h1
        · exact hh c1 hc1 h1
    refine ⟨hg, fun ver => ?_, ?_, ?_⟩
    · rw [ValidateConfig_some, ValidateConfig_some, loopValid_apiVersion]
      simp [hg]
    · rw [ValidateConfig_some]
      simp [hg, (specialOf_apiVersion configCtxList specialConfig).1]
    · rw [ValidateConfig_some]
      simp [hg, (specialOf_apiVersion configCtxList specialConfig).2]
  · intro h
    have hg : GateTriggered configCtxList := by
      rw [gateTriggered_iff]
      rcases h with ⟨c, hc, hs⟩ | ⟨⟨c1, hc1, h1⟩, ⟨c2, hc2, h2⟩⟩
      · exact ⟨⟨c, hc, Or.inl hs⟩, ⟨c, hc, Or.inl hs⟩⟩
      · exact ⟨⟨c1, hc1, Or.inr h1⟩, ⟨c2, hc2, Or.inr h2⟩⟩
    refine ⟨hg, ?_, fun hlt => ?_⟩
    · rw [ValidateConfig_some]
      simp [hg]
    · rw [ValidateConfig_some]
      simp [hg, hlt]

/-- Witness for C8: the list `[ctxMajor 3]` sets only `Major`, and the gate is not
triggered; in the list `[ctxMajor 2, ctxMinor 7]` two contexts supply the two halves, the
gate is triggered and `avcOnlyDesc` (version 2.6) is rejected. -/
theorem C8_version_gate_trigger_witness :
    (¬ GateTriggered [ctxMajor 3] ∧
      (ValidateConfig (some avcOnlyDesc) none [ctxMajor 3] LibTypeVPL
        SpecialConfig.empty).2.bIsSet_ApiVersion = false) ∧
    (GateTriggered [ctxMajor 2, ctxMinor 7] ∧
      (ValidateConfig (some avcOnlyDesc) none [ctxMajor 2, ctxMinor 7] LibTypeVPL
        SpecialConfig.empty).1 = MFX_ERR_UNSUPPORTED) := by
  have hA := (C8_version_gate_trigger avcOnlyDesc none [ctxMajor 3] LibTypeVPL
    SpecialConfig.empty).1
    (by intro c hc; rw [List.mem_singleton.1 hc]; decide)
    (Or.inl (by intro c hc; rw [List.mem_singleton.1 hc]; decide))
  have hB := (C8_version_gate_trigger avcOnlyDesc none [ctxMajor 2, ctxMinor 7] LibTypeVPL
    SpecialConfig.empty).2
    (Or.inr ⟨⟨ctxMajor 2, List.mem_cons_self _ _, by decide⟩,
      ⟨ctxMinor 7, List.mem_cons_of_mem _ (List.mem_singleton.2 rfl), by decide⟩⟩)
  exact ⟨⟨hA.1, hA.2.2.2⟩, ⟨hB.1, hB.2.2 (by decide)⟩⟩

/-! ## Required functions -/

theorem checkFunctions_none_iff (libImplFuncs : mfxImplementedFunctions) (names : List String) :
    checkFunctions libImplFuncs names = MFX_ERR_NONE ↔
      ∀ name ∈ names, name ∈ libImplFuncs.FunctionsName := by
  induction names with
  | nil => simp [checkFunctions]
  | cons n rest ih =>
    unfold checkFunctions searchFunction
    by_cases h : n ∈ libImplFuncs.FunctionsName
    · have hne : List.findIdx (fun name => n == name) libImplFuncs.FunctionsName
          ≠ libImplFuncs.FunctionsName.length := by
        rw [Ne, List.findIdx_eq_length]
        intro hall
        have := hall n h
        simp at this
      simp [hne, ih, h]
    · have heq : List.findIdx (fun name => n == name) libImplFuncs.FunctionsName
          = libImplFuncs.FunctionsName.length := by
        rw [List.findIdx_eq_length]
        intro x hx
        have : n ≠ x := fun e => h (e ▸ hx)
        simpa using this
      simp [heq, h]

theorem checkFunctions_cases (libImplFuncs : mfxImplementedFunctions) (names : List String) :
    checkFunctions libImplFuncs names = MFX_ERR_NONE ∨
      checkFunctions libImplFuncs names = MFX_ERR_UNSUPPORTED := by
  induction names with
  | nil => left; rfl
  | cons n rest ih =>
    unfold checkFunctions
    split
    · right; rfl
    · exact ih

theorem cfgPropsOf_withoutFunction (config : ConfigCtxVPL) :
    cfgPropsOf (config.withoutProps ePropFunc_FunctionName ePropFunc_FunctionName) =
      cfgPropsOf config := by
  funext idx
  rw [cfgPropsOf_withoutProps]
  by_cases h : idx = ePropFunc_FunctionName
  · subst h; simp [cfgPropsOf]
  · rw [if_neg]; omega

theorem loopValid_withoutFunction (libImplDesc : mfxImplDescription) (libType : LibType)
    (configCtxList : List ConfigCtxVPL) :
    loopValid libImplDesc libType (configCtxList.map fun config =>
        config.withoutProps ePropFunc_FunctionName ePropFunc_FunctionName) =
      loopValid libImplDesc libType configCtxList := by
  unfold loopValid
  exact validAfter_map_congr _ _ _ _ _ _ _ _ _ _ _
    (fun c => requestedBy_withoutProps_disjoint c _ _ _ _ (Or.inr (by decide)))
    (fun c => requestedBy_withoutProps_disjoint c _ _ _ _ (Or.inr (by decide)))
    (fun c => requestedBy_withoutProps_disjoint c _ _ _ _ (Or.inr (by decide)))
    (fun c d e p => by rw [cfgPropsOf_withoutFunction]) _ _ _ _

theorem requestedVersion_withoutFunction (configCtxList : List ConfigCtxVPL) :
    requestedVersion (configCtxList.map fun config =>
        config.withoutProps ePropFunc_FunctionName ePropFunc_FunctionName) =
      requestedVersion configCtxList := by
  unfold requestedVersion
  rw [List.foldl_map]
  simp only [cfgPropsOf_withoutFunction]

theorem requiredFunctions_withoutFunction (configCtxList : List ConfigCtxVPL) :
    requiredFunctions (configCtxList.map fun config =>
        config.withoutProps ePropFunc_FunctionName ePropFunc_FunctionName) = [] := by
  unfold requiredFunctions
  rw [List.map_eq_nil_iff, List.filter_eq_nil_iff]
  intro c hc
  obtain ⟨c0, _, rfl⟩ := List.mem_map.1 hc
  rw [decide_eq_true_eq, SetsProp_withoutProps]
  rintro ⟨h, _⟩
  exact h ⟨le_refl _, le_refl _⟩

theorem requiredFunctions_ne_nil (configCtxList : List ConfigCtxVPL)
    (h : ∃ config ∈ configCtxList, SetsProp config ePropFunc_FunctionName) :
    requiredFunctions configCtxList ≠ [] := by
  obtain ⟨c, hc, hs⟩ := h
  unfold requiredFunctions
  rw [Ne, List.map_eq_nil_iff, List.filter_eq_nil_iff]
  intro hall
  exact hall c hc (by simpa using hs)

/-- C9: when every general, category and version check passes (without the required
function names `ValidateConfig` returns `MFX_ERR_NONE`) and at least one context sets a
required function name, `ValidateConfig` returns `MFX_ERR_NONE` iff a list of implemented
functions was supplied and every required name of every context equals one of its
`FunctionsName` entries; otherwise it returns `MFX_ERR_UNSUPPORTED`. -/
theorem C9_required_functions (libImplDesc : mfxImplDescription)
    (libImplFuncs : Option mfxImplementedFunctions) (configCtxList : List ConfigCtxVPL)
    (libType : LibType) (specialConfig : SpecialConfig)
    (hpass : (ValidateConfig (some libImplDesc) libImplFuncs
        (configCtxList.map fun config =>
          config.withoutProps ePropFunc_FunctionName ePropFunc_FunctionName)
        libType specialConfig).1 = MFX_ERR_NONE)
    (hreq : ∃ config ∈ configCtxList, SetsProp config ePropFunc_FunctionName) :
    ((ValidateConfig (some libImplDesc) libImplFuncs configCtxList libType specialConfig).1
        = MFX_ERR_NONE ↔
      ∃ funcs, libImplFuncs = some funcs ∧
        ∀ name ∈ requiredFunctions configCtxList, name ∈ funcs.FunctionsName) ∧
    ((ValidateConfig (some libImplDesc) libImplFuncs configCtxList libType specialConfig).1
        ≠ MFX_ERR_NONE →
      (ValidateConfig (some libImplDesc) libImplFuncs configCtxList libType specialConfig).1
        = MFX_ERR_UNSUPPORTED) := by
  have hne := requiredFunctions_ne_nil configCtxList hreq
  rw [ValidateConfig_some, loopValid_withoutFunction, requiredFunctions_withoutFunction] at hpass
  unfold GateTriggered at hpass
  simp only [requestedVersion_withoutFunction] at hpass
  have hcond : ¬ ((GateTriggered configCtxList ∧
      libImplDesc.ApiVersion.Version < (requestedVersion configCtxList).reqVersion.Version) ∨
      loopValid libImplDesc libType configCtxList = false) := by
    intro hc
    unfold GateTriggered at hc
    simp only [hc, if_true] at hpass
    cases hpass
  rw [ValidateConfig_some]
  simp only [hcond, if_false, hne]
  cases libImplFuncs with
  | none => simp
  | some funcs =>
    refine ⟨?_, fun h => (checkFunctions_cases _ _).resolve_left h⟩
    simp only [Option.some.injEq, exists_eq_left', checkFunctions_none_iff]
theorem validate_ctxFunction_stripped (libImplFuncs : Option mfxImplementedFunctions) :
    (ValidateConfig (some avcOnlyDesc) libImplFuncs
      ([ctxFunction "MFXVideoDECODE_DecodeFrameAsync"].map fun config =>
        config.withoutProps ePropFunc_FunctionName ePropFunc_FunctionName)
      LibTypeVPL SpecialConfig.empty).1 = MFX_ERR_NONE := by
  have hv : loopValid avcOnlyDesc LibTypeVPL [ctxFunction "MFXVideoDECODE_DecodeFrameAsync"]
      = true := by
    unfold loopValid
    rw [GetFlatDescriptionsDec_nil, GetFlatDescriptionsEnc_nil, GetFlatDescriptionsVPP_nil]
    decide
  rw [ValidateConfig_some, loopValid_withoutFunction, requiredFunctions_withoutFunction, hv]
  have hg : ¬ GateTriggered ([ctxFunction "MFXVideoDECODE_DecodeFrameAsync"].map fun config =>
      config.withoutProps ePropFunc_FunctionName ePropFunc_FunctionName) := by decide
  simp only [hg, false_and, Bool.true_eq_false, or_self, if_false, if_true]

/-- Witness for C9: a context requires "MFXVideoDECODE_DecodeFrameAsync" and all other
checks pass; a list of implemented functions that includes the name is accepted, a list
that omits it and a missing list are rejected. -/
theorem C9_required_functions_witness :
    (∃ config ∈ [ctxFunction "MFXVideoDECODE_DecodeFrameAsync"],
      SetsProp config ePropFunc_FunctionName) ∧
    (ValidateConfig (some avcOnlyDesc)
      (some { FunctionsName := ["MFXVideoDECODE_Init", "MFXVideoDECODE_DecodeFrameAsync"] })
      [ctxFunction "MFXVideoDECODE_DecodeFrameAsync"] LibTypeVPL SpecialConfig.empty).1
        = MFX_ERR_NONE ∧
    (ValidateConfig (some avcOnlyDesc) (some { FunctionsName := ["MFXVideoDECODE_Init"] })
      [ctxFunction "MFXVideoDECODE_DecodeFrameAsync"] LibTypeVPL SpecialConfig.empty).1
        = MFX_ERR_UNSUPPORTED ∧
    (ValidateConfig (some avcOnlyDesc) none
      [ctxFunction "MFXVideoDECODE_DecodeFrameAsync"] LibTypeVPL SpecialConfig.empty).1
        = MFX_ERR_UNSUPPORTED := by
  have hreq : ∃ config ∈ [ctxFunction "MFXVideoDECODE_DecodeFrameAsync"],
      SetsProp config ePropFunc_FunctionName :=
    ⟨_, List.mem_singleton.2 rfl, by decide⟩
  have hnames : requiredFunctions [ctxFunction "MFXVideoDECODE_DecodeFrameAsync"]
      = ["MFXVideoDECODE_DecodeFrameAsync"] := by decide
  refine ⟨hreq, ?_, ?_, ?_⟩
  · refine (C9_required_functions avcOnlyDesc _ _ LibTypeVPL SpecialConfig.empty
      (validate_ctxFunction_stripped _) hreq).1.2 ⟨_, rfl, ?_⟩
    rw [hnames]; decide
  · have h := C9_required_functions avcOnlyDesc
      (some { FunctionsName := ["MFXVideoDECODE_Init"] }) _ LibTypeVPL SpecialConfig.empty
      (validate_ctxFunction_stripped _) hreq
    refine h.2 (fun hnone => ?_)
    obtain ⟨funcs, hf, hall⟩ := h.1.1 hnone
    cases hf
    rw [hnames] at hall
    exact absurd (hall _ (List.mem_singleton.2 rfl)) (by decide)
  · have h := C9_required_functions avcOnlyDesc none _ LibTypeVPL SpecialConfig.empty
      (validate_ctxFunction_stripped _) hreq
    refine h.2 (fun hnone => ?_)
    obtain ⟨funcs, hf, _⟩ := h.1.1 hnone
    cases hf

/-! ## Legacy libraries -/

theorem validAfter_msdk (libImplDesc : mfxImplDescription)
    (decConfigList : List DecConfig) (encConfigList : List EncConfig)
    (vppConfigList : List VPPConfig) (configCtxList : List ConfigCtxVPL) (b d e p : Bool) :
    validAfter libImplDesc LibTypeMSDK decConfigList encConfigList vppConfigList configCtxList
        b d e p =
      (b && configCtxList.all fun config =>
        decide (CheckPropsGeneral (cfgPropsOf config) libImplDesc = MFX_ERR_NONE)) := by
  induction configCtxList generalizing b d e p with
  | nil => simp [validAfter]
  | cons c rest ih =>
    simp only [validAfter, ih, passes, decide_True, Bool.true_or, Bool.and_true, List.all_cons,
      Bool.and_assoc]

theorem requestedVersion_withoutCategories (configCtxList : List ConfigCtxVPL) :
    requestedVersion (configCtxList.map fun config =>
        config.withoutProps ePropDec_CodecID ePropVPP_OutFormat) =
      requestedVersion configCtxList := by
  unfold requestedVersion
  rw [List.foldl_map]
  congr 1

theorem CheckPropsGeneral_withoutCategories (config : ConfigCtxVPL)
    (libImplDesc : mfxImplDescription) :
    CheckPropsGeneral (cfgPropsOf (config.withoutProps ePropDec_CodecID ePropVPP_OutFormat))
        libImplDesc =
      CheckPropsGeneral (cfgPropsOf config) libImplDesc := by
  apply CheckPropsGeneral_congr
  intro idx h1 _ _ _
  rw [cfgPropsOf_withoutProps, if_neg]
  simp only [ePropDec_CodecID, ePropDevice_DeviceIDStr] at *
  omega

theorem loopValid_msdk (libImplDesc : mfxImplDescription) (configCtxList : List ConfigCtxVPL) :
    loopValid libImplDesc LibTypeMSDK configCtxList =
      configCtxList.all fun config =>
        decide (CheckPropsGeneral (cfgPropsOf config) libImplDesc = MFX_ERR_NONE) := by
  unfold loopValid
  rw [validAfter_msdk, Bool.true_and]

/-- C10: for a candidate with `libType == LibTypeMSDK` the decode, encode and filter
constraints never exclude it: `ValidateConfig` returns the same status as with every such
constraint removed from every context, whatever the `Dec`, `Enc` and `VPP` sections of the
descriptor contain; in particular it returns `MFX_ERR_NONE` when every context passes the
general check and none sets a version or a required function, whatever the category
constraints are. -/
theorem C10_legacy_bypass (libImplDesc : mfxImplDescription)
    (libImplFuncs : Option mfxImplementedFunctions) (configCtxList : List ConfigCtxVPL)
    (specialConfig : SpecialConfig) (dec : mfxDecoderDescription) (enc : mfxEncoderDescription)
    (vpp : mfxVPPDescription) :
    (ValidateConfig (some libImplDesc) libImplFuncs configCtxList LibTypeMSDK specialConfig).1
      = (ValidateConfig (some { libImplDesc with Dec := dec, Enc := enc, VPP := vpp })
          libImplFuncs
          (configCtxList.map fun config =>
            config.withoutProps ePropDec_CodecID ePropVPP_OutFormat)
          LibTypeMSDK specialConfig).1 ∧
    ((∀ config ∈ configCtxList,
        CheckPropsGeneral (cfgPropsOf config) libImplDesc = MFX_ERR_NONE ∧
        ¬ SetsProp config ePropMain_ApiVersion ∧ ¬ SetsProp config ePropMain_ApiVersion_Major ∧
        ¬ SetsProp config ePropMain_ApiVersion_Minor ∧
        ¬ SetsProp config ePropFunc_FunctionName) →
      (ValidateConfig (some libImplDesc) libImplFuncs configCtxList LibTypeMSDK specialConfig).1
        = MFX_ERR_NONE) := by
  constructor
  · rw [ValidateConfig_some, ValidateConfig_some, loopValid_msdk, loopValid_msdk,
      requiredFunctions_map_withoutProps _ _ _ (by decide)]
    unfold GateTriggered
    simp only [requestedVersion_withoutCategories, List.all_map]
    have hall : (configCtxList.all ((fun config =>
          decide (CheckPropsGeneral (cfgPropsOf config)
            { libImplDesc with Dec := dec, Enc := enc, VPP := vpp } = MFX_ERR_NONE)) ∘
          fun config => config.withoutProps ePropDec_CodecID ePropVPP_OutFormat)) =
        configCtxList.all fun config =>
          decide (CheckPropsGeneral (cfgPropsOf config) libImplDesc = MFX_ERR_NONE) := by
      refine congrArg (fun f => configCtxList.all f) (funext fun c => ?_)
      simp only [Function.comp]
      rw [CheckPropsGeneral_withoutCategories]
      rfl
    rw [hall]
  · intro h
    have hg : ¬ GateTriggered configCtxList := by
      rw [gateTriggered_iff]
      rintro ⟨⟨c, hc, hs⟩, _⟩
      rcases hs with hs | hs
      · exact (h c hc).2.1 hs
      · exact (h c hc).2.2.1 hs
    have hr : requiredFunctions configCtxList = [] := by
      unfold requiredFunctions
      rw [List.map_eq_nil_iff, List.filter_eq_nil_iff]
      intro c hc
      simpa using (h c hc).2.2.2.2
    have hv : loopValid libImplDesc LibTypeMSDK configCtxList = true := by
      rw [loopValid_msdk, List.all_eq_true]
      intro c hc
      simpa using (h c hc).1
    rw [ValidateConfig_some]
    simp [hg, hr, hv]

/-- Witness for C10: the context `{Dec CodecID = HEVC}` matches no flat record of
`avcOnlyDesc`, and the legacy candidate is accepted all the same. -/
theorem C10_legacy_bypass_witness :
    CheckPropsDec (cfgPropsOf (ctxDecCodec MFX_CODEC_HEVC))
      (GetFlatDescriptionsDec avcOnlyDesc []).2 ≠ MFX_ERR_NONE ∧
    (ValidateConfig (some avcOnlyDesc) none [ctxDecCodec MFX_CODEC_HEVC] LibTypeMSDK
      SpecialConfig.empty).1 = MFX_ERR_NONE := by
  refine ⟨by rw [GetFlatDescriptionsDec_nil]; decide,
    (C10_legacy_bypass avcOnlyDesc none [ctxDecCodec MFX_CODEC_HEVC] SpecialConfig.empty
      avcOnlyDesc.Dec avcOnlyDesc.Enc avcOnlyDesc.VPP).2 ?_⟩
  intro c hc
  rw [List.mem_singleton.1 hc]
  decide

/-! ## The general check in closed form -/

theorem checkGeneralTail_none_iff (cfgPropsAll : Nat → mfxVariant)
    (libImplDesc : mfxImplDescription) (isCompatible : Bool) :
    checkGeneralTail cfgPropsAll libImplDesc isCompatible = MFX_ERR_NONE ↔
      isCompatible = true ∧
      (IsSet cfgPropsAll ePropDevice_DeviceIDStr →
        (cfgPropsAll ePropDevice_DeviceIDStr).Data.Ptr.derefString =
          libImplDesc.Dev.DeviceID) := by
  unfold checkGeneralTail IsSet
  by_cases h1 : (cfgPropsAll ePropDevice_DeviceIDStr).Type_ = MFX_VARIANT_TYPE_UNSET
  · cases isCompatible <;> simp [h1]
  · by_cases h2 : (cfgPropsAll ePropDevice_DeviceIDStr).Data.Ptr.derefString =
        libImplDesc.Dev.DeviceID
    · cases isCompatible <;> simp [h1, h2]
    · cases isCompatible <;> simp [h1, h2]

theorem checkGeneralTail_cases (cfgPropsAll : Nat → mfxVariant)
    (libImplDesc : mfxImplDescription) (isCompatible : Bool) :
    checkGeneralTail cfgPropsAll libImplDesc isCompatible = MFX_ERR_NONE ∨
      checkGeneralTail cfgPropsAll libImplDesc isCompatible = MFX_ERR_UNSUPPORTED := by
  unfold checkGeneralTail
  dsimp only
  split <;> simp

theorem clear_eq_true_iff (c : Prop) [Decidable c] (acc : Bool) :
    (if c then false else acc) = true ↔ ¬ c ∧ acc = true := by
  by_cases h : c <;> simp [h]

theorem guarded_clear_eq_true_iff (s c : Prop) [Decidable s] [Decidable c] (acc : Bool) :
    (if s then (if c then false else acc) else acc) = true ↔ (s → ¬ c) ∧ acc = true := by
  by_cases h : s <;> by_cases h2 : c <;> simp [h, h2]

theorem CheckPropsGeneral_none_iff (cfgPropsAll : Nat → mfxVariant)
    (libImplDesc : mfxImplDescription) :
    CheckPropsGeneral cfgPropsAll libImplDesc = MFX_ERR_NONE ↔
      GeneralOk cfgPropsAll libImplDesc := by
  unfold CheckPropsGeneral GeneralOk
  dsimp only
  have hacc : ∀ acc : Bool,
      (if libImplDesc.AccelerationModeDescription.Mode.length > 0 then
        if (cfgPropsAll ePropMain_AccelerationMode).Type_ ≠ MFX_VARIANT_TYPE_UNSET then
          if (cfgPropsAll ePropMain_AccelerationMode).Data.U32 ∈
              libImplDesc.AccelerationModeDescription.Mode then acc
          else false
        else acc
      else
        CHECK_PROP cfgPropsAll ePropMain_AccelerationMode mfxVariantData.U32
          libImplDesc.AccelerationMode acc) = true ↔
      (IsSet cfgPropsAll ePropMain_AccelerationMode →
        if libImplDesc.AccelerationModeDescription.Mode = [] then
          (cfgPropsAll ePropMain_AccelerationMode).Data.U32 = libImplDesc.AccelerationMode
        else
          (cfgPropsAll ePropMain_AccelerationMode).Data.U32 ∈
            libImplDesc.AccelerationModeDescription.Mode) ∧ acc = true := by
    intro acc
    by_cases hm : libImplDesc.AccelerationModeDescription.Mode = []
    · simp only [hm, List.length_nil, gt_iff_lt, lt_self_iff_false, if_false, if_true]
      exact CHECK_PROP_eq_true _ _ _ _ _
    · have hpos : libImplDesc.AccelerationModeDescription.Mode.length > 0 :=
        List.length_pos.mpr hm
      simp only [hpos, hm, if_true, if_false]
      unfold IsSet
      by_cases h1 : (cfgPropsAll ePropMain_AccelerationMode).Type_ = MFX_VARIANT_TYPE_UNSET
      · simp [h1]
      · by_cases h2 : (cfgPropsAll ePropMain_AccelerationMode).Data.U32 ∈
            libImplDesc.AccelerationModeDescription.Mode
        · simp [h1, h2]
        · simp [h1, h2]
  generalize hB :
    (if (cfgPropsAll ePropMain_Keywords).Type_ ≠ MFX_VARIANT_TYPE_UNSET then _ else _ : Bool)
      = B
  have hBiff : B = true ↔
      (IsSet cfgPropsAll ePropMain_Impl →
        (cfgPropsAll ePropMain_Impl).Data.U32 = libImplDesc.Impl) ∧
      (IsSet cfgPropsAll ePropMain_VendorID →
        (cfgPropsAll ePropMain_VendorID).Data.U32 = libImplDesc.VendorID) ∧
      (IsSet cfgPropsAll ePropMain_VendorImplID →
        (cfgPropsAll ePropMain_VendorImplID).Data.U32 = libImplDesc.VendorImplID) ∧
      (IsSet cfgPropsAll ePropMain_AccelerationMode →
        if libImplDesc.AccelerationModeDescription.Mode = [] then
          (cfgPropsAll ePropMain_AccelerationMode).Data.U32 = libImplDesc.AccelerationMode
        else
          (cfgPropsAll ePropMain_AccelerationMode).Data.U32 ∈
            libImplDesc.AccelerationModeDescription.Mode) ∧
      (IsSet cfgPropsAll ePropMain_ImplName →
        (cfgPropsAll ePropMain_ImplName).Data.Ptr.derefString = libImplDesc.ImplName) ∧
      (IsSet cfgPropsAll ePropMain_License →
        CheckPropString libImplDesc.License
          (cfgPropsAll ePropMain_License).Data.Ptr.derefString = MFX_ERR_NONE) ∧
      (IsSet cfgPropsAll ePropMain_Keywords →
        CheckPropString libImplDesc.Keywords
          (cfgPropsAll ePropMain_Keywords).Data.Ptr.derefString = MFX_ERR_NONE) := by
    rw [← hB, guarded_clear_eq_true_iff, guarded_clear_eq_true_iff, guarded_clear_eq_true_iff,
      hacc, CHECK_PROP_eq_true, CHECK_PROP_eq_true, CHECK_PROP_eq_true]
    unfold IsSet
    simp only [ne_eq, not_not, and_true]
    tauto
  by_cases hd : (cfgPropsAll ePropDevice_DeviceID).Type_ = MFX_VARIANT_TYPE_UNSET
  · have hns : ¬ IsSet cfgPropsAll ePropDevice_DeviceID := by unfold IsSet; simp [hd]
    simp only [hd, ne_eq, not_true_eq_false, if_false, checkGeneralTail_none_iff, hBiff]
    simp only [hns, false_implies, true_and]
    tauto
  · have hs : IsSet cfgPropsAll ePropDevice_DeviceID := hd
    simp only [hd, ne_eq, not_false_eq_true, if_true]
    cases hp : stoi16 libImplDesc.Dev.DeviceID with
    | none =>
      simp only [reduceCtorEq, false_iff]
      intro hok
      obtain ⟨parsed, hpar, _⟩ := hok.2.2.2.2.2.2.2.1 hs
      simp at hpar
    | some parsed =>
      simp only [checkGeneralTail_none_iff, clear_eq_true_iff, hBiff, Option.some.injEq,
        exists_eq_left', not_not, hs, true_implies]
      constructor
      · rintro ⟨⟨h8, h1, h2, h3, h4, h5, h6, h7⟩, h9⟩
        exact ⟨h1, h2, h3, h4, h5, h6, h7, h8, h9⟩
      · rintro ⟨h1, h2, h3, h4, h5, h6, h7, h8, h9⟩
        exact ⟨⟨h8, h1, h2, h3, h4, h5, h6, h7⟩, h9⟩

theorem CheckPropsGeneral_cases (cfgPropsAll : Nat → mfxVariant)
    (libImplDesc : mfxImplDescription) :
    CheckPropsGeneral cfgPropsAll libImplDesc = MFX_ERR_NONE ∨
      CheckPropsGeneral cfgPropsAll libImplDesc = MFX_ERR_UNSUPPORTED := by
  unfold CheckPropsGeneral
  dsimp only
  generalize
    (if (cfgPropsAll ePropMain_Keywords).Type_ ≠ MFX_VARIANT_TYPE_UNSET then _ else _ : Bool)
      = B
  split
  · split
    · right; rfl
    · exact checkGeneralTail_cases _ _ _
  · exact checkGeneralTail_cases _ _ _

/-! ## Claims C12 to C14: the general check -/

theorem generalOk_of_unset (cfgPropsAll : Nat → mfxVariant) (libImplDesc : mfxImplDescription)
    (h : ∀ idx, ¬ IsSet cfgPropsAll idx) : GeneralOk cfgPropsAll libImplDesc :=
  ⟨fun hs => absurd hs (h _), fun hs => absurd hs (h _), fun hs => absurd hs (h _),
    fun hs => absurd hs (h _), fun hs => absurd hs (h _), fun hs => absurd hs (h _),
    fun hs => absurd hs (h _), fun hs => absurd hs (h _), fun hs => absurd hs (h _)⟩

theorem CheckPropsGeneral_unsupported_of_not_ok (cfgPropsAll : Nat → mfxVariant)
    (libImplDesc : mfxImplDescription) (h : ¬ GeneralOk cfgPropsAll libImplDesc) :
    CheckPropsGeneral cfgPropsAll libImplDesc = MFX_ERR_UNSUPPORTED := by
  rcases CheckPropsGeneral_cases cfgPropsAll libImplDesc with hn | hu
  · exact absurd ((CheckPropsGeneral_none_iff _ _).mp hn) h
  · exact hu

/-- Claim C12. General scalar check: if one of the `Impl`, `VendorID`, `VendorImplID`
constraints is set and differs from the value of the descriptor, `CheckPropsGeneral` returns
`MFX_ERR_UNSUPPORTED`; an unset constraint never causes rejection (the check accepts exactly
when every constraint that is set agrees with the descriptor, and with one of the three
unset the result is the same whatever the descriptor holds in that field); with every
constraint unset the result is `MFX_ERR_NONE` for every descriptor. -/
theorem C12_general_scalar_check (cfgPropsAll : Nat → mfxVariant)
    (libImplDesc : mfxImplDescription) :
    (((IsSet cfgPropsAll ePropMain_Impl ∧
          (cfgPropsAll ePropMain_Impl).Data.U32 ≠ libImplDesc.Impl) ∨
        (IsSet cfgPropsAll ePropMain_VendorID ∧
          (cfgPropsAll ePropMain_VendorID).Data.U32 ≠ libImplDesc.VendorID) ∨
        (IsSet cfgPropsAll ePropMain_VendorImplID ∧
          (cfgPropsAll ePropMain_VendorImplID).Data.U32 ≠ libImplDesc.VendorImplID)) →
      CheckPropsGeneral cfgPropsAll libImplDesc = MFX_ERR_UNSUPPORTED) ∧
    (CheckPropsGeneral cfgPropsAll libImplDesc = MFX_ERR_NONE ↔
      GeneralOk cfgPropsAll libImplDesc) ∧
    (¬ IsSet cfgPropsAll ePropMain_Impl → ∀ impl,
      CheckPropsGeneral cfgPropsAll { libImplDesc with Impl := impl } =
        CheckPropsGeneral cfgPropsAll libImplDesc) ∧
    (¬ IsSet cfgPropsAll ePropMain_VendorID → ∀ vendorID,
      CheckPropsGeneral cfgPropsAll { libImplDesc with VendorID := vendorID } =
        CheckPropsGeneral cfgPropsAll libImplDesc) ∧
    (¬ IsSet cfgPropsAll ePropMain_VendorImplID → ∀ vendorImplID,
      CheckPropsGeneral cfgPropsAll { libImplDesc with VendorImplID := vendorImplID } =
        CheckPropsGeneral cfgPropsAll libImplDesc) ∧
    ((∀ idx, ¬ IsSet cfgPropsAll idx) →
      CheckPropsGeneral cfgPropsAll libImplDesc = MFX_ERR_NONE) := by
  refine ⟨?_, CheckPropsGeneral_none_iff _ _, ?_, ?_, ?_, ?_⟩
  · intro h
    apply CheckPropsGeneral_unsupported_of_not_ok
    intro hok
    rcases h with ⟨hs, hne⟩ | ⟨hs, hne⟩ | ⟨hs, hne⟩
    · exact hne (hok.1 hs)
    · exact hne (hok.2.1 hs)
    · exact hne (hok.2.2.1 hs)
  · intro hu impl
    unfold IsSet at hu
    unfold CheckPropsGeneral checkGeneralTail CHECK_PROP
    simp only [hu, false_and, if_false]
  · intro hu vendorID
    unfold IsSet at hu
    unfold CheckPropsGeneral checkGeneralTail CHECK_PROP
    simp only [hu, false_and, if_false]
  · intro hu vendorImplID
    unfold IsSet at hu
    unfold CheckPropsGeneral checkGeneralTail CHECK_PROP
    simp only [hu, false_and, if_false]
  · intro h
    exact (CheckPropsGeneral_none_iff _ _).mpr (generalOk_of_unset _ _ h)

/-- Claim C13. Acceleration mode check: when the `AccelerationMode` constraint is set and is
the only set constraint, `CheckPropsGeneral` accepts if and only if the list of supported
modes of the descriptor is non-empty and contains the requested mode, or the list is empty
and the requested mode equals the default `AccelerationMode` of the descriptor; with a
non-empty list the result does not depend on that default field. -/
theorem C13_acceleration_mode_check (cfgPropsAll : Nat → mfxVariant)
    (libImplDesc : mfxImplDescription)
    (hset : IsSet cfgPropsAll ePropMain_AccelerationMode)
    (honly : ∀ idx, idx ≠ ePropMain_AccelerationMode → ¬ IsSet cfgPropsAll idx) :
    (CheckPropsGeneral cfgPropsAll libImplDesc = MFX_ERR_NONE ↔
      (libImplDesc.AccelerationModeDescription.Mode ≠ [] ∧
        (cfgPropsAll ePropMain_AccelerationMode).Data.U32 ∈
          libImplDesc.AccelerationModeDescription.Mode) ∨
      (libImplDesc.AccelerationModeDescription.Mode = [] ∧
        (cfgPropsAll ePropMain_AccelerationMode).Data.U32 = libImplDesc.AccelerationMode)) ∧
    (libImplDesc.AccelerationModeDescription.Mode ≠ [] → ∀ mode,
      CheckPropsGeneral cfgPropsAll { libImplDesc with AccelerationMode := mode } =
        CheckPropsGeneral cfgPropsAll libImplDesc) := by
  constructor
  · rw [CheckPropsGeneral_none_iff]
    constructor
    · intro hok
      have h4 := hok.2.2.2.1 hset
      by_cases hm : libImplDesc.AccelerationModeDescription.Mode = []
      · rw [if_pos hm] at h4
        exact Or.inr ⟨hm, h4⟩
      · rw [if_neg hm] at h4
        exact Or.inl ⟨hm, h4⟩
    · intro h
      refine ⟨fun hs => absurd hs (honly _ (by decide)), fun hs => absurd hs (honly _ (by decide)),
        fun hs => absurd hs (honly _ (by decide)), ?_,
        fun hs => absurd hs (honly _ (by decide)), fun hs => absurd hs (honly _ (by decide)),
        fun hs => absurd hs (honly _ (by decide)), fun hs => absurd hs (honly _ (by decide)),
        fun hs => absurd hs (honly _ (by decide))⟩
      intro _
      rcases h with ⟨hm, hin⟩ | ⟨hm, heq⟩
      · rw [if_neg hm]; exact hin
      · rw [if_pos hm]; exact heq
  · intro hm mode
    have hpos : libImplDesc.AccelerationModeDescription.Mode.length > 0 :=
      List.length_pos.mpr hm
    unfold CheckPropsGeneral checkGeneralTail
    simp only [hpos, if_true]

theorem onlyAccelerationMode_isSet (mode idx : Nat) :
    IsSet (onlyAccelerationMode mode) idx ↔ idx = ePropMain_AccelerationMode := by
  unfold IsSet onlyAccelerationMode
  by_cases h : idx = ePropMain_AccelerationMode
  · subst h; simp
  · simp [Function.update, h, mfxVariant.unset]

theorem C13_acceleration_mode_check_witness :
    (CheckPropsGeneral (onlyAccelerationMode 0x0400)
        { avcOnlyDesc with AccelerationModeDescription := { Mode := [0x0200, 0x0400] } } =
        MFX_ERR_NONE ↔
      (([0x0200, 0x0400] : List Nat) ≠ [] ∧
        ((onlyAccelerationMode 0x0400) ePropMain_AccelerationMode).Data.U32 ∈
          ([0x0200, 0x0400] : List Nat)) ∨
      (([0x0200, 0x0400] : List Nat) = [] ∧
        ((onlyAccelerationMode 0x0400) ePropMain_AccelerationMode).Data.U32 = 0)) :=
  (C13_acceleration_mode_check (onlyAccelerationMode 0x0400)
    { avcOnlyDesc with AccelerationModeDescription := { Mode := [0x0200, 0x0400] } }
    ((onlyAccelerationMode_isSet _ _).mpr rfl)
    (fun _ hne hs => hne ((onlyAccelerationMode_isSet _ _).mp hs))).1

theorem CheckPropsGeneral_stoi_none (cfgPropsAll : Nat → mfxVariant)
    (libImplDesc : mfxImplDescription)
    (hset : IsSet cfgPropsAll ePropDevice_DeviceID)
    (hthrow : stoi16 libImplDesc.Dev.DeviceID = none) :
    CheckPropsGeneral cfgPropsAll libImplDesc = MFX_ERR_UNSUPPORTED := by
  apply CheckPropsGeneral_unsupported_of_not_ok
  intro hok
  obtain ⟨parsed, hp, _⟩ := hok.2.2.2.2.2.2.2.1 hset
  rw [hthrow] at hp
  exact Option.noConfusion hp

/-- Claim C14, the code at the failing input. The device id string `12xyz` is malformed
(hexadecimal digits followed by characters that are neither `/` nor an adapter index), the
16-bit `DeviceID` constraint is set (to `0x12`), and `CheckPropsGeneral` accepts the
descriptor with `MFX_ERR_NONE`: the conversion reads the leading digits `12` and ignores
the rest, and no format check precedes it. -/
theorem C14_malformed_device_id_accepted :
    WellFormedDeviceID "12xyz" = false ∧
    IsSet (onlyDeviceID 0x12) ePropDevice_DeviceID ∧
    stoi16 "12xyz" = some 0x12 ∧
    CheckPropsGeneral (onlyDeviceID 0x12) (descWithDeviceID "12xyz") = MFX_ERR_NONE := by
  refine ⟨by decide, by decide, by decide, ?_⟩
  decide

/-! ## Claim C11: the special properties are taken from the last context that sets them -/

theorem lastSetter_append_singleton (l : List ConfigCtxVPL) (c : ConfigCtxVPL) (idx : Nat) :
    lastSetter (l ++ [c]) idx = if SetsProp c idx then some c else lastSetter l idx := by
  unfold lastSetter
  by_cases h : SetsProp c idx
  · simp [List.filter_append, List.filter_cons, h]
  · simp [List.filter_append, List.filter_cons, h]

theorem lastWriter_fold {α : Type} (get : SpecialConfig → α) (idx : Nat)
    (val : ConfigCtxVPL → α)
    (hstep : ∀ c sc, get (updateSpecial (cfgPropsOf c) sc) =
      if SetsProp c idx then val c else get sc)
    (l : List ConfigCtxVPL) (sc : SpecialConfig) :
    get (specialOf l sc) =
      match lastSetter l idx with
      | some c => val c
      | none => get sc := by
  induction l using List.reverseRecOn with
  | nil => rfl
  | append_singleton l c ih =>
    have hfold : specialOf (l ++ [c]) sc = updateSpecial (cfgPropsOf c) (specialOf l sc) := by
      unfold specialOf
      rw [List.foldl_append]
      rfl
    rw [hfold, hstep, lastSetter_append_singleton]
    by_cases h : SetsProp c idx
    · simp only [h, if_true]
    · simp only [h, if_false]
      exact ih

theorem cfgPropsOf_data (c : ConfigCtxVPL) (idx : Nat) (h1 : idx < eProp_TotalProps)
    (h2 : idx ≠ ePropFunc_FunctionName) (hs : SetsProp c idx) :
    (cfgPropsOf c idx).Data = (c.m_propVar idx).Data := by
  unfold cfgPropsOf
  simp [hs, h1, h2]

theorem updateSpecial_step (c : ConfigCtxVPL) (sc : SpecialConfig) :
    ((updateSpecial (cfgPropsOf c) sc).deviceHandleType =
        if SetsProp c ePropSpecial_HandleType then
          (c.m_propVar ePropSpecial_HandleType).Data.U32 else sc.deviceHandleType) ∧
    ((updateSpecial (cfgPropsOf c) sc).bIsSet_deviceHandleType =
        if SetsProp c ePropSpecial_HandleType then true else sc.bIsSet_deviceHandleType) ∧
    ((updateSpecial (cfgPropsOf c) sc).deviceHandle =
        if SetsProp c ePropSpecial_Handle then
          (c.m_propVar ePropSpecial_Handle).Data.Ptr else sc.deviceHandle) ∧
    ((updateSpecial (cfgPropsOf c) sc).bIsSet_deviceHandle =
        if SetsProp c ePropSpecial_Handle then true else sc.bIsSet_deviceHandle) ∧
    ((updateSpecial (cfgPropsOf c) sc).dxgiAdapterIdx =
        if SetsProp c ePropSpecial_DXGIAdapterIndex then
          (c.m_propVar ePropSpecial_DXGIAdapterIndex).Data.U32 else sc.dxgiAdapterIdx) ∧
    ((updateSpecial (cfgPropsOf c) sc).bIsSet_dxgiAdapterIdx =
        if SetsProp c ePropSpecial_DXGIAdapterIndex then true else sc.bIsSet_dxgiAdapterIdx) ∧
    ((updateSpecial (cfgPropsOf c) sc).accelerationMode =
        if SetsProp c ePropMain_AccelerationMode then
          (c.m_propVar ePropMain_AccelerationMode).Data.U32 else sc.accelerationMode) ∧
    ((updateSpecial (cfgPropsOf c) sc).bIsSet_accelerationMode =
        if SetsProp c ePropMain_AccelerationMode then true else sc.bIsSet_accelerationMode) := by
  have e1 := isSet_cfgPropsOf c ePropSpecial_HandleType (by decide) (by decide)
  have e2 := isSet_cfgPropsOf c ePropSpecial_Handle (by decide) (by decide)
  have e3 := isSet_cfgPropsOf c ePropSpecial_DXGIAdapterIndex (by decide) (by decide)
  have e4 := isSet_cfgPropsOf c ePropMain_AccelerationMode (by decide) (by decide)
  unfold IsSet at e1 e2 e3 e4
  unfold updateSpecial
  dsimp only
  by_cases h1 : SetsProp c ePropSpecial_HandleType <;>
  by_cases h2 : SetsProp c ePropSpecial_Handle <;>
  by_cases h3 : SetsProp c ePropSpecial_DXGIAdapterIndex <;>
  by_cases h4 : SetsProp c ePropMain_AccelerationMode <;>
  simp only [e1, e2, e3, e4, h1, h2, h3, h4, if_true, if_false, not_true_eq_false,
    not_false_eq_true, true_and, and_true, and_self] <;>
  simp [cfgPropsOf, h1, h2, h3, h4, ePropSpecial_HandleType, ePropSpecial_Handle,
    ePropSpecial_DXGIAdapterIndex, ePropMain_AccelerationMode, eProp_TotalProps,
    ePropFunc_FunctionName]

theorem validateConfig_special (libImplDesc : mfxImplDescription)
    (libImplFuncs : Option mfxImplementedFunctions) (configCtxList : List ConfigCtxVPL)
    (libType : LibType) (specialConfig : SpecialConfig) :
    ∃ version flag,
      (ValidateConfig (some libImplDesc) libImplFuncs configCtxList libType specialConfig).2 =
        { specialOf configCtxList specialConfig with
          ApiVersion := version
          bIsSet_ApiVersion := flag } := by
  rw [ValidateConfig_some]
  by_cases hg : GateTriggered configCtxList
  · exact ⟨{ Version := (requestedVersion configCtxList).reqVersion.Version }, true,
      by simp only [hg, if_true]⟩
  · exact ⟨(specialOf configCtxList specialConfig).ApiVersion,
      (specialOf configCtxList specialConfig).bIsSet_ApiVersion, by simp only [hg, if_false]⟩

/-- Claim C11. `SpecialConfig` last-writer-wins: after `ValidateConfig` on a non-null
descriptor, each of the fields `deviceHandleType`, `deviceHandle`, `dxgiAdapterIdx` and
`accelerationMode` is marked set and holds the value of the last context, in list order,
that sets the corresponding property; when no context sets it, the field and its is-set
flag are as they were on entry. -/
theorem C11_special_last_writer_wins (libImplDesc : mfxImplDescription)
    (libImplFuncs : Option mfxImplementedFunctions) (configCtxList : List ConfigCtxVPL)
    (libType : LibType) (specialConfig : SpecialConfig) :
    (match lastSetter configCtxList ePropSpecial_HandleType with
      | some c =>
        (ValidateConfig (some libImplDesc) libImplFuncs configCtxList libType
            specialConfig).2.deviceHandleType =
          (c.m_propVar ePropSpecial_HandleType).Data.U32 ∧
        (ValidateConfig (some libImplDesc) libImplFuncs configCtxList libType
            specialConfig).2.bIsSet_deviceHandleType = true
      | none =>
        (ValidateConfig (some libImplDesc) libImplFuncs configCtxList libType
            specialConfig).2.deviceHandleType = specialConfig.deviceHandleType ∧
        (ValidateConfig (some libImplDesc) libImplFuncs configCtxList libType
            specialConfig).2.bIsSet_deviceHandleType = specialConfig.bIsSet_deviceHandleType) ∧
    (match lastSetter configCtxList ePropSpecial_Handle with
      | some c =>
        (ValidateConfig (some libImplDesc) libImplFuncs configCtxList libType
            specialConfig).2.deviceHandle = (c.m_propVar ePropSpecial_Handle).Data.Ptr ∧
        (ValidateConfig (some libImplDesc) libImplFuncs configCtxList libType
            specialConfig).2.bIsSet_deviceHandle = true
      | none =>
        (ValidateConfig (some libImplDesc) libImplFuncs configCtxList libType
            specialConfig).2.deviceHandle = specialConfig.deviceHandle ∧
        (ValidateConfig (some libImplDesc) libImplFuncs configCtxList libType
            specialConfig).2.bIsSet_deviceHandle = specialConfig.bIsSet_deviceHandle) ∧
    (match lastSetter configCtxList ePropSpecial_DXGIAdapterIndex with
      | some c =>
        (ValidateConfig (some libImplDesc) libImplFuncs configCtxList libType
            specialConfig).2.dxgiAdapterIdx =
          (c.m_propVar ePropSpecial_DXGIAdapterIndex).Data.U32 ∧
        (ValidateConfig (some libImplDesc) libImplFuncs configCtxList libType
            specialConfig).2.bIsSet_dxgiAdapterIdx = true
      | none =>
        (ValidateConfig (some libImplDesc) libImplFuncs configCtxList libType
            specialConfig).2.dxgiAdapterIdx = specialConfig.dxgiAdapterIdx ∧
        (ValidateConfig (some libImplDesc) libImplFuncs configCtxList libType
            specialConfig).2.bIsSet_dxgiAdapterIdx = specialConfig.bIsSet_dxgiAdapterIdx) ∧
    (match lastSetter configCtxList ePropMain_AccelerationMode with
      | some c =>
        (ValidateConfig (some libImplDesc) libImplFuncs configCtxList libType
            specialConfig).2.accelerationMode =
          (c.m_propVar ePropMain_AccelerationMode).Data.U32 ∧
        (ValidateConfig (some libImplDesc) libImplFuncs configCtxList libType
            specialConfig).2.bIsSet_accelerationMode = true
      | none =>
        (ValidateConfig (some libImplDesc) libImplFuncs configCtxList libType
            specialConfig).2.accelerationMode = specialConfig.accelerationMode ∧
        (ValidateConfig (some libImplDesc) libImplFuncs configCtxList libType
            specialConfig).2.bIsSet_accelerationMode = specialConfig.bIsSet_accelerationMode) := by
  obtain ⟨version, flag, hout⟩ :=
    validateConfig_special libImplDesc libImplFuncs configCtxList libType specialConfig
  rw [hout]
  have step := fun c sc => updateSpecial_step c sc
  have f1 := lastWriter_fold (fun sc => sc.deviceHandleType) ePropSpecial_HandleType
    (fun c => (c.m_propVar ePropSpecial_HandleType).Data.U32)
    (fun c sc => (step c sc).1) configCtxList specialConfig
  have f2 := lastWriter_fold (fun sc => sc.bIsSet_deviceHandleType) ePropSpecial_HandleType
    (fun _ => true) (fun c sc => (step c sc).2.1) configCtxList specialConfig
  have f3 := lastWriter_fold (fun sc => sc.deviceHandle) ePropSpecial_Handle
    (fun c => (c.m_propVar ePropSpecial_Handle).Data.Ptr)
    (fun c sc => (step c sc).2.2.1) configCtxList specialConfig
  have f4 := lastWriter_fold (fun sc => sc.bIsSet_deviceHandle) ePropSpecial_Handle
    (fun _ => true) (fun c sc => (step c sc).2.2.2.1) configCtxList specialConfig
  have f5 := lastWriter_fold (fun sc => sc.dxgiAdapterIdx) ePropSpecial_DXGIAdapterIndex
    (fun c => (c.m_propVar ePropSpecial_DXGIAdapterIndex).Data.U32)
    (fun c sc => (step c sc).2.2.2.2.1) configCtxList specialConfig
  have f6 := lastWriter_fold (fun sc => sc.bIsSet_dxgiAdapterIdx) ePropSpecial_DXGIAdapterIndex
    (fun _ => true) (fun c sc => (step c sc).2.2.2.2.2.1) configCtxList specialConfig
  have f7 := lastWriter_fold (fun sc => sc.accelerationMode) ePropMain_AccelerationMode
    (fun c => (c.m_propVar ePropMain_AccelerationMode).Data.U32)
    (fun c sc => (step c sc).2.2.2.2.2.2.1) configCtxList specialConfig
  have f8 := lastWriter_fold (fun sc => sc.bIsSet_accelerationMode) ePropMain_AccelerationMode
    (fun _ => true) (fun c sc => (step c sc).2.2.2.2.2.2.2) configCtxList specialConfig
  dsimp only at f1 f2 f3 f4 f5 f6 f7 f8 ⊢
  refine ⟨?_, ?_, ?_, ?_⟩
  · cases h : lastSetter configCtxList ePropSpecial_HandleType with
    | none => rw [h] at f1 f2; exact ⟨f1, f2⟩
    | some c => rw [h] at f1 f2; exact ⟨f1, f2⟩
  · cases h : lastSetter configCtxList ePropSpecial_Handle with
    | none => rw [h] at f3 f4; exact ⟨f3, f4⟩
    | some c => rw [h] at f3 f4; exact ⟨f3, f4⟩
  · cases h : lastSetter configCtxList ePropSpecial_DXGIAdapterIndex with
    | none => rw [h] at f5 f6; exact ⟨f5, f6⟩
    | some c => rw [h] at f5 f6; exact ⟨f5, f6⟩
  · cases h : lastSetter configCtxList ePropMain_AccelerationMode with
    | none => rw [h] at f7 f8; exact ⟨f7, f8⟩
    | some c => rw [h] at f7 f8; exact ⟨f7, f8⟩

/-! ## Claims C15 to C18: the property setter -/

theorem propType_lt (idx : Nat) (h : propType idx ≠ MFX_VARIANT_TYPE_UNSET) :
    idx < eProp_TotalProps := by
  by_contra hge
  apply h
  unfold propType
  rw [List.getD_eq_default]
  exact Nat.le_of_not_lt hge

theorem setter_guard (idx : Nat) (h : idx < eProp_TotalProps) :
    ¬ ((idx : Int) < 0 ∨ (idx : Int) ≥ (eProp_TotalProps : Int)) := by
  unfold eProp_TotalProps at h ⊢
  omega

/-- Claim C15. Null defense: for every index whose declared type is pointer and every
prior context, `ValidateAndSetProp` with a pointer-typed value whose pointer is null
returns `MFX_ERR_NULL_PTR` and leaves the `Type` of that slot equal to `UNSET`, whatever
the slot held before the call. -/
theorem C15_null_defense (ctx : ConfigCtxVPL) (mem : CallerMem) (idx : Nat)
    (value : mfxVariant)
    (hdecl : propType idx = MFX_VARIANT_TYPE_PTR)
    (htype : value.Type_ = MFX_VARIANT_TYPE_PTR)
    (hnull : value.Data.Ptr = mfxHDL.null) :
    (ValidateAndSetProp ctx mem idx value).1 = MFX_ERR_NULL_PTR ∧
    ((ValidateAndSetProp ctx mem idx value).2.m_propVar idx).Type_ =
      MFX_VARIANT_TYPE_UNSET := by
  have hlt : idx < eProp_TotalProps := propType_lt idx (by rw [hdecl]; decide)
  unfold ValidateAndSetProp
  simp only [setter_guard idx hlt, if_false, Int.toNat_ofNat, htype, hdecl, ne_eq,
    not_true_eq_false, if_true, hnull, ConfigCtxVPL.setType, and_self]

theorem C15_null_defense_witness :
    (ValidateAndSetProp ctxLicense callerMem ePropMain_License
        { Type_ := MFX_VARIANT_TYPE_PTR, Data := .ptr .null }).1 = MFX_ERR_NULL_PTR ∧
    ((ValidateAndSetProp ctxLicense callerMem ePropMain_License
        { Type_ := MFX_VARIANT_TYPE_PTR, Data := .ptr .null }).2.m_propVar
          ePropMain_License).Type_ = MFX_VARIANT_TYPE_UNSET :=
  C15_null_defense ctxLicense callerMem ePropMain_License
    { Type_ := MFX_VARIANT_TYPE_PTR, Data := .ptr .null } (by decide) rfl rfl

/-- Claim C16. Type mismatch: for every index in range and every value whose `Type`
differs from the declared type of that index, `ValidateAndSetProp` returns
`MFX_ERR_UNSUPPORTED` and leaves the whole context (every slot and all owned storage)
unchanged; for every index outside `[0, eProp_TotalProps)` it returns `MFX_ERR_NOT_FOUND`
and leaves the context unchanged. -/
theorem C16_type_mismatch (ctx : ConfigCtxVPL) (mem : CallerMem) (value : mfxVariant) :
    (∀ idx : Int, 0 ≤ idx → idx < (eProp_TotalProps : Int) →
      value.Type_ ≠ propType idx.toNat →
      ValidateAndSetProp ctx mem idx value = (MFX_ERR_UNSUPPORTED, ctx)) ∧
    (∀ idx : Int, (idx < 0 ∨ (eProp_TotalProps : Int) ≤ idx) →
      ValidateAndSetProp ctx mem idx value = (MFX_ERR_NOT_FOUND, ctx)) := by
  constructor
  · intro idx h0 h1 hne
    have hg : ¬ (idx < 0 ∨ idx ≥ (eProp_TotalProps : Int)) := by omega
    unfold ValidateAndSetProp
    rw [if_neg hg, if_pos hne]
  · intro idx hout
    have hg : idx < 0 ∨ idx ≥ (eProp_TotalProps : Int) := by omega
    unfold ValidateAndSetProp
    rw [if_pos hg]

/-- Claim C17. Scalar round trip: for every index whose declared type is `U16` or `U32`,
every value of that type and every prior context, `ValidateAndSetProp` returns
`MFX_ERR_NONE` and afterwards the slot at the index has the `Type` and the `Data` of the
value, whatever it held before; no other slot and no owned storage changes. -/
theorem C17_scalar_round_trip (ctx : ConfigCtxVPL) (mem : CallerMem) (idx : Nat)
    (value : mfxVariant)
    (hdecl : propType idx = MFX_VARIANT_TYPE_U16 ∨ propType idx = MFX_VARIANT_TYPE_U32)
    (htype : value.Type_ = propType idx) :
    (ValidateAndSetProp ctx mem idx value).1 = MFX_ERR_NONE ∧
    ((ValidateAndSetProp ctx mem idx value).2.m_propVar idx).Type_ = value.Type_ ∧
    ((ValidateAndSetProp ctx mem idx value).2.m_propVar idx).Data = value.Data ∧
    (∀ other, other ≠ idx →
      (ValidateAndSetProp ctx mem idx value).2.m_propVar other = ctx.m_propVar other) ∧
    (ValidateAndSetProp ctx mem idx value).2.m_propRange32U = ctx.m_propRange32U ∧
    (ValidateAndSetProp ctx mem idx value).2.m_implName = ctx.m_implName ∧
    (ValidateAndSetProp ctx mem idx value).2.m_implLicense = ctx.m_implLicense ∧
    (ValidateAndSetProp ctx mem idx value).2.m_implKeywords = ctx.m_implKeywords ∧
    (ValidateAndSetProp ctx mem idx value).2.m_deviceIdStr = ctx.m_deviceIdStr ∧
    (ValidateAndSetProp ctx mem idx value).2.m_implFunctionName = ctx.m_implFunctionName := by
  have hne : propType idx ≠ MFX_VARIANT_TYPE_UNSET := by
    rcases hdecl with h | h <;> rw [h] <;> decide
  have hnp : ¬ value.Type_ = MFX_VARIANT_TYPE_PTR := by
    rw [htype]
    rcases hdecl with h | h <;> rw [h] <;> decide
  have hlt : idx < eProp_TotalProps := propType_lt idx hne
  unfold ValidateAndSetProp
  have hsame : ¬ value.Type_ ≠ propType idx := fun h => h htype
  simp only [setter_guard idx hlt, if_false, Int.toNat_ofNat, hsame, hnp,
    ConfigCtxVPL.setType, ConfigCtxVPL.setData, if_true, true_and]
  refine ⟨?_, trivial⟩
  intro other hother
  simp only [hother, if_false]

theorem C17_scalar_round_trip_witness :
    (ValidateAndSetProp (ctxDecCodec MFX_CODEC_AVC) callerMem ePropDec_CodecID
        { Type_ := MFX_VARIANT_TYPE_U32, Data := .bits MFX_CODEC_HEVC }).1 = MFX_ERR_NONE ∧
    ((ValidateAndSetProp (ctxDecCodec MFX_CODEC_AVC) callerMem ePropDec_CodecID
        { Type_ := MFX_VARIANT_TYPE_U32, Data := .bits MFX_CODEC_HEVC }).2.m_propVar
          ePropDec_CodecID).Data = .bits MFX_CODEC_HEVC :=
  ⟨(C17_scalar_round_trip (ctxDecCodec MFX_CODEC_AVC) callerMem ePropDec_CodecID
      { Type_ := MFX_VARIANT_TYPE_U32, Data := .bits MFX_CODEC_HEVC }
      (Or.inr (by decide)) (by decide)).1,
    (C17_scalar_round_trip (ctxDecCodec MFX_CODEC_AVC) callerMem ePropDec_CodecID
      { Type_ := MFX_VARIANT_TYPE_U32, Data := .bits MFX_CODEC_HEVC }
      (Or.inr (by decide)) (by decide)).2.2.1⟩

theorem setter_ptr (ctx : ConfigCtxVPL) (mem : CallerMem) (idx : Nat) (p : mfxHDL)
    (hdecl : propType idx = MFX_VARIANT_TYPE_PTR) (hp : p ≠ mfxHDL.null) :
    ValidateAndSetProp ctx mem idx { Type_ := MFX_VARIANT_TYPE_PTR, Data := .ptr p } =
      (MFX_ERR_NONE, (ctx.setType idx MFX_VARIANT_TYPE_PTR).storePtr mem idx p) := by
  have hlt : idx < eProp_TotalProps := propType_lt idx (by rw [hdecl]; decide)
  unfold ValidateAndSetProp
  simp only [setter_guard idx hlt, if_false, Int.toNat_ofNat, hdecl, ne_eq,
    not_true_eq_false, if_true, mfxVariantData.Ptr, hp]

theorem setter_range (ctx : ConfigCtxVPL) (mem : CallerMem) (p : mfxHDL) (idx slot : Nat)
    (hmem : (idx, slot) ∈ rangeProps) :
    propType idx = MFX_VARIANT_TYPE_PTR ∧
    ((ctx.setType idx MFX_VARIANT_TYPE_PTR).storePtr mem idx p).m_propRange32U slot =
      (p.load mem).asRange ∧
    (((ctx.setType idx MFX_VARIANT_TYPE_PTR).storePtr mem idx p).m_propVar idx).Data =
      .ptr (.range (p.load mem).asRange) := by
  simp only [rangeProps, List.mem_cons, Prod.mk.injEq, List.mem_singleton, List.mem_nil_iff,
    or_false] at hmem
  rcases hmem with ⟨rfl, rfl⟩ | ⟨rfl, rfl⟩ | ⟨rfl, rfl⟩ | ⟨rfl, rfl⟩ | ⟨rfl, rfl⟩ | ⟨rfl, rfl⟩ <;>
    exact ⟨by decide, by simp [ConfigCtxVPL.storePtr, ConfigCtxVPL.storeRange,
      ConfigCtxVPL.setData], by simp [ConfigCtxVPL.storePtr, ConfigCtxVPL.storeRange,
      ConfigCtxVPL.setData]⟩

theorem setter_string (ctx : ConfigCtxVPL) (mem : CallerMem) (p : mfxHDL) (idx : Nat)
    (field : ConfigCtxVPL → String) (hmem : (idx, field) ∈ stringProps) :
    propType idx = MFX_VARIANT_TYPE_PTR ∧
    field ((ctx.setType idx MFX_VARIANT_TYPE_PTR).storePtr mem idx p) =
      (p.load mem).asString ∧
    (((ctx.setType idx MFX_VARIANT_TYPE_PTR).storePtr mem idx p).m_propVar idx).Data =
      .ptr (.str (p.load mem).asString) := by
  simp only [stringProps, List.mem_cons, Prod.mk.injEq, List.mem_singleton, List.mem_nil_iff,
    or_false] at hmem
  rcases hmem with ⟨rfl, rfl⟩ | ⟨rfl, rfl⟩ | ⟨rfl, rfl⟩ | ⟨rfl, rfl⟩ <;>
    exact ⟨by decide, by simp [ConfigCtxVPL.storePtr, ConfigCtxVPL.setData],
      by simp [ConfigCtxVPL.storePtr, ConfigCtxVPL.setData]⟩

/-- Claim C18 as stated fails. Setting the raw handle to the address 2 of caller memory
succeeds and leaves that very address in the slot: the slot aliases caller memory, and what
is read through it changes when the caller overwrites the buffer. Setting the required
function name succeeds and leaves the pointer of the slot null: no reference to the owned
copy is recorded. So owned copies do not hold for every pointer-typed property. -/
theorem C18_counterexample :
    (ValidateAndSetProp ConfigCtxVPL.new callerMem ePropSpecial_Handle
        { Type_ := MFX_VARIANT_TYPE_PTR, Data := .ptr (.handle 2) }).1 = MFX_ERR_NONE ∧
    ((ValidateAndSetProp ConfigCtxVPL.new callerMem ePropSpecial_Handle
        { Type_ := MFX_VARIANT_TYPE_PTR, Data := .ptr (.handle 2) }).2.m_propVar
          ePropSpecial_Handle).Data.Ptr = mfxHDL.handle 2 ∧
    (mfxHDL.handle 2).load callerMem = MemObj.cstr "vaDisplay" ∧
    (((ValidateAndSetProp ConfigCtxVPL.new callerMem ePropSpecial_Handle
        { Type_ := MFX_VARIANT_TYPE_PTR, Data := .ptr (.handle 2) }).2.m_propVar
          ePropSpecial_Handle).Data.Ptr).load callerMemLater = MemObj.cstr "overwritten" ∧
    (ValidateAndSetProp ConfigCtxVPL.new callerMem ePropFunc_FunctionName
        { Type_ := MFX_VARIANT_TYPE_PTR, Data := .ptr (.handle 2) }).1 = MFX_ERR_NONE ∧
    ((ValidateAndSetProp ConfigCtxVPL.new callerMem ePropFunc_FunctionName
        { Type_ := MFX_VARIANT_TYPE_PTR, Data := .ptr (.handle 2) }).2.m_propVar
          ePropFunc_FunctionName).Data.Ptr = mfxHDL.null ∧
    ¬ (∀ idx, propType idx = MFX_VARIANT_TYPE_PTR →
        ∀ (ctx : ConfigCtxVPL) (mem : CallerMem) (p : mfxHDL), p ≠ mfxHDL.null →
          OwnedCopy ctx mem idx p) := by
  refine ⟨by decide, by decide, by decide, by decide, by decide, by decide, ?_⟩
  intro h
  exact (h ePropSpecial_Handle (by decide) ConfigCtxVPL.new callerMem (.handle 2)
    (by decide)).1 2 (by decide)

/-- Claim C18, amended. For every non-null reference `p`: for each of the six
`Width`/`Height` ranges and each of `ImplName`, `License`, `Keywords` and the device id
string, `ValidateAndSetProp` succeeds, stores a copy of the data of the caller in the owned
range or string of the context and records in the slot a reference to that owned copy, so
that the slot does not alias caller memory and what is read through it does not change with
the memory of the caller. For the raw handle the slot records the pointer of the caller
itself and no owned storage changes; for the required function name the string is copied
into `m_implFunctionName` and the `Data` of the slot is left as it was. -/
theorem C18_owned_copies (ctx : ConfigCtxVPL) (mem : CallerMem) (p : mfxHDL)
    (hp : p ≠ mfxHDL.null) :
    (∀ idx slot, (idx, slot) ∈ rangeProps →
      (ValidateAndSetProp ctx mem idx
        { Type_ := MFX_VARIANT_TYPE_PTR, Data := .ptr p }).1 = MFX_ERR_NONE ∧
      (ValidateAndSetProp ctx mem idx
        { Type_ := MFX_VARIANT_TYPE_PTR, Data := .ptr p }).2.m_propRange32U slot =
          (p.load mem).asRange ∧
      ((ValidateAndSetProp ctx mem idx
        { Type_ := MFX_VARIANT_TYPE_PTR, Data := .ptr p }).2.m_propVar idx).Data.Ptr =
          mfxHDL.range ((ValidateAndSetProp ctx mem idx
            { Type_ := MFX_VARIANT_TYPE_PTR, Data := .ptr p }).2.m_propRange32U slot) ∧
      (∀ r, p.load mem = MemObj.range r → OwnedCopy ctx mem idx p)) ∧
    (∀ idx field, (idx, field) ∈ stringProps →
      (ValidateAndSetProp ctx mem idx
        { Type_ := MFX_VARIANT_TYPE_PTR, Data := .ptr p }).1 = MFX_ERR_NONE ∧
      field (ValidateAndSetProp ctx mem idx
        { Type_ := MFX_VARIANT_TYPE_PTR, Data := .ptr p }).2 = (p.load mem).asString ∧
      ((ValidateAndSetProp ctx mem idx
        { Type_ := MFX_VARIANT_TYPE_PTR, Data := .ptr p }).2.m_propVar idx).Data.Ptr =
          mfxHDL.str (field (ValidateAndSetProp ctx mem idx
            { Type_ := MFX_VARIANT_TYPE_PTR, Data := .ptr p }).2) ∧
      (∀ s, p.load mem = MemObj.cstr s → OwnedCopy ctx mem idx p)) ∧
    ((ValidateAndSetProp ctx mem ePropSpecial_Handle
        { Type_ := MFX_VARIANT_TYPE_PTR, Data := .ptr p }).1 = MFX_ERR_NONE ∧
      ((ValidateAndSetProp ctx mem ePropSpecial_Handle
        { Type_ := MFX_VARIANT_TYPE_PTR, Data := .ptr p }).2.m_propVar
          ePropSpecial_Handle).Data.Ptr = p ∧
      (ValidateAndSetProp ctx mem ePropSpecial_Handle
        { Type_ := MFX_VARIANT_TYPE_PTR, Data := .ptr p }).2.m_propRange32U =
          ctx.m_propRange32U ∧
      (∀ idx field, (idx, field) ∈ stringProps →
        field (ValidateAndSetProp ctx mem ePropSpecial_Handle
          { Type_ := MFX_VARIANT_TYPE_PTR, Data := .ptr p }).2 = field ctx)) ∧
    ((ValidateAndSetProp ctx mem ePropFunc_FunctionName
        { Type_ := MFX_VARIANT_TYPE_PTR, Data := .ptr p }).1 = MFX_ERR_NONE ∧
      (ValidateAndSetProp ctx mem ePropFunc_FunctionName
        { Type_ := MFX_VARIANT_TYPE_PTR, Data := .ptr p }).2.m_implFunctionName =
          (p.load mem).asString ∧
      ((ValidateAndSetProp ctx mem ePropFunc_FunctionName
        { Type_ := MFX_VARIANT_TYPE_PTR, Data := .ptr p }).2.m_propVar
          ePropFunc_FunctionName).Data = (ctx.m_propVar ePropFunc_FunctionName).Data) := by
  refine ⟨?_, ?_, ?_, ?_⟩
  · intro idx slot hmem
    obtain ⟨hdecl, hstore, hdata⟩ := setter_range ctx mem p idx slot hmem
    have hcall := setter_ptr ctx mem idx p hdecl hp
    refine ⟨by rw [hcall], by rw [hcall]; exact hstore, ?_, ?_⟩
    · rw [hcall]
      show (((ctx.setType idx MFX_VARIANT_TYPE_PTR).storePtr mem idx p).m_propVar idx).Data.Ptr = _
      rw [hdata, hstore]; rfl
    · intro r hr
      unfold OwnedCopy
      rw [hcall]
      show (∀ a, (((ctx.setType idx MFX_VARIANT_TYPE_PTR).storePtr mem idx p).m_propVar
        idx).Data.Ptr ≠ _) ∧ ∀ later, ((((ctx.setType idx MFX_VARIANT_TYPE_PTR).storePtr mem
          idx p).m_propVar idx).Data.Ptr).load later = _
      rw [hdata, hr]
      exact ⟨fun a h => mfxHDL.noConfusion h, fun _ => rfl⟩
  · intro idx field hmem
    obtain ⟨hdecl, hstore, hdata⟩ := setter_string ctx mem p idx field hmem
    have hcall := setter_ptr ctx mem idx p hdecl hp
    refine ⟨by rw [hcall], by rw [hcall]; exact hstore, ?_, ?_⟩
    · rw [hcall]
      show (((ctx.setType idx MFX_VARIANT_TYPE_PTR).storePtr mem idx p).m_propVar idx).Data.Ptr = _
      rw [hdata]
      show _ = mfxHDL.str (field ((ctx.setType idx MFX_VARIANT_TYPE_PTR).storePtr mem idx p))
      rw [hstore]; rfl
    · intro s hs
      unfold OwnedCopy
      rw [hcall]
      show (∀ a, (((ctx.setType idx MFX_VARIANT_TYPE_PTR).storePtr mem idx p).m_propVar
        idx).Data.Ptr ≠ _) ∧ ∀ later, ((((ctx.setType idx MFX_VARIANT_TYPE_PTR).storePtr mem
          idx p).m_propVar idx).Data.Ptr).load later = _
      rw [hdata, hs]
      exact ⟨fun a h => mfxHDL.noConfusion h, fun _ => rfl⟩
  · rw [setter_ptr ctx mem ePropSpecial_Handle p (by decide) hp]
    refine ⟨rfl, by simp [ConfigCtxVPL.storePtr, ConfigCtxVPL.setData, mfxVariantData.Ptr],
      by simp [ConfigCtxVPL.storePtr, ConfigCtxVPL.setData, ConfigCtxVPL.setType], ?_⟩
    intro idx field hmem
    simp only [stringProps, List.mem_cons, Prod.mk.injEq, List.mem_singleton,
      List.mem_nil_iff, or_false] at hmem
    rcases hmem with ⟨rfl, rfl⟩ | ⟨rfl, rfl⟩ | ⟨rfl, rfl⟩ | ⟨rfl, rfl⟩ <;>
      simp [ConfigCtxVPL.storePtr, ConfigCtxVPL.setData, ConfigCtxVPL.setType]
  · rw [setter_ptr ctx mem ePropFunc_FunctionName p (by decide) hp]
    refine ⟨rfl, by simp [ConfigCtxVPL.storePtr], ?_⟩
    simp [ConfigCtxVPL.storePtr, ConfigCtxVPL.setType]

theorem C18_owned_copies_witness :
    ((ValidateAndSetProp ConfigCtxVPL.new callerMem ePropDec_Width
        { Type_ := MFX_VARIANT_TYPE_PTR, Data := .ptr (.handle 1) }).2.m_propVar
          ePropDec_Width).Data.Ptr =
      mfxHDL.range ((ValidateAndSetProp ConfigCtxVPL.new callerMem ePropDec_Width
        { Type_ := MFX_VARIANT_TYPE_PTR, Data := .ptr (.handle 1) }).2.m_propRange32U
          PROP_RANGE_DEC_W) ∧
    OwnedCopy ConfigCtxVPL.new callerMem ePropDec_Width (.handle 1) :=
  ⟨((C18_owned_copies ConfigCtxVPL.new callerMem (.handle 1) (by decide)).1
      ePropDec_Width PROP_RANGE_DEC_W (by decide)).2.2.1,
    ((C18_owned_copies ConfigCtxVPL.new callerMem (.handle 1) (by decide)).1
      ePropDec_Width PROP_RANGE_DEC_W (by decide)).2.2.2
        { Min := 64, Max := 4096, Step := 8 } (by decide)⟩

/-! ## Claims C19 and C20: the path resolver -/

theorem next_cons (l : List String) (s : String) (h : (GetNextProp l).1 = s) (hs : s ≠ "") :
    l = s :: (GetNextProp l).2 := by
  cases l with
  | nil => exact absurd h.symm hs
  | cons a r => simp only [GetNextProp] at h ⊢; rw [h]

theorem pathStart_one (l : List String) (a : String) (h1 : (GetNextProp l).1 = a) (ha : a ≠ "") :
    [a] <+: l := by
  rw [next_cons l a h1 ha]
  simp

theorem pathStart_cons (l : List String) (a : String) (p : List String)
    (h1 : (GetNextProp l).1 = a) (ha : a ≠ "") (hp : p <+: (GetNextProp l).2) :
    a :: p <+: l := by
  rw [next_cons l a h1 ha]
  exact List.cons_prefix_cons.mpr ⟨rfl, hp⟩


theorem SetFilterPropertyDec_stuck (ctx : ConfigCtxVPL) (mem : CallerMem)
    (segs : List String) (value : mfxVariant)
    (hno : ∀ p ∈ decPaths.map Prod.fst, ¬ p <+: segs) :
    SetFilterPropertyDec ctx mem segs value = (MFX_ERR_NOT_FOUND, ctx) := by
  unfold SetFilterPropertyDec
  dsimp only
  by_cases h1 : (GetNextProp segs).1 = "decoder"
  swap
  · rw [if_pos h1]
  rw [if_neg (not_not.mpr h1)]
  have P1 := fun p hp => pathStart_cons segs "decoder" p h1 (by decide) hp
  generalize (GetNextProp segs).2 = l1 at P1 ⊢
  by_cases h2 : (GetNextProp l1).1 = "decprofile"
  swap
  · split_ifs with a1 a2
    · exact absurd (P1 _ (pathStart_one l1 _ a1 (by decide))) (hno _ (by simp [decPaths]))
    · exact absurd (P1 _ (pathStart_one l1 _ a2 (by decide))) (hno _ (by simp [decPaths]))
    · rfl
  have P2 := fun p hp => P1 _ (pathStart_cons l1 "decprofile" p h2 (by decide) hp)
  simp only [h2, String.reduceEq, if_false, ne_eq, not_true_eq_false]
  generalize (GetNextProp l1).2 = l2 at P2 ⊢
  by_cases h3 : (GetNextProp l2).1 = "decmemdesc"
  swap
  · split_ifs with a1
    · exact absurd (P2 _ (pathStart_one l2 _ a1 (by decide))) (hno _ (by simp [decPaths]))
    · rfl
  have P3 := fun p hp => P2 _ (pathStart_cons l2 "decmemdesc" p h3 (by decide) hp)
  simp only [h3, String.reduceEq, if_false, ne_eq, not_true_eq_false]
  generalize (GetNextProp l2).2 = l3 at P3 ⊢
  split_ifs with a1 a2 a3 a4
  · exact absurd (P3 _ (pathStart_one l3 _ a1 (by decide))) (hno _ (by simp [decPaths]))
  · exact absurd (P3 _ (pathStart_one l3 _ a2 (by decide))) (hno _ (by simp [decPaths]))
  · exact absurd (P3 _ (pathStart_one l3 _ a3 (by decide))) (hno _ (by simp [decPaths]))
  · rcases a4 with a4 | a4
    · exact absurd (P3 _ (pathStart_one l3 _ a4 (by decide))) (hno _ (by simp [decPaths]))
    · exact absurd (P3 _ (pathStart_one l3 _ a4 (by decide))) (hno _ (by simp [decPaths]))
  · rfl

theorem SetFilterPropertyEnc_stuck (ctx : ConfigCtxVPL) (mem : CallerMem)
    (segs : List String) (value : mfxVariant)
    (hno : ∀ p ∈ encPaths.map Prod.fst, ¬ p <+: segs) :
    SetFilterPropertyEnc ctx mem segs value = (MFX_ERR_NOT_FOUND, ctx) := by
  unfold SetFilterPropertyEnc
  dsimp only
  by_cases h1 : (GetNextProp segs).1 = "encoder"
  swap
  · rw [if_pos h1]
  rw [if_neg (not_not.mpr h1)]
  have P1 := fun p hp => pathStart_cons segs "encoder" p h1 (by decide) hp
  generalize (GetNextProp segs).2 = l1 at P1 ⊢
  by_cases h2 : (GetNextProp l1).1 = "encprofile"
  swap
  · split_ifs with a1 a2 a3
    · exact absurd (P1 _ (pathStart_one l1 _ a1 (by decide))) (hno _ (by simp [encPaths]))
    · exact absurd (P1 _ (pathStart_one l1 _ a2 (by decide))) (hno _ (by simp [encPaths]))
    · exact absurd (P1 _ (pathStart_one l1 _ a3 (by decide))) (hno _ (by simp [encPaths]))
    · rfl
  have P2 := fun p hp => P1 _ (pathStart_cons l1 "encprofile" p h2 (by decide) hp)
  simp only [h2, String.reduceEq, if_false, ne_eq, not_true_eq_false]
  generalize (GetNextProp l1).2 = l2 at P2 ⊢
  by_cases h3 : (GetNextProp l2).1 = "encmemdesc"
  swap
  · split_ifs with a1
    · exact absurd (P2 _ (pathStart_one l2 _ a1 (by decide))) (hno _ (by simp [encPaths]))
    · rfl
  have P3 := fun p hp => P2 _ (pathStart_cons l2 "encmemdesc" p h3 (by decide) hp)
  simp only [h3, String.reduceEq, if_false, ne_eq, not_true_eq_false]
  generalize (GetNextProp l2).2 = l3 at P3 ⊢
  split_ifs with a1 a2 a3 a4
  · exact absurd (P3 _ (pathStart_one l3 _ a1 (by decide))) (hno _ (by simp [encPaths]))
  · exact absurd (P3 _ (pathStart_one l3 _ a2 (by decide))) (hno _ (by simp [encPaths]))
  · exact absurd (P3 _ (pathStart_one l3 _ a3 (by decide))) (hno _ (by simp [encPaths]))
  · rcases a4 with a4 | a4
    · exact absurd (P3 _ (pathStart_one l3 _ a4 (by decide))) (hno _ (by simp [encPaths]))
    · exact absurd (P3 _ (pathStart_one l3 _ a4 (by decide))) (hno _ (by simp [encPaths]))
  · rfl

theorem SetFilterPropertyVPP_stuck (ctx : ConfigCtxVPL) (mem : CallerMem)
    (segs : List String) (value : mfxVariant)
    (hno : ∀ p ∈ vppPaths.map Prod.fst, ¬ p <+: segs) :
    SetFilterPropertyVPP ctx mem segs value = (MFX_ERR_NOT_FOUND, ctx) := by
  unfold SetFilterPropertyVPP
  dsimp only
  by_cases h1 : (GetNextProp segs).1 = "filter"
  swap
  · rw [if_pos h1]
  rw [if_neg (not_not.mpr h1)]
  have P1 := fun p hp => pathStart_cons segs "filter" p h1 (by decide) hp
  generalize (GetNextProp segs).2 = l1 at P1 ⊢
  by_cases h2 : (GetNextProp l1).1 = "memdesc"
  swap
  · split_ifs with a1 a2
    · exact absurd (P1 _ (pathStart_one l1 _ a1 (by decide))) (hno _ (by simp [vppPaths]))
    · exact absurd (P1 _ (pathStart_one l1 _ a2 (by decide))) (hno _ (by simp [vppPaths]))
    · rfl
  have P2 := fun p hp => P1 _ (pathStart_cons l1 "memdesc" p h2 (by decide) hp)
  simp only [h2, String.reduceEq, if_false, ne_eq, not_true_eq_false]
  generalize (GetNextProp l1).2 = l2 at P2 ⊢
  by_cases h3 : (GetNextProp l2).1 = "format"
  swap
  · split_ifs with a1 a2 a3
    · exact absurd (P2 _ (pathStart_one l2 _ a1 (by decide))) (hno _ (by simp [vppPaths]))
    · exact absurd (P2 _ (pathStart_one l2 _ a2 (by decide))) (hno _ (by simp [vppPaths]))
    · exact absurd (P2 _ (pathStart_one l2 _ a3 (by decide))) (hno _ (by simp [vppPaths]))
    · rfl
  have P3 := fun p hp => P2 _ (pathStart_cons l2 "format" p h3 (by decide) hp)
  simp only [h3, String.reduceEq, if_false, ne_eq, not_true_eq_false]
  generalize (GetNextProp l2).2 = l3 at P3 ⊢
  split_ifs with a1 a2
  · exact absurd (P3 _ (pathStart_one l3 _ a1 (by decide))) (hno _ (by simp [vppPaths]))
  · rcases a2 with a2 | a2
    · exact absurd (P3 _ (pathStart_one l3 _ a2 (by decide))) (hno _ (by simp [vppPaths]))
    · exact absurd (P3 _ (pathStart_one l3 _ a2 (by decide))) (hno _ (by simp [vppPaths]))
  · rfl

theorem implDescriptionPaths_fst (type : mfxVariantType) :
    (implDescriptionPaths type).map Prod.fst =
      [["Impl"], ["AccelerationMode"], ["ApiVersion", "Version"], ["ApiVersion", "Major"],
        ["ApiVersion", "Minor"], ["VendorID"], ["ImplName"], ["License"], ["Keywords"],
        ["VendorImplID"], ["mfxDeviceDescription", "DeviceID"],
        ["mfxDeviceDescription", "device", "DeviceID"]] ++
      (decPaths.map Prod.fst).map (fun p => "mfxDecoderDescription" :: p) ++
      (encPaths.map Prod.fst).map (fun p => "mfxEncoderDescription" :: p) ++
      (vppPaths.map Prod.fst).map (fun p => "mfxVPPDescription" :: p) := by
  simp [implDescriptionPaths, List.map_append, Function.comp_def]

theorem setImplDescriptionProp_stuck (ctx : ConfigCtxVPL) (mem : CallerMem)
    (segs : List String) (value : mfxVariant)
    (hno : ∀ p ∈ (implDescriptionPaths value.Type_).map Prod.fst, ¬ p <+: segs) :
    setImplDescriptionProp ctx mem segs value = (MFX_ERR_NOT_FOUND, ctx) := by
  rw [implDescriptionPaths_fst] at hno
  have hmain : ∀ p ∈ [["Impl"], ["AccelerationMode"], ["ApiVersion", "Version"],
      ["ApiVersion", "Major"], ["ApiVersion", "Minor"], ["VendorID"], ["ImplName"],
      ["License"], ["Keywords"], ["VendorImplID"], ["mfxDeviceDescription", "DeviceID"],
      ["mfxDeviceDescription", "device", "DeviceID"]], ¬ p <+: segs := fun p hp =>
    hno p (List.mem_append_left _ (List.mem_append_left _ (List.mem_append_left _ hp)))
  have hdec : ∀ p ∈ decPaths.map Prod.fst, ¬ ("mfxDecoderDescription" :: p) <+: segs :=
    fun p hp => hno _ (List.mem_append_left _ (List.mem_append_left _
      (List.mem_append_right _ (List.mem_map_of_mem _ hp))))
  have henc : ∀ p ∈ encPaths.map Prod.fst, ¬ ("mfxEncoderDescription" :: p) <+: segs :=
    fun p hp => hno _ (List.mem_append_left _ (List.mem_append_right _
      (List.mem_map_of_mem _ hp)))
  have hvpp : ∀ p ∈ vppPaths.map Prod.fst, ¬ ("mfxVPPDescription" :: p) <+: segs :=
    fun p hp => hno _ (List.mem_append_right _ (List.mem_map_of_mem _ hp))
  unfold setImplDescriptionProp
  dsimp only
  by_cases hA : (GetNextProp segs).1 = "ApiVersion"
  · have P1 := fun p hp => pathStart_cons segs "ApiVersion" p hA (by decide) hp
    simp only [hA, String.reduceEq, if_false, if_true]
    generalize (GetNextProp segs).2 = l1 at P1 ⊢
    split_ifs with a1 a2 a3
    · exact absurd (P1 _ (pathStart_one l1 _ a1 (by decide))) (hmain _ (by simp))
    · exact absurd (P1 _ (pathStart_one l1 _ a2 (by decide))) (hmain _ (by simp))
    · exact absurd (P1 _ (pathStart_one l1 _ a3 (by decide))) (hmain _ (by simp))
    · rfl
  by_cases hD : (GetNextProp segs).1 = "mfxDeviceDescription"
  · have P1 := fun p hp => pathStart_cons segs "mfxDeviceDescription" p hD (by decide) hp
    simp only [hD, String.reduceEq, if_false, if_true]
    generalize (GetNextProp segs).2 = l1 at P1 ⊢
    by_cases hdev : (GetNextProp l1).1 = "device"
    · have P2 := fun p hp => P1 _ (pathStart_cons l1 "device" p hdev (by decide) hp)
      simp only [hdev, if_true]
      generalize (GetNextProp l1).2 = l2 at P2 ⊢
      by_cases hid : (GetNextProp l2).1 = "DeviceID"
      · exact absurd (P2 _ (pathStart_one l2 _ hid (by decide))) (hmain _ (by simp))
      · rw [if_neg hid]
    · simp only [hdev, if_false]
      by_cases hid : (GetNextProp l1).1 = "DeviceID"
      · exact absurd (P1 _ (pathStart_one l1 _ hid (by decide))) (hmain _ (by simp))
      · rw [if_neg hid]
  by_cases hDec : (GetNextProp segs).1 = "mfxDecoderDescription"
  · simp only [hDec, String.reduceEq, if_false, if_true]
    exact SetFilterPropertyDec_stuck ctx mem _ value fun p hp hpre =>
      hdec p hp (pathStart_cons segs _ p hDec (by decide) hpre)
  by_cases hEnc : (GetNextProp segs).1 = "mfxEncoderDescription"
  · simp only [hEnc, String.reduceEq, if_false, if_true]
    exact SetFilterPropertyEnc_stuck ctx mem _ value fun p hp hpre =>
      henc p hp (pathStart_cons segs _ p hEnc (by decide) hpre)
  by_cases hVPP : (GetNextProp segs).1 = "mfxVPPDescription"
  · simp only [hVPP, String.reduceEq, if_false, if_true]
    exact SetFilterPropertyVPP_stuck ctx mem _ value fun p hp hpre =>
      hvpp p hp (pathStart_cons segs _ p hVPP (by decide) hpre)
  simp only [hA, hD, hDec, hEnc, hVPP, if_false]
  split_ifs with a1 a2 a3 a4 a5 a6 a7
  · exact absurd (pathStart_one segs _ a1 (by decide)) (hmain _ (by simp))
  · exact absurd (pathStart_one segs _ a2 (by decide)) (hmain _ (by simp))
  · exact absurd (pathStart_one segs _ a3 (by decide)) (hmain _ (by simp))
  · exact absurd (pathStart_one segs _ a4 (by decide)) (hmain _ (by simp))
  · exact absurd (pathStart_one segs _ a5 (by decide)) (hmain _ (by simp))
  · exact absurd (pathStart_one segs _ a6 (by decide)) (hmain _ (by simp))
  · exact absurd (pathStart_one segs _ a7 (by decide)) (hmain _ (by simp))
  · rfl

theorem recognisedPaths_impl (isWindows : Bool) (type : mfxVariantType)
    (e : List String × Nat) (he : e ∈ implDescriptionPaths type) :
    ("mfxImplDescription" :: e.1, e.2) ∈ recognisedPaths isWindows type := by
  unfold recognisedPaths
  exact List.mem_append_right _ (List.mem_map_of_mem _ he)

theorem setParsedProp_stuck (ctx : ConfigCtxVPL) (mem : CallerMem) (isWindows : Bool)
    (segs : List String) (value : mfxVariant)
    (hno : ∀ e ∈ recognisedPaths isWindows value.Type_, ¬ e.1 <+: segs) :
    setParsedProp ctx mem isWindows segs value = (MFX_ERR_NOT_FOUND, ctx) := by
  unfold setParsedProp
  dsimp only
  by_cases hF : (GetNextProp segs).1 = "mfxImplementedFunctions"
  · have P1 := fun p hp => pathStart_cons segs "mfxImplementedFunctions" p hF (by decide) hp
    simp only [hF, String.reduceEq, if_false, if_true]
    generalize (GetNextProp segs).2 = l1 at P1 ⊢
    by_cases hleaf : (GetNextProp l1).1 = "FunctionsName"
    · exact absurd (P1 _ (pathStart_one l1 _ hleaf (by decide)))
        (hno (_, ePropFunc_FunctionName) (by cases isWindows <;> simp [recognisedPaths]))
    · rw [if_neg hleaf]
  by_cases hI : (GetNextProp segs).1 = "mfxImplDescription"
  · simp only [hI, String.reduceEq, if_false, ne_eq, not_true_eq_false]
    apply setImplDescriptionProp_stuck
    intro p hp hpre
    obtain ⟨e, he, rfl⟩ := List.mem_map.mp hp
    exact hno _ (recognisedPaths_impl isWindows value.Type_ e he)
      (pathStart_cons segs _ e.1 hI (by decide) hpre)
  by_cases hX : (GetNextProp segs).1 = "DXGIAdapterIndex"
  · simp only [hX, String.reduceEq, if_false, if_true]
    cases isWindows with
    | false => simp only [Bool.false_eq_true, if_false]
    | true =>
      exact absurd (pathStart_one segs _ hX (by decide))
        (hno (_, ePropSpecial_DXGIAdapterIndex) (by simp [recognisedPaths]))
  simp only [hF, hI, hX, if_false, ne_eq, not_false_eq_true, if_true]
  split_ifs with a1 a2
  · exact absurd (pathStart_one segs _ a1 (by decide))
      (hno (_, ePropSpecial_HandleType) (by simp [recognisedPaths]))
  · exact absurd (pathStart_one segs _ a2 (by decide))
      (hno (_, ePropSpecial_Handle) (by simp [recognisedPaths]))
  · rfl

theorem setParsedProp_first (ctx : ConfigCtxVPL) (mem : CallerMem) (isWindows : Bool)
    (segs : List String) (value : mfxVariant)
    (hfirst : ∀ s ∈ ["mfxHandleType", "mfxHDL", "DXGIAdapterIndex", "mfxImplementedFunctions",
      "mfxImplDescription"], segs.head? ≠ some s) :
    setParsedProp ctx mem isWindows segs value = (MFX_ERR_NOT_FOUND, ctx) := by
  apply setParsedProp_stuck
  intro e he hpre
  have hhead : ∃ s ∈ ["mfxHandleType", "mfxHDL", "DXGIAdapterIndex",
      "mfxImplementedFunctions", "mfxImplDescription"], e.1.head? = some s := by
    unfold recognisedPaths at he
    simp only [List.mem_append, List.mem_cons, List.mem_singleton, List.mem_nil_iff, or_false,
      List.mem_map] at he
    rcases he with (((rfl | rfl) | he) | rfl) | ⟨e2, _, rfl⟩
    · exact ⟨_, by simp, rfl⟩
    · exact ⟨_, by simp, rfl⟩
    · cases isWindows with
      | false => simp at he
      | true =>
        simp only [if_true, List.mem_singleton] at he
        subst he
        exact ⟨_, by simp, rfl⟩
    · exact ⟨_, by simp, rfl⟩
    · exact ⟨_, by simp, rfl⟩
  obtain ⟨s, hs, hes⟩ := hhead
  apply hfirst s hs
  obtain ⟨t, rfl⟩ := hpre
  cases hl : e.1 with
  | nil => rw [hl] at hes; simp at hes
  | cons a r => rw [hl] at hes; simpa using hes

theorem setParsedProp_dxgi (ctx : ConfigCtxVPL) (mem : CallerMem)
    (segs : List String) (value : mfxVariant)
    (hfirst : segs.head? = some "DXGIAdapterIndex") :
    setParsedProp ctx mem false segs value = (MFX_ERR_NOT_FOUND, ctx) := by
  cases segs with
  | nil => simp at hfirst
  | cons a r =>
    simp only [List.head?_cons, Option.some.injEq] at hfirst
    subst hfirst
    simp [setParsedProp, GetNextProp]

/-- Claim C19. Unknown or short paths: for every property path that gets stuck at some
level of the grammar (its next segment is absent or outside the vocabulary of the level,
that is, no recognised full path is a prefix of it) and every value, `SetFilterProperty`
returns `MFX_ERR_NOT_FOUND` and leaves the context unchanged; in particular so does every
path whose first segment is none of `mfxHandleType`, `mfxHDL`, `DXGIAdapterIndex`,
`mfxImplementedFunctions`, `mfxImplDescription`, and every path that begins with
`DXGIAdapterIndex` on a build that is not for Windows. -/
theorem C19_unknown_or_short_paths (ctx : ConfigCtxVPL) (mem : CallerMem)
    (isWindows : Bool) (name : String) (value : mfxVariant) :
    ((∀ e ∈ recognisedPaths isWindows value.Type_, ¬ e.1 <+: propSegments name) →
      SetFilterProperty ctx mem isWindows (some name) value = (MFX_ERR_NOT_FOUND, ctx)) ∧
    ((∀ s ∈ ["mfxHandleType", "mfxHDL", "DXGIAdapterIndex", "mfxImplementedFunctions",
        "mfxImplDescription"], (propSegments name).head? ≠ some s) →
      SetFilterProperty ctx mem isWindows (some name) value = (MFX_ERR_NOT_FOUND, ctx)) ∧
    ((propSegments name).head? = some "DXGIAdapterIndex" →
      SetFilterProperty ctx mem false (some name) value = (MFX_ERR_NOT_FOUND, ctx)) :=
  ⟨setParsedProp_stuck ctx mem isWindows _ value,
    setParsedProp_first ctx mem isWindows _ value,
    setParsedProp_dxgi ctx mem _ value⟩

theorem SetFilterPropertyDec_found (ctx : ConfigCtxVPL) (mem : CallerMem)
    (value : mfxVariant) (e : List String × Nat) (he : e ∈ decPaths) (extra : List String) :
    SetFilterPropertyDec ctx mem (e.1 ++ extra) value = ValidateAndSetProp ctx mem e.2 value := by
  simp only [decPaths, List.mem_cons, List.mem_singleton, List.mem_nil_iff, or_false] at he
  rcases he with rfl | rfl | rfl | rfl | rfl | rfl | rfl | rfl <;>
    simp [SetFilterPropertyDec, GetNextProp]

theorem SetFilterPropertyEnc_found (ctx : ConfigCtxVPL) (mem : CallerMem)
    (value : mfxVariant) (e : List String × Nat) (he : e ∈ encPaths) (extra : List String) :
    SetFilterPropertyEnc ctx mem (e.1 ++ extra) value = ValidateAndSetProp ctx mem e.2 value := by
  simp only [encPaths, List.mem_cons, List.mem_singleton, List.mem_nil_iff, or_false] at he
  rcases he with rfl | rfl | rfl | rfl | rfl | rfl | rfl | rfl | rfl <;>
    simp [SetFilterPropertyEnc, GetNextProp]

theorem SetFilterPropertyVPP_found (ctx : ConfigCtxVPL) (mem : CallerMem)
    (value : mfxVariant) (e : List String × Nat) (he : e ∈ vppPaths) (extra : List String) :
    SetFilterPropertyVPP ctx mem (e.1 ++ extra) value = ValidateAndSetProp ctx mem e.2 value := by
  simp only [vppPaths, List.mem_cons, List.mem_singleton, List.mem_nil_iff, or_false] at he
  rcases he with rfl | rfl | rfl | rfl | rfl | rfl | rfl | rfl <;>
    simp [SetFilterPropertyVPP, GetNextProp]

theorem setImplDescriptionProp_found (ctx : ConfigCtxVPL) (mem : CallerMem)
    (value : mfxVariant) (e : List String × Nat) (he : e ∈ implDescriptionPaths value.Type_)
    (extra : List String) :
    setImplDescriptionProp ctx mem (e.1 ++ extra) value =
      ValidateAndSetProp ctx mem e.2 value := by
  unfold implDescriptionPaths at he
  simp only [List.mem_append, List.mem_map] at he
  rcases he with ((he | ⟨d, hd, rfl⟩) | ⟨d, hd, rfl⟩) | ⟨d, hd, rfl⟩
  · simp only [List.mem_cons, List.mem_singleton, List.mem_nil_iff, or_false] at he
    rcases he with rfl | rfl | rfl | rfl | rfl | rfl | rfl | rfl | rfl | rfl | rfl | rfl <;>
      simp [setImplDescriptionProp, GetNextProp, deviceIDSlot] <;>
      split_ifs <;> rfl
  · have h := SetFilterPropertyDec_found ctx mem value d hd extra
    simpa [setImplDescriptionProp, GetNextProp] using h
  · have h := SetFilterPropertyEnc_found ctx mem value d hd extra
    simpa [setImplDescriptionProp, GetNextProp] using h
  · have h := SetFilterPropertyVPP_found ctx mem value d hd extra
    simpa [setImplDescriptionProp, GetNextProp] using h

theorem setParsedProp_found (ctx : ConfigCtxVPL) (mem : CallerMem) (isWindows : Bool)
    (value : mfxVariant) (e : List String × Nat)
    (he : e ∈ recognisedPaths isWindows value.Type_) (extra : List String) :
    setParsedProp ctx mem isWindows (e.1 ++ extra) value =
      ValidateAndSetProp ctx mem e.2 value := by
  unfold recognisedPaths at he
  simp only [List.mem_append, List.mem_cons, List.mem_singleton, List.mem_nil_iff, or_false,
    List.mem_map] at he
  rcases he with (((rfl | rfl) | he) | rfl) | ⟨d, hd, rfl⟩
  · simp [setParsedProp, GetNextProp]
  · simp [setParsedProp, GetNextProp]
  · cases isWindows with
    | false => simp at he
    | true =>
      simp only [if_true, List.mem_singleton] at he
      subst he
      simp [setParsedProp, GetNextProp]
  · simp [setParsedProp, GetNextProp]
  · have h := setImplDescriptionProp_found ctx mem value d hd extra
    simpa [setParsedProp, GetNextProp] using h

theorem SetFilterProperty_some (ctx : ConfigCtxVPL) (mem : CallerMem) (isWindows : Bool)
    (name : String) (value : mfxVariant) :
    SetFilterProperty ctx mem isWindows (some name) value =
      setParsedProp ctx mem isWindows (propSegments name) value := rfl

theorem propSegments_eq (name : String) :
    propSegments name = (streamTokens '.' name.toList).map String.mk := by
  unfold propSegments
  rw [readTokens_eq]
  rfl

/-- Claim C20 as stated fails: the path `mfxImplDescription.Impl.extra` is the recognised
full path `mfxImplDescription.Impl` followed by the extra segment `extra`, and
`SetFilterProperty` with a 32-bit value returns `MFX_ERR_NONE` and sets the `Impl` slot. -/
theorem C20_counterexample :
    propSegments "mfxImplDescription.Impl.extra" = ["mfxImplDescription", "Impl", "extra"] ∧
    (["mfxImplDescription", "Impl"], ePropMain_Impl) ∈
      recognisedPaths false MFX_VARIANT_TYPE_U32 ∧
    (SetFilterProperty ConfigCtxVPL.new callerMem false (some "mfxImplDescription.Impl.extra")
      { Type_ := MFX_VARIANT_TYPE_U32, Data := .bits 2 }).1 = MFX_ERR_NONE ∧
    (SetFilterProperty ConfigCtxVPL.new callerMem false (some "mfxImplDescription.Impl.extra")
      { Type_ := MFX_VARIANT_TYPE_U32, Data := .bits 2 }).2.m_propVar ePropMain_Impl =
        { Type_ := MFX_VARIANT_TYPE_U32, Data := .bits 2 } := by
  have hsegs : propSegments "mfxImplDescription.Impl.extra" =
      ["mfxImplDescription", "Impl", "extra"] := by
    rw [propSegments_eq]; decide
  refine ⟨hsegs, by decide, ?_, ?_⟩
  · rw [SetFilterProperty_some, hsegs]; decide
  · rw [SetFilterProperty_some, hsegs]; decide

/-- Claim C20, amended. Late-terminating paths: for every recognised full property path
followed by extra dot-separated segments, and for every value, `SetFilterProperty` ignores
the extra segments: it resolves to the slot of the recognised path and returns what
`ValidateAndSetProp` returns for that slot and value, which is also what it returns for the
recognised path without the extra segments. -/
theorem C20_extra_segments_ignored (ctx : ConfigCtxVPL) (mem : CallerMem)
    (isWindows : Bool) (name : String) (value : mfxVariant) (e : List String × Nat)
    (extra : List String)
    (he : e ∈ recognisedPaths isWindows value.Type_)
    (hname : propSegments name = e.1 ++ extra) :
    SetFilterProperty ctx mem isWindows (some name) value =
      ValidateAndSetProp ctx mem e.2 value ∧
    setParsedProp ctx mem isWindows e.1 value = ValidateAndSetProp ctx mem e.2 value := by
  constructor
  · rw [SetFilterProperty_some, hname]
    exact setParsedProp_found ctx mem isWindows value e he extra
  · have h := setParsedProp_found ctx mem isWindows value e he []
    rwa [List.append_nil] at h

theorem C20_extra_segments_ignored_witness :
    SetFilterProperty ConfigCtxVPL.new callerMem false
        (some "mfxImplDescription.mfxDecoderDescription.decoder.CodecID.extra")
        { Type_ := MFX_VARIANT_TYPE_U32, Data := .bits MFX_CODEC_AVC } =
      ValidateAndSetProp ConfigCtxVPL.new callerMem ePropDec_CodecID
        { Type_ := MFX_VARIANT_TYPE_U32, Data := .bits MFX_CODEC_AVC } :=
  (C20_extra_segments_ignored ConfigCtxVPL.new callerMem false
    "mfxImplDescription.mfxDecoderDescription.decoder.CodecID.extra"
    { Type_ := MFX_VARIANT_TYPE_U32, Data := .bits MFX_CODEC_AVC }
    (["mfxImplDescription", "mfxDecoderDescription", "decoder", "CodecID"], ePropDec_CodecID)
    ["extra"] (by decide) (by rw [propSegments_eq]; decide)).1

theorem short_path_not_found :
    SetFilterProperty ConfigCtxVPL.new callerMem true
        (some "mfxImplDescription.mfxDecoderDescription.decoder")
        { Type_ := MFX_VARIANT_TYPE_U32, Data := .bits MFX_CODEC_AVC } =
      (MFX_ERR_NOT_FOUND, ConfigCtxVPL.new) := by
  have hsegs : propSegments "mfxImplDescription.mfxDecoderDescription.decoder" =
      ["mfxImplDescription", "mfxDecoderDescription", "decoder"] := by
    rw [propSegments_eq]; decide
  rw [SetFilterProperty_some, hsegs]
  rfl

/-! ## Claims C27 and C28: the status of the flattening -/

theorem flatNested_eq_nil_iff {A B C D R : Type} (roots : List A) (k1 : A → List B)
    (k2 : B → List C) (k3 : C → List D) (mk : A → B → C → D → R) :
    flatNested roots k1 k2 k3 mk = [] ↔
      ¬ ∃ a ∈ roots, ∃ b ∈ k1 a, ∃ c ∈ k2 b, ∃ d, d ∈ k3 c := by
  rw [List.eq_nil_iff_forall_not_mem]
  unfold flatNested
  simp only [List.mem_flatMap, List.mem_map]
  constructor
  · rintro h ⟨a, ha, b, hb, c, hc, d, hd⟩
    exact h (mk a b c d) ⟨a, ha, b, hb, c, hc, d, hd, rfl⟩
  · rintro h r ⟨a, ha, b, hb, c, hc, d, hd, _⟩
    exact h ⟨a, ha, b, hb, c, hc, d, hd⟩

theorem GetFlatDescriptionsDec_status (libImplDesc : mfxImplDescription) :
    (GetFlatDescriptionsDec libImplDesc []).1 =
      if (GetFlatDescriptionsDec libImplDesc []).2 = [] then MFX_ERR_INVALID_VIDEO_PARAM
      else MFX_ERR_NONE := by
  unfold GetFlatDescriptionsDec
  dsimp only
  split <;> rename_i h
  · rw [List.isEmpty_iff] at h; simp [h]
  · rw [List.isEmpty_iff] at h; simp [h]

theorem GetFlatDescriptionsEnc_status (libImplDesc : mfxImplDescription) :
    (GetFlatDescriptionsEnc libImplDesc []).1 =
      if (GetFlatDescriptionsEnc libImplDesc []).2 = [] then MFX_ERR_INVALID_VIDEO_PARAM
      else MFX_ERR_NONE := by
  unfold GetFlatDescriptionsEnc
  dsimp only
  split <;> rename_i h
  · rw [List.isEmpty_iff] at h; simp [h]
  · rw [List.isEmpty_iff] at h; simp [h]

theorem GetFlatDescriptionsVPP_status (libImplDesc : mfxImplDescription) :
    (GetFlatDescriptionsVPP libImplDesc []).1 =
      if (GetFlatDescriptionsVPP libImplDesc []).2 = [] then MFX_ERR_INVALID_VIDEO_PARAM
      else MFX_ERR_NONE := by
  unfold GetFlatDescriptionsVPP
  dsimp only
  split <;> rename_i h
  · rw [List.isEmpty_iff] at h; simp [h]
  · rw [List.isEmpty_iff] at h; simp [h]

theorem flatDec_eq_nil_iff (libImplDesc : mfxImplDescription) :
    (GetFlatDescriptionsDec libImplDesc []).2 = [] ↔ ¬ HasDecLeaf libImplDesc := by
  rw [GetFlatDescriptionsDec_nil, flatNested_eq_nil_iff]; rfl

theorem flatEnc_eq_nil_iff (libImplDesc : mfxImplDescription) :
    (GetFlatDescriptionsEnc libImplDesc []).2 = [] ↔ ¬ HasEncLeaf libImplDesc := by
  rw [GetFlatDescriptionsEnc_nil, flatNested_eq_nil_iff]; rfl

theorem flatVPP_eq_nil_iff (libImplDesc : mfxImplDescription) :
    (GetFlatDescriptionsVPP libImplDesc []).2 = [] ↔ ¬ HasVPPLeaf libImplDesc := by
  rw [GetFlatDescriptionsVPP_nil, flatNested_eq_nil_iff]; rfl

/-- Claim C27. Empty flattening is an error: for every descriptor, each of
`GetFlatDescriptionsDec/Enc/VPP` called with an empty output list returns
`MFX_ERR_INVALID_VIDEO_PARAM` if and only if the output list is empty, which is the case if
and only if the descriptor has no complete root-to-leaf combination in that category, and
returns `MFX_ERR_NONE` otherwise. -/
theorem C27_empty_flattening_is_error (libImplDesc : mfxImplDescription) :
    (((GetFlatDescriptionsDec libImplDesc []).1 = MFX_ERR_INVALID_VIDEO_PARAM ↔
        (GetFlatDescriptionsDec libImplDesc []).2 = []) ∧
      ((GetFlatDescriptionsDec libImplDesc []).2 = [] ↔ ¬ HasDecLeaf libImplDesc) ∧
      ((GetFlatDescriptionsDec libImplDesc []).1 = MFX_ERR_NONE ↔ HasDecLeaf libImplDesc)) ∧
    (((GetFlatDescriptionsEnc libImplDesc []).1 = MFX_ERR_INVALID_VIDEO_PARAM ↔
        (GetFlatDescriptionsEnc libImplDesc []).2 = []) ∧
      ((GetFlatDescriptionsEnc libImplDesc []).2 = [] ↔ ¬ HasEncLeaf libImplDesc) ∧
      ((GetFlatDescriptionsEnc libImplDesc []).1 = MFX_ERR_NONE ↔ HasEncLeaf libImplDesc)) ∧
    (((GetFlatDescriptionsVPP libImplDesc []).1 = MFX_ERR_INVALID_VIDEO_PARAM ↔
        (GetFlatDescriptionsVPP libImplDesc []).2 = []) ∧
      ((GetFlatDescriptionsVPP libImplDesc []).2 = [] ↔ ¬ HasVPPLeaf libImplDesc) ∧
      ((GetFlatDescriptionsVPP libImplDesc []).1 = MFX_ERR_NONE ↔ HasVPPLeaf libImplDesc)) := by
  refine ⟨⟨?_, flatDec_eq_nil_iff _, ?_⟩, ⟨?_, flatEnc_eq_nil_iff _, ?_⟩,
    ⟨?_, flatVPP_eq_nil_iff _, ?_⟩⟩
  · rw [GetFlatDescriptionsDec_status]
    by_cases h : (GetFlatDescriptionsDec libImplDesc []).2 = [] <;> simp [h]
  · rw [GetFlatDescriptionsDec_status, ← not_iff_not, ← flatDec_eq_nil_iff]
    by_cases h : (GetFlatDescriptionsDec libImplDesc []).2 = [] <;> simp [h]
  · rw [GetFlatDescriptionsEnc_status]
    by_cases h : (GetFlatDescriptionsEnc libImplDesc []).2 = [] <;> simp [h]
  · rw [GetFlatDescriptionsEnc_status, ← not_iff_not, ← flatEnc_eq_nil_iff]
    by_cases h : (GetFlatDescriptionsEnc libImplDesc []).2 = [] <;> simp [h]
  · rw [GetFlatDescriptionsVPP_status]
    by_cases h : (GetFlatDescriptionsVPP libImplDesc []).2 = [] <;> simp [h]
  · rw [GetFlatDescriptionsVPP_status, ← not_iff_not, ← flatVPP_eq_nil_iff]
    by_cases h : (GetFlatDescriptionsVPP libImplDesc []).2 = [] <;> simp [h]

/-- Claim C28 as stated fails: the descriptor `noProfileDesc` declares one decoder codec
(`NumCodecs = 1`), but that codec has no profile, and the flat record list produced for
the decode category is empty (with the status `MFX_ERR_INVALID_VIDEO_PARAM`). -/
theorem C28_counterexample :
    noProfileDesc.Dec.Codecs.length ≥ 1 ∧
    (GetFlatDescriptionsDec noProfileDesc []).2 = [] ∧
    (GetFlatDescriptionsDec noProfileDesc []).1 = MFX_ERR_INVALID_VIDEO_PARAM := by
  have hnil : (GetFlatDescriptionsDec noProfileDesc []).2 = [] := by
    rw [GetFlatDescriptionsDec_nil]; decide
  refine ⟨by decide, hnil, ?_⟩
  rw [GetFlatDescriptionsDec_status, if_pos hnil]

/-- Claim C28, amended. For every descriptor that has at least one complete root-to-leaf
combination in a category (a codec with a profile with a memory descriptor with a colour
format for decode or encode; a filter with a memory descriptor with a format with an output
format for filter), the flat record list produced for that category is not empty. -/
theorem C28_nonempty_flattening (libImplDesc : mfxImplDescription) :
    (HasDecLeaf libImplDesc → (GetFlatDescriptionsDec libImplDesc []).2 ≠ []) ∧
    (HasEncLeaf libImplDesc → (GetFlatDescriptionsEnc libImplDesc []).2 ≠ []) ∧
    (HasVPPLeaf libImplDesc → (GetFlatDescriptionsVPP libImplDesc []).2 ≠ []) :=
  ⟨fun h hnil => (flatDec_eq_nil_iff libImplDesc).mp hnil h,
    fun h hnil => (flatEnc_eq_nil_iff libImplDesc).mp hnil h,
    fun h hnil => (flatVPP_eq_nil_iff libImplDesc).mp hnil h⟩

theorem C28_nonempty_flattening_witness :
    HasDecLeaf avcOnlyDesc ∧ (GetFlatDescriptionsDec avcOnlyDesc []).2 ≠ [] :=
  ⟨⟨avcCodec, by decide, _, List.mem_singleton.2 rfl, _, List.mem_singleton.2 rfl, 0,
      List.mem_singleton.2 rfl⟩,
    (C28_nonempty_flattening avcOnlyDesc).1
      ⟨avcCodec, by decide, _, List.mem_singleton.2 rfl, _, List.mem_singleton.2 rfl, 0,
        List.mem_singleton.2 rfl⟩⟩

/-! ## Claim C30: the constraints of different contexts are not merged -/

/-- Claim C30. Constraints are not merged across contexts: there are a descriptor, a
library type that is not the legacy one and two contexts `A` and `B` such that
`ValidateConfig` accepts the list `[A, B]` and rejects the single context that holds the
union of the constraints of `A` and `B`. Here `A` constrains the decoder `CodecID` to AVC
and `B` the decoder `Profile` to 2, against a descriptor in which AVC has profile 77 and
HEVC has profile 2. -/
theorem C30_constraints_not_merged :
    ∃ (libImplDesc : mfxImplDescription) (libType : LibType) (A B : ConfigCtxVPL),
      libType ≠ LibTypeMSDK ∧
      (ValidateConfig (some libImplDesc) none [A, B] libType SpecialConfig.empty).1 =
        MFX_ERR_NONE ∧
      (ValidateConfig (some libImplDesc) none [A.union B] libType SpecialConfig.empty).1 =
        MFX_ERR_UNSUPPORTED := by
  refine ⟨twoCodecDesc, LibTypeVPL, ctxDecCodec MFX_CODEC_AVC, ctxDecProfile 2, by decide,
    ?_, ?_⟩
  · have hvalid : loopValid twoCodecDesc LibTypeVPL
        [ctxDecCodec MFX_CODEC_AVC, ctxDecProfile 2] = true := by
      unfold loopValid
      rw [GetFlatDescriptionsDec_nil, GetFlatDescriptionsEnc_nil, GetFlatDescriptionsVPP_nil]
      decide
    rw [ValidateConfig_some, hvalid]
    decide
  · have hvalid : loopValid twoCodecDesc LibTypeVPL
        [(ctxDecCodec MFX_CODEC_AVC).union (ctxDecProfile 2)] = false := by
      unfold loopValid
      rw [GetFlatDescriptionsDec_nil, GetFlatDescriptionsEnc_nil, GetFlatDescriptionsVPP_nil]
      decide
    rw [ValidateConfig_some, hvalid]
    decide

/-! ## Claims C21 to C23: paths that resolve -/

theorem setter_scalar (ctx : ConfigCtxVPL) (mem : CallerMem) (idx : Nat) (value : mfxVariant)
    (hdecl : propType idx = MFX_VARIANT_TYPE_U16 ∨ propType idx = MFX_VARIANT_TYPE_U32)
    (htype : value.Type_ = propType idx) :
    ValidateAndSetProp ctx mem idx value =
      (MFX_ERR_NONE, (ctx.setType idx value.Type_).setData idx value.Data) := by
  have hne : propType idx ≠ MFX_VARIANT_TYPE_UNSET := by
    rcases hdecl with h | h <;> rw [h] <;> decide
  have hnp : ¬ value.Type_ = MFX_VARIANT_TYPE_PTR := by
    rw [htype]
    rcases hdecl with h | h <;> rw [h] <;> decide
  have hlt : idx < eProp_TotalProps := propType_lt idx hne
  have hsame : ¬ value.Type_ ≠ propType idx := fun h => h htype
  unfold ValidateAndSetProp
  simp only [setter_guard idx hlt, if_false, Int.toNat_ofNat, hsame, hnp]

theorem setter_mismatch (ctx : ConfigCtxVPL) (mem : CallerMem) (idx : Nat) (value : mfxVariant)
    (hlt : idx < eProp_TotalProps) (htype : value.Type_ ≠ propType idx) :
    ValidateAndSetProp ctx mem idx value = (MFX_ERR_UNSUPPORTED, ctx) := by
  unfold ValidateAndSetProp
  simp only [setter_guard idx hlt, if_false, Int.toNat_ofNat]
  rw [if_pos htype]

theorem setter_ptr_value (ctx : ConfigCtxVPL) (mem : CallerMem) (idx : Nat)
    (value : mfxVariant) (hdecl : propType idx = MFX_VARIANT_TYPE_PTR)
    (htype : value.Type_ = MFX_VARIANT_TYPE_PTR) (hp : value.Data.Ptr ≠ mfxHDL.null) :
    ValidateAndSetProp ctx mem idx value =
      (MFX_ERR_NONE, (ctx.setType idx MFX_VARIANT_TYPE_PTR).storePtr mem idx value.Data.Ptr) := by
  have hlt : idx < eProp_TotalProps := propType_lt idx (by rw [hdecl]; decide)
  unfold ValidateAndSetProp
  simp only [setter_guard idx hlt, if_false, Int.toNat_ofNat, hdecl, htype, ne_eq,
    not_true_eq_false, if_true, hp]

theorem slot_after_scalar (ctx : ConfigCtxVPL) (idx : Nat) (t : mfxVariantType)
    (d : mfxVariantData) :
    ((ctx.setType idx t).setData idx d).m_propVar idx = { Type_ := t, Data := d } ∧
    ∀ other, other ≠ idx → ((ctx.setType idx t).setData idx d).m_propVar other =
      ctx.m_propVar other := by
  constructor
  · simp [ConfigCtxVPL.setType, ConfigCtxVPL.setData]
  · intro other h
    simp [ConfigCtxVPL.setType, ConfigCtxVPL.setData, h]

theorem decColorFormat_segments :
    propSegments
        "mfxImplDescription.mfxDecoderDescription.decoder.decprofile.decmemdesc.ColorFormat" =
      ["mfxImplDescription", "mfxDecoderDescription", "decoder", "decprofile", "decmemdesc",
        "ColorFormat"] ∧
    propSegments
        "mfxImplDescription.mfxDecoderDescription.decoder.decprofile.decmemdesc.ColorFormats" =
      ["mfxImplDescription", "mfxDecoderDescription", "decoder", "decprofile", "decmemdesc",
        "ColorFormats"] := by
  constructor <;> (rw [propSegments_eq]; decide)

/-- Claim C21 as stated fails: with the segments `mfxImplDescription`,
`mfxDecoderDescription`, `decoder`, `decmemdesc` and `ColorFormat` (or `ColorFormats`) and a
32-bit value, `SetFilterProperty` returns `MFX_ERR_NOT_FOUND` and leaves the decode
colour-format slot unset, because `decoder` must be followed by `decprofile`. -/
theorem C21_counterexample :
    propSegments "mfxImplDescription.mfxDecoderDescription.decoder.decmemdesc.ColorFormat" =
      ["mfxImplDescription", "mfxDecoderDescription", "decoder", "decmemdesc", "ColorFormat"] ∧
    SetFilterProperty ConfigCtxVPL.new callerMem false
        (some "mfxImplDescription.mfxDecoderDescription.decoder.decmemdesc.ColorFormat")
        { Type_ := MFX_VARIANT_TYPE_U32, Data := .bits 0x3231564E } =
      (MFX_ERR_NOT_FOUND, ConfigCtxVPL.new) ∧
    SetFilterProperty ConfigCtxVPL.new callerMem false
        (some "mfxImplDescription.mfxDecoderDescription.decoder.decmemdesc.ColorFormats")
        { Type_ := MFX_VARIANT_TYPE_U32, Data := .bits 0x3231564E } =
      (MFX_ERR_NOT_FOUND, ConfigCtxVPL.new) ∧
    (ConfigCtxVPL.new.m_propVar ePropDec_ColorFormats).Type_ = MFX_VARIANT_TYPE_UNSET := by
  have h1 : propSegments
      "mfxImplDescription.mfxDecoderDescription.decoder.decmemdesc.ColorFormat" =
      ["mfxImplDescription", "mfxDecoderDescription", "decoder", "decmemdesc",
        "ColorFormat"] := by
    rw [propSegments_eq]; decide
  have h2 : propSegments
      "mfxImplDescription.mfxDecoderDescription.decoder.decmemdesc.ColorFormats" =
      ["mfxImplDescription", "mfxDecoderDescription", "decoder", "decmemdesc",
        "ColorFormats"] := by
    rw [propSegments_eq]; decide
  refine ⟨h1, ?_, ?_, rfl⟩
  · rw [SetFilterProperty_some, h1]; rfl
  · rw [SetFilterProperty_some, h2]; rfl

/-- Claim C21, amended. Decode colour-format path: `SetFilterProperty` with the path whose
segments are the root `mfxImplDescription`, then `mfxDecoderDescription`, `decoder`,
`decprofile`, `decmemdesc` and `ColorFormat` (or `ColorFormats`), and a 32-bit value,
resolves to the decode colour-format property: it returns `MFX_ERR_NONE` and sets the
`ePropDec_ColorFormats` slot to that value. -/
theorem C21_decode_colour_format_path (ctx : ConfigCtxVPL) (mem : CallerMem)
    (isWindows : Bool) (value : mfxVariant) (htype : value.Type_ = MFX_VARIANT_TYPE_U32) :
    ((SetFilterProperty ctx mem isWindows (some
        "mfxImplDescription.mfxDecoderDescription.decoder.decprofile.decmemdesc.ColorFormat")
          value).1 = MFX_ERR_NONE ∧
      (SetFilterProperty ctx mem isWindows (some
        "mfxImplDescription.mfxDecoderDescription.decoder.decprofile.decmemdesc.ColorFormat")
          value).2.m_propVar ePropDec_ColorFormats = value) ∧
    ((SetFilterProperty ctx mem isWindows (some
        "mfxImplDescription.mfxDecoderDescription.decoder.decprofile.decmemdesc.ColorFormats")
          value).1 = MFX_ERR_NONE ∧
      (SetFilterProperty ctx mem isWindows (some
        "mfxImplDescription.mfxDecoderDescription.decoder.decprofile.decmemdesc.ColorFormats")
          value).2.m_propVar ePropDec_ColorFormats = value) := by
  have hset := setter_scalar ctx mem ePropDec_ColorFormats value (Or.inr (by decide))
    (by rw [htype]; decide)
  have hslot := (slot_after_scalar ctx ePropDec_ColorFormats value.Type_ value.Data).1
  have hA : SetFilterProperty ctx mem isWindows (some
      "mfxImplDescription.mfxDecoderDescription.decoder.decprofile.decmemdesc.ColorFormat")
        value = ValidateAndSetProp ctx mem ePropDec_ColorFormats value := by
    rw [SetFilterProperty_some, decColorFormat_segments.1]; rfl
  have hB : SetFilterProperty ctx mem isWindows (some
      "mfxImplDescription.mfxDecoderDescription.decoder.decprofile.decmemdesc.ColorFormats")
        value = ValidateAndSetProp ctx mem ePropDec_ColorFormats value := by
    rw [SetFilterProperty_some, decColorFormat_segments.2]; rfl
  rw [hA, hB, hset]
  exact ⟨⟨rfl, hslot⟩, ⟨rfl, hslot⟩⟩

theorem C21_decode_colour_format_path_witness :
    (SetFilterProperty ConfigCtxVPL.new callerMem false (some
        "mfxImplDescription.mfxDecoderDescription.decoder.decprofile.decmemdesc.ColorFormat")
          { Type_ := MFX_VARIANT_TYPE_U32, Data := .bits 0x3231564E }).1 = MFX_ERR_NONE ∧
    (SetFilterProperty ConfigCtxVPL.new callerMem false (some
        "mfxImplDescription.mfxDecoderDescription.decoder.decprofile.decmemdesc.ColorFormat")
          { Type_ := MFX_VARIANT_TYPE_U32, Data := .bits 0x3231564E }).2.m_propVar
            ePropDec_ColorFormats =
      { Type_ := MFX_VARIANT_TYPE_U32, Data := .bits 0x3231564E } :=
  (C21_decode_colour_format_path ConfigCtxVPL.new callerMem false
    { Type_ := MFX_VARIANT_TYPE_U32, Data := .bits 0x3231564E } rfl).1

theorem SetFilterPropertyDec_synonym (ctx : ConfigCtxVPL) (mem : CallerMem)
    (rest : List String) (value : mfxVariant) :
    SetFilterPropertyDec ctx mem (rest ++ ["ColorFormat"]) value =
      SetFilterPropertyDec ctx mem (rest ++ ["ColorFormats"]) value := by
  rcases rest with _ | ⟨a, _ | ⟨b, _ | ⟨c, _ | ⟨d, r⟩⟩⟩⟩ <;>
    simp [SetFilterPropertyDec, GetNextProp]

theorem SetFilterPropertyEnc_synonym (ctx : ConfigCtxVPL) (mem : CallerMem)
    (rest : List String) (value : mfxVariant) :
    SetFilterPropertyEnc ctx mem (rest ++ ["ColorFormat"]) value =
      SetFilterPropertyEnc ctx mem (rest ++ ["ColorFormats"]) value := by
  rcases rest with _ | ⟨a, _ | ⟨b, _ | ⟨c, _ | ⟨d, r⟩⟩⟩⟩ <;>
    simp [SetFilterPropertyEnc, GetNextProp]

theorem SetFilterPropertyVPP_synonym (ctx : ConfigCtxVPL) (mem : CallerMem)
    (rest : List String) (value : mfxVariant) :
    SetFilterPropertyVPP ctx mem (rest ++ ["OutFormat"]) value =
      SetFilterPropertyVPP ctx mem (rest ++ ["OutFormats"]) value := by
  rcases rest with _ | ⟨a, _ | ⟨b, _ | ⟨c, _ | ⟨d, r⟩⟩⟩⟩ <;>
    simp [SetFilterPropertyVPP, GetNextProp]

theorem setParsedProp_section (ctx : ConfigCtxVPL) (mem : CallerMem) (isWindows : Bool)
    (rest : List String) (value : mfxVariant) :
    setParsedProp ctx mem isWindows ("mfxImplDescription" :: "mfxDecoderDescription" :: rest)
        value = SetFilterPropertyDec ctx mem rest value ∧
    setParsedProp ctx mem isWindows ("mfxImplDescription" :: "mfxEncoderDescription" :: rest)
        value = SetFilterPropertyEnc ctx mem rest value ∧
    setParsedProp ctx mem isWindows ("mfxImplDescription" :: "mfxVPPDescription" :: rest)
        value = SetFilterPropertyVPP ctx mem rest value := by
  refine ⟨?_, ?_, ?_⟩ <;> simp [setParsedProp, setImplDescriptionProp, GetNextProp]

theorem recognisedPaths_plural (ctx : ConfigCtxVPL) (mem : CallerMem) (isWindows : Bool)
    (value : mfxVariant) (e : List String × Nat)
    (he : e ∈ recognisedPaths isWindows value.Type_)
    (hcolor : e.1.getLast? ≠ some "ColorFormat") (hout : e.1.getLast? ≠ some "OutFormat") :
    setParsedProp ctx mem isWindows (pluralPath e.1) value = (MFX_ERR_NOT_FOUND, ctx) := by
  cases isWindows with
  | false =>
    simp only [recognisedPaths, implDescriptionPaths, decPaths, encPaths, vppPaths,
      Bool.false_eq_true, if_false, List.map_cons, List.map_nil, List.cons_append,
      List.nil_append, List.append_nil, List.mem_cons, List.mem_singleton, List.mem_nil_iff,
      or_false, List.map_append] at he
    rcases he with rfl | rfl | rfl | rfl | rfl | rfl | rfl | rfl | rfl | rfl | rfl | rfl | rfl | rfl | rfl | rfl | rfl | rfl | rfl | rfl | rfl | rfl | rfl | rfl | rfl | rfl | rfl | rfl | rfl | rfl | rfl | rfl | rfl | rfl | rfl | rfl | rfl | rfl | rfl | rfl <;>
      first
      | rfl
      | exact absurd rfl hcolor
      | exact absurd rfl hout
  | true =>
    simp only [recognisedPaths, implDescriptionPaths, decPaths, encPaths, vppPaths,
      if_true, List.map_cons, List.map_nil, List.cons_append,
      List.nil_append, List.append_nil, List.mem_cons, List.mem_singleton, List.mem_nil_iff,
      or_false, List.map_append] at he
    rcases he with rfl | rfl | rfl | rfl | rfl | rfl | rfl | rfl | rfl | rfl | rfl | rfl | rfl | rfl | rfl | rfl | rfl | rfl | rfl | rfl | rfl | rfl | rfl | rfl | rfl | rfl | rfl | rfl | rfl | rfl | rfl | rfl | rfl | rfl | rfl | rfl | rfl | rfl | rfl | rfl | rfl <;>
      first
      | rfl
      | exact absurd rfl hcolor
      | exact absurd rfl hout

/-- Claim C22. Leaf synonyms: for every context and every value, `SetFilterProperty` gives
the same return code and the same resulting context for a decode path ending in
`ColorFormat` as for the same path ending in `ColorFormats`, likewise for an encode path
and for a filter path ending in `OutFormat` or `OutFormats`, and the full paths with these
leaves resolve to the colour-format and output-format slots. No other leaf has a tolerated
plural form: a recognised path whose last segment is neither `ColorFormat` nor `OutFormat`
is `MFX_ERR_NOT_FOUND` once the letter `s` is appended to it, for example the filter path
ending in `InFormats`. -/
theorem C22_leaf_synonyms (ctx : ConfigCtxVPL) (mem : CallerMem) (isWindows : Bool)
    (value : mfxVariant) :
    (∀ nameA nameB rest,
      propSegments nameA =
        "mfxImplDescription" :: "mfxDecoderDescription" :: (rest ++ ["ColorFormat"]) →
      propSegments nameB =
        "mfxImplDescription" :: "mfxDecoderDescription" :: (rest ++ ["ColorFormats"]) →
      SetFilterProperty ctx mem isWindows (some nameA) value =
        SetFilterProperty ctx mem isWindows (some nameB) value) ∧
    (∀ nameA nameB rest,
      propSegments nameA =
        "mfxImplDescription" :: "mfxEncoderDescription" :: (rest ++ ["ColorFormat"]) →
      propSegments nameB =
        "mfxImplDescription" :: "mfxEncoderDescription" :: (rest ++ ["ColorFormats"]) →
      SetFilterProperty ctx mem isWindows (some nameA) value =
        SetFilterProperty ctx mem isWindows (some nameB) value) ∧
    (∀ nameA nameB rest,
      propSegments nameA =
        "mfxImplDescription" :: "mfxVPPDescription" :: (rest ++ ["OutFormat"]) →
      propSegments nameB =
        "mfxImplDescription" :: "mfxVPPDescription" :: (rest ++ ["OutFormats"]) →
      SetFilterProperty ctx mem isWindows (some nameA) value =
        SetFilterProperty ctx mem isWindows (some nameB) value) ∧
    (setParsedProp ctx mem isWindows ["mfxImplDescription", "mfxDecoderDescription", "decoder",
        "decprofile", "decmemdesc", "ColorFormats"] value =
      ValidateAndSetProp ctx mem ePropDec_ColorFormats value ∧
     setParsedProp ctx mem isWindows ["mfxImplDescription", "mfxEncoderDescription", "encoder",
        "encprofile", "encmemdesc", "ColorFormats"] value =
      ValidateAndSetProp ctx mem ePropEnc_ColorFormats value ∧
     setParsedProp ctx mem isWindows ["mfxImplDescription", "mfxVPPDescription", "filter",
        "memdesc", "format", "OutFormats"] value =
      ValidateAndSetProp ctx mem ePropVPP_OutFormat value) ∧
    (∀ name e, e ∈ recognisedPaths isWindows value.Type_ →
      e.1.getLast? ≠ some "ColorFormat" → e.1.getLast? ≠ some "OutFormat" →
      propSegments name = pluralPath e.1 →
      SetFilterProperty ctx mem isWindows (some name) value = (MFX_ERR_NOT_FOUND, ctx)) ∧
    SetFilterProperty ctx mem isWindows
        (some "mfxImplDescription.mfxVPPDescription.filter.memdesc.format.InFormats") value =
      (MFX_ERR_NOT_FOUND, ctx) := by
  refine ⟨?_, ?_, ?_, ⟨rfl, rfl, rfl⟩, ?_, ?_⟩
  · intro nameA nameB rest hA hB
    rw [SetFilterProperty_some, SetFilterProperty_some, hA, hB,
      (setParsedProp_section ctx mem isWindows _ value).1,
      (setParsedProp_section ctx mem isWindows _ value).1]
    exact SetFilterPropertyDec_synonym ctx mem rest value
  · intro nameA nameB rest hA hB
    rw [SetFilterProperty_some, SetFilterProperty_some, hA, hB,
      (setParsedProp_section ctx mem isWindows _ value).2.1,
      (setParsedProp_section ctx mem isWindows _ value).2.1]
    exact SetFilterPropertyEnc_synonym ctx mem rest value
  · intro nameA nameB rest hA hB
    rw [SetFilterProperty_some, SetFilterProperty_some, hA, hB,
      (setParsedProp_section ctx mem isWindows _ value).2.2,
      (setParsedProp_section ctx mem isWindows _ value).2.2]
    exact SetFilterPropertyVPP_synonym ctx mem rest value
  · intro name e he hcolor hout hname
    rw [SetFilterProperty_some, hname]
    exact recognisedPaths_plural ctx mem isWindows value e he hcolor hout
  · have hsegs : propSegments
        "mfxImplDescription.mfxVPPDescription.filter.memdesc.format.InFormats" =
        ["mfxImplDescription", "mfxVPPDescription", "filter", "memdesc", "format",
          "InFormats"] := by
      rw [propSegments_eq]; decide
    rw [SetFilterProperty_some, hsegs]
    rfl

theorem deviceID_segments (name : String) (hname : name ∈ deviceIDNames) :
    propSegments name = ["mfxImplDescription", "mfxDeviceDescription", "DeviceID"] ∨
    propSegments name =
      ["mfxImplDescription", "mfxDeviceDescription", "device", "DeviceID"] := by
  simp only [deviceIDNames, List.mem_cons, List.mem_singleton, List.mem_nil_iff,
    or_false] at hname
  rcases hname with rfl | rfl
  · left; rw [propSegments_eq]; decide
  · right; rw [propSegments_eq]; decide

theorem deviceID_route (ctx : ConfigCtxVPL) (mem : CallerMem) (isWindows : Bool)
    (name : String) (value : mfxVariant) (hname : name ∈ deviceIDNames) :
    SetFilterProperty ctx mem isWindows (some name) value =
      if value.Type_ = MFX_VARIANT_TYPE_PTR then
        ValidateAndSetProp ctx mem ePropDevice_DeviceIDStr value
      else ValidateAndSetProp ctx mem ePropDevice_DeviceID value := by
  rw [SetFilterProperty_some]
  rcases deviceID_segments name hname with h | h <;> rw [h] <;>
    simp [setParsedProp, setImplDescriptionProp, GetNextProp]

/-- Claim C23. Device-id routing: for the path
`mfxImplDescription.mfxDeviceDescription.DeviceID`, with or without the legacy `device`
segment before `DeviceID`, a pointer-typed value with a non-null pointer sets only the
string device-id slot and a 16-bit value sets only the numeric device-id slot, both with
`MFX_ERR_NONE`; a value of any other type is rejected as a type mismatch
(`MFX_ERR_UNSUPPORTED`) and the context is unchanged. -/
theorem C23_device_id_routing (ctx : ConfigCtxVPL) (mem : CallerMem) (isWindows : Bool)
    (name : String) (value : mfxVariant) (hname : name ∈ deviceIDNames) :
    (value.Type_ = MFX_VARIANT_TYPE_PTR → value.Data.Ptr ≠ mfxHDL.null →
      (SetFilterProperty ctx mem isWindows (some name) value).1 = MFX_ERR_NONE ∧
      (SetFilterProperty ctx mem isWindows (some name) value).2.m_propVar
          ePropDevice_DeviceIDStr =
        { Type_ := MFX_VARIANT_TYPE_PTR,
          Data := .ptr (.str (value.Data.Ptr.load mem).asString) } ∧
      (SetFilterProperty ctx mem isWindows (some name) value).2.m_deviceIdStr =
        (value.Data.Ptr.load mem).asString ∧
      ∀ idx, idx ≠ ePropDevice_DeviceIDStr →
        (SetFilterProperty ctx mem isWindows (some name) value).2.m_propVar idx =
          ctx.m_propVar idx) ∧
    (value.Type_ = MFX_VARIANT_TYPE_U16 →
      (SetFilterProperty ctx mem isWindows (some name) value).1 = MFX_ERR_NONE ∧
      (SetFilterProperty ctx mem isWindows (some name) value).2.m_propVar
          ePropDevice_DeviceID = value ∧
      ∀ idx, idx ≠ ePropDevice_DeviceID →
        (SetFilterProperty ctx mem isWindows (some name) value).2.m_propVar idx =
          ctx.m_propVar idx) ∧
    (value.Type_ ≠ MFX_VARIANT_TYPE_PTR → value.Type_ ≠ MFX_VARIANT_TYPE_U16 →
      SetFilterProperty ctx mem isWindows (some name) value = (MFX_ERR_UNSUPPORTED, ctx)) := by
  rw [deviceID_route ctx mem isWindows name value hname]
  refine ⟨?_, ?_, ?_⟩
  · intro hptr hnn
    rw [if_pos hptr, setter_ptr_value ctx mem _ value (by decide) hptr hnn]
    refine ⟨rfl, ?_, ?_, ?_⟩
    · simp [ConfigCtxVPL.storePtr, ConfigCtxVPL.setData, ConfigCtxVPL.setType]
    · simp [ConfigCtxVPL.storePtr, ConfigCtxVPL.setData, ConfigCtxVPL.setType]
    · intro idx hidx
      simp [ConfigCtxVPL.storePtr, ConfigCtxVPL.setData, ConfigCtxVPL.setType, hidx]
  · intro h16
    have hnp : ¬ value.Type_ = MFX_VARIANT_TYPE_PTR := by rw [h16]; decide
    rw [if_neg hnp, setter_scalar ctx mem _ value (Or.inl (by decide)) (by rw [h16]; decide)]
    exact ⟨rfl, (slot_after_scalar ctx _ _ _).1, (slot_after_scalar ctx _ _ _).2⟩
  · intro hnp hn16
    rw [if_neg hnp]
    exact setter_mismatch ctx mem _ value (by decide) (fun h => hn16 (by rw [h]; decide))

theorem C23_device_id_routing_witness :
    (SetFilterProperty ConfigCtxVPL.new callerMem false
        (some "mfxImplDescription.mfxDeviceDescription.device.DeviceID")
        { Type_ := MFX_VARIANT_TYPE_U16, Data := .bits 0x1A2B }).1 = MFX_ERR_NONE ∧
    (SetFilterProperty ConfigCtxVPL.new callerMem false
        (some "mfxImplDescription.mfxDeviceDescription.device.DeviceID")
        { Type_ := MFX_VARIANT_TYPE_U16, Data := .bits 0x1A2B }).2.m_propVar
          ePropDevice_DeviceID = { Type_ := MFX_VARIANT_TYPE_U16, Data := .bits 0x1A2B } :=
  ⟨((C23_device_id_routing ConfigCtxVPL.new callerMem false
      "mfxImplDescription.mfxDeviceDescription.device.DeviceID"
      { Type_ := MFX_VARIANT_TYPE_U16, Data := .bits 0x1A2B } (by decide)).2.1 rfl).1,
    ((C23_device_id_routing ConfigCtxVPL.new callerMem false
      "mfxImplDescription.mfxDeviceDescription.device.DeviceID"
      { Type_ := MFX_VARIANT_TYPE_U16, Data := .bits 0x1A2B } (by decide)).2.1 rfl).2.1⟩

/-! ## Claim C29: the slot tag invariant -/

theorem setData_type (ctx : ConfigCtxVPL) (idx : Nat) (d : mfxVariantData) (i : Nat) :
    ((ctx.setData idx d).m_propVar i).Type_ = (ctx.m_propVar i).Type_ := by
  unfold ConfigCtxVPL.setData
  by_cases h : i = idx
  · simp only [h, if_true]
  · simp only [h, if_false]

theorem storeRange_type (ctx : ConfigCtxVPL) (mem : CallerMem) (idx slot : Nat) (p : mfxHDL)
    (i : Nat) :
    ((ctx.storeRange mem idx slot p).m_propVar i).Type_ = (ctx.m_propVar i).Type_ := by
  unfold ConfigCtxVPL.storeRange
  exact setData_type _ idx _ i

theorem storePtr_type (ctx : ConfigCtxVPL) (mem : CallerMem) (idx : Nat) (p : mfxHDL)
    (i : Nat) :
    ((ctx.storePtr mem idx p).m_propVar i).Type_ = (ctx.m_propVar i).Type_ := by
  unfold ConfigCtxVPL.storePtr
  by_cases h0 : idx = ePropDec_Width
  · rw [if_pos h0]; exact storeRange_type ctx mem idx _ p i
  rw [if_neg h0]
  by_cases h1 : idx = ePropDec_Height
  · rw [if_pos h1]; exact storeRange_type ctx mem idx _ p i
  rw [if_neg h1]
  by_cases h2 : idx = ePropEnc_Width
  · rw [if_pos h2]; exact storeRange_type ctx mem idx _ p i
  rw [if_neg h2]
  by_cases h3 : idx = ePropEnc_Height
  · rw [if_pos h3]; exact storeRange_type ctx mem idx _ p i
  rw [if_neg h3]
  by_cases h4 : idx = ePropVPP_Width
  · rw [if_pos h4]; exact storeRange_type ctx mem idx _ p i
  rw [if_neg h4]
  by_cases h5 : idx = ePropVPP_Height
  · rw [if_pos h5]; exact storeRange_type ctx mem idx _ p i
  rw [if_neg h5]
  by_cases h6 : idx = ePropSpecial_Handle
  · rw [if_pos h6]; exact setData_type _ idx _ i
  rw [if_neg h6]
  by_cases h7 : idx = ePropMain_ImplName
  · rw [if_pos h7]; exact setData_type _ idx _ i
  rw [if_neg h7]
  by_cases h8 : idx = ePropMain_License
  · rw [if_pos h8]; exact setData_type _ idx _ i
  rw [if_neg h8]
  by_cases h9 : idx = ePropMain_Keywords
  · rw [if_pos h9]; exact setData_type _ idx _ i
  rw [if_neg h9]
  by_cases h10 : idx = ePropDevice_DeviceIDStr
  · rw [if_pos h10]; exact setData_type _ idx _ i
  rw [if_neg h10]
  by_cases h11 : idx = ePropFunc_FunctionName
  · rw [if_pos h11]
  rw [if_neg h11]

theorem ValidateAndSetProp_inv (ctx : ConfigCtxVPL) (mem : CallerMem) (idx : Int)
    (value : mfxVariant) (hinv : SlotTagInv ctx) :
    SlotTagInv (ValidateAndSetProp ctx mem idx value).2 := by
  unfold ValidateAndSetProp
  split
  · exact hinv
  split
  · exact hinv
  rename_i hguard hsame
  have htype : value.Type_ = propType idx.toNat := not_not.mp hsame
  have hset : SlotTagInv (ctx.setType idx.toNat value.Type_) := by
    intro i hi
    by_cases h : i = idx.toNat
    · subst h
      right
      simp [ConfigCtxVPL.setType, htype]
    · simp only [ConfigCtxVPL.setType, h, if_false]
      exact hinv i hi
  dsimp only
  split
  · split
    · intro i hi
      by_cases h : i = idx.toNat
      · left
        simp [ConfigCtxVPL.setType, h]
      · simp only [ConfigCtxVPL.setType, h, if_false]
        exact hinv i hi
    · intro i hi
      show ((ConfigCtxVPL.storePtr _ mem idx.toNat value.Data.Ptr).m_propVar i).Type_ = _ ∨
        ((ConfigCtxVPL.storePtr _ mem idx.toNat value.Data.Ptr).m_propVar i).Type_ = _
      rw [storePtr_type]
      exact hset i hi
  · intro i hi
    by_cases h : i = idx.toNat
    · right
      simp [ConfigCtxVPL.setData, ConfigCtxVPL.setType, h, htype]
    · simp only [ConfigCtxVPL.setData, ConfigCtxVPL.setType, h, if_false]
      exact hinv i hi

theorem setParsedProp_cases (ctx : ConfigCtxVPL) (mem : CallerMem) (isWindows : Bool)
    (segs : List String) (value : mfxVariant) :
    setParsedProp ctx mem isWindows segs value = (MFX_ERR_NOT_FOUND, ctx) ∨
    ∃ idx : Nat, setParsedProp ctx mem isWindows segs value =
      ValidateAndSetProp ctx mem idx value := by
  by_cases h : ∃ e ∈ recognisedPaths isWindows value.Type_, e.1 <+: segs
  · obtain ⟨e, he, extra, rfl⟩ := h
    exact Or.inr ⟨e.2, setParsedProp_found ctx mem isWindows value e he extra⟩
  · left
    apply setParsedProp_stuck
    intro e he hpre
    exact h ⟨e, he, hpre⟩

theorem SetFilterProperty_inv (ctx : ConfigCtxVPL) (mem : CallerMem) (isWindows : Bool)
    (name : Option String) (value : mfxVariant) (hinv : SlotTagInv ctx) :
    SlotTagInv (SetFilterProperty ctx mem isWindows name value).2 := by
  cases name with
  | none => exact hinv
  | some name =>
    rw [SetFilterProperty_some]
    rcases setParsedProp_cases ctx mem isWindows (propSegments name) value with h | ⟨idx, h⟩
    · rw [h]; exact hinv
    · rw [h]; exact ValidateAndSetProp_inv ctx mem idx value hinv

theorem runCalls_inv (isWindows : Bool) (calls : List SetterCall) (ctx : ConfigCtxVPL)
    (hinv : SlotTagInv ctx) : SlotTagInv (runCalls isWindows ctx calls) := by
  unfold runCalls
  induction calls generalizing ctx with
  | nil => exact hinv
  | cons call rest ih =>
    rw [List.foldl_cons]
    apply ih
    cases call with
    | validateAndSet mem idx value => exact ValidateAndSetProp_inv ctx mem idx value hinv
    | setFilter mem name value => exact SetFilterProperty_inv ctx mem isWindows name value hinv

/-- Claim C29. Slot tag invariant: in a freshly constructed context every slot is `UNSET`,
and every sequence of `ValidateAndSetProp` and `SetFilterProperty` calls, successful or
failing, preserves the invariant that for every index in range the `Type` of the slot is
`UNSET` or the type that `PropIdxTab` declares for the index. -/
theorem C29_slot_tag_invariant (isWindows : Bool) :
    (∀ idx, (ConfigCtxVPL.new.m_propVar idx).Type_ = MFX_VARIANT_TYPE_UNSET) ∧
    SlotTagInv ConfigCtxVPL.new ∧
    (∀ ctx mem idx value, SlotTagInv ctx →
      SlotTagInv (ValidateAndSetProp ctx mem idx value).2) ∧
    (∀ ctx mem name value, SlotTagInv ctx →
      SlotTagInv (SetFilterProperty ctx mem isWindows name value).2) ∧
    (∀ ctx calls, SlotTagInv ctx → SlotTagInv (runCalls isWindows ctx calls)) ∧
    (∀ calls, SlotTagInv (runCalls isWindows ConfigCtxVPL.new calls)) := by
  have hnew : SlotTagInv ConfigCtxVPL.new := fun idx _ => Or.inl rfl
  exact ⟨fun _ => rfl, hnew, fun ctx mem idx value => ValidateAndSetProp_inv ctx mem idx value,
    fun ctx mem name value => SetFilterProperty_inv ctx mem isWindows name value,
    fun ctx calls => runCalls_inv isWindows calls ctx,
    fun calls => runCalls_inv isWindows calls _ hnew⟩

/-! ## Claims C24 to C26: the device id parser -/

theorem hex_char (c : Char) (h : (hexDigitValue c).isSome = true) :
    isspace c = false ∧ c ≠ '-' ∧ c ≠ '+' ∧ c ≠ 'x' ∧ c ≠ 'X' ∧ c ≠ '/' := by
  refine ⟨?_, ?_, ?_, ?_, ?_, ?_⟩
  · unfold hexDigitValue at h
    unfold isspace
    split_ifs at h with h1 h2 h3
    · simp; omega
    · simp; omega
    · simp; omega
    · simp at h
  all_goals
    rintro rfl
    revert h
    decide

theorem dec_char (c : Char) (h : isDecDigit c = true) :
    isspace c = false ∧ c ≠ '-' ∧ c ≠ '+' ∧ c ≠ '/' := by
  refine ⟨?_, ?_, ?_, ?_⟩
  · unfold isDecDigit at h
    unfold isspace
    simp at h ⊢
    omega
  all_goals
    rintro rfl
    revert h
    decide

theorem stoiSign_plain (c : Char) (cs : List Char) (h1 : c ≠ '-') (h2 : c ≠ '+') :
    stoiSign (c :: cs) = (false, c :: cs) := by
  simp [stoiSign, h1, h2]

theorem stoiPrefix_plain (l : List Char) (h : ∀ c ∈ l, c ≠ 'x' ∧ c ≠ 'X') :
    stoiPrefix l = l := by
  rcases l with _ | ⟨c0, _ | ⟨x, _ | ⟨d, cs⟩⟩⟩
  · rfl
  · rfl
  · rfl
  · have hx := h x (by simp)
    simp [stoiPrefix, hx.1, hx.2]

theorem stoi16_hex (H tail : List Char) (hH : IsHexDigits H)
    (htail : tail = [] ∨ ∃ D, tail = '/' :: D ∧ ∀ c ∈ D, c ≠ 'x' ∧ c ≠ 'X') :
    stoi16 (String.mk (H ++ tail)) =
      if hexValue H < 2 ^ 31 then some (hexValue H : Int) else none := by
  obtain ⟨hne, hall⟩ := hH
  obtain ⟨h0, H', rfl⟩ := List.exists_cons_of_ne_nil hne
  have hh0 := hex_char h0 (hall h0 (List.mem_cons_self _ _))
  have hdrop : List.dropWhile isspace (h0 :: H' ++ tail) = h0 :: H' ++ tail := by
    rw [List.cons_append, List.dropWhile_cons_of_neg]
    simp [hh0.1]
  have htailx : ∀ c ∈ tail, c ≠ 'x' ∧ c ≠ 'X' := by
    rcases htail with rfl | ⟨D, rfl, hD⟩
    · intro c hc; simp at hc
    · intro c hc
      rcases List.mem_cons.mp hc with rfl | hc
      · exact ⟨by decide, by decide⟩
      · exact hD c hc
  have hpre : stoiPrefix (h0 :: H' ++ tail) = h0 :: H' ++ tail := by
    apply stoiPrefix_plain
    intro c hc
    rcases List.mem_append.mp hc with hc | hc
    · have := hex_char c (hall c hc)
      exact ⟨this.2.2.2.1, this.2.2.2.2.1⟩
    · exact htailx c hc
  have htake : List.takeWhile (fun c => (hexDigitValue c).isSome) (h0 :: H' ++ tail) =
      h0 :: H' := by
    rw [List.takeWhile_append_of_pos hall]
    rcases htail with rfl | ⟨D, rfl, _⟩
    · simp
    · rw [List.takeWhile_cons_of_neg (by decide)]; simp
  unfold stoi16
  simp only [String.toList]
  rw [hdrop, List.cons_append, stoiSign_plain _ _ hh0.2.1 hh0.2.2.1]
  simp only [Bool.false_eq_true, if_false]
  rw [← List.cons_append, hpre, htake]
  simp only [reduceCtorEq, if_false]
  unfold hexValue
  generalize List.foldl (fun acc c => acc * 16 + (hexDigitValue c).getD 0) 0 (h0 :: H') = v
  by_cases hv : v < 2 ^ 31
  · rw [if_pos hv, if_neg]
    omega
  · rw [if_neg hv, if_pos]
    omega

theorem stoi10_dec (D : List Char) (hD : IsDecDigits D) :
    stoi10 (String.mk D) = if decValue D < 2 ^ 31 then some (decValue D : Int) else none := by
  obtain ⟨hne, hall⟩ := hD
  obtain ⟨d0, D', rfl⟩ := List.exists_cons_of_ne_nil hne
  have hd0 := dec_char d0 (hall d0 (List.mem_cons_self _ _))
  have hdrop : List.dropWhile isspace (d0 :: D') = d0 :: D' := by
    rw [List.dropWhile_cons_of_neg]
    simp [hd0.1]
  have htake : List.takeWhile isDecDigit (d0 :: D') = d0 :: D' :=
    List.takeWhile_eq_self_iff.mpr hall
  unfold stoi10
  simp only [String.toList]
  rw [hdrop, stoiSign_plain _ _ hd0.2.1 hd0.2.2.1]
  simp only [Bool.false_eq_true, if_false]
  rw [htake]
  simp only [reduceCtorEq, if_false]
  unfold decValue
  generalize List.foldl (fun acc c => acc * 10 + (c.toNat - 48)) 0 (d0 :: D') = v
  by_cases hv : v < 2 ^ 31
  · rw [if_pos hv, if_neg]
    omega
  · rw [if_neg hv, if_pos]
    omega

theorem reDevIDMin_iff (s : List Char) : reDevIDMin s = true ↔ IsHexDigits s := by
  unfold reDevIDMin IsHexDigits
  cases s with
  | nil => simp
  | cons c cs => simp

theorem reDevIDAll_of_shape (H D : List Char) (hH : IsHexDigits H) (hD : IsDecDigits D) :
    reDevIDAll (H ++ '/' :: D) = true := by
  obtain ⟨hHne, hHall⟩ := hH
  obtain ⟨hDne, hDall⟩ := hD
  have htake : List.takeWhile (fun c => (hexDigitValue c).isSome) (H ++ '/' :: D) = H := by
    rw [List.takeWhile_append_of_pos hHall, List.takeWhile_cons_of_neg (by decide)]; simp
  have hdrop : List.dropWhile (fun c => (hexDigitValue c).isSome) (H ++ '/' :: D) =
      '/' :: D := by
    rw [List.dropWhile_append_of_pos hHall, List.dropWhile_cons_of_neg (by decide)]
  unfold reDevIDAll
  simp only [htake, hdrop, List.head?_cons, List.tail_cons, beq_self_eq_true, Bool.and_true,
    Bool.and_eq_true, Bool.not_eq_true', List.isEmpty_eq_false, List.all_eq_true]
  exact ⟨⟨hHne, hDne⟩, hDall⟩

theorem reDevIDAll_shape (s : List Char) (h : reDevIDAll s = true) :
    ∃ H D, IsHexDigits H ∧ IsDecDigits D ∧ s = H ++ '/' :: D := by
  unfold reDevIDAll at h
  simp only [Bool.and_eq_true, Bool.not_eq_true', List.isEmpty_eq_false, beq_iff_eq,
    List.all_eq_true] at h
  obtain ⟨⟨⟨hHne, hhead⟩, hDne⟩, hDall⟩ := h
  have hsplit := List.takeWhile_append_dropWhile (fun c => (hexDigitValue c).isSome) s
  cases hrest : List.dropWhile (fun c => (hexDigitValue c).isSome) s with
  | nil => rw [hrest] at hhead; simp at hhead
  | cons x D =>
    rw [hrest] at hhead hDne hDall hsplit
    simp only [List.head?_cons, Option.some.injEq] at hhead
    subst hhead
    refine ⟨_, D, ⟨hHne, fun c hc => List.mem_takeWhile_imp (p := fun c => (hexDigitValue c).isSome) hc⟩, ⟨hDne, hDall⟩, hsplit.symm⟩

theorem reDevIDAll_hex (H : List Char) (hH : IsHexDigits H) : reDevIDAll H = false := by
  have hdrop : List.dropWhile (fun c => (hexDigitValue c).isSome) H = [] :=
    List.dropWhile_eq_nil_iff.mpr hH.2
  unfold reDevIDAll
  simp [hdrop]

theorem rfind_none (c : Char) (l : List Char) (h : c ∉ l) : rfind c l = none := by
  induction l with
  | nil => rfl
  | cons x xs ih =>
    have hx : ¬ x = c := fun e => h (by rw [e]; exact List.mem_cons_self _ _)
    simp [rfind, ih (fun hm => h (List.mem_cons_of_mem _ hm)), hx]

theorem rfind_last (c : Char) (l1 l2 : List Char) (h : c ∉ l2) :
    rfind c (l1 ++ c :: l2) = some l1.length := by
  induction l1 with
  | nil => simp [rfind, rfind_none c l2 h]
  | cons x xs ih => simp [rfind, ih]

theorem toNat_mod_of_lt (v : Nat) (h : v < 2 ^ 31) :
    (((v : Int) % (2 ^ 32 : Int)).toNat) = v := by
  omega

theorem ParseDeviceIDx86_hex (du au : Nat) (H : List Char) (hH : IsHexDigits H) :
    ParseDeviceIDx86 du au (String.mk H) =
      if hexValue H < 2 ^ 31 then (true, hexValue H, au) else (false, du, au) := by
  have hs := stoi16_hex H [] hH (Or.inl rfl)
  rw [List.append_nil] at hs
  unfold ParseDeviceIDx86
  simp only [String.toList, (reDevIDMin_iff H).mpr hH, reDevIDAll_hex H hH, or_true, if_true,
    hs, Bool.false_eq_true, if_false]
  by_cases hv : hexValue H < 2 ^ 31
  · simp only [hv, if_true, toNat_mod_of_lt _ hv]
  · simp only [hv, if_false]

theorem ParseDeviceIDx86_hex_dec (du au : Nat) (H D : List Char) (hH : IsHexDigits H)
    (hD : IsDecDigits D) :
    ParseDeviceIDx86 du au (String.mk (H ++ '/' :: D)) =
      if hexValue H < 2 ^ 31 then
        if decValue D < 2 ^ 31 then (true, hexValue H, decValue D)
        else (false, hexValue H, au)
      else (false, du, au) := by
  have hDx : ∀ c ∈ D, c ≠ 'x' ∧ c ≠ 'X' := by
    intro c hc
    have hd := hD.2 c hc
    constructor <;> (rintro rfl; revert hd; decide)
  have hslash : '/' ∉ D := by
    intro hm
    have hd := hD.2 _ hm
    revert hd; decide
  have hs := stoi16_hex H ('/' :: D) hH (Or.inr ⟨D, rfl, hDx⟩)
  have hdrop : List.drop (H.length + 1) (H ++ '/' :: D) = D := by
    rw [List.drop_append]; simp
  unfold ParseDeviceIDx86
  simp only [String.toList, reDevIDAll_of_shape H D hH hD, true_or, if_true, hs,
    rfind_last '/' H D hslash, hdrop, stoi10_dec D hD]
  by_cases hv : hexValue H < 2 ^ 31
  · simp only [hv, if_true]
    by_cases hd : decValue D < 2 ^ 31
    · simp only [hd, if_true, toNat_mod_of_lt _ hv, toNat_mod_of_lt _ hd]
    · simp only [hd, if_false, toNat_mod_of_lt _ hv]
  · simp only [hv, if_false]

theorem ParseDeviceIDx86_reject (du au : Nat) (s : String) (h : ¬ DeviceIDShape s.toList) :
    ParseDeviceIDx86 du au s = (false, du, au) := by
  have hmin : ¬ reDevIDMin s.toList = true := fun hm => h (Or.inl ((reDevIDMin_iff _).mp hm))
  have hall : ¬ reDevIDAll s.toList = true := fun ha => h (Or.inr (reDevIDAll_shape _ ha))
  unfold ParseDeviceIDx86
  simp only [hmin, hall, or_self, if_false, Bool.false_eq_true]

theorem deviceIDShape_iff (s : List Char) :
    DeviceIDShape s ↔ (reDevIDAll s = true ∨ reDevIDMin s = true) := by
  unfold DeviceIDShape
  constructor
  · rintro (h | ⟨H, D, hH, hD, rfl⟩)
    · exact Or.inr ((reDevIDMin_iff s).mpr h)
    · exact Or.inl (reDevIDAll_of_shape H D hH hD)
  · rintro (h | h)
    · exact Or.inr (reDevIDAll_shape s h)
    · exact Or.inl ((reDevIDMin_iff s).mp h)

theorem ParseDeviceIDx86_false_outputs (du au : Nat) (s : String)
    (hfalse : (ParseDeviceIDx86 du au s).1 = false) :
    (ParseDeviceIDx86 du au s).2.2 = au ∧
    ((ParseDeviceIDx86 du au s).2.1 = du ∨
      ∃ H D, IsHexDigits H ∧ IsDecDigits D ∧ s.toList = H ++ '/' :: D ∧
        hexValue H < 2 ^ 31 ∧ ¬ decValue D < 2 ^ 31 ∧
        (ParseDeviceIDx86 du au s).2.1 = hexValue H) := by
  have hs : s = String.mk s.toList := rfl
  by_cases hshape : DeviceIDShape s.toList
  · rcases hshape with hH | ⟨H, D, hH, hD, heq⟩
    · rw [hs, ParseDeviceIDx86_hex du au _ hH] at hfalse ⊢
      by_cases hv : hexValue s.toList < 2 ^ 31
      · rw [if_pos hv] at hfalse; exact absurd hfalse (by simp)
      · rw [if_neg hv]; exact ⟨rfl, Or.inl rfl⟩
    · have hs2 : s = String.mk (H ++ '/' :: D) := by rw [← heq]; rfl
      rw [hs2, ParseDeviceIDx86_hex_dec du au H D hH hD] at hfalse ⊢
      by_cases hv : hexValue H < 2 ^ 31
      · rw [if_pos hv] at hfalse ⊢
        by_cases hd : decValue D < 2 ^ 31
        · rw [if_pos hd] at hfalse; exact absurd hfalse (by simp)
        · rw [if_neg hd]
          exact ⟨rfl, Or.inr ⟨H, D, hH, hD, rfl, hv, hd, rfl⟩⟩
      · rw [if_neg hv]; exact ⟨rfl, Or.inl rfl⟩
  · rw [ParseDeviceIDx86_reject du au s hshape]
    exact ⟨rfl, Or.inl rfl⟩

/-- Claim C24 as stated fails: `FFFFFFFF` is a non-empty string of hexadecimal digits, and
`ParseDeviceIDx86` returns false on it with both outputs unknown, because its base-16 value
does not fit the `int` that `std::stoi` returns (the conversion throws and the exception is
caught); likewise the adapter index of `1A2B/4294967296` does not fit. -/
theorem C24_counterexample :
    IsHexDigits "FFFFFFFF".toList ∧
    (∀ du au, ParseDeviceIDx86 du au "FFFFFFFF" = (false, du, au)) ∧
    IsHexDigits "1A2B".toList ∧ IsDecDigits "4294967296".toList ∧
    (∀ du au, (ParseDeviceIDx86 du au "1A2B/4294967296").1 = false) := by
  refine ⟨by decide, ?_, by decide, by decide, ?_⟩
  · intro du au
    have h := ParseDeviceIDx86_hex du au "FFFFFFFF".toList (by decide)
    rw [if_neg (by decide)] at h
    exact h
  · intro du au
    have h := ParseDeviceIDx86_hex_dec du au "1A2B".toList "4294967296".toList
      (by decide) (by decide)
    rw [if_pos (by decide), if_neg (by decide)] at h
    exact congrArg Prod.fst h

/-- Claim C24, amended. Device-id parser acceptance: for every non-empty string `H` of
hexadecimal digits whose base-16 value is below `2^31`, `ParseDeviceIDx86` returns true
with `deviceID` equal to the base-16 value of `H` and `adapterIdx` equal to
`ADAPTER_IDX_UNKNOWN`; for every string `H/D` with `H` non-empty hexadecimal digits of
value below `2^31` and `D` non-empty decimal digits of value below `2^31`, it returns true
with `deviceID` equal to the base-16 value of `H` and `adapterIdx` equal to the base-10
value of `D`. The string `1A2B` gives `0x1A2B` and unknown; `1A2B/2` gives `0x1A2B` and
`2`. -/
theorem C24_device_id_parser_acceptance (DEVICE_ID_UNKNOWN ADAPTER_IDX_UNKNOWN : Nat) :
    (∀ H, IsHexDigits H → hexValue H < 2 ^ 31 →
      ParseDeviceIDx86 DEVICE_ID_UNKNOWN ADAPTER_IDX_UNKNOWN (String.mk H) =
        (true, hexValue H, ADAPTER_IDX_UNKNOWN)) ∧
    (∀ H D, IsHexDigits H → IsDecDigits D → hexValue H < 2 ^ 31 → decValue D < 2 ^ 31 →
      ParseDeviceIDx86 DEVICE_ID_UNKNOWN ADAPTER_IDX_UNKNOWN (String.mk (H ++ '/' :: D)) =
        (true, hexValue H, decValue D)) ∧
    ParseDeviceIDx86 DEVICE_ID_UNKNOWN ADAPTER_IDX_UNKNOWN "1A2B" =
      (true, 0x1A2B, ADAPTER_IDX_UNKNOWN) ∧
    ParseDeviceIDx86 DEVICE_ID_UNKNOWN ADAPTER_IDX_UNKNOWN "1A2B/2" = (true, 0x1A2B, 2) := by
  refine ⟨?_, ?_, ?_, ?_⟩
  · intro H hH hv
    rw [ParseDeviceIDx86_hex _ _ H hH, if_pos hv]
  · intro H D hH hD hv hd
    rw [ParseDeviceIDx86_hex_dec _ _ H D hH hD, if_pos hv, if_pos hd]
  · have h := ParseDeviceIDx86_hex DEVICE_ID_UNKNOWN ADAPTER_IDX_UNKNOWN "1A2B".toList
      (by decide)
    rw [if_pos (by decide)] at h
    exact h
  · have h := ParseDeviceIDx86_hex_dec DEVICE_ID_UNKNOWN ADAPTER_IDX_UNKNOWN "1A2B".toList
      "2".toList (by decide) (by decide)
    rw [if_pos (by decide), if_pos (by decide)] at h
    exact h

/-- Claim C25. Device-id parser rejection: for every string that is neither entirely one
or more hexadecimal digits nor one or more hexadecimal digits followed by `/` and one or
more decimal digits, `ParseDeviceIDx86` returns false (with both outputs unknown). -/
theorem C25_device_id_parser_rejection (DEVICE_ID_UNKNOWN ADAPTER_IDX_UNKNOWN : Nat)
    (cDeviceID : String) (hshape : ¬ DeviceIDShape cDeviceID.toList) :
    ParseDeviceIDx86 DEVICE_ID_UNKNOWN ADAPTER_IDX_UNKNOWN cDeviceID =
      (false, DEVICE_ID_UNKNOWN, ADAPTER_IDX_UNKNOWN) :=
  ParseDeviceIDx86_reject DEVICE_ID_UNKNOWN ADAPTER_IDX_UNKNOWN cDeviceID hshape

theorem C25_device_id_parser_rejection_witness :
    (ParseDeviceIDx86 0xFFFFFFFF 0xFFFFFFFF "xyz").1 = false ∧
    (ParseDeviceIDx86 0xFFFFFFFF 0xFFFFFFFF "").1 = false ∧
    (ParseDeviceIDx86 0xFFFFFFFF 0xFFFFFFFF "1A2B/").1 = false ∧
    (ParseDeviceIDx86 0xFFFFFFFF 0xFFFFFFFF "0x1A").1 = false ∧
    (ParseDeviceIDx86 0xFFFFFFFF 0xFFFFFFFF "1A/2/3").1 = false :=
  ⟨congrArg Prod.fst (C25_device_id_parser_rejection 0xFFFFFFFF 0xFFFFFFFF "xyz"
      ((deviceIDShape_iff _).not.mpr (by decide))),
    congrArg Prod.fst (C25_device_id_parser_rejection 0xFFFFFFFF 0xFFFFFFFF ""
      ((deviceIDShape_iff _).not.mpr (by decide))),
    congrArg Prod.fst (C25_device_id_parser_rejection 0xFFFFFFFF 0xFFFFFFFF "1A2B/"
      ((deviceIDShape_iff _).not.mpr (by decide))),
    congrArg Prod.fst (C25_device_id_parser_rejection 0xFFFFFFFF 0xFFFFFFFF "0x1A"
      ((deviceIDShape_iff _).not.mpr (by decide))),
    congrArg Prod.fst (C25_device_id_parser_rejection 0xFFFFFFFF 0xFFFFFFFF "1A/2/3"
      ((deviceIDShape_iff _).not.mpr (by decide)))⟩

/-- Claim C26, the code at the failing inputs. On `1A2B/99999999999` the format is
accepted and the hexadecimal part is converted and stored in `deviceID`; the conversion of
the adapter index then fails (it does not fit an `int`) and `ParseDeviceIDx86` returns
false with `deviceID` equal to `0x1A2B`, not to `DEVICE_ID_UNKNOWN`; the same holds with
`0x1A2C` for `1A2C/99999999999`, so the failure is there whatever value the constant
has. -/
theorem C26_failed_parse_keeps_device_id (DEVICE_ID_UNKNOWN ADAPTER_IDX_UNKNOWN : Nat) :
    ParseDeviceIDx86 DEVICE_ID_UNKNOWN ADAPTER_IDX_UNKNOWN "1A2B/99999999999" =
      (false, 0x1A2B, ADAPTER_IDX_UNKNOWN) ∧
    ParseDeviceIDx86 DEVICE_ID_UNKNOWN ADAPTER_IDX_UNKNOWN "1A2C/99999999999" =
      (false, 0x1A2C, ADAPTER_IDX_UNKNOWN) ∧
    ((ParseDeviceIDx86 DEVICE_ID_UNKNOWN ADAPTER_IDX_UNKNOWN "1A2B/99999999999").2.1 ≠
        DEVICE_ID_UNKNOWN ∨
      (ParseDeviceIDx86 DEVICE_ID_UNKNOWN ADAPTER_IDX_UNKNOWN "1A2C/99999999999").2.1 ≠
        DEVICE_ID_UNKNOWN) := by
  have h1 := ParseDeviceIDx86_hex_dec DEVICE_ID_UNKNOWN ADAPTER_IDX_UNKNOWN "1A2B".toList
    "99999999999".toList (by decide) (by decide)
  rw [if_pos (by decide), if_neg (by decide)] at h1
  have h2 := ParseDeviceIDx86_hex_dec DEVICE_ID_UNKNOWN ADAPTER_IDX_UNKNOWN "1A2C".toList
    "99999999999".toList (by decide) (by decide)
  rw [if_pos (by decide), if_neg (by decide)] at h2
  have e1 : ParseDeviceIDx86 DEVICE_ID_UNKNOWN ADAPTER_IDX_UNKNOWN "1A2B/99999999999" =
      (false, 0x1A2B, ADAPTER_IDX_UNKNOWN) := h1
  have e2 : ParseDeviceIDx86 DEVICE_ID_UNKNOWN ADAPTER_IDX_UNKNOWN "1A2C/99999999999" =
      (false, 0x1A2C, ADAPTER_IDX_UNKNOWN) := h2
  refine ⟨e1, e2, ?_⟩
  rw [e1, e2]
  by_cases h : DEVICE_ID_UNKNOWN = 0x1A2B
  · right; rw [h]; simp
  · left; exact fun e => h e.symm

/-! ## Claim C31: the flags that are never reset -/

theorem validateLoopFreshFlags_fields (libImplDesc : mfxImplDescription) (libType : LibType)
    (decConfigList : List DecConfig) (encConfigList : List EncConfig)
    (vppConfigList : List VPPConfig) (configCtxList : List ConfigCtxVPL) (v : ValidateLocals) :
    (validateLoopFreshFlags libImplDesc libType decConfigList encConfigList vppConfigList
        configCtxList v).bImplValid
      = (v.bImplValid && configCtxList.all
          (passesAlone libImplDesc libType decConfigList encConfigList vppConfigList)) ∧
    (validateLoopFreshFlags libImplDesc libType decConfigList encConfigList vppConfigList
        configCtxList v).implFunctionList
      = v.implFunctionList ++ requiredFunctions configCtxList ∧
    (validateLoopFreshFlags libImplDesc libType decConfigList encConfigList vppConfigList
        configCtxList v).version
      = configCtxList.foldl (fun r config => versionStep (cfgPropsOf config) r) v.version ∧
    (validateLoopFreshFlags libImplDesc libType decConfigList encConfigList vppConfigList
        configCtxList v).specialConfig
      = specialOf configCtxList v.specialConfig := by
  induction configCtxList generalizing v with
  | nil => simp [validateLoopFreshFlags, requiredFunctions, specialOf]
  | cons config rest ih =>
    obtain ⟨h1, h2, h3, h4, h5, h6, h7⟩ := ctxStep_fields libImplDesc libType decConfigList
      encConfigList vppConfigList
      { v with decRequested := false, encRequested := false, vppRequested := false } config
    obtain ⟨i1, i2, i3, i4⟩ := ih
      (ctxStepFreshFlags libImplDesc libType decConfigList encConfigList vppConfigList v config)
    unfold validateLoopFreshFlags at i1 i2 i3 i4 ⊢
    unfold ctxStepFreshFlags at i1 i2 i3 i4 ⊢
    rw [List.foldl_cons, i1, i2, i3, i4, h4, h5, h6, h7]
    refine ⟨?_, ?_, rfl, rfl⟩
    · simp only [Bool.false_or, List.all_cons, passesAlone, Bool.and_assoc]
    · unfold requiredFunctions
      by_cases hs : SetsProp config ePropFunc_FunctionName
      · simp [hs, List.filter_cons]
      · simp [hs, List.filter_cons]

theorem matches_of_not_requested (config : ConfigCtxVPL) :
    (requestedBy config ePropDec_CodecID ePropDec_ColorFormats = false →
      ∀ dc, DecMatches (cfgPropsOf config) dc) ∧
    (requestedBy config ePropEnc_CodecID ePropEnc_ColorFormats = false →
      ∀ ec, EncMatches (cfgPropsOf config) ec) ∧
    (requestedBy config ePropVPP_FilterFourCC ePropVPP_OutFormat = false →
      ∀ vc, VPPMatches (cfgPropsOf config) vc) := by
  have key : ∀ lo hi, hi < eProp_TotalProps → hi ≠ ePropFunc_FunctionName →
      requestedBy config lo hi = false →
      ∀ idx, lo ≤ idx → idx ≤ hi → ¬ IsSet (cfgPropsOf config) idx := by
    intro lo hi hhi hne hreq idx h1 h2 hset
    have hnot : ¬ requestedBy config lo hi = true := by rw [hreq]; decide
    apply hnot
    rw [requestedBy_iff config lo hi hhi]
    refine ⟨idx, h1, h2, ?_⟩
    exact (isSet_cfgPropsOf config idx (by omega) (by
      simp only [ePropFunc_FunctionName, eProp_TotalProps] at *; omega)).mp hset
  refine ⟨?_, ?_, ?_⟩
  · intro h dc
    have k := key _ _ (by decide) (by decide) h
    exact ⟨fun hs => absurd hs (k _ (by decide) (by decide)),
      fun hs => absurd hs (k _ (by decide) (by decide)),
      fun hs => absurd hs (k _ (by decide) (by decide)),
      fun hs => absurd hs (k _ (by decide) (by decide)),
      fun hs => absurd hs (k _ (by decide) (by decide)),
      fun hs => absurd hs (k _ (by decide) (by decide)),
      fun hs => absurd hs (k _ (by decide) (by decide))⟩
  · intro h ec
    have k := key _ _ (by decide) (by decide) h
    exact ⟨fun hs => absurd hs (k _ (by decide) (by decide)),
      fun hs => absurd hs (k _ (by decide) (by decide)),
      fun hs => absurd hs (k _ (by decide) (by decide)),
      fun hs => absurd hs (k _ (by decide) (by decide)),
      fun hs => absurd hs (k _ (by decide) (by decide)),
      fun hs => absurd hs (k _ (by decide) (by decide)),
      fun hs => absurd hs (k _ (by decide) (by decide)),
      fun hs => absurd hs (k _ (by decide) (by decide))⟩
  · intro h vc
    have k := key _ _ (by decide) (by decide) h
    exact ⟨fun hs => absurd hs (k _ (by decide) (by decide)),
      fun hs => absurd hs (k _ (by decide) (by decide)),
      fun hs => absurd hs (k _ (by decide) (by decide)),
      fun hs => absurd hs (k _ (by decide) (by decide)),
      fun hs => absurd hs (k _ (by decide) (by decide)),
      fun hs => absurd hs (k _ (by decide) (by decide)),
      fun hs => absurd hs (k _ (by decide) (by decide))⟩

theorem flag_absorbed (d rd X : Bool) (h : d = true → rd = false → X = true) :
    (!(d || rd) || X) = (!rd || X) := by
  cases d <;> cases rd <;> simp
  exact h rfl rfl

theorem passes_sticky (libImplDesc : mfxImplDescription) (libType : LibType)
    (decConfigList : List DecConfig) (encConfigList : List EncConfig)
    (vppConfigList : List VPPConfig) (config : ConfigCtxVPL) (d e p : Bool)
    (hinv : libType ≠ LibTypeMSDK →
      (d = true → decConfigList ≠ []) ∧ (e = true → encConfigList ≠ []) ∧
        (p = true → vppConfigList ≠ [])) :
    passes libImplDesc libType decConfigList encConfigList vppConfigList (cfgPropsOf config)
        (d || requestedBy config ePropDec_CodecID ePropDec_ColorFormats)
        (e || requestedBy config ePropEnc_CodecID ePropEnc_ColorFormats)
        (p || requestedBy config ePropVPP_FilterFourCC ePropVPP_OutFormat) =
      passesAlone libImplDesc libType decConfigList encConfigList vppConfigList config := by
  unfold passesAlone passes
  by_cases hl : libType = LibTypeMSDK
  · simp [hl]
  · obtain ⟨hd, he, hp⟩ := hinv hl
    obtain ⟨md, me, mp⟩ := matches_of_not_requested config
    rw [flag_absorbed d _ _ (fun h1 h2 => by
        obtain ⟨dc, rest, hlist⟩ := List.exists_cons_of_ne_nil (hd h1)
        rw [decide_eq_true_eq, CheckPropsDec_none_iff]
        exact ⟨dc, by rw [hlist]; exact List.mem_cons_self _ _, md h2 dc⟩),
      flag_absorbed e _ _ (fun h1 h2 => by
        obtain ⟨ec, rest, hlist⟩ := List.exists_cons_of_ne_nil (he h1)
        rw [decide_eq_true_eq, CheckPropsEnc_none_iff]
        exact ⟨ec, by rw [hlist]; exact List.mem_cons_self _ _, me h2 ec⟩),
      flag_absorbed p _ _ (fun h1 h2 => by
        obtain ⟨vc, rest, hlist⟩ := List.exists_cons_of_ne_nil (hp h1)
        rw [decide_eq_true_eq, CheckPropsVPP_none_iff]
        exact ⟨vc, by rw [hlist]; exact List.mem_cons_self _ _, mp h2 vc⟩)]

theorem nonempty_of_passesAlone (libImplDesc : mfxImplDescription) (libType : LibType)
    (decConfigList : List DecConfig) (encConfigList : List EncConfig)
    (vppConfigList : List VPPConfig) (config : ConfigCtxVPL) (hl : libType ≠ LibTypeMSDK)
    (hpass : passesAlone libImplDesc libType decConfigList encConfigList vppConfigList config
      = true) :
    (requestedBy config ePropDec_CodecID ePropDec_ColorFormats = true → decConfigList ≠ []) ∧
    (requestedBy config ePropEnc_CodecID ePropEnc_ColorFormats = true → encConfigList ≠ []) ∧
    (requestedBy config ePropVPP_FilterFourCC ePropVPP_OutFormat = true →
      vppConfigList ≠ []) := by
  unfold passesAlone passes at hpass
  simp only [hl, decide_False, Bool.false_or, Bool.and_eq_true, Bool.or_eq_true,
    Bool.not_eq_true', decide_eq_true_eq] at hpass
  obtain ⟨_, ⟨hd, he⟩, hp⟩ := hpass
  refine ⟨?_, ?_, ?_⟩
  · intro hr hnil
    rcases hd with h | h
    · rw [hr] at h; exact absurd h (by decide)
    · rw [hnil] at h; simp [CheckPropsDec, CheckPropsEnc, CheckPropsVPP] at h
  · intro hr hnil
    rcases he with h | h
    · rw [hr] at h; exact absurd h (by decide)
    · rw [hnil] at h; simp [CheckPropsDec, CheckPropsEnc, CheckPropsVPP] at h
  · intro hr hnil
    rcases hp with h | h
    · rw [hr] at h; exact absurd h (by decide)
    · rw [hnil] at h; simp [CheckPropsDec, CheckPropsEnc, CheckPropsVPP] at h

theorem validAfter_eq_all (libImplDesc : mfxImplDescription) (libType : LibType)
    (decConfigList : List DecConfig) (encConfigList : List EncConfig)
    (vppConfigList : List VPPConfig) (configCtxList : List ConfigCtxVPL) (b d e p : Bool)
    (hinv : libType ≠ LibTypeMSDK → b = true →
      (d = true → decConfigList ≠ []) ∧ (e = true → encConfigList ≠ []) ∧
        (p = true → vppConfigList ≠ [])) :
    validAfter libImplDesc libType decConfigList encConfigList vppConfigList configCtxList
        b d e p =
      (b && configCtxList.all
        (passesAlone libImplDesc libType decConfigList encConfigList vppConfigList)) := by
  induction configCtxList generalizing b d e p with
  | nil => simp [validAfter]
  | cons config rest ih =>
    cases b with
    | false =>
      simp only [validAfter, Bool.false_and]
      exact validAfter_false _ _ _ _ _ _ _ _ _
    | true =>
      have hstep := passes_sticky libImplDesc libType decConfigList encConfigList
        vppConfigList config d e p (fun hl => hinv hl rfl)
      simp only [validAfter, Bool.true_and, hstep, List.all_cons]
      apply ih
      intro hl hpass
      obtain ⟨hd, he, hp⟩ := hinv hl rfl
      obtain ⟨nd, ne, np⟩ := nonempty_of_passesAlone libImplDesc libType decConfigList
        encConfigList vppConfigList config hl hpass
      refine ⟨?_, ?_, ?_⟩
      · intro h
        rcases Bool.or_eq_true_iff.mp h with h | h
        · exact hd h
        · exact nd h
      · intro h
        rcases Bool.or_eq_true_iff.mp h with h | h
        · exact he h
        · exact ne h
      · intro h
        rcases Bool.or_eq_true_iff.mp h with h | h
        · exact hp h
        · exact np h

theorem loopValid_eq_all (libImplDesc : mfxImplDescription) (libType : LibType)
    (configCtxList : List ConfigCtxVPL) :
    loopValid libImplDesc libType configCtxList =
      configCtxList.all (passesAlone libImplDesc libType
        (GetFlatDescriptionsDec libImplDesc []).2 (GetFlatDescriptionsEnc libImplDesc []).2
        (GetFlatDescriptionsVPP libImplDesc []).2) := by
  unfold loopValid
  rw [validAfter_eq_all _ _ _ _ _ _ _ _ _ _ (fun _ _ =>
    ⟨fun h => absurd h (by decide), fun h => absurd h (by decide),
      fun h => absurd h (by decide)⟩)]
  rfl

theorem validateTail_congr (libImplDesc : mfxImplDescription)
    (libImplFuncs : Option mfxImplementedFunctions) (v w : ValidateLocals)
    (hvalid : v.bImplValid = w.bImplValid) (hfn : v.implFunctionList = w.implFunctionList)
    (hver : v.version = w.version) (hsc : v.specialConfig = w.specialConfig) :
    validateTail libImplDesc libImplFuncs v = validateTail libImplDesc libImplFuncs w := by
  have hmaj := congrArg VersionRequest.bVerSetMajor hver
  have hmin := congrArg VersionRequest.bVerSetMinor hver
  have hreq := congrArg VersionRequest.reqVersion hver
  simp only [ValidateLocals.version] at hmaj hmin hreq
  obtain ⟨d, e, p, valid, fns, req, maj, min, sc⟩ := v
  obtain ⟨d2, e2, p2, valid2, fns2, req2, maj2, min2, sc2⟩ := w
  dsimp only at hvalid hfn hmaj hmin hreq hsc
  subst hvalid hfn hmaj hmin hreq hsc
  unfold validateTail
  dsimp only
  by_cases h : maj = true ∧ min = true
  · rw [if_pos h, if_pos h]
  · rw [if_neg h, if_neg h]

theorem ValidateConfigFreshFlags_eq (libImplDesc : Option mfxImplDescription)
    (libImplFuncs : Option mfxImplementedFunctions) (configCtxList : List ConfigCtxVPL)
    (libType : LibType) (specialConfig : SpecialConfig) :
    ValidateConfigFreshFlags libImplDesc libImplFuncs configCtxList libType specialConfig =
      ValidateConfig libImplDesc libImplFuncs configCtxList libType specialConfig := by
  cases libImplDesc with
  | none => rfl
  | some desc =>
    obtain ⟨f1, f2, f3, f4⟩ := validateLoopFreshFlags_fields desc libType
      (GetFlatDescriptionsDec desc []).2 (GetFlatDescriptionsEnc desc []).2
      (GetFlatDescriptionsVPP desc []).2 configCtxList (ValidateLocals.init specialConfig)
    obtain ⟨s1, s2, s3, s4⟩ := validateLoop_fields desc libType
      (GetFlatDescriptionsDec desc []).2 (GetFlatDescriptionsEnc desc []).2
      (GetFlatDescriptionsVPP desc []).2 configCtxList (ValidateLocals.init specialConfig)
    unfold ValidateConfigFreshFlags ValidateConfig
    dsimp only
    apply validateTail_congr
    · rw [f1, s1]
      have h := loopValid_eq_all desc libType configCtxList
      unfold loopValid at h
      rw [show (ValidateLocals.init specialConfig).bImplValid = true from rfl,
        show (ValidateLocals.init specialConfig).decRequested = false from rfl,
        show (ValidateLocals.init specialConfig).encRequested = false from rfl,
        show (ValidateLocals.init specialConfig).vppRequested = false from rfl, h,
        Bool.true_and]
    · rw [f2, s2]
    · rw [f3, s3]
    · rw [f4, s4]

theorem unconstrained_category_passes (libImplDesc : mfxImplDescription) (libType : LibType)
    (earlier : List ConfigCtxVPL) (config : ConfigCtxVPL) (hl : libType ≠ LibTypeMSDK)
    (hvalid : loopValid libImplDesc libType earlier = true) :
    ((∃ a ∈ earlier, requestedBy a ePropDec_CodecID ePropDec_ColorFormats = true) →
      requestedBy config ePropDec_CodecID ePropDec_ColorFormats = false →
      CheckPropsDec (cfgPropsOf config) (GetFlatDescriptionsDec libImplDesc []).2 =
        MFX_ERR_NONE) ∧
    ((∃ a ∈ earlier, requestedBy a ePropEnc_CodecID ePropEnc_ColorFormats = true) →
      requestedBy config ePropEnc_CodecID ePropEnc_ColorFormats = false →
      CheckPropsEnc (cfgPropsOf config) (GetFlatDescriptionsEnc libImplDesc []).2 =
        MFX_ERR_NONE) ∧
    ((∃ a ∈ earlier, requestedBy a ePropVPP_FilterFourCC ePropVPP_OutFormat = true) →
      requestedBy config ePropVPP_FilterFourCC ePropVPP_OutFormat = false →
      CheckPropsVPP (cfgPropsOf config) (GetFlatDescriptionsVPP libImplDesc []).2 =
        MFX_ERR_NONE) := by
  rw [loopValid_eq_all, List.all_eq_true] at hvalid
  obtain ⟨md, me, mp⟩ := matches_of_not_requested config
  refine ⟨?_, ?_, ?_⟩
  · rintro ⟨a, ha, hreq⟩ hnone
    have hne := (nonempty_of_passesAlone _ _ _ _ _ a hl (hvalid a ha)).1 hreq
    obtain ⟨dc, rest, hlist⟩ := List.exists_cons_of_ne_nil hne
    rw [CheckPropsDec_none_iff]
    exact ⟨dc, by rw [hlist]; exact List.mem_cons_self _ _, md hnone dc⟩
  · rintro ⟨a, ha, hreq⟩ hnone
    have hne := (nonempty_of_passesAlone _ _ _ _ _ a hl (hvalid a ha)).2.1 hreq
    obtain ⟨ec, rest, hlist⟩ := List.exists_cons_of_ne_nil hne
    rw [CheckPropsEnc_none_iff]
    exact ⟨ec, by rw [hlist]; exact List.mem_cons_self _ _, me hnone ec⟩
  · rintro ⟨a, ha, hreq⟩ hnone
    have hne := (nonempty_of_passesAlone _ _ _ _ _ a hl (hvalid a ha)).2.2 hreq
    obtain ⟨vc, rest, hlist⟩ := List.exists_cons_of_ne_nil hne
    rw [CheckPropsVPP_none_iff]
    exact ⟨vc, by rw [hlist]; exact List.mem_cons_self _ _, mp hnone vc⟩

/-- Claim C31. The flags `decRequested`, `encRequested` and `vppRequested` of
`ValidateConfig` are never reset: each iteration starts from the flags left by the earlier
contexts and checks its context against every category flagged so far. Nevertheless, for
every descriptor, library type and context list, `ValidateConfig` returns the same status
(and the same `specialConfig`) as the variant in which the three flags are recomputed from
scratch for each context: while the candidate is still valid, a category in which a context
sets no constraint, flagged by an earlier context, never makes the check of that context
fail. -/
theorem C31_sticky_flags_equivalent (libImplDesc : Option mfxImplDescription)
    (libImplFuncs : Option mfxImplementedFunctions) (configCtxList : List ConfigCtxVPL)
    (libType : LibType) (specialConfig : SpecialConfig) :
    (ValidateConfig libImplDesc libImplFuncs configCtxList libType specialConfig).1 =
      (ValidateConfigFreshFlags libImplDesc libImplFuncs configCtxList libType
        specialConfig).1 ∧
    ValidateConfig libImplDesc libImplFuncs configCtxList libType specialConfig =
      ValidateConfigFreshFlags libImplDesc libImplFuncs configCtxList libType specialConfig ∧
    (∀ desc decConfigList encConfigList vppConfigList v config,
      (ctxStep desc libType decConfigList encConfigList vppConfigList v config).decRequested =
        (v.decRequested || requestedBy config ePropDec_CodecID ePropDec_ColorFormats) ∧
      (ctxStep desc libType decConfigList encConfigList vppConfigList v config).encRequested =
        (v.encRequested || requestedBy config ePropEnc_CodecID ePropEnc_ColorFormats) ∧
      (ctxStep desc libType decConfigList encConfigList vppConfigList v config).vppRequested =
        (v.vppRequested || requestedBy config ePropVPP_FilterFourCC ePropVPP_OutFormat) ∧
      (ctxStep desc libType decConfigList encConfigList vppConfigList v config).bImplValid =
        (v.bImplValid &&
          passes desc libType decConfigList encConfigList vppConfigList (cfgPropsOf config)
            (v.decRequested || requestedBy config ePropDec_CodecID ePropDec_ColorFormats)
            (v.encRequested || requestedBy config ePropEnc_CodecID ePropEnc_ColorFormats)
            (v.vppRequested ||
              requestedBy config ePropVPP_FilterFourCC ePropVPP_OutFormat))) ∧
    (∀ desc earlier config, libType ≠ LibTypeMSDK → loopValid desc libType earlier = true →
      ((∃ a ∈ earlier, requestedBy a ePropDec_CodecID ePropDec_ColorFormats = true) →
        requestedBy config ePropDec_CodecID ePropDec_ColorFormats = false →
        CheckPropsDec (cfgPropsOf config) (GetFlatDescriptionsDec desc []).2 = MFX_ERR_NONE) ∧
      ((∃ a ∈ earlier, requestedBy a ePropEnc_CodecID ePropEnc_ColorFormats = true) →
        requestedBy config ePropEnc_CodecID ePropEnc_ColorFormats = false →
        CheckPropsEnc (cfgPropsOf config) (GetFlatDescriptionsEnc desc []).2 = MFX_ERR_NONE) ∧
      ((∃ a ∈ earlier, requestedBy a ePropVPP_FilterFourCC ePropVPP_OutFormat = true) →
        requestedBy config ePropVPP_FilterFourCC ePropVPP_OutFormat = false →
        CheckPropsVPP (cfgPropsOf config) (GetFlatDescriptionsVPP desc []).2 =
          MFX_ERR_NONE)) := by
  have heq := ValidateConfigFreshFlags_eq libImplDesc libImplFuncs configCtxList libType
    specialConfig
  refine ⟨by rw [heq], heq.symm, ?_, ?_⟩
  · intro desc dl el vl v config
    obtain ⟨h1, h2, h3, h4, _⟩ := ctxStep_fields desc libType dl el vl v config
    exact ⟨h1, h2, h3, h4⟩
  · intro desc earlier config hl hvalid
    exact unconstrained_category_passes desc libType earlier config hl hvalid

/-! ## Claims C32 and C33: what the result depends on -/

theorem checkFunctions_perm (libImplFuncs : mfxImplementedFunctions) (names names2 : List String)
    (hperm : names.Perm names2) :
    checkFunctions libImplFuncs names = checkFunctions libImplFuncs names2 := by
  by_cases h : checkFunctions libImplFuncs names = MFX_ERR_NONE
  · have h2 : checkFunctions libImplFuncs names2 = MFX_ERR_NONE := by
      rw [checkFunctions_none_iff] at h ⊢
      intro name hn
      exact h name (hperm.mem_iff.mpr hn)
    rw [h, h2]
  · have h2 : ¬ checkFunctions libImplFuncs names2 = MFX_ERR_NONE := by
      intro hc
      apply h
      rw [checkFunctions_none_iff] at hc ⊢
      intro name hn
      exact hc name (hperm.mem_iff.mp hn)
    rcases checkFunctions_cases libImplFuncs names with e1 | e1
    · exact absurd e1 h
    · rcases checkFunctions_cases libImplFuncs names2 with e2 | e2
      · exact absurd e2 h2
      · rw [e1, e2]

theorem loopValid_perm (libImplDesc : mfxImplDescription) (libType : LibType)
    (l l2 : List ConfigCtxVPL) (hperm : l.Perm l2) :
    loopValid libImplDesc libType l = loopValid libImplDesc libType l2 := by
  rw [loopValid_eq_all, loopValid_eq_all, Bool.eq_iff_iff, List.all_eq_true, List.all_eq_true]
  constructor
  · intro h c hc; exact h c (hperm.mem_iff.mpr hc)
  · intro h c hc; exact h c (hperm.mem_iff.mp hc)

theorem requiredFunctions_perm (l l2 : List ConfigCtxVPL) (hperm : l.Perm l2) :
    (requiredFunctions l).Perm (requiredFunctions l2) := by
  unfold requiredFunctions
  exact (hperm.filter _).map _

theorem not_gateTriggered_of_no_version (l : List ConfigCtxVPL)
    (hno : ∀ c ∈ l, ¬ SetsProp c ePropMain_ApiVersion ∧
      ¬ SetsProp c ePropMain_ApiVersion_Major ∧ ¬ SetsProp c ePropMain_ApiVersion_Minor) :
    ¬ GateTriggered l := by
  rw [gateTriggered_iff]
  rintro ⟨⟨c, hc, h⟩, _⟩
  obtain ⟨h1, h2, _⟩ := hno c hc
  rcases h with h | h
  · exact h1 h
  · exact h2 h

theorem ValidateConfig_perm (libImplDesc : Option mfxImplDescription)
    (libImplFuncs : Option mfxImplementedFunctions) (l l2 : List ConfigCtxVPL)
    (libType : LibType) (specialConfig : SpecialConfig) (hperm : l.Perm l2)
    (hno : ∀ c ∈ l, ¬ SetsProp c ePropMain_ApiVersion ∧
      ¬ SetsProp c ePropMain_ApiVersion_Major ∧ ¬ SetsProp c ePropMain_ApiVersion_Minor) :
    (ValidateConfig libImplDesc libImplFuncs l libType specialConfig).1 =
      (ValidateConfig libImplDesc libImplFuncs l2 libType specialConfig).1 := by
  cases libImplDesc with
  | none => rfl
  | some desc =>
    have hno2 : ∀ c ∈ l2, ¬ SetsProp c ePropMain_ApiVersion ∧
        ¬ SetsProp c ePropMain_ApiVersion_Major ∧ ¬ SetsProp c ePropMain_ApiVersion_Minor :=
      fun c hc => hno c (hperm.mem_iff.mpr hc)
    have g1 := not_gateTriggered_of_no_version l hno
    have g2 := not_gateTriggered_of_no_version l2 hno2
    have hfn := requiredFunctions_perm l l2 hperm
    rw [ValidateConfig_some, ValidateConfig_some]
    simp only [g1, g2, false_and, false_or, loopValid_perm desc libType l l2 hperm]
    by_cases hv : loopValid desc libType l2 = false
    · simp only [hv, if_true]
    · simp only [hv, if_false]
      by_cases hnil : requiredFunctions l = []
      · have hnil2 : requiredFunctions l2 = [] := by
          rw [hnil] at hfn; exact List.Perm.eq_nil hfn.symm
        simp only [hnil, hnil2, if_true]
      · have hnil2 : ¬ requiredFunctions l2 = [] := by
          intro h; rw [h] at hfn; exact hnil (List.Perm.eq_nil hfn)
        simp only [hnil, hnil2, if_false]
        cases libImplFuncs with
        | none => rfl
        | some funcs => exact checkFunctions_perm funcs _ _ hfn

/-- Claim C32. Order independence of acceptance: for every descriptor, list of implemented
functions, library type and list of contexts in which no context sets an API-version
property (`Version`, `Major` or `Minor`), the status that `ValidateConfig` returns is the
same for every permutation of the context list. With version properties it can depend on
the order: against a descriptor of version 2.6, the contexts requesting 2.9 and then 2.5
are accepted, and the same two contexts in the other order are rejected. -/
theorem C32_order_independence :
    (∀ (libImplDesc : Option mfxImplDescription)
        (libImplFuncs : Option mfxImplementedFunctions) (l l2 : List ConfigCtxVPL)
        (libType : LibType) (specialConfig : SpecialConfig),
      l.Perm l2 →
      (∀ c ∈ l, ¬ SetsProp c ePropMain_ApiVersion ∧
        ¬ SetsProp c ePropMain_ApiVersion_Major ∧ ¬ SetsProp c ePropMain_ApiVersion_Minor) →
      (ValidateConfig libImplDesc libImplFuncs l libType specialConfig).1 =
        (ValidateConfig libImplDesc libImplFuncs l2 libType specialConfig).1) ∧
    ([ctxVersion 2 9, ctxVersion 2 5].Perm [ctxVersion 2 5, ctxVersion 2 9] ∧
      (ValidateConfig (some avcOnlyDesc) none [ctxVersion 2 9, ctxVersion 2 5] LibTypeVPL
        SpecialConfig.empty).1 = MFX_ERR_NONE ∧
      (ValidateConfig (some avcOnlyDesc) none [ctxVersion 2 5, ctxVersion 2 9] LibTypeVPL
        SpecialConfig.empty).1 = MFX_ERR_UNSUPPORTED) := by
  refine ⟨fun libImplDesc libImplFuncs l l2 libType specialConfig hperm hno =>
    ValidateConfig_perm libImplDesc libImplFuncs l l2 libType specialConfig hperm hno,
    List.Perm.swap _ _ _, ?_, ?_⟩
  · have hvalid : loopValid avcOnlyDesc LibTypeVPL [ctxVersion 2 9, ctxVersion 2 5] = true := by
      unfold loopValid
      rw [GetFlatDescriptionsDec_nil, GetFlatDescriptionsEnc_nil, GetFlatDescriptionsVPP_nil]
      decide
    rw [ValidateConfig_some, hvalid]
    decide
  · have hvalid : loopValid avcOnlyDesc LibTypeVPL [ctxVersion 2 5, ctxVersion 2 9] = true := by
      unfold loopValid
      rw [GetFlatDescriptionsDec_nil, GetFlatDescriptionsEnc_nil, GetFlatDescriptionsVPP_nil]
      decide
    rw [ValidateConfig_some, hvalid]
    decide

theorem C32_order_independence_witness :
    (ValidateConfig (some avcOnlyDesc) none
        [ctxDecCodec MFX_CODEC_AVC, ctxFunction "MFXVideoDECODE_Init"] LibTypeVPL
        SpecialConfig.empty).1 =
      (ValidateConfig (some avcOnlyDesc) none
        [ctxFunction "MFXVideoDECODE_Init", ctxDecCodec MFX_CODEC_AVC] LibTypeVPL
        SpecialConfig.empty).1 :=
  C32_order_independence.1 (some avcOnlyDesc) none
    [ctxDecCodec MFX_CODEC_AVC, ctxFunction "MFXVideoDECODE_Init"]
    [ctxFunction "MFXVideoDECODE_Init", ctxDecCodec MFX_CODEC_AVC] LibTypeVPL
    SpecialConfig.empty (List.Perm.swap _ _ _) (by decide)

/-- Claim C33. `SpecialConfig` depends only on the contexts: for every context list and
initial `specialConfig`, and for any two non-null descriptors, lists of implemented
functions and library types, the `specialConfig` left by `ValidateConfig` is the same in
both runs, whatever status each run returns: it is the fold of the special properties over
all contexts, with the requested API version when both of its halves are set. -/
theorem C33_special_config_depends_on_contexts (configCtxList : List ConfigCtxVPL)
    (specialConfig : SpecialConfig) (libImplDesc libImplDesc2 : mfxImplDescription)
    (libImplFuncs libImplFuncs2 : Option mfxImplementedFunctions) (libType libType2 : LibType) :
    (ValidateConfig (some libImplDesc) libImplFuncs configCtxList libType specialConfig).2 =
      (ValidateConfig (some libImplDesc2) libImplFuncs2 configCtxList libType2
        specialConfig).2 ∧
    (ValidateConfig (some libImplDesc) libImplFuncs configCtxList libType specialConfig).2 =
      if GateTriggered configCtxList then
        { specialOf configCtxList specialConfig with
          ApiVersion := { Version := (requestedVersion configCtxList).reqVersion.Version }
          bIsSet_ApiVersion := true }
      else specialOf configCtxList specialConfig := by
  rw [ValidateConfig_some, ValidateConfig_some]
  exact ⟨rfl, rfl⟩

/-! ## Claim C34: the frame of the setter -/

theorem setType_frame (ctx : ConfigCtxVPL) (idx : Nat) (t : mfxVariantType) :
    (∀ i, i ≠ idx → (ctx.setType idx t).m_propVar i = ctx.m_propVar i) ∧
    (ctx.setType idx t).m_propRange32U = ctx.m_propRange32U ∧
    (ctx.setType idx t).m_implName = ctx.m_implName ∧
    (ctx.setType idx t).m_implLicense = ctx.m_implLicense ∧
    (ctx.setType idx t).m_implKeywords = ctx.m_implKeywords ∧
    (ctx.setType idx t).m_deviceIdStr = ctx.m_deviceIdStr ∧
    (ctx.setType idx t).m_implFunctionName = ctx.m_implFunctionName :=
  ⟨fun i hi => by simp only [ConfigCtxVPL.setType, hi, if_false], rfl, rfl, rfl, rfl, rfl, rfl⟩

theorem setData_frame (ctx : ConfigCtxVPL) (idx : Nat) (d : mfxVariantData) :
    (∀ i, i ≠ idx → (ctx.setData idx d).m_propVar i = ctx.m_propVar i) ∧
    (ctx.setData idx d).m_propRange32U = ctx.m_propRange32U ∧
    (ctx.setData idx d).m_implName = ctx.m_implName ∧
    (ctx.setData idx d).m_implLicense = ctx.m_implLicense ∧
    (ctx.setData idx d).m_implKeywords = ctx.m_implKeywords ∧
    (ctx.setData idx d).m_deviceIdStr = ctx.m_deviceIdStr ∧
    (ctx.setData idx d).m_implFunctionName = ctx.m_implFunctionName :=
  ⟨fun i hi => by simp only [ConfigCtxVPL.setData, hi, if_false], rfl, rfl, rfl, rfl, rfl, rfl⟩

theorem storeRange_frame (ctx : ConfigCtxVPL) (mem : CallerMem) (idx slot : Nat) (p : mfxHDL)
    (hmem : (idx, slot) ∈ rangeProps) :
    (∀ i, i ≠ idx → (ctx.storeRange mem idx slot p).m_propVar i = ctx.m_propVar i) ∧
    (∀ k, (∀ j, (j, k) ∈ rangeProps → j ≠ idx) →
      (ctx.storeRange mem idx slot p).m_propRange32U k = ctx.m_propRange32U k) ∧
    (idx ≠ ePropMain_ImplName → (ctx.storeRange mem idx slot p).m_implName = ctx.m_implName) ∧
    (idx ≠ ePropMain_License →
      (ctx.storeRange mem idx slot p).m_implLicense = ctx.m_implLicense) ∧
    (idx ≠ ePropMain_Keywords →
      (ctx.storeRange mem idx slot p).m_implKeywords = ctx.m_implKeywords) ∧
    (idx ≠ ePropDevice_DeviceIDStr →
      (ctx.storeRange mem idx slot p).m_deviceIdStr = ctx.m_deviceIdStr) ∧
    (idx ≠ ePropFunc_FunctionName →
      (ctx.storeRange mem idx slot p).m_implFunctionName = ctx.m_implFunctionName) := by
  refine ⟨fun i hi => ?_, fun k hk => ?_, fun _ => rfl, fun _ => rfl, fun _ => rfl,
    fun _ => rfl, fun _ => rfl⟩
  · simp only [ConfigCtxVPL.storeRange, ConfigCtxVPL.setData, hi, if_false]
  · have hne : k ≠ slot := fun h => hk idx (h ▸ hmem) rfl
    simp only [ConfigCtxVPL.storeRange, ConfigCtxVPL.setData, hne, if_false]

theorem storePtr_frame (ctx : ConfigCtxVPL) (mem : CallerMem) (idx : Nat) (p : mfxHDL) :
    (∀ i, i ≠ idx → (ctx.storePtr mem idx p).m_propVar i = ctx.m_propVar i) ∧
    (∀ k, (∀ j, (j, k) ∈ rangeProps → j ≠ idx) →
      (ctx.storePtr mem idx p).m_propRange32U k = ctx.m_propRange32U k) ∧
    (idx ≠ ePropMain_ImplName → (ctx.storePtr mem idx p).m_implName = ctx.m_implName) ∧
    (idx ≠ ePropMain_License → (ctx.storePtr mem idx p).m_implLicense = ctx.m_implLicense) ∧
    (idx ≠ ePropMain_Keywords → (ctx.storePtr mem idx p).m_implKeywords = ctx.m_implKeywords) ∧
    (idx ≠ ePropDevice_DeviceIDStr →
      (ctx.storePtr mem idx p).m_deviceIdStr = ctx.m_deviceIdStr) ∧
    (idx ≠ ePropFunc_FunctionName →
      (ctx.storePtr mem idx p).m_implFunctionName = ctx.m_implFunctionName) := by
  unfold ConfigCtxVPL.storePtr
  by_cases h0 : idx = ePropDec_Width
  · rw [if_pos h0]
    exact storeRange_frame ctx mem idx _ p (by rw [h0]; decide)
  rw [if_neg h0]
  by_cases h1 : idx = ePropDec_Height
  · rw [if_pos h1]
    exact storeRange_frame ctx mem idx _ p (by rw [h1]; decide)
  rw [if_neg h1]
  by_cases h2 : idx = ePropEnc_Width
  · rw [if_pos h2]
    exact storeRange_frame ctx mem idx _ p (by rw [h2]; decide)
  rw [if_neg h2]
  by_cases h3 : idx = ePropEnc_Height
  · rw [if_pos h3]
    exact storeRange_frame ctx mem idx _ p (by rw [h3]; decide)
  rw [if_neg h3]
  by_cases h4 : idx = ePropVPP_Width
  · rw [if_pos h4]
    exact storeRange_frame ctx mem idx _ p (by rw [h4]; decide)
  rw [if_neg h4]
  by_cases h5 : idx = ePropVPP_Height
  · rw [if_pos h5]
    exact storeRange_frame ctx mem idx _ p (by rw [h5]; decide)
  rw [if_neg h5]
  by_cases h6 : idx = ePropSpecial_Handle
  · rw [if_pos h6]
    exact ⟨(setData_frame ctx idx _).1, fun _ _ => rfl, fun _ => rfl, fun _ => rfl,
      fun _ => rfl, fun _ => rfl, fun _ => rfl⟩
  rw [if_neg h6]
  by_cases h7 : idx = ePropMain_ImplName
  · rw [if_pos h7]
    exact ⟨(setData_frame _ idx _).1, fun _ _ => rfl, fun h => absurd h7 h, fun _ => rfl,
      fun _ => rfl, fun _ => rfl, fun _ => rfl⟩
  rw [if_neg h7]
  by_cases h8 : idx = ePropMain_License
  · rw [if_pos h8]
    exact ⟨(setData_frame _ idx _).1, fun _ _ => rfl, fun _ => rfl, fun h => absurd h8 h,
      fun _ => rfl, fun _ => rfl, fun _ => rfl⟩
  rw [if_neg h8]
  by_cases h9 : idx = ePropMain_Keywords
  · rw [if_pos h9]
    exact ⟨(setData_frame _ idx _).1, fun _ _ => rfl, fun _ => rfl, fun _ => rfl,
      fun h => absurd h9 h, fun _ => rfl, fun _ => rfl⟩
  rw [if_neg h9]
  by_cases h10 : idx = ePropDevice_DeviceIDStr
  · rw [if_pos h10]
    exact ⟨(setData_frame _ idx _).1, fun _ _ => rfl, fun _ => rfl, fun _ => rfl,
      fun _ => rfl, fun h => absurd h10 h, fun _ => rfl⟩
  rw [if_neg h10]
  by_cases h11 : idx = ePropFunc_FunctionName
  · rw [if_pos h11]
    exact ⟨fun _ _ => rfl, fun _ _ => rfl, fun _ => rfl, fun _ => rfl,
      fun _ => rfl, fun _ => rfl, fun h => absurd h11 h⟩
  rw [if_neg h11]
  exact ⟨fun _ _ => rfl, fun _ _ => rfl, fun _ => rfl, fun _ => rfl,
    fun _ => rfl, fun _ => rfl, fun _ => rfl⟩

theorem ValidateAndSetProp_cases (ctx : ConfigCtxVPL) (mem : CallerMem) (idx : Int)
    (value : mfxVariant) :
    (ValidateAndSetProp ctx mem idx value).2 = ctx ∨
    (0 ≤ idx ∧
      ((ValidateAndSetProp ctx mem idx value).2 =
          (ctx.setType idx.toNat value.Type_).setType idx.toNat MFX_VARIANT_TYPE_UNSET ∨
        (ValidateAndSetProp ctx mem idx value).2 =
          (ctx.setType idx.toNat value.Type_).storePtr mem idx.toNat value.Data.Ptr ∨
        (ValidateAndSetProp ctx mem idx value).2 =
          (ctx.setType idx.toNat value.Type_).setData idx.toNat value.Data)) := by
  unfold ValidateAndSetProp
  split
  · exact Or.inl rfl
  split
  · exact Or.inl rfl
  rename_i hguard hsame
  have hpos : 0 ≤ idx := by
    by_contra hneg
    exact hguard (Or.inl (not_le.mp hneg))
  right
  refine ⟨hpos, ?_⟩
  dsimp only
  split
  · split
    · exact Or.inl rfl
    · exact Or.inr (Or.inl rfl)
  · exact Or.inr (Or.inr rfl)

theorem setter_frame (ctx : ConfigCtxVPL) (mem : CallerMem) (idx : Int) (value : mfxVariant) :
    (∀ i : Nat, (i : Int) ≠ idx →
      (ValidateAndSetProp ctx mem idx value).2.m_propVar i = ctx.m_propVar i) ∧
    (∀ k, (∀ j, (j, k) ∈ rangeProps → (j : Int) ≠ idx) →
      (ValidateAndSetProp ctx mem idx value).2.m_propRange32U k = ctx.m_propRange32U k) ∧
    ((ePropMain_ImplName : Int) ≠ idx →
      (ValidateAndSetProp ctx mem idx value).2.m_implName = ctx.m_implName) ∧
    ((ePropMain_License : Int) ≠ idx →
      (ValidateAndSetProp ctx mem idx value).2.m_implLicense = ctx.m_implLicense) ∧
    ((ePropMain_Keywords : Int) ≠ idx →
      (ValidateAndSetProp ctx mem idx value).2.m_implKeywords = ctx.m_implKeywords) ∧
    ((ePropDevice_DeviceIDStr : Int) ≠ idx →
      (ValidateAndSetProp ctx mem idx value).2.m_deviceIdStr = ctx.m_deviceIdStr) ∧
    ((ePropFunc_FunctionName : Int) ≠ idx →
      (ValidateAndSetProp ctx mem idx value).2.m_implFunctionName =
        ctx.m_implFunctionName) := by
  rcases ValidateAndSetProp_cases ctx mem idx value with h | ⟨hpos, h⟩
  · rw [h]
    exact ⟨fun _ _ => rfl, fun _ _ => rfl, fun _ => rfl, fun _ => rfl, fun _ => rfl,
      fun _ => rfl, fun _ => rfl⟩
  · have hnat : ∀ i : Nat, (i : Int) ≠ idx → i ≠ idx.toNat := by
      intro i hi hc
      apply hi
      rw [hc, Int.toNat_of_nonneg hpos]
    have hnat2 : ∀ i : Nat, (i : Int) ≠ idx → idx.toNat ≠ i := fun i hi hc =>
      hnat i hi hc.symm
    obtain ⟨t1, t2, t3, t4, t5, t6, t7⟩ := setType_frame ctx idx.toNat value.Type_
    rcases h with h | h | h
    · rw [h]
      obtain ⟨u1, u2, u3, u4, u5, u6, u7⟩ :=
        setType_frame (ctx.setType idx.toNat value.Type_) idx.toNat MFX_VARIANT_TYPE_UNSET
      exact ⟨fun i hi => by rw [u1 i (hnat i hi), t1 i (hnat i hi)],
        fun k _ => by rw [u2, t2], fun _ => by rw [u3, t3], fun _ => by rw [u4, t4],
        fun _ => by rw [u5, t5], fun _ => by rw [u6, t6], fun _ => by rw [u7, t7]⟩
    · rw [h]
      obtain ⟨u1, u2, u3, u4, u5, u6, u7⟩ :=
        storePtr_frame (ctx.setType idx.toNat value.Type_) mem idx.toNat value.Data.Ptr
      exact ⟨fun i hi => by rw [u1 i (hnat i hi), t1 i (hnat i hi)],
        fun k hk => by rw [u2 k (fun j hj => hnat j (hk j hj)), t2],
        fun hi => by rw [u3 (hnat2 _ hi), t3], fun hi => by rw [u4 (hnat2 _ hi), t4],
        fun hi => by rw [u5 (hnat2 _ hi), t5], fun hi => by rw [u6 (hnat2 _ hi), t6],
        fun hi => by rw [u7 (hnat2 _ hi), t7]⟩
    · rw [h]
      obtain ⟨u1, u2, u3, u4, u5, u6, u7⟩ :=
        setData_frame (ctx.setType idx.toNat value.Type_) idx.toNat value.Data
      exact ⟨fun i hi => by rw [u1 i (hnat i hi), t1 i (hnat i hi)],
        fun k _ => by rw [u2, t2], fun _ => by rw [u3, t3], fun _ => by rw [u4, t4],
        fun _ => by rw [u5, t5], fun _ => by rw [u6, t6], fun _ => by rw [u7, t7]⟩

theorem rangeProps_slot_unique (e : Nat × Nat) (he : e ∈ rangeProps) (j : Nat)
    (hj : (j, e.2) ∈ rangeProps) : j = e.1 := by
  simp only [rangeProps, List.mem_cons, List.mem_singleton, List.not_mem_nil, or_false] at he
  rcases he with rfl | rfl | rfl | rfl | rfl | rfl <;>
    simp [rangeProps] at hj <;> exact hj

/-- Claim C34. Setter frame: for every context state, index `idx` and value, whatever
status `ValidateAndSetProp(idx, value)` returns, every slot at an index other than `idx`
keeps its `Type` and its `Data`, the owned range of every `Width`/`Height` property other
than `idx` is unchanged, the owned string of every string property other than `idx` is
unchanged, and `m_implFunctionName` is unchanged unless `idx` is `ePropFunc_FunctionName`. -/
theorem C34_setter_frame (ctx : ConfigCtxVPL) (mem : CallerMem) (idx : Int)
    (value : mfxVariant) :
    (∀ i : Nat, (i : Int) ≠ idx →
      ((ValidateAndSetProp ctx mem idx value).2.m_propVar i).Type_ = (ctx.m_propVar i).Type_ ∧
      ((ValidateAndSetProp ctx mem idx value).2.m_propVar i).Data = (ctx.m_propVar i).Data) ∧
    (∀ e ∈ rangeProps, (e.1 : Int) ≠ idx →
      (ValidateAndSetProp ctx mem idx value).2.m_propRange32U e.2 = ctx.m_propRange32U e.2) ∧
    (∀ e ∈ stringProps, (e.1 : Int) ≠ idx →
      e.2 (ValidateAndSetProp ctx mem idx value).2 = e.2 ctx) ∧
    ((ePropFunc_FunctionName : Int) ≠ idx →
      (ValidateAndSetProp ctx mem idx value).2.m_implFunctionName =
        ctx.m_implFunctionName) := by
  obtain ⟨f1, f2, f3, f4, f5, f6, f7⟩ := setter_frame ctx mem idx value
  refine ⟨fun i hi => ?_, fun e he hi => ?_, fun e he hi => ?_, f7⟩
  · rw [f1 i hi]
    exact ⟨rfl, rfl⟩
  · apply f2
    intro j hj
    rw [rangeProps_slot_unique e he j hj]
    exact hi
  · simp only [stringProps, List.mem_cons, List.mem_singleton, List.not_mem_nil,
      or_false] at he
    rcases he with rfl | rfl | rfl | rfl
    · exact f3 hi
    · exact f4 hi
    · exact f5 hi
    · exact f6 hi

end VPL
